import Mathlib

/-!
# The duplex streaming engine of `sound.cxx` (fldigi)

A shallow embedding of `SoundPort` (the PortAudio facade of `src/soundcard/sound.cxx`):
the synchronous `Read` / `Write` / `Write_stereo` calls of the modem thread, the realtime
callbacks `stream_process` / `stream_stopped`, the lifecycle calls `Open` / `Close` /
`Abort` / `flush` with `init_stream`, `start_stream`, `src_data_reset` and `find_srate`,
and `must_close`; of the `Read` / `Write` / `Close` paths of `SoundPulse`, `SoundOSS` and
`SoundNull` that the engine is compared with; and of the sound-file helpers of `SoundBase`
(`read_file`, `write_file`, `get_file_params`).

Conventions of the embedding

* Samples are kept abstract: `F` is the 32-bit `float` of the rings and scratch buffers,
  `D` the `double` of the modem blocks; the conversions between them are fields of
  `SampleOps`.
* Sample rates and resampling ratios (`double` in the source) are exact rationals; the
  conversion of a `double` to an integer type drops the fraction and is taken in range.
  Where the value of a `double` expression is itself the subject (the ratio formulas of
  `src_data_reset` and `resample`, the argument of `usleep` in `SoundNull`), every operation
  is rounded to the nearest double (`to_double`) and the conversion to a 32-bit integer
  wraps.
* A C array handed to a call (`double* buf`, `const void* in`) is an index function
  `Nat → _`, a pointer into it an offset.
* The state of the object is passed explicitly.  A call returns the new state together with
  an `Outcome`: a returned value, a thrown `SndException`, `undefined` when the call
  dereferences a null ring or indexes `sd` out of range, or `aborted` when an `assert` fails.
* The realtime thread is a script (`List Episode`): what PortAudio runs while the modem
  thread is blocked in one `sem_timedwait`.  When the script is exhausted nothing happens
  any more and a blocking wait expires.
* Calls into the operating system and PortAudio that have no effect on the modelled state
  are recorded in a trace (`List Call`).
-/

namespace Sound

/-! ## Constants -/

/-- `#define CHANNELS 2` -/
def CHANNELS : Nat := 2

/-- `#define SCBLOCKSIZE 512` (sound.h) -/
def SCBLOCKSIZE : Nat := 512

/-- `#define SND_BUF_LEN 65536` (sound.h) -/
def SND_BUF_LEN : Nat := 65536

/-- `UINT_MAX` for a 32-bit `unsigned`: the default `dir` of `Close`, `Abort`, `flush`. -/
def UINT_MAX : Nat := 4294967295

/-- `ETIMEDOUT` of errno.h (Linux). -/
def ETIMEDOUT : Int := 110

/-- `O_RDONLY` of fcntl.h. -/
def O_RDONLY : Nat := 0

/-- `O_WRONLY` of fcntl.h. -/
def O_WRONLY : Nat := 1

/-- `paContinue` of portaudio.h. -/
def paContinue : Int := 0

/-- `paComplete` of portaudio.h. -/
def paComplete : Int := 1

/-- `paAbort` of portaudio.h. -/
def paAbort : Int := 2

/-- `spa_continue = paContinue` (sound.h, the anonymous enum of `SoundPort`). -/
def spa_continue : Int := paContinue

/-- `spa_complete = paComplete` -/
def spa_complete : Int := paComplete

/-- `spa_abort = paAbort` -/
def spa_abort : Int := paAbort

/-- `spa_drain`: the enumerator after `spa_abort`. -/
def spa_drain : Int := paAbort + 1

/-! ## Collaborators -/

/-- The arithmetic on samples the code relies on. -/
structure SampleOps (F D : Type) where
  /-- the conversion of `fbuf[k] = buf[i]` (double to float) -/
  toFloat : D → F
  /-- the conversion of `buf[i] = rbuf[k]` (float to double) -/
  toDouble : F → D
  /-- the float whose bytes are all zero (`memset(.., 0, ..)`) -/
  zero : F
  /-- `buf[i] *= vol` -/
  mul : D → D → D
  /-- what a read yields outside the floats the model tracks (stale or uninitialised
  storage behind a peeked span or behind a resampler output) -/
  stale : F

/-- What `src_process` leaves in `SRC_DATA` and in its state. -/
structure SrcResult (F R : Type) where
  state : Option R
  output_frames_gen : Nat
  data_out : List F
deriving DecidableEq

/-- The sample-rate converter (libsamplerate), an external library. -/
structure Resampler (F R : Type) where
  /-- `src_new(converter, channels, &err)`: a state, or the error code -/
  src_new : Int → Nat → Except Int R
  /-- `src_set_ratio(state, ratio)` -/
  src_set_ratio : Option R → ℚ → Option R
  /-- `src_process(state, data)` on `data->src_ratio`, the `CHANNELS * input_frames` floats
  at `data_in`, `input_frames` and `output_frames`: the error code when not 0 -/
  src_process : Option R → ℚ → List F → Nat → Nat → Except Int (SrcResult F R)

/-- The settings read from `progdefaults` and the receive mixer during one call. -/
structure Settings (D : Type) where
  RX_corr : Int
  TX_corr : Int
  EnableMixer : Bool
  /-- `valRcvMixer->value()` -/
  RcvMixer : D
  in_sample_rate : Int := 0
  out_sample_rate : Int := 0
  sample_converter : Int := 0

/-- Everything a call of the facade reads but does not own. -/
structure Cx (F D R : Type) where
  ops : SampleOps F D
  src : Resampler F R
  cfg : Settings D

/-! ## Ring buffer -/

/-- Modelled from the spec: `ringbuffer<T>` of ringbuffer.h, which is not among the
sources.  A single-producer single-consumer ring of capacity `size`, whose readable
elements are `data` (oldest first) and with `write_space + read_space == capacity`.
`rpos` is the offset of the read index inside the storage; it decides how the vectored
peeks split into two contiguous spans. -/
structure ringbuffer (T : Type) where
  size : Nat
  rpos : Nat
  data : List T

namespace ringbuffer

variable {T : Type}

/-- `length()`: the capacity. -/
def length (rb : ringbuffer T) : Nat := rb.size

/-- `read_space()` -/
def read_space (rb : ringbuffer T) : Nat := rb.data.length

/-- `write_space()` -/
def write_space (rb : ringbuffer T) : Nat := rb.size - rb.data.length

/-- The offset of the write index inside the storage. -/
def wpos (rb : ringbuffer T) : Nat := (rb.rpos + rb.data.length) % rb.size

/-- `get_rv(vec)`: the readable elements as two contiguous spans, the first one from the
read index up to the end of the storage at most. -/
def get_rv (rb : ringbuffer T) : List T × List T :=
  let len0 := min rb.data.length (rb.size - rb.rpos)
  (rb.data.take len0, rb.data.drop len0)

/-- `get_wv(vec)`: the lengths of the two contiguous free spans, the first one from the
write index up to the end of the storage at most. -/
def get_wv (rb : ringbuffer T) : Nat × Nat :=
  let len0 := min rb.write_space (rb.size - rb.wpos)
  (len0, rb.write_space - len0)

/-- `read_advance(n)`: commit `n` peeked elements. -/
def read_advance (rb : ringbuffer T) (n : Nat) : ringbuffer T :=
  { rb with rpos := (rb.rpos + n) % rb.size, data := rb.data.drop n }

/-- `read(dst, n)`: copy out and consume `min n read_space` elements; the elements and the
ring afterwards (the return value is the number of elements). -/
def read (rb : ringbuffer T) (n : Nat) : List T × ringbuffer T :=
  (rb.data.take n, rb.read_advance (min n rb.read_space))

/-- `write(src, n)` with `src` the `n` elements offered: the first `min n write_space`
of them are appended; the number written and the ring afterwards. -/
def write (rb : ringbuffer T) (src : List T) : Nat × ringbuffer T :=
  let k := min src.length rb.write_space
  (k, { rb with data := rb.data ++ src.take k })

/-- A direct store of `xs` into the first free span (peeked with `get_wv`) followed by
`write_advance(xs.length)`. -/
def write_advance (rb : ringbuffer T) (xs : List T) : ringbuffer T :=
  { rb with data := rb.data ++ xs }

/-- `reset()`: clear the indices. -/
def reset (rb : ringbuffer T) : ringbuffer T :=
  { rb with rpos := 0, data := [] }

end ringbuffer

/-! ## Sound files -/

/-- An open sound file (libsndfile, external): its frames and the read position. -/
structure SNDFILE (D : Type) where
  frames : List D
  pos : Nat

/-- `sf_readf_double(file, buf, n)`: the frames read (at most `n`, up to the end of the
file) and the file afterwards. -/
def sf_readf_double {D : Type} (file : SNDFILE D) (n : Nat) : List D × SNDFILE D :=
  let got := (file.frames.drop file.pos).take n
  (got, { file with pos := file.pos + got.length })

/-- `sf_seek(file, 0, SEEK_SET)` -/
def sf_seek0 {D : Type} (file : SNDFILE D) : SNDFILE D := { file with pos := 0 }

/-- Store the list `xs` into the array `buf` from index `off` on. -/
def store {A : Type} (buf : Nat → A) (off : Nat) (xs : List A) : Nat → A :=
  fun k => if off ≤ k ∧ k < off + xs.length then xs.getD (k - off) (buf k) else buf k

/-- The `n` elements of the array `buf` from index `off` on. -/
def load {A : Type} (buf : Nat → A) (off n : Nat) : List A :=
  (List.range n).map (fun i => buf (off + i))

/-- The loop of `SoundBase::read_file` after the first `sf_readf_double`: `r` frames are
read so far; each round rewinds and reads on.  The loop index `k` bounds the rounds. -/
def read_file_loop {D : Type} : Nat → SNDFILE D → List D → Nat → List D × SNDFILE D
  | 0, file, acc, _ => (acc, file)
  | k + 1, file, acc, count =>
    if acc.length < count then
      let (got, file1) := sf_readf_double (sf_seek0 file) (count - acc.length)
      if (acc ++ got).length = 0 then (acc ++ got, file1)
      else read_file_loop k file1 (acc ++ got) count
    else (acc, file)

/-- `SoundBase::read_file(file, buf, count)`: the frames stored at `buf[0..r)` (`r` is the
return value) and the file afterwards.  Every round but a last empty one reads at least one
frame, so `count` rounds are enough. -/
def read_file {D : Type} (file : SNDFILE D) (count : Nat) : List D × SNDFILE D :=
  let (got, file1) := sf_readf_double file count
  read_file_loop count file1 got count

/-- `SoundBase::write_file(file, buf, count)` = `sf_writef_double`: the frames are appended.
On a null handle libsndfile writes nothing. -/
def write_file {D : Type} (file : Option (SNDFILE D)) (xs : List D) : Option (SNDFILE D) :=
  file.map (fun f => { f with frames := f.frames ++ xs })

/-! ## State -/

/-- A PortAudio stream handle (external): `isActive` is what `Pa_IsStreamActive` answers,
1 for an active stream, 0 for a stopped one, a negative error code otherwise. -/
structure PaStream where
  isActive : Int
deriving DecidableEq

/-- `struct stream_data` of `SoundPort` (the fields the streaming engine uses). -/
structure stream_data (F : Type) where
  stream : Option PaStream
  dev_sample_rate : ℚ
  /-- the count of `*rwsem` -/
  rwsem : Nat
  /-- the count of `*csem` -/
  csem : Nat
  state : Int
  rb : Option (ringbuffer F)
  frames_per_buffer : Nat := 0
  /-- the index of the device `idev` points to -/
  idev : Nat := 0

/-- The members of `SoundBase` and `SoundPort`.  `rx_ratio` and `tx_ratio` are
`rx_src_data->src_ratio` and `tx_src_data->src_ratio`; `sd0` and `sd1` are `sd[0]`
(input) and `sd[1]` (output). -/
structure SoundPort (F D R : Type) where
  sample_frequency : Int
  txppm : Int
  rxppm : Int
  tx_src_state : Option R
  rx_src_state : Option R
  tx_ratio : ℚ
  rx_ratio : ℚ
  ofCapture : Option (SNDFILE D)
  ifPlayback : Option (SNDFILE D)
  ofGenerate : Option (SNDFILE D)
  capture : Bool
  playback : Bool
  generate : Bool
  req_sample_rate : ℚ
  fbuf : List F
  sd0 : stream_data F
  sd1 : stream_data F

namespace SoundPort

variable {F D R : Type}

/-- `sd[i]` -/
def sd (s : SoundPort F D R) (i : Fin 2) : stream_data F :=
  if i = 0 then s.sd0 else s.sd1

/-- `sd[i] = x` -/
def setSd (s : SoundPort F D R) (i : Fin 2) (x : stream_data F) : SoundPort F D R :=
  if i = 0 then { s with sd0 := x } else { s with sd1 := x }

end SoundPort

/-- The two semaphores of a direction. -/
inductive SemKind
  | rw
  | c
deriving DecidableEq

/-- The count of a semaphore. -/
def semCount {F : Type} (sd : stream_data F) : SemKind → Nat
  | .rw => sd.rwsem
  | .c => sd.csem

/-- Set the count of a semaphore. -/
def setSem {F : Type} (sd : stream_data F) : SemKind → Nat → stream_data F
  | .rw, n => { sd with rwsem := n }
  | .c, n => { sd with csem := n }

/-- `sem_post` -/
def sem_post {F : Type} (sd : stream_data F) (k : SemKind) : stream_data F :=
  setSem sd k (semCount sd k + 1)

/-- `sem_trywait`: takes a token when there is one (and fails with EAGAIN otherwise). -/
def sem_trywait {F : Type} (sd : stream_data F) (k : SemKind) : stream_data F :=
  setSem sd k (semCount sd k - 1)

/-! ## Exceptions and outcomes -/

/-- The exceptions of sound.h. -/
inductive SndException
  /-- `SndException(int err)` -/
  | errno (err : Int)
  /-- `SndException(const char* msg)` with the message of resampler error `code` -/
  | msg (code : Int)
  /-- `SndPortException(int err)` -/
  | port (err : Int)
  /-- `SndPulseException(int err)` -/
  | pulse (err : Int)
deriving DecidableEq

/-- `SndException::error()` -/
def SndException.error : SndException → Int
  | .errno err => err
  | .msg _ => 1
  | .port err => err
  | .pulse err => err

/-- How a call ends. -/
inductive Outcome (A : Type)
  | ret (a : A)
  | throw (e : SndException)
  /-- undefined behaviour: a null ring is dereferenced, or `sd` is indexed outside 0..1 -/
  | undefined
  /-- an `assert` fails -/
  | aborted
deriving DecidableEq

/-- A call to the outside that leaves the modelled state alone. -/
inductive Call
  /-- `sem_timedwaitr(sem, rel_timeout)` on a semaphore of direction `dir` -/
  | sem_timedwaitr (dir : Fin 2) (k : SemKind) (rel_timeout : ℚ)
  | usleep (usec : Nat)
  | Pa_CloseStream (dir : Fin 2)
  | Pa_AbortStream (dir : Fin 2)
deriving DecidableEq

/-! ## The realtime callbacks -/

/-- What one run of `stream_process` leaves behind: the stream data, the floats stored in
the output buffer `out` (none when `out` is null or nothing was stored), and the value
returned to PortAudio. -/
structure ProcessResult (F : Type) where
  sd : stream_data F
  out : List F
  ret : Int

/-- `stream_process`, the part under "// input": the stream data afterwards, `none` when a
null ring is dereferenced. -/
def stream_input {F : Type} (input : Option (Nat → F)) (nframes : Nat) (sd : stream_data F) :
    Option (stream_data F) :=
  match input with
  | some inp =>
    if sd.state = spa_continue then
      match sd.rb with
      | some rb =>
        some (sem_post { sd with rb := some (rb.write (load inp 0 (CHANNELS * nframes))).2 } .rw)
      | none => none
    else some sd
  | none => some sd

/-- `stream_process`, the part under "// output" (reached with `out` non-null); `none` when
a null ring is dereferenced. -/
def stream_output {F : Type} (zero : F) (nframes : Nat) (sd : stream_data F) :
    Option (ProcessResult F) :=
  if sd.state = spa_abort then
    some ⟨sd, [], paAbort⟩
  else
    match sd.rb with
    | none => none
    | some rb =>
      let got := (rb.read (CHANNELS * nframes)).1
      let rb1 := (rb.read (CHANNELS * nframes)).2
      let s := got.length
      -- fill rest with zeroes
      let out := got ++ List.replicate (CHANNELS * nframes - s) zero
      let sd2 : stream_data F := { sd with rb := some rb1 }
      let sd3 := if s ≠ 0 then sem_post sd2 .rw else sd2
      -- state is continue, or we still have data to send to PortAudio
      if sd3.state = spa_continue ∨ rb1.read_space > 0 then
        some ⟨sd3, out, paContinue⟩
      else if sd3.state = spa_drain then -- resume
        some ⟨sem_post { sd3 with state := spa_continue } .c, out, paContinue⟩
      else
        -- complete or abort; stream_stopped() will post sd->csem
        some ⟨sd3, out, sd3.state⟩

/-- `SoundPort::stream_process(in, out, nframes, time_info, flags, data)` with `data` the
stream data `sd`; `input` is `in` (`none` when null), `hasOut` tells whether `out` is
non-null.  `none` when a null ring is dereferenced. -/
def stream_process {F : Type} (zero : F) (input : Option (Nat → F)) (hasOut : Bool)
    (nframes : Nat) (sd : stream_data F) : Option (ProcessResult F) :=
  match stream_input input nframes sd with
  | none => none
  | some sd1 =>
    if !hasOut then
      if sd1.state = spa_drain then
        some ⟨sem_post sd1 .c, [], paContinue⟩
      else some ⟨sd1, [], sd1.state⟩
    else stream_output zero nframes sd1

/-- `SoundPort::stream_stopped(data)` -/
def stream_stopped {F : Type} (sd : stream_data F) : stream_data F :=
  sem_post { sd with rb := sd.rb.map ringbuffer.reset } .c

/-- What PortAudio does on its realtime thread. -/
inductive Callback (F : Type)
  /-- it calls `stream_process(in, out, nframes, ..)` for the stream of direction `dir` -/
  | process (dir : Fin 2) (input : Option (Nat → F)) (hasOut : Bool) (nframes : Nat)
  /-- it halts the stream of direction `dir` and calls `stream_stopped` -/
  | stopped (dir : Fin 2)

/-- What happens while the modem thread is blocked in one `sem_timedwait`. -/
inductive Episode (F : Type)
  /-- PortAudio runs these callbacks -/
  | run (cbs : List (Callback F))
  /-- the wait is cut short with this `errno`, other than ETIMEDOUT -/
  | fail (errno : Int)

/-- Run one callback on the object.  PortAudio calls back only for a started stream, whose
ring is allocated: a `process` on a direction without ring does not happen. -/
def runCallback {F D R : Type} (zero : F) (s : SoundPort F D R) : Callback F → SoundPort F D R
  | .process dir input hasOut nframes =>
    match stream_process zero input hasOut nframes (s.sd dir) with
    | some r => s.setSd dir r.sd
    | none => s
  | .stopped dir =>
    let sd := s.sd dir
    s.setSd dir (stream_stopped { sd with stream := sd.stream.map (fun _ => ⟨0⟩) })

/-- Run the callbacks of an episode in order. -/
def runCallbacks {F D R : Type} (zero : F) (s : SoundPort F D R) (cbs : List (Callback F)) :
    SoundPort F D R :=
  cbs.foldl (runCallback zero) s

/-- The object together with what surrounds it: the script of the realtime thread still
to come, and the trace of outside calls made so far (latest last). -/
structure Sys (F D R : Type) where
  sp : SoundPort F D R
  env : List (Episode F)
  trace : List Call

/-- `sem_timedwaitr(sem, rel_timeout)` on semaphore `k` of direction `dir`: 0 when a token
was taken, otherwise the `errno` of the failure.  A positive count is taken at once; on a
zero count the caller blocks for the next episode and takes the token if the callbacks
posted one, and the wait expires (ETIMEDOUT) if they did not or if nothing runs any more. -/
def sem_timedwaitr {F D R : Type} (zero : F) (dir : Fin 2) (k : SemKind) (rel_timeout : ℚ)
    (m : Sys F D R) : Sys F D R × Int :=
  let m1 : Sys F D R := { m with trace := m.trace ++ [Call.sem_timedwaitr dir k rel_timeout] }
  let n := semCount (m1.sp.sd dir) k
  if 0 < n then
    ({ m1 with sp := m1.sp.setSd dir (setSem (m1.sp.sd dir) k (n - 1)) }, 0)
  else
    match m1.env with
    | [] => (m1, ETIMEDOUT)
    | .fail e :: env => ({ m1 with env := env }, e)
    | .run cbs :: env =>
      let sp1 := runCallbacks zero m1.sp cbs
      let n1 := semCount (sp1.sd dir) k
      if 0 < n1 then
        ({ m1 with sp := sp1.setSd dir (setSem (sp1.sd dir) k (n1 - 1)), env := env }, 0)
      else ({ m1 with sp := sp1, env := env }, ETIMEDOUT)

/-- How `WAIT_FOR_COND` ends. -/
inductive WaitEnd
  /-- the condition holds -/
  | ready
  /-- `timeout = true; break` -/
  | timedout
  /-- `throw SndException(errno)` -/
  | failed (errno : Int)
  /-- the condition dereferences a null ring -/
  | undefined
deriving DecidableEq

/-- The loop of `WAIT_FOR_COND(cond, s, t)`; `cond` is `none` when it dereferences a null
ring.  The index bounds the number of rounds. -/
def waitLoop {F D R : Type} (zero : F) (cond : SoundPort F D R → Option Bool) (dir : Fin 2)
    (k : SemKind) (t : ℚ) : Nat → Sys F D R → Option (Sys F D R × WaitEnd)
  | 0, _ => none
  | fuel + 1, m =>
    match cond m.sp with
    | none => some (m, .undefined)
    | some true => some (m, .ready)
    | some false =>
      let (m1, r) := sem_timedwaitr zero dir k t m
      if r = 0 then waitLoop zero cond dir k t fuel m1
      else if r = ETIMEDOUT then some (m1, .timedout)
      else some (m1, .failed r)

/-- The tokens an episode can post on one semaphore (two per callback at most), plus one
for the episode itself. -/
def Episode.weight {F : Type} : Episode F → Nat
  | .run cbs => 2 * cbs.length + 1
  | .fail _ => 1

/-- The weight of a script. -/
def scriptWeight {F : Type} (env : List (Episode F)) : Nat :=
  (env.map Episode.weight).sum

/-- `WAIT_FOR_COND(cond, s, t)`.  Every round takes a token or an episode, so the rounds
are bounded by the tokens the semaphore holds plus the weight of the script. -/
def WAIT_FOR_COND {F D R : Type} (zero : F) (cond : SoundPort F D R → Option Bool)
    (dir : Fin 2) (k : SemKind) (t : ℚ) (m : Sys F D R) : Option (Sys F D R × WaitEnd) :=
  waitLoop zero cond dir k t (semCount (m.sp.sd dir) k + scriptWeight m.env + 1) m

/-! ## Resampling -/

/-- The `n` floats at a pointer whose known contents are `xs`: behind them the storage is
stale. -/
def window {F : Type} (stale : F) (xs : List F) (n : Nat) : List F :=
  (List.range n).map (fun i => xs.getD i stale)

/-- Overwrite the front of the array `old` with `xs`. -/
def overlay {F : Type} (xs old : List F) : List F :=
  xs ++ old.drop xs.length

/-- `resample`, the retune of the capture ratio when the `RX_corr` setting has changed. -/
def resample_retune_rx {F D R : Type} (cx : Cx F D R) (s : SoundPort F D R) :
    SoundPort F D R :=
  if s.rxppm ≠ cx.cfg.RX_corr then
    let ratio := s.req_sample_rate / (s.sd0.dev_sample_rate * (1 + (cx.cfg.RX_corr : ℚ) / 1000000))
    { s with rxppm := cx.cfg.RX_corr, rx_ratio := ratio,
             rx_src_state := cx.src.src_set_ratio s.rx_src_state ratio }
  else s

/-- `resample`, the retune of the playback ratio when the `TX_corr` setting has changed. -/
def resample_retune_tx {F D R : Type} (cx : Cx F D R) (s : SoundPort F D R) :
    SoundPort F D R :=
  if s.txppm ≠ cx.cfg.TX_corr then
    let ratio := s.sd1.dev_sample_rate * (1 + (cx.cfg.TX_corr : ℚ) / 1000000) / s.req_sample_rate
    { s with txppm := cx.cfg.TX_corr, tx_ratio := ratio,
             tx_src_state := cx.src.src_set_ratio s.tx_src_state ratio }
  else s

/-- `SoundPort::resample(mode, inbuf, outbuf, count, max)`; `data_in` are the
`CHANNELS * count` floats at `inbuf`.  Returns the object and what `src_process` produced
(`data_out` is stored at `outbuf`). -/
def resample {F D R : Type} (cx : Cx F D R) (mode : Nat) (data_in : List F) (count max : Nat)
    (s : SoundPort F D R) : SoundPort F D R × Outcome (SrcResult F R) :=
  if mode &&& (1 <<< O_RDONLY) ≠ 0 then
    let s1 := resample_retune_rx cx s
    match cx.src.src_process s1.rx_src_state s1.rx_ratio data_in count
        (if max ≠ 0 then max else SND_BUF_LEN) with
    | .error r => (s1, .throw (.msg r))
    | .ok res => ({ s1 with rx_src_state := res.state }, .ret res)
  else if mode &&& (1 <<< O_WRONLY) ≠ 0 then
    let s1 := resample_retune_tx cx s
    match cx.src.src_process s1.tx_src_state s1.tx_ratio data_in count
        (if max ≠ 0 then max else SND_BUF_LEN) with
    | .error r => (s1, .throw (.msg r))
    | .ok res => ({ s1 with tx_src_state := res.state }, .ret res)
  else (s, .ret ⟨none, 0, []⟩)

/-! ## Read -/

/-- What a `Read` leaves behind: the system, the caller's array, and the outcome. -/
structure ReadRun (F D R : Type) where
  m : Sys F D R
  buf : Nat → D
  out : Outcome Nat

/-- `Read`, "copy to fbuf if the data is not contiguous inside the ringbuffer": the
object afterwards, the floats at `rbuf`, and `rbadv`.  `rb` is the input ring. -/
def Read_peek {F D R : Type} (s : SoundPort F D R) (rb : ringbuffer F) (ncount : Nat) :
    SoundPort F D R × List F × Bool :=
  let vec := rb.get_rv
  if vec.1.length ≥ CHANNELS * ncount then
    (s, vec.1, true)
  else -- copy
    let s2 : SoundPort F D R :=
      { s with fbuf := overlay (rb.read (CHANNELS * ncount)).1 s.fbuf,
               sd0 := { s.sd0 with rb := some (rb.read (CHANNELS * ncount)).2 } }
    (s2, s2.fbuf, false)

/-- `Read`, "resample": the object afterwards and the new `rbuf` and `count`. -/
def Read_resample {F D R : Type} (cx : Cx F D R) (s : SoundPort F D R) (rbuf : List F)
    (ncount count : Nat) : SoundPort F D R × Outcome (List F × Nat) :=
  if s.req_sample_rate ≠ s.sd0.dev_sample_rate ∨ cx.cfg.RX_corr ≠ 0 then
    match resample cx (1 <<< O_RDONLY) (window cx.ops.stale rbuf (CHANNELS * ncount))
        ncount count s with
    | (s3, .ret res) => (s3, .ret (res.data_out, res.output_frames_gen))
    | (s3, .throw e) => (s3, .throw e)
    | (s3, .undefined) => (s3, .undefined)
    | (s3, .aborted) => (s3, .aborted)
  else (s, .ret (rbuf, count))

/-- The mono block `Read` stores: channel 0 of `count` frames at `rbuf`. -/
def deinterleave {F D : Type} (ops : SampleOps F D) (rbuf : List F) (count : Nat) : List D :=
  (List.range count).map (fun i => ops.toDouble (rbuf.getD (CHANNELS * i) ops.stale))

/-- `Read`, from "if we did a no-copy read we must advance the read pointer" to the
return: the object and the caller's array afterwards. -/
def Read_deliver {F D R : Type} (cx : Cx F D R) (s : SoundPort F D R) (rbadv : Bool)
    (ncount : Nat) (rbuf : List F) (count : Nat) (buf : Nat → D) (off : Nat) :
    SoundPort F D R × (Nat → D) :=
  let s4 : SoundPort F D R :=
    if rbadv then
      { s with sd0 := { s.sd0 with
          rb := s.sd0.rb.map (fun r => r.read_advance (CHANNELS * ncount)) } }
    else s
  -- deinterleave first channel into buf
  let block := deinterleave cx.ops rbuf count
  let s5 : SoundPort F D R :=
    if s4.capture then { s4 with ofCapture := write_file s4.ofCapture block } else s4
  (s5, store buf off block)

/-- `Read` after the wait for data, when it did not time out. -/
def Read_body {F D R : Type} (cx : Cx F D R) (m : Sys F D R) (buf : Nat → D)
    (off count ncount : Nat) : ReadRun F D R :=
  match m.sp.sd0.rb with
  | none => ⟨m, buf, .undefined⟩
  | some rb =>
    let peek := Read_peek m.sp rb ncount
    match Read_resample cx peek.1 peek.2.1 ncount count with
    | (s3, .throw e) => ⟨{ m with sp := s3 }, buf, .throw e⟩
    | (s3, .undefined) => ⟨{ m with sp := s3 }, buf, .undefined⟩
    | (s3, .aborted) => ⟨{ m with sp := s3 }, buf, .aborted⟩
    | (s3, .ret (rbuf1, count1)) =>
      let fin := Read_deliver cx s3 peek.2.2 ncount rbuf1 count1 buf off
      ⟨{ m with sp := fin.1 }, fin.2, .ret count1⟩

/-- `Read`, "wait for data", with `ncount` the frames needed from the ring. -/
def Read_wait {F D R : Type} (cx : Cx F D R) (m : Sys F D R) (ncount : Nat) :
    Option (Sys F D R × WaitEnd) :=
  WAIT_FOR_COND cx.ops.zero
    (fun sp => sp.sd0.rb.map (fun rb => decide (rb.read_space ≥ CHANNELS * ncount)))
    0 .rw (max 1 ((Nat.cast (2 * CHANNELS * ncount) : ℚ) / m.sp.sd0.dev_sample_rate)) m

/-- The frames `Read` needs from the ring for `count` frames, "taking into account the
samplerate ratio". -/
def Read_ncount {F D R : Type} (s : SoundPort F D R) (count : Nat) : Nat :=
  Int.toNat ⌊(count : ℚ) / s.rx_ratio⌋

/-- `SoundPort::Read(buf + off, count)` from the computation of `ncount` on (the part after
the split of a request above `maxframes`). -/
def Read_block {F D R : Type} (cx : Cx F D R) (m : Sys F D R) (buf : Nat → D) (off count : Nat) :
    Option (ReadRun F D R) :=
  match Read_wait cx m (Read_ncount m.sp count) with
  | none => none
  | some (m1, .undefined) => some ⟨m1, buf, .undefined⟩
  | some (m1, .failed e) => some ⟨m1, buf, .throw (.errno e)⟩
  | some (m1, .timedout) => some ⟨m1, buf, .throw (.errno ETIMEDOUT)⟩
  | some (m1, .ready) => some (Read_body cx m1 buf off count (Read_ncount m.sp count))

/-- The loop of `Read` for `count > maxframes`: `rd` is the recursive call `Read`, `n` the
sum so far; `off` follows `buf += CHANNELS * maxframes`.  The index bounds the number of
rounds; `none` when they are used up. -/
def Read_split {F D R : Type}
    (rd : Sys F D R → (Nat → D) → Nat → Nat → Option (ReadRun F D R)) (maxframes : Nat) :
    Nat → Sys F D R → (Nat → D) → Nat → Nat → Nat → Option (ReadRun F D R)
  | 0, _, _, _, _, _ => none
  | k + 1, m, buf, off, count, n =>
    if count > maxframes then
      match rd m buf off maxframes with
      | none => none
      | some r =>
        match r.out with
        | .ret x =>
          Read_split rd maxframes k r.m r.buf (off + CHANNELS * maxframes) (count - maxframes)
            (n + x)
        | _ => some r
    else if count > 0 then
      match rd m buf off count with
      | none => none
      | some r =>
        match r.out with
        | .ret x => some { r with out := .ret (n + x) }
        | _ => some r
    else some ⟨m, buf, .ret n⟩

/-- `maxframes` of `Read`: `floor((sd[0].rb->length() / CHANNELS) * rx_src_data->src_ratio)`. -/
def Read_maxframes {F : Type} (rb : ringbuffer F) (rx_ratio : ℚ) : Nat :=
  Int.toNat ⌊(Nat.cast (rb.length / CHANNELS) : ℚ) * rx_ratio⌋

/-- What `Read` does first when playback is on: the block comes from the playback file and
is scaled by the receive volume when the mixer is enabled. -/
def Read_playback {F D R : Type} (cx : Cx F D R) (m : Sys F D R) (buf : Nat → D)
    (off count : Nat) : Sys F D R × (Nat → D) :=
  if m.sp.playback then
    let (got, file) : List D × Option (SNDFILE D) :=
      match m.sp.ifPlayback with
      | some f => ((read_file f count).1, some (read_file f count).2)
      | none => ([], none)
    let buf1 := store buf off got
    let buf2 :=
      if cx.cfg.EnableMixer then
        store buf1 off ((load buf1 off count).map (fun x => cx.ops.mul x cx.cfg.RcvMixer))
      else buf1
    ({ m with sp := { m.sp with ifPlayback := file } }, buf2)
  else (m, buf)

/-- `SoundPort::Read(buf + off, count)`.  The first argument bounds the depth of the
recursion and the rounds of the splitting loop; `none` when it is used up (the call has
not returned). -/
def Read {F D R : Type} (cx : Cx F D R) :
    Nat → Sys F D R → (Nat → D) → Nat → Nat → Option (ReadRun F D R)
  | 0, _, _, _, _ => none
  | fuel + 1, m, buf, off, count =>
    let fromFile := Read_playback cx m buf off count
    let m1 := fromFile.1
    let buf1 := fromFile.2
    if m1.sp.playback ∧ ¬ m1.sp.capture then
      some ⟨{ m1 with trace := m1.trace ++
                [Call.usleep (Int.toNat ⌈(1000000 * (count : ℚ)) / m1.sp.req_sample_rate⌉)] },
            buf1, .ret count⟩
    else
      match m1.sp.sd0.rb with
      | none => some ⟨m1, buf1, .undefined⟩
      | some rb =>
        let maxframes := Read_maxframes rb m1.sp.rx_ratio
        if count > maxframes then
          Read_split (Read cx fuel) maxframes fuel m1 buf1 off count 0
        else Read_block cx m1 buf1 off count

/-! ## Concrete instances -/

/-- Samples as integers in both widths, converted unchanged; stale storage reads -1. -/
def intOps : SampleOps Int Int :=
  { toFloat := id, toDouble := id, zero := 0, mul := fun x y => x * y, stale := -1 }

/-- A zero-order-hold converter without state: from `input_frames` frames it produces
`floor(ratio * input_frames)` frames, `output_frames` at most, output frame `j` repeating
input frame `floor(j / ratio)`.  It meets the contract of the spec: the output never
exceeds `output_frames`, and `|produced - ratio * consumed| <= 1`. -/
def holdResampler : Resampler Int Unit :=
  { src_new := fun _ _ => .ok ()
    src_set_ratio := fun st _ => st
    src_process := fun st ratio data_in input_frames output_frames =>
      let gen := min output_frames (Int.toNat ⌊ratio * (input_frames : ℚ)⌋)
      .ok { state := st, output_frames_gen := gen,
            data_out := (List.range (CHANNELS * gen)).map (fun k =>
              data_in.getD (CHANNELS * Int.toNat ⌊(Nat.cast (k / CHANNELS) : ℚ) / ratio⌋
                + k % CHANNELS) 0) } }

/-- Settings without ppm correction and without mixer. -/
def plainCfg : Settings Int :=
  { RX_corr := 0, TX_corr := 0, EnableMixer := false, RcvMixer := 1 }

/-- The collaborators of the examples. -/
def plainCx : Cx Int Int Unit :=
  { ops := intOps, src := holdResampler, cfg := plainCfg }

/-- A running stream at 8000 Hz on the ring `rb`, no tokens on its semaphores. -/
def runningSd (rb : ringbuffer Int) : stream_data Int :=
  { stream := some ⟨1⟩, dev_sample_rate := 8000, rwsem := 0, csem := 0,
    state := spa_continue, rb := some rb }

/-- An open port at 8000 Hz in both directions, nothing resampled, no file attached. -/
def plainPort (rbIn rbOut : ringbuffer Int) : SoundPort Int Int Unit :=
  { sample_frequency := 8000, txppm := 0, rxppm := 0,
    tx_src_state := some (), rx_src_state := some (),
    tx_ratio := 1, rx_ratio := 1,
    ofCapture := none, ifPlayback := none, ofGenerate := none,
    capture := false, playback := false, generate := false,
    req_sample_rate := 8000, fbuf := [],
    sd0 := runningSd rbIn, sd1 := runningSd rbOut }

/-- The port with a silent realtime thread and an empty trace. -/
def quietSys (s : SoundPort Int Int Unit) : Sys Int Int Unit :=
  { sp := s, env := [], trace := [] }

/-- A ring of 8 floats holding the three frames (10,11), (20,21), (30,31), with its read
index at `rpos`. -/
def ring8 (rpos : Nat) : ringbuffer Int :=
  { size := 8, rpos := rpos, data := [10, 11, 20, 21, 30, 31] }

/-- An empty ring of 8 floats. -/
def emptyRing8 : ringbuffer Int :=
  { size := 8, rpos := 0, data := [] }

/-! ## Frames -/

/-- What the receive side of `Read` is sized by: the modem rate, the rx ratio, the input
device rate and the capacity of the input ring (`none` for a null ring), together with the
file switches. -/
def rxKey {F D R : Type} (s : SoundPort F D R) : ℚ × ℚ × ℚ × Option Nat × Bool × Bool :=
  (s.req_sample_rate, s.rx_ratio, s.sd0.dev_sample_rate, s.sd0.rb.map (fun rb => rb.size),
    s.capture, s.playback)

/-- A full ring of 8 floats holding the four frames (10,11), (20,21), (30,31), (40,41). -/
def fullRing8 : ringbuffer Int :=
  { size := 8, rpos := 0, data := [10, 11, 20, 21, 30, 31, 40, 41] }

/-- The open port with the modem at 48000 Hz and the input device at 8000 Hz: the input is
resampled with ratio 6.  The input ring is full. -/
def upPort : SoundPort Int Int Unit :=
  { plainPort fullRing8 emptyRing8 with
    sample_frequency := 48000, req_sample_rate := 48000, rx_ratio := 6 }

/-- A realtime thread that delivers one input frame, (40,41), during the first wait and
two, (50,51) and (52,53), during the second. -/
def feedScript : List (Episode Int) :=
  [.run [.process 0 (some (fun i => 40 + (i : Int))) false 1],
   .run [.process 0 (some (fun i => 50 + (i : Int))) false 2]]

/-- The plain port on the ring of three frames, with the realtime thread of `feedScript`. -/
def feedSys : Sys Int Int Unit :=
  { sp := plainPort (ring8 0) emptyRing8, env := feedScript, trace := [] }

/-! ## Write -/

/-- What a `Write` leaves behind: the system and the outcome. -/
structure WriteRun (F D R : Type) where
  m : Sys F D R
  out : Outcome Nat

/-- The interleaved floats of `count` stereo frames: `l[0], r[0], l[1], r[1], ...`
converted to float. -/
def interleave {F D : Type} (ops : SampleOps F D) (l r : Nat → D) (count : Nat) : List F :=
  (List.range (CHANNELS * count)).map (fun k =>
    ops.toFloat (if k % CHANNELS = 0 then l (k / CHANNELS) else r (k / CHANNELS)))

/-- `maxframes` of `resample_write`:
`floor((sd[1].rb->length() / CHANNELS) / tx_src_data->src_ratio)`, halved. -/
def resample_write_maxframes {F : Type} (rb : ringbuffer F) (tx_ratio : ℚ) : Nat :=
  Int.toNat ⌊(Nat.cast (rb.length / CHANNELS) : ℚ) / tx_ratio⌋ / 2

/-- `resample_write`, from "we must now copy buf into the ringbuffer, possibly waiting for
space first" on; `wbuf` are the floats at `wbuf`. -/
def resample_write_copy {F D R : Type} (cx : Cx F D R) (m : Sys F D R) (wbuf : List F)
    (count : Nat) : Option (WriteRun F D R) :=
  match WAIT_FOR_COND cx.ops.zero
      (fun sp => sp.sd1.rb.map (fun rb => decide (rb.write_space ≥ CHANNELS * count)))
      1 .rw (max 1 ((Nat.cast (2 * CHANNELS * count) : ℚ) / m.sp.sd1.dev_sample_rate)) m with
  | none => none
  | some (m1, .undefined) => some ⟨m1, .undefined⟩
  | some (m1, .failed e) => some ⟨m1, .throw (.errno e)⟩
  | some (m1, .timedout) => some ⟨m1, .throw (.errno ETIMEDOUT)⟩
  | some (m1, .ready) =>
    match m1.sp.sd1.rb with
    | none => some ⟨m1, .undefined⟩
    | some rb =>
      some ⟨{ m1 with sp := { m1.sp with sd1 := { m1.sp.sd1 with
                rb := some (rb.write (window cx.ops.stale wbuf (CHANNELS * count))).2 } } },
            .ret count⟩

/-- `SoundPort::resample_write(buf, count)` from the `assert` on (the part after the split
of a request above `maxframes`); `data` are the floats at `buf`. -/
def resample_write_block {F D R : Type} (cx : Cx F D R) (m : Sys F D R) (data : List F)
    (count : Nat) : Option (WriteRun F D R) :=
  match m.sp.sd1.rb with
  | none => some ⟨m, .undefined⟩
  | some rb =>
    if ¬ ((Nat.cast (count * CHANNELS) : ℚ) * m.sp.tx_ratio ≤ (rb.length : ℚ)) then
      some ⟨m, .aborted⟩
    else
      let vec := rb.get_wv
      if m.sp.req_sample_rate ≠ m.sp.sd1.dev_sample_rate ∨ cx.cfg.TX_corr ≠ 0 then
        -- direct write in the rb
        let direct : Bool :=
          decide (vec.1 ≥ CHANNELS * Int.toNat ⌈(count : ℚ) * m.sp.tx_ratio⌉)
        match resample cx (1 <<< O_WRONLY) (window cx.ops.stale data (CHANNELS * count))
            count 0 m.sp with
        | (s1, .throw e) => some ⟨{ m with sp := s1 }, .throw e⟩
        | (s1, .undefined) => some ⟨{ m with sp := s1 }, .undefined⟩
        | (s1, .aborted) => some ⟨{ m with sp := s1 }, .aborted⟩
        | (s1, .ret res) =>
          if direct then -- advance write pointer and return
            let sdw : stream_data F := { s1.sd1 with
              rb := s1.sd1.rb.map (fun r => r.write_advance
                (window cx.ops.stale res.data_out (CHANNELS * res.output_frames_gen))) }
            some ⟨{ m with sp := { s1 with sd1 := sem_trywait sdw .rw } },
                  .ret res.output_frames_gen⟩
          else resample_write_copy cx { m with sp := s1 } res.data_out res.output_frames_gen
      else resample_write_copy cx m data count

/-- The loop of `resample_write` for `count > maxframes`: `rw` is the recursive call, `n`
the sum so far; `data.drop` follows `buf += CHANNELS * maxframes`.  The index bounds the
number of rounds; `none` when they are used up. -/
def resample_write_split {F D R : Type}
    (rw : Sys F D R → List F → Nat → Option (WriteRun F D R)) (maxframes : Nat) :
    Nat → Sys F D R → List F → Nat → Nat → Option (WriteRun F D R)
  | 0, _, _, _, _ => none
  | k + 1, m, data, count, n =>
    if count > maxframes then
      match rw m data maxframes with
      | none => none
      | some r =>
        match r.out with
        | .ret x =>
          resample_write_split rw maxframes k r.m (data.drop (CHANNELS * maxframes))
            (count - maxframes) (n + x)
        | _ => some r
    else if count > 0 then
      match rw m data count with
      | none => none
      | some r =>
        match r.out with
        | .ret x => some { r with out := .ret (n + x) }
        | _ => some r
    else some ⟨m, .ret n⟩

/-- `SoundPort::resample_write(buf, count)` with `data` the floats at `buf`.  The first
argument bounds the depth of the recursion and the rounds of the splitting loop; `none`
when it is used up (the call has not returned). -/
def resample_write {F D R : Type} (cx : Cx F D R) :
    Nat → Sys F D R → List F → Nat → Option (WriteRun F D R)
  | 0, _, _, _ => none
  | fuel + 1, m, data, count =>
    match m.sp.sd1.rb with
    | none => some ⟨m, .undefined⟩
    | some rb =>
      let maxframes := resample_write_maxframes rb m.sp.tx_ratio
      if count > maxframes then
        resample_write_split (resample_write cx fuel) maxframes fuel m data count 0
      else resample_write_block cx m data count

/-- `SoundPort::Write(buf, count)` up to the call of `resample_write`: the tee to the
generate file and the copy of the input to both channels of `fbuf`. -/
def Write_fill {F D R : Type} (cx : Cx F D R) (s : SoundPort F D R) (buf : Nat → D)
    (count : Nat) : SoundPort F D R :=
  let s1 : SoundPort F D R :=
    if s.generate then { s with ofGenerate := write_file s.ofGenerate (load buf 0 count) }
    else s
  -- copy input to both channels
  { s1 with fbuf := overlay (interleave cx.ops buf buf count) s1.fbuf }

/-- `SoundPort::Write(buf, count)` -/
def Write {F D R : Type} (cx : Cx F D R) (fuel : Nat) (m : Sys F D R) (buf : Nat → D)
    (count : Nat) : Option (WriteRun F D R) :=
  let s := Write_fill cx m.sp buf count
  resample_write cx fuel { m with sp := s } s.fbuf count

/-- `SoundPort::Write_stereo(bufleft, bufright, count)` up to the call of
`resample_write`: the tee of the left block (to the file `ofCapture`, as the source has
it) and the interleaving into `fbuf`. -/
def Write_stereo_fill {F D R : Type} (cx : Cx F D R) (s : SoundPort F D R)
    (bufleft bufright : Nat → D) (count : Nat) : SoundPort F D R :=
  let s1 : SoundPort F D R :=
    if s.generate then { s with ofCapture := write_file s.ofCapture (load bufleft 0 count) }
    else s
  -- interleave into fbuf
  { s1 with fbuf := overlay (interleave cx.ops bufleft bufright count) s1.fbuf }

/-- `SoundPort::Write_stereo(bufleft, bufright, count)` -/
def Write_stereo {F D R : Type} (cx : Cx F D R) (fuel : Nat) (m : Sys F D R)
    (bufleft bufright : Nat → D) (count : Nat) : Option (WriteRun F D R) :=
  let s := Write_stereo_fill cx m.sp bufleft bufright count
  resample_write cx fuel { m with sp := s } s.fbuf count

/-- An empty ring of 64 floats. -/
def emptyRing64 : ringbuffer Int :=
  { size := 64, rpos := 0, data := [] }

/-- The open port with the modem at 8000 Hz and the output device at 48000 Hz: the output
is resampled with ratio 6. -/
def txUpPort : SoundPort Int Int Unit :=
  { plainPort emptyRing8 emptyRing64 with
    tx_ratio := 6, sd1 := { runningSd emptyRing64 with dev_sample_rate := 48000 } }

/-- A stream without what the callbacks and the semaphores change: the handle, the
semaphore counts, the state and the contents of the ring are blanked. -/
def blankSd {F : Type} (sd : stream_data F) : stream_data F :=
  { sd with stream := none, rwsem := 0, csem := 0, state := 0,
            rb := sd.rb.map (fun rb => { rb with rpos := 0, data := [] }) }

/-- The object without what the callbacks and the semaphores change. -/
def outer {F D R : Type} (s : SoundPort F D R) : SoundPort F D R :=
  { s with sd0 := blankSd s.sd0, sd1 := blankSd s.sd1 }

/-- What the transmit side of `resample_write` is sized by: the modem rate, the tx ratio,
the output device rate and the capacity of the output ring (`none` for a null ring). -/
def txKey {F D R : Type} (s : SoundPort F D R) : ℚ × ℚ × ℚ × Option Nat :=
  (s.req_sample_rate, s.tx_ratio, s.sd1.dev_sample_rate, s.sd1.rb.map (fun rb => rb.size))

/-- The object with the capture and generate file handles replaced. -/
def withFiles {F D R : Type} (c g : Option (SNDFILE D)) (s : SoundPort F D R) :
    SoundPort F D R :=
  { s with ofCapture := c, ofGenerate := g }

/-- The system with the capture and generate file handles of its object replaced. -/
def Sys.withFiles {F D R : Type} (c g : Option (SNDFILE D)) (m : Sys F D R) : Sys F D R :=
  { m with sp := Sound.withFiles c g m.sp }

/-- The run of a write with the capture and generate file handles replaced. -/
def WriteRun.withFiles {F D R : Type} (c g : Option (SNDFILE D)) (w : WriteRun F D R) :
    WriteRun F D R :=
  { w with m := w.m.withFiles c g }

/-- An output stream that is being drained (`flush` has set DRAIN), its ring holding three
frames. -/
def drainingSd : stream_data Int :=
  { runningSd (ring8 0) with state := spa_drain }

/-! ## Close, Abort, flush -/

/-- `SoundPort::stream_active(dir)` on `sd[dir]`: the answer, or the `SndPortException`
thrown when `Pa_IsStreamActive` fails. -/
def stream_active {F : Type} (sd : stream_data F) : Except SndException Bool :=
  match sd.stream with
  | none => .ok false
  | some st => if st.isActive < 0 then .error (.port st.isActive) else .ok (st.isActive == 1)

/-- `sd[i].state = v` -/
def setState {F D R : Type} (i : Fin 2) (v : Int) (m : Sys F D R) : Sys F D R :=
  { m with sp := m.sp.setSd i { m.sp.sd i with state := v } }

/-- `sd[i].stream = 0` -/
def clearStream {F D R : Type} (i : Fin 2) (m : Sys F D R) : Sys F D R :=
  { m with sp := m.sp.setSd i { m.sp.sd i with stream := none } }

/-- Record a call in the trace. -/
def logCall {F D R : Type} (c : Call) (m : Sys F D R) : Sys F D R :=
  { m with trace := m.trace ++ [c] }

/-- The loop `for (unsigned i = start; i <= end; i++)` over the directions `is`, left when
the body throws. -/
def forDirs {F D R : Type} (body : Fin 2 → Sys F D R → Sys F D R × Outcome Unit) :
    List (Fin 2) → Sys F D R → Sys F D R × Outcome Unit
  | [], m => (m, .ret ())
  | i :: is, m =>
    match body i m with
    | (m1, .ret _) => forDirs body is m1
    | r => r

/-- The directions `start..end` of `Close`, `Abort` and `flush`: both for `UINT_MAX`, `dir`
itself otherwise; `none` when `dir` is no index of `sd`. -/
def dirRange (dir : Nat) : Option (List (Fin 2)) :=
  if dir = UINT_MAX then some [0, 1]
  else if h : dir < 2 then some [⟨dir, h⟩]
  else none

/-- The body of the loop of `SoundPort::Close` for direction `i`. -/
def Close_one {F D R : Type} (zero : F) (i : Fin 2) (m : Sys F D R) :
    Sys F D R × Outcome Unit :=
  match stream_active (m.sp.sd i) with
  | .error e => (m, .throw e)
  | .ok false => (m, .ret ())
  | .ok true =>
    let m1 := setState i spa_complete m
    -- first wait for buffers to be drained and for the stop callback to signal us that
    -- the stream has been stopped; a timeout is only reported
    let m2 := (sem_timedwaitr zero i .c 2 m1).1
    let m3 := setState i spa_continue m2
    let m4 := logCall (Call.Pa_CloseStream i) m3
    (clearStream i m4, .ret ())

/-- `SoundPort::Close(dir)` -/
def Close {F D R : Type} (zero : F) (dir : Nat) (m : Sys F D R) : Sys F D R × Outcome Unit :=
  match dirRange dir with
  | some is => forDirs (Close_one zero) is m
  | none => (m, .undefined)

/-- The body of the loop of `SoundPort::Abort` for direction `i`. -/
def Abort_one {F D R : Type} (i : Fin 2) (m : Sys F D R) : Sys F D R × Outcome Unit :=
  match stream_active (m.sp.sd i) with
  | .error e => (m, .throw e)
  | .ok false => (m, .ret ())
  | .ok true => (clearStream i (logCall (Call.Pa_AbortStream i) m), .ret ())

/-- `SoundPort::Abort(dir)` -/
def Abort {F D R : Type} (dir : Nat) (m : Sys F D R) : Sys F D R × Outcome Unit :=
  match dirRange dir with
  | some is => forDirs Abort_one is m
  | none => (m, .undefined)

/-- The body of the loop of `SoundPort::flush` for direction `i`. -/
def flush_one {F D R : Type} (zero : F) (i : Fin 2) (m : Sys F D R) :
    Sys F D R × Outcome Unit :=
  match stream_active (m.sp.sd i) with
  | .error e => (m, .throw e)
  | .ok false => (m, .ret ())
  | .ok true =>
    let m1 := setState i spa_drain m
    -- a timeout is only reported
    let m2 := (sem_timedwaitr zero i .c 2 m1).1
    (setState i spa_continue m2, .ret ())

/-- `SoundPort::flush(dir)` -/
def flush {F D R : Type} (zero : F) (dir : Nat) (m : Sys F D R) : Sys F D R × Outcome Unit :=
  match dirRange dir with
  | some is => forDirs (flush_one zero) is m
  | none => (m, .undefined)

/-- The direction of the stream a callback is for. -/
def Callback.dir {F : Type} : Callback F → Fin 2
  | .process d _ _ _ => d
  | .stopped d => d

/-- No callback of the script is for direction `j`: the realtime thread of that stream is
idle while the call runs. -/
def scriptAvoids {F : Type} (j : Fin 2) (env : List (Episode F)) : Prop :=
  ∀ ep ∈ env, ∀ cbs, ep = Episode.run cbs → ∀ cb ∈ cbs, cb.dir ≠ j

/-- A realtime thread that asks the output stream for four frames during the first wait. -/
def drainScript : List (Episode Int) :=
  [.run [.process 1 none true 4]]

/-- The plain port with three frames queued in the output ring and the realtime thread of
`drainScript`. -/
def drainSys : Sys Int Int Unit :=
  { sp := plainPort emptyRing8 (ring8 0), env := drainScript, trace := [] }

/-- The system `feedSys` after the wait for data of a `Read` of four frames: the callback
has delivered the frame (40,41). -/
def fedSys : Sys Int Int Unit :=
  ((Read_wait plainCx feedSys 4).getD (feedSys, .timedout)).1

/-- What `Abort` leaves of a system: the script of the realtime thread, every field of the
object but the two stream handles, and the trace up to calls of `Pa_AbortStream`. -/
def AbortFrame {F D R : Type} (m m1 : Sys F D R) : Prop :=
  m1.env = m.env ∧
  (∀ j, ({ m1.sp.sd j with stream := none } : stream_data F) = { m.sp.sd j with stream := none }) ∧
  (∀ j, (m.sp.sd j).stream = none → (m1.sp.sd j).stream = none) ∧
  (∃ cs, m1.trace = m.trace ++ cs ∧ ∀ c ∈ cs, ∃ j, c = Call.Pa_AbortStream j)

/-! ## The other backends -/

/-- A connection of the PulseAudio simple API (`pa_simple*`, external). -/
structure pa_simple where
  id : Nat
deriving DecidableEq

/-- A call of `SoundPulse` into the PulseAudio simple API. -/
inductive PulseCall (F : Type)
  | pa_simple_drain (dir : Fin 2)
  | pa_simple_free (dir : Fin 2)
  /-- `pa_simple_read(stream[0], fbuf, bytes, &err)` -/
  | pa_simple_read (bytes : Nat)
  /-- `pa_simple_write(stream[1], wbuf, bytes, &err)`, with the floats at `wbuf` -/
  | pa_simple_write (wbuf : List F) (bytes : Nat)
deriving DecidableEq

/-- The members of `SoundBase` and `SoundPulse`.  `rx_ratio` and `tx_ratio` are
`rx_src_data->src_ratio` and `tx_src_data->src_ratio`; `dev_sample_rate0`, `stream0` and
`dev_sample_rate1`, `stream1` are the entries 0 (capture) and 1 (playback) of
`dev_sample_rate` and `stream`. -/
structure SoundPulse (F D R : Type) where
  sample_frequency : Int
  txppm : Int
  rxppm : Int
  tx_src_state : Option R
  rx_src_state : Option R
  tx_ratio : ℚ
  rx_ratio : ℚ
  ofCapture : Option (SNDFILE D)
  ifPlayback : Option (SNDFILE D)
  ofGenerate : Option (SNDFILE D)
  capture : Bool
  playback : Bool
  generate : Bool
  dev_sample_rate0 : ℚ
  dev_sample_rate1 : ℚ
  stream0 : Option pa_simple
  stream1 : Option pa_simple
  fbuf : List F

/-- A `SoundPulse` object and the calls it has made to PulseAudio (latest last). -/
structure PulseSys (F D R : Type) where
  sp : SoundPulse F D R
  trace : List (PulseCall F)

namespace SoundPulse

variable {F D R : Type}

/-- `stream[i]` -/
def stream (s : SoundPulse F D R) (i : Fin 2) : Option pa_simple :=
  if i = 0 then s.stream0 else s.stream1

/-- `stream[i] = x` -/
def setStream (s : SoundPulse F D R) (i : Fin 2) (x : Option pa_simple) : SoundPulse F D R :=
  if i = 0 then { s with stream0 := x } else { s with stream1 := x }

/-- The body of the loop of `SoundPulse::flush` for direction `i`; the error of
`pa_simple_drain` is only reported. -/
def flush_one (i : Fin 2) (m : PulseSys F D R) : PulseSys F D R :=
  match m.sp.stream i with
  | none => m
  | some _ => { m with trace := m.trace ++ [PulseCall.pa_simple_drain i] }

/-- `SoundPulse::flush(dir)` -/
def flush (dir : Nat) (m : PulseSys F D R) : PulseSys F D R × Outcome Unit :=
  match dirRange dir with
  | some is => (is.foldl (fun m1 i => flush_one i m1) m, .ret ())
  | none => (m, .undefined)

/-- The body of the loop of `SoundPulse::Abort` for direction `i`. -/
def Abort_one (i : Fin 2) (m : PulseSys F D R) : PulseSys F D R :=
  match m.sp.stream i with
  | none => m
  | some _ =>
    { sp := m.sp.setStream i none, trace := m.trace ++ [PulseCall.pa_simple_free i] }

/-- `SoundPulse::Abort(dir)` -/
def Abort (dir : Nat) (m : PulseSys F D R) : PulseSys F D R × Outcome Unit :=
  match dirRange dir with
  | some is => (is.foldl (fun m1 i => Abort_one i m1) m, .ret ())
  | none => (m, .undefined)

/-- The body of the loop of `SoundPulse::Close` for direction `i`: `flush(i); Abort(i);`
when `stream[i]` is not null. -/
def Close_one (i : Fin 2) (m : PulseSys F D R) : PulseSys F D R × Outcome Unit :=
  match m.sp.stream i with
  | none => (m, .ret ())
  | some _ =>
    match flush i.val m with
    | (m1, .ret _) => Abort i.val m1
    | r => r

/-- The loop of `SoundPulse::Close` over the directions `is`. -/
def Close_loop : List (Fin 2) → PulseSys F D R → PulseSys F D R × Outcome Unit
  | [], m => (m, .ret ())
  | i :: is, m =>
    match Close_one i m with
    | (m1, .ret _) => Close_loop is m1
    | r => r

/-- `SoundPulse::Close(dir)` -/
def Close (dir : Nat) (m : PulseSys F D R) : PulseSys F D R × Outcome Unit :=
  match dirRange dir with
  | some is => Close_loop is m
  | none => (m, .undefined)

end SoundPulse

/-- A call of `SoundOSS` to the operating system. -/
inductive OssCall
  /-- `close(device_fd)` -/
  | close (fd : Int)
deriving DecidableEq

/-- The member of `SoundOSS` that `Close` uses. -/
structure SoundOSS where
  device_fd : Int
deriving DecidableEq

/-- A `SoundOSS` object and the calls it has made to the operating system. -/
structure OssSys where
  sp : SoundOSS
  trace : List OssCall
deriving DecidableEq

/-- `SoundOSS::Close(dir)` -/
def SoundOSS.Close (_dir : Nat) (m : OssSys) : OssSys :=
  if m.sp.device_fd = -1 then m
  else { sp := { m.sp with device_fd := -1 }, trace := m.trace ++ [OssCall.close m.sp.device_fd] }

/-- The members of `SoundBase` that `SoundNull` uses. -/
structure SoundNull (D : Type) where
  sample_frequency : Int
  ofCapture : Option (SNDFILE D)
  ifPlayback : Option (SNDFILE D)
  ofGenerate : Option (SNDFILE D)
  capture : Bool
  playback : Bool
  generate : Bool

/-- A `SoundNull` object and the outside calls it has made (latest last). -/
structure NullSys (D : Type) where
  sp : SoundNull D
  trace : List Call

namespace SoundNull

variable {D : Type}

/-- `SoundNull::Open(mode, freq)` -/
def Open (_mode : Int) (freq : Int) (m : NullSys D) : NullSys D × Int :=
  ({ m with sp := { m.sp with sample_frequency := freq } }, 0)

/-- `SoundNull::Close(unsigned)` -/
def Close (_dir : Nat) (m : NullSys D) : NullSys D := m

/-- `SoundNull::Abort(unsigned)` -/
def Abort (_dir : Nat) (m : NullSys D) : NullSys D := m

/-- `SoundNull::flush(unsigned)` -/
def flush (_dir : Nat) (m : NullSys D) : NullSys D := m

end SoundNull

/-- A PulseAudio object with both streams connected, nothing resampled, no file. -/
def plainPulse : SoundPulse Int Int Unit :=
  { sample_frequency := 48000, txppm := 0, rxppm := 0,
    tx_src_state := some (), rx_src_state := some (), tx_ratio := 1, rx_ratio := 1,
    ofCapture := none, ifPlayback := none, ofGenerate := none,
    capture := false, playback := false, generate := false,
    dev_sample_rate0 := 48000, dev_sample_rate1 := 48000,
    stream0 := some ⟨1⟩, stream1 := some ⟨2⟩, fbuf := [] }

/-- A null backend at 8000 Hz, no file. -/
def plainNull : SoundNull Int :=
  { sample_frequency := 8000, ofCapture := none, ifPlayback := none, ofGenerate := none,
    capture := false, playback := false, generate := false }

/-- `resample_write`, the wait for space in the output ring for `count` frames. -/
def resample_write_wait {F D R : Type} (cx : Cx F D R) (m : Sys F D R) (count : Nat) :
    Option (Sys F D R × WaitEnd) :=
  WAIT_FOR_COND cx.ops.zero
    (fun sp => sp.sd1.rb.map (fun rb => decide (rb.write_space ≥ CHANNELS * count)))
    1 .rw (max 1 ((Nat.cast (2 * CHANNELS * count) : ℚ) / m.sp.sd1.dev_sample_rate)) m

/-- The plain port with a full output ring and a realtime thread that plays two frames
during the first wait. -/
def playSys : Sys Int Int Unit :=
  { sp := plainPort emptyRing8 fullRing8, env := [.run [.process 1 none true 2]], trace := [] }

/-- The rx ratio for the ppm correction `ppm`:
`req_sample_rate / (sd[0].dev_sample_rate * (1.0 + ppm / 1e6))`, as the exact rational
(`rx_ratio_fl to_double` is the double the code stores). -/
def rx_ratio_for {F D R : Type} (s : SoundPort F D R) (ppm : Int) : ℚ :=
  s.req_sample_rate / (s.sd0.dev_sample_rate * (1 + (ppm : ℚ) / 1000000))

/-- The tx ratio for the ppm correction `ppm`:
`sd[1].dev_sample_rate * (1.0 + ppm / 1e6) / req_sample_rate`, as the exact rational
(`tx_ratio_fl to_double` is the double the code stores). -/
def tx_ratio_for {F D R : Type} (s : SoundPort F D R) (ppm : Int) : ℚ :=
  s.sd1.dev_sample_rate * (1 + (ppm : ℚ) / 1000000) / s.req_sample_rate

/-- What the blocking backends read from `progStatus`. -/
structure Status (D : Type) where
  RcvMixer : D

/-- Scale the `count` samples of `buf` from index `off` on by `vol` when the mixer is
enabled: `if (progdefaults.EnableMixer) for (i < count) buf[i] *= vol`. -/
def mixer_scale {D : Type} (mul : D → D → D) (EnableMixer : Bool) (vol : D) (buf : Nat → D)
    (off count : Nat) : Nat → D :=
  if EnableMixer then store buf off ((load buf off count).map (fun x => mul x vol)) else buf

/-- The block the spec has `read_mono` return when playback is on: the frames read from the
playback file, multiplied by the receive volume when the mixer is enabled. -/
def playback_block {D : Type} (mul : D → D → D) (EnableMixer : Bool) (vol : D)
    (file : SNDFILE D) (count : Nat) : List D :=
  (read_file file count).1.map (fun x => if EnableMixer then mul x vol else x)

/-- `read_file(ifPlayback, buf, count)` on the handle `ifPlayback` (on a null handle
libsndfile reads nothing): the array and the handle afterwards. -/
def read_playback_file {D : Type} (ifPlayback : Option (SNDFILE D)) (buf : Nat → D)
    (off count : Nat) : (Nat → D) × Option (SNDFILE D) :=
  match ifPlayback with
  | some f => (store buf off (read_file f count).1, some (read_file f count).2)
  | none => (buf, none)

/-! ## Double arithmetic -/

/-- The position of the highest set bit of `n`, found by halving; the first argument bounds
the number of halvings. -/
def log2_from : Nat → Nat → Nat
  | 0, _ => 0
  | fuel + 1, n => if 2 ≤ n then log2_from fuel (n / 2) + 1 else 0

/-- `floor(log2(n))` for `n > 0`. -/
def ilog2 (n : Nat) : Nat := log2_from n n

/-- `2 ^ k` for an integer `k`. -/
def pow2 (k : Int) : ℚ :=
  if 0 ≤ k then ((2 ^ k.toNat : Nat) : ℚ) else 1 / ((2 ^ (-k).toNat : Nat) : ℚ)

/-- `floor(log2(q))` for a rational `q > 0`. -/
def floorLog2 (q : ℚ) : Int :=
  let k0 : Int := (ilog2 q.num.natAbs : Int) - (ilog2 q.den : Int)
  if pow2 k0 ≤ q then k0 else k0 - 1

/-- The integer nearest to `q`; the even one of the two when `q` lies half way. -/
def roundEven (q : ℚ) : Int :=
  if q - ⌊q⌋ < 1 / 2 then ⌊q⌋
  else if 1 / 2 < q - ⌊q⌋ then ⌊q⌋ + 1
  else if ⌊q⌋ % 2 = 0 then ⌊q⌋ else ⌊q⌋ + 1

/-- The value of an operation on `double`s whose exact result is `x`: the IEEE 754 binary64
number nearest to `x` (53 significant bits, ties to even), for `x` within the range of the
normal doubles. -/
def to_double (x : ℚ) : ℚ :=
  if x = 0 then 0
  else (roundEven (x / pow2 (floorLog2 |x| - 52)) : ℚ) * pow2 (floorLog2 |x| - 52)

namespace SoundNull

variable {D : Type}

/-- The argument of `usleep` in `SoundNull`:
`(useconds_t)ceil((1e6 * count) / sample_frequency)`.  `count` is converted to `double`,
the product and the quotient are rounded to `double`, and the ceiling is converted to the
32-bit unsigned `useconds_t`: a value outside its range is reduced modulo `2 ^ 32` (what
the conversion does on x86-64; C++ leaves it undefined, as it does the whole expression
for a `sample_frequency` of 0 or below). -/
def sleep_usec (s : SoundNull D) (count : Nat) : Nat :=
  Int.toNat
    (⌈to_double (to_double (1000000 * to_double (count : ℚ)) / (s.sample_frequency : ℚ))⌉
      % 4294967296)

/-- `SoundNull::Write(buf, count)`: the object afterwards and the value returned. -/
def Write (m : NullSys D) (buf : Nat → D) (count : Nat) : NullSys D × Nat :=
  let s1 : SoundNull D :=
    if m.sp.generate then { m.sp with ofGenerate := write_file m.sp.ofGenerate (load buf 0 count) }
    else m.sp
  ({ sp := s1, trace := m.trace ++ [Call.usleep (sleep_usec s1 count)] }, count)

/-- `SoundNull::Write_stereo(bufleft, bufright, count)` -/
def Write_stereo (m : NullSys D) (bufleft _bufright : Nat → D) (count : Nat) : NullSys D × Nat :=
  let s1 : SoundNull D :=
    if m.sp.generate then
      { m.sp with ofGenerate := write_file m.sp.ofGenerate (load bufleft 0 count) }
    else m.sp
  ({ sp := s1, trace := m.trace ++ [Call.usleep (sleep_usec s1 count)] }, count)

/-- `SoundNull::Read(buf + off, count)`: the object and the caller's array afterwards and
the value returned.  `dzero` is the double whose bytes are all zero. -/
def Read (mul : D → D → D) (dzero : D) (cfg : Settings D) (st : Status D) (m : NullSys D)
    (buf : Nat → D) (off count : Nat) : NullSys D × (Nat → D) × Nat :=
  let buf0 := store buf off (List.replicate count dzero)
  let s1 : SoundNull D :=
    if m.sp.capture then { m.sp with ofCapture := write_file m.sp.ofCapture (load buf0 off count) }
    else m.sp
  let fromFile : (Nat → D) × Option (SNDFILE D) :=
    if s1.playback then
      let rd := read_playback_file s1.ifPlayback buf0 off count
      (mixer_scale mul cfg.EnableMixer st.RcvMixer rd.1 off count, rd.2)
    else (buf0, s1.ifPlayback)
  let s2 : SoundNull D := { s1 with ifPlayback := fromFile.2 }
  ({ sp := s2, trace := m.trace ++ [Call.usleep (sleep_usec s2 count)] }, fromFile.1, count)

end SoundNull

/-- What a `Read` of `SoundPulse` leaves behind. -/
structure PulseReadRun (F D R : Type) where
  m : PulseSys F D R
  buf : Nat → D
  out : Outcome Nat

/-- What a `Write` of `SoundPulse` leaves behind. -/
structure PulseWriteRun (F D R : Type) where
  m : PulseSys F D R
  out : Outcome Nat

/-- The PulseAudio server as one call sees it: what `pa_simple_read` of a number of bytes
delivers (the floats, or the error code), and whether `pa_simple_write` fails. -/
structure PulseServer (F : Type) where
  pa_simple_read : Nat → Except Int (List F)
  pa_simple_write : List F → Nat → Except Int Unit

namespace SoundPulse

variable {F D R : Type}

/-- `sizeof(double)` -/
def sizeof_double : Nat := 8

/-- `SoundPulse::resample`, the retune of the capture ratio. -/
def resample_retune_rx (cx : Cx F D R) (s : SoundPulse F D R) : SoundPulse F D R :=
  if s.rxppm ≠ cx.cfg.RX_corr then
    let ratio := (s.sample_frequency : ℚ) /
      (s.dev_sample_rate0 * (1 + (cx.cfg.RX_corr : ℚ) / 1000000))
    { s with rxppm := cx.cfg.RX_corr, rx_ratio := ratio,
             rx_src_state := cx.src.src_set_ratio s.rx_src_state ratio }
  else s

/-- `SoundPulse::resample`, the retune of the playback ratio. -/
def resample_retune_tx (cx : Cx F D R) (s : SoundPulse F D R) : SoundPulse F D R :=
  if s.txppm ≠ cx.cfg.TX_corr then
    let ratio := s.dev_sample_rate1 * (1 + (cx.cfg.TX_corr : ℚ) / 1000000) /
      (s.sample_frequency : ℚ)
    { s with txppm := cx.cfg.TX_corr, tx_ratio := ratio,
             tx_src_state := cx.src.src_set_ratio s.tx_src_state ratio }
  else s

/-- `SoundPulse::resample(mode, buf, count, max)`; `data_in` are the `2 * count` floats at
`buf`.  `data_out` of the result is stored in `snd_buffer` (capture) or `src_buffer`
(playback). -/
def resample (cx : Cx F D R) (mode : Nat) (data_in : List F) (count max : Nat)
    (s : SoundPulse F D R) : SoundPulse F D R × Outcome (SrcResult F R) :=
  if mode &&& (1 <<< O_RDONLY) ≠ 0 then
    let s1 := resample_retune_rx cx s
    match cx.src.src_process s1.rx_src_state s1.rx_ratio data_in count
        (if max ≠ 0 then max else SND_BUF_LEN) with
    | .error r => (s1, .throw (.msg r))
    | .ok res => ({ s1 with rx_src_state := res.state }, .ret res)
  else if mode &&& (1 <<< O_WRONLY) ≠ 0 then
    let s1 := resample_retune_tx cx s
    match cx.src.src_process s1.tx_src_state s1.tx_ratio data_in count
        (if max ≠ 0 then max else SND_BUF_LEN) with
    | .error r => (s1, .throw (.msg r))
    | .ok res => ({ s1 with tx_src_state := res.state }, .ret res)
  else (s, .ret ⟨none, 0, []⟩)

/-- `ncount` of `SoundPulse::Read`. -/
def Read_ncount (s : SoundPulse F D R) (count : Nat) : Nat :=
  let ncount := min SND_BUF_LEN (Int.toNat ⌊(count : ℚ) / s.rx_ratio⌋)
  if count = 1 ∧ ncount = 0 then 1 else ncount

/-- `SoundPulse::Read(buf + off, count)` after `pa_simple_read` has stored `data` in
`fbuf`; `m1` is the system at that point. -/
def Read_body (cx : Cx F D R) (st : Status D) (m1 : PulseSys F D R) (data : List F)
    (buf : Nat → D) (off count ncount : Nat) : PulseReadRun F D R :=
  let s1 : SoundPulse F D R := { m1.sp with fbuf := overlay data m1.sp.fbuf }
  if s1.playback then
    let rd := read_playback_file s1.ifPlayback buf off count
    ⟨{ m1 with sp := { s1 with ifPlayback := rd.2 } },
      mixer_scale cx.ops.mul cx.cfg.EnableMixer st.RcvMixer rd.1 off count, .ret count⟩
  else
    let conv : SoundPulse F D R × Outcome (List F × Nat) :=
      if (s1.sample_frequency : ℚ) ≠ s1.dev_sample_rate0 ∨ cx.cfg.RX_corr ≠ 0 then
        match resample cx (1 <<< O_RDONLY) (window cx.ops.stale s1.fbuf (2 * ncount))
            ncount count s1 with
        | (s2, .ret res) => (s2, .ret (res.data_out, res.output_frames_gen))
        | (s2, .throw e) => (s2, .throw e)
        | (s2, .undefined) => (s2, .undefined)
        | (s2, .aborted) => (s2, .aborted)
      else (s1, .ret (s1.fbuf, count))
    match conv with
    | (s2, .throw e) => ⟨{ m1 with sp := s2 }, buf, .throw e⟩
    | (s2, .undefined) => ⟨{ m1 with sp := s2 }, buf, .undefined⟩
    | (s2, .aborted) => ⟨{ m1 with sp := s2 }, buf, .aborted⟩
    | (s2, .ret (rbuf, count1)) =>
      let block := (List.range count1).map
        (fun i => cx.ops.toDouble (rbuf.getD (2 * i) cx.ops.stale))
      let s3 : SoundPulse F D R :=
        if s2.capture then { s2 with ofCapture := write_file s2.ofCapture block } else s2
      ⟨{ m1 with sp := s3 }, store buf off block, .ret count1⟩

/-- `SoundPulse::Read(buf + off, count)`.  On a null `stream[0]` the call of
`pa_simple_read` is undefined. -/
def Read (cx : Cx F D R) (st : Status D) (srv : PulseServer F) (m : PulseSys F D R)
    (buf : Nat → D) (off count : Nat) : PulseReadRun F D R :=
  let ncount := Read_ncount m.sp count
  match m.sp.stream0 with
  | none => ⟨m, buf, .undefined⟩
  | some _ =>
    let m1 : PulseSys F D R :=
      { m with trace := m.trace ++ [PulseCall.pa_simple_read (sizeof_double * ncount)] }
    match srv.pa_simple_read (sizeof_double * ncount) with
    | .error err => ⟨m1, buf, .throw (.pulse err)⟩
    | .ok data => Read_body cx st m1 data buf off count ncount

/-- `SoundPulse::Write` and `SoundPulse::Write_stereo` from `float *wbuf = fbuf;` on.  On
a null `stream[1]` the call of `pa_simple_write` is undefined. -/
def write_out (cx : Cx F D R) (srv : PulseServer F) (m : PulseSys F D R) (count : Nat) :
    PulseWriteRun F D R :=
  let conv : SoundPulse F D R × Outcome (List F × Nat) :=
    if (m.sp.sample_frequency : ℚ) ≠ m.sp.dev_sample_rate1 ∨ cx.cfg.TX_corr ≠ 0 then
      match resample cx (1 <<< O_WRONLY) (window cx.ops.stale m.sp.fbuf (2 * count))
          count 0 m.sp with
      | (s2, .ret res) => (s2, .ret (res.data_out, res.output_frames_gen))
      | (s2, .throw e) => (s2, .throw e)
      | (s2, .undefined) => (s2, .undefined)
      | (s2, .aborted) => (s2, .aborted)
    else (m.sp, .ret (m.sp.fbuf, count))
  match conv with
  | (s2, .throw e) => ⟨{ m with sp := s2 }, .throw e⟩
  | (s2, .undefined) => ⟨{ m with sp := s2 }, .undefined⟩
  | (s2, .aborted) => ⟨{ m with sp := s2 }, .aborted⟩
  | (s2, .ret (wbuf, count1)) =>
    match s2.stream1 with
    | none => ⟨{ m with sp := s2 }, .undefined⟩
    | some _ =>
      let m2 : PulseSys F D R :=
        { sp := s2, trace := m.trace ++
            [PulseCall.pa_simple_write (window cx.ops.stale wbuf (2 * count1))
              (count1 * sizeof_double)] }
      match srv.pa_simple_write (window cx.ops.stale wbuf (2 * count1))
          (count1 * sizeof_double) with
      | .error err => ⟨m2, .throw (.pulse err)⟩
      | .ok _ => ⟨m2, .ret count1⟩

/-- `SoundPulse::Write(buf, count)` -/
def Write (cx : Cx F D R) (srv : PulseServer F) (m : PulseSys F D R) (buf : Nat → D)
    (count : Nat) : PulseWriteRun F D R :=
  let s1 : SoundPulse F D R :=
    if m.sp.generate then { m.sp with ofGenerate := write_file m.sp.ofGenerate (load buf 0 count) }
    else m.sp
  write_out cx srv
    { m with sp := { s1 with fbuf := overlay (interleave cx.ops buf buf count) s1.fbuf } } count

/-- `SoundPulse::Write_stereo(bufleft, bufright, count)` -/
def Write_stereo (cx : Cx F D R) (srv : PulseServer F) (m : PulseSys F D R)
    (bufleft bufright : Nat → D) (count : Nat) : PulseWriteRun F D R :=
  let s1 : SoundPulse F D R :=
    if m.sp.generate then
      { m.sp with ofGenerate := write_file m.sp.ofGenerate (load bufleft 0 count) }
    else m.sp
  write_out cx srv
    { m with sp := { s1 with fbuf := overlay (interleave cx.ops bufleft bufright count) s1.fbuf } }
    count

end SoundPulse

/-- The port with a playback file of three frames attached and playback on; capture as
given, on an empty capture file. -/
def playPort (capture : Bool) : SoundPort Int Int Unit :=
  { plainPort (ring8 0) emptyRing8 with
    playback := true, ifPlayback := some ⟨[1, 2, 3], 0⟩,
    capture := capture, ofCapture := some ⟨[], 0⟩ }

/-- The PulseAudio object with a playback file of three frames attached and playback on;
capture on, on an empty capture file. -/
def playPulse : SoundPulse Int Int Unit :=
  { plainPulse with
    playback := true, ifPlayback := some ⟨[1, 2, 3], 0⟩,
    capture := true, ofCapture := some ⟨[], 0⟩ }

/-- The null backend with a playback file of three frames attached and playback on;
capture on, on an empty capture file. -/
def playNull : SoundNull Int :=
  { plainNull with
    playback := true, ifPlayback := some ⟨[1, 2, 3], 0⟩,
    capture := true, ofCapture := some ⟨[], 0⟩ }

/-- A PulseAudio server that delivers the floats 10, 11, 12, ... and accepts every write. -/
def rampServer : PulseServer Int :=
  { pa_simple_read := fun bytes => .ok ((List.range (bytes / 4)).map (fun k => 10 + (k : Int)))
    pa_simple_write := fun _ _ => .ok () }

/-- Settings with the mixer enabled. -/
def mixerCx : Cx Int Int Unit :=
  { plainCx with cfg := { plainCfg with EnableMixer := true, RcvMixer := 3 } }

/-- What the object keeps whatever `Read` does after the playback step: the switches and
the handles of the files other than the capture file. -/
def fileKey {F D R : Type} (s : SoundPort F D R) :
    Bool × Bool × Bool × Option (SNDFILE D) × Option (SNDFILE D) :=
  (s.capture, s.playback, s.generate, s.ifPlayback, s.ofGenerate)

/-- The open port with generate and capture on, both on empty files. -/
def genPort : SoundPort Int Int Unit :=
  { plainPort emptyRing8 emptyRing64 with
    generate := true, ofGenerate := some ⟨[], 0⟩, capture := true, ofCapture := some ⟨[], 0⟩ }

/-- The PulseAudio object with generate and capture on, both on empty files. -/
def genPulse : SoundPulse Int Int Unit :=
  { plainPulse with
    generate := true, ofGenerate := some ⟨[], 0⟩, capture := true, ofCapture := some ⟨[], 0⟩ }

/-- The null backend with generate and capture on, both on empty files. -/
def genNull : SoundNull Int :=
  { plainNull with
    generate := true, ofGenerate := some ⟨[], 0⟩, capture := true, ofCapture := some ⟨[], 0⟩ }

/-- Store the blocks `ws`, each at its index, into the array `buf`, in order. -/
def storeAll {A : Type} (buf : Nat → A) (ws : List (Nat × List A)) : Nat → A :=
  ws.foldl (fun b w => store b w.1 w.2) buf

/-- A session of `Read` calls on the port, one for each request (the caller's array, the
offset in it and the count), each on the system the one before left: the system after the
last call and the values returned, or `none` when a call does not return a value. -/
def ReadSession {F D R : Type} (cx : Cx F D R) (fuel : Nat) :
    Sys F D R → List ((Nat → D) × Nat × Nat) → Option (Sys F D R × List Nat)
  | m, [] => some (m, [])
  | m, (buf, off, count) :: reqs =>
    match Read cx fuel m buf off count with
    | some r =>
      match r.out with
      | .ret n =>
        match ReadSession cx fuel r.m reqs with
        | some (m1, ns) => some (m1, n :: ns)
        | none => none
      | _ => none
    | none => none

/-- The plain port on the ring of three frames with capture on, on an empty capture file,
and the realtime thread of `feedScript`. -/
def captureSys : Sys Int Int Unit :=
  { sp := { plainPort (ring8 0) emptyRing8 with capture := true, ofCapture := some ⟨[], 0⟩ },
    env := feedScript, trace := [] }

/-- What a `Read` that returns `n` has done for the caller and the capture file: it has
stored the blocks `ws`, of `n` samples in all, and has appended just these. -/
def Teed {F D R : Type} (m : Sys F D R) (buf : Nat → D) (r : ReadRun F D R) (n : Nat) : Prop :=
  fileKey r.m.sp = fileKey m.sp ∧
  ∃ ws : List (Nat × List D), r.buf = storeAll buf ws ∧
    r.m.sp.ofCapture = write_file m.sp.ofCapture (ws.map Prod.snd).flatten ∧
    (ws.map (fun w => w.2.length)).sum = n

/-! ## Sound file formats -/

/-- `SF_FORMAT_WAV` of sndfile.h. -/
def SF_FORMAT_WAV : Nat := 0x010000

/-- `SF_FORMAT_AU` of sndfile.h. -/
def SF_FORMAT_AU : Nat := 0x030000

/-- `SF_FORMAT_FLAC` of sndfile.h. -/
def SF_FORMAT_FLAC : Nat := 0x170000

/-- `SF_FORMAT_PCM_16` of sndfile.h. -/
def SF_FORMAT_PCM_16 : Nat := 0x0002

/-- `SF_FORMAT_FLOAT` of sndfile.h. -/
def SF_FORMAT_FLOAT : Nat := 0x0006

/-- `SF_ENDIAN_CPU` of sndfile.h. -/
def SF_ENDIAN_CPU : Nat := 0x30000000

/-- `strrchr(s, c)`: the part of the string `s` from the last occurrence of `c` on, `none`
(a null pointer) when `c` does not occur. -/
def strrchr : List Char → Char → Option (List Char)
  | [], _ => none
  | x :: xs, c =>
    match strrchr xs c with
    | some t => some t
    | none => if x = c then some (x :: xs) else none

/-- `!strcasecmp(a, b)`: the strings are equal up to the case of ASCII letters. -/
def strcaseeq (a b : List Char) : Bool :=
  a.map Char.toLower == b.map Char.toLower

/-- Whether the string `hay` begins with `needle`. -/
def beginsWith : List Char → List Char → Bool
  | _, [] => true
  | [], _ :: _ => false
  | h :: hs, n :: ns => h == n && beginsWith hs ns

/-- `strstr(hay, needle) != 0`: `needle` occurs in `hay`. -/
def strstr : List Char → List Char → Bool
  | [], needle => needle.isEmpty
  | h :: hs, needle => beginsWith (h :: hs) needle || strstr hs needle

/-- The file chooser of the user interface (fileselect.h, external): the file name the
user picks for a title, a filter list and a default name, `none` when the dialogue is
cancelled. -/
structure FileChooser where
  file_select : List Char → List Char → List Char → Option (List Char)
  file_saveas : List Char → List Char → List Char → Option (List Char)

/-- The filter list `get_file_params` offers; `flac` tells whether
`format_supported(SF_FORMAT_FLAC | SF_FORMAT_PCM_16)` holds. -/
def file_filters (flac : Bool) : List Char :=
  "Waveform Audio Format\t*.wav\nAU\t*.\x7bau,snd\x7d\n".toList ++
    (if flac then "Free Lossless Audio Codec\t*.flac".toList else [])

/-- `SoundBase::get_file_params(def_fname, &fname, &format)`: `*fname` and `*format`
afterwards; `format0` is what `*format` holds on entry and `format_supported` the member
function of that name (the answer of `sf_format_check`). -/
def get_file_params (ui : FileChooser) (format_supported : Nat → Bool) (def_fname : List Char)
    (format0 : Nat) : Option (List Char) × Nat :=
  let filters := file_filters (format_supported (SF_FORMAT_FLAC ||| SF_FORMAT_PCM_16))
  let fname :=
    if strstr def_fname "playback".toList then
      ui.file_select "Audio file".toList filters def_fname
    else ui.file_saveas "Audio file".toList filters def_fname
  match fname with
  | none => (none, format0)
  | some name =>
    let suffix := strrchr name '.'
    if suffix.any (fun s => strcaseeq s ".flac".toList) then
      (some name, SF_FORMAT_FLAC ||| SF_FORMAT_PCM_16)
    else if suffix.any (fun s => strcaseeq s ".au".toList) then
      (some name, SF_FORMAT_AU ||| SF_FORMAT_FLOAT ||| SF_ENDIAN_CPU)
    else (some name, SF_FORMAT_WAV ||| SF_FORMAT_PCM_16)

/-- A file chooser whose user always answers `name`. -/
def answering (name : List Char) : FileChooser :=
  { file_select := fun _ _ _ => some name, file_saveas := fun _ _ _ => some name }

/-! ## Opening: the converter and the sample rate -/

/-- `(unsigned)x` for a double `x` that is not negative: the fraction is dropped. -/
def to_unsigned (x : ℚ) : Nat := Int.toNat ⌊x⌋

/-- `src_data_reset`, the capture part (`mode & 1 << O_RDONLY`).  `ceil2` (misc.h, not
among the sources) rounds up to a power of two. -/
def src_data_reset_rx {F D R : Type} (cx : Cx F D R) (ceil2 : Nat → Nat) (s : SoundPort F D R) :
    SoundPort F D R × Outcome Unit :=
  match cx.src.src_new cx.cfg.sample_converter CHANNELS with
  | .error err => ({ s with rx_src_state := none }, .throw (.msg err))
  | .ok st =>
    let ratio := s.req_sample_rate / (s.sd0.dev_sample_rate * (1 + (s.rxppm : ℚ) / 1000000))
    let rbsize0 := ceil2 (to_unsigned ((Nat.cast (2 * CHANNELS * SCBLOCKSIZE) : ℚ) *
      max s.req_sample_rate s.sd0.dev_sample_rate / min s.req_sample_rate s.sd0.dev_sample_rate))
    let rbsize := 2 * max rbsize0 4096
    let rb : ringbuffer F :=
      match s.sd0.rb with
      | some old => if old.length ≠ rbsize then { size := rbsize, rpos := 0, data := [] } else old
      | none => { size := rbsize, rpos := 0, data := [] }
    ({ s with rx_src_state := some st, rx_ratio := ratio, sd0 := { s.sd0 with rb := some rb } },
      .ret ())

/-- `src_data_reset`, the playback part (`mode & 1 << O_WRONLY`). -/
def src_data_reset_tx {F D R : Type} (cx : Cx F D R) (ceil2 : Nat → Nat) (s : SoundPort F D R) :
    SoundPort F D R × Outcome Unit :=
  match cx.src.src_new cx.cfg.sample_converter CHANNELS with
  | .error err => ({ s with tx_src_state := none }, .throw (.msg err))
  | .ok st =>
    let ratio := s.sd1.dev_sample_rate * (1 + (s.txppm : ℚ) / 1000000) / s.req_sample_rate
    let rbsize0 := ceil2 (to_unsigned ((Nat.cast (CHANNELS * SCBLOCKSIZE) : ℚ) *
      max s.req_sample_rate s.sd1.dev_sample_rate / min s.req_sample_rate s.sd1.dev_sample_rate))
    let rbsize1 := if s.req_sample_rate > 8000 then rbsize0 * 2 else rbsize0
    let rbsize := max rbsize1 2048
    let rb : ringbuffer F :=
      match s.sd1.rb with
      | some old => if old.length ≠ rbsize then { size := rbsize, rpos := 0, data := [] } else old
      | none => { size := rbsize, rpos := 0, data := [] }
    ({ s with tx_src_state := some st, tx_ratio := ratio, sd1 := { s.sd1 with rb := some rb } },
      .ret ())

/-- `SoundPort::src_data_reset(mode)` -/
def src_data_reset {F D R : Type} (cx : Cx F D R) (ceil2 : Nat → Nat) (mode : Nat)
    (s : SoundPort F D R) : SoundPort F D R × Outcome Unit :=
  let r1 : SoundPort F D R × Outcome Unit :=
    if mode &&& (1 <<< O_RDONLY) ≠ 0 then src_data_reset_rx cx ceil2 s else (s, .ret ())
  match r1 with
  | (s1, .ret _) =>
    if mode &&& (1 <<< O_WRONLY) ≠ 0 then src_data_reset_tx cx ceil2 s1 else (s1, .ret ())
  | r => r

/-- The settings of the examples with both corrections changed, to 50000 ppm for capture
and to -20000 ppm for playback. -/
def ppm2Cx : Cx Int Int Unit :=
  { plainCx with cfg := { plainCfg with RX_corr := 50000, TX_corr := -20000 } }

/-- `PaDeviceInfo` of portaudio.h (external): the fields `find_srate`, `init_stream`,
`Open` and `must_close` read. -/
structure PaDeviceInfo where
  defaultSampleRate : ℚ
  name : List Char := []
  /-- the index of the host API of the device -/
  hostApi : Int := 0
  maxInputChannels : Int := 2
  maxOutputChannels : Int := 2
deriving DecidableEq

/-- `paFormatIsSupported` of portaudio.h. -/
def paFormatIsSupported : Int := 0

/-- What `find_srate` reads outside the object.  The three `SAMPLE_RATE_*` codes of the
user setting are constants of configuration.h, which is not among the sources; `devs` is
the device list that the iterators `sd[dir].idev` point into; `Pa_IsFormatSupported dir
rate` is the answer of `Pa_IsFormatSupported` for the parameters of direction `dir` (the
input parameters `&sd[0].params` for 0, the output parameters `&sd[1].params` for 1, the
other pointer null) at `rate`. -/
structure PaHost where
  SAMPLE_RATE_UNSET : Int
  SAMPLE_RATE_AUTO : Int
  SAMPLE_RATE_NATIVE : Int
  devs : List PaDeviceInfo
  Pa_IsFormatSupported : Fin 2 → ℚ → Int

/-- `*sd[dir].idev`: the device of direction `dir`; `none` when `dir` is not an index of
`sd` or the iterator does not point at a device. -/
def SoundPort.device {F D R : Type} (pa : PaHost) (s : SoundPort F D R) (dir : Nat) :
    Option PaDeviceInfo :=
  if h : dir < 2 then pa.devs.get? (s.sd ⟨dir, h⟩).idev else none

/-- The loop of `find_srate` over the rest of `srates[]`; `err` is the local of that name,
`none` as long as nothing has been assigned to it. -/
def find_srate_loop (supported : ℚ → Int) : List ℚ → Option Int → Outcome ℚ
  | [], some err => .throw (.port err)
  | [], none => .undefined
  | rate :: srates, _ =>
    if supported rate = paFormatIsSupported then .ret rate
    else find_srate_loop supported srates (some (supported rate))

/-- `SoundPort::find_srate(dir)` -/
def find_srate {F D R : Type} (cx : Cx F D R) (pa : PaHost) (dir : Nat) (s : SoundPort F D R) :
    Outcome ℚ :=
  let sr : Int := if dir = 0 then cx.cfg.in_sample_rate else cx.cfg.out_sample_rate
  if sr = pa.SAMPLE_RATE_UNSET ∨ sr = pa.SAMPLE_RATE_AUTO then
    match s.device pa dir with
    | none => .undefined
    | some dev =>
      if h : dir < 2 then
        find_srate_loop (pa.Pa_IsFormatSupported ⟨dir, h⟩)
          [s.req_sample_rate, dev.defaultSampleRate] none
      else .undefined
  else if sr = pa.SAMPLE_RATE_NATIVE then
    match s.device pa dir with
    | none => .undefined
    | some dev => .ret dev.defaultSampleRate
  else .ret (sr : ℚ)

/-- A host for the examples with the codes -1, 0 and 1 for unset, auto and native, one
device with the default rate 44100, and a PortAudio that supports the rates in `ok` and
answers -9997 (`paInvalidSampleRate`) for every other. -/
def hostOf (ok : List ℚ) : PaHost :=
  { SAMPLE_RATE_UNSET := -1, SAMPLE_RATE_AUTO := 0, SAMPLE_RATE_NATIVE := 1,
    devs := [{ defaultSampleRate := 44100 }],
    Pa_IsFormatSupported := fun _ rate => if rate ∈ ok then 0 else -9997 }

/-- The settings of the examples with the user setting `sr` for the sample rate of both
directions. -/
def srCx (sr : Int) : Cx Int Int Unit :=
  { plainCx with cfg := { plainCfg with in_sample_rate := sr, out_sample_rate := sr } }

/-! ## PortAudio as the port sees it -/

/-- `paNoError` of portaudio.h. -/
def paNoError : Int := 0

/-- `paNoDevice` of portaudio.h. -/
def paNoDevice : Int := -1

/-- `paDeviceUnavailable` of portaudio.h. -/
def paDeviceUnavailable : Int := -9985

/-- `EBUSY` of errno.h (Linux). -/
def EBUSY : Int := 16

/-- `paMME` of portaudio.h (`PaHostApiTypeId`). -/
def paMME : Int := 2

/-- `paOSS` of portaudio.h. -/
def paOSS : Int := 7

/-- `paJACK` of portaudio.h. -/
def paJACK : Int := 12

/-- `PaHostApiInfo` of portaudio.h (external): the field read here. -/
structure PaHostApiInfo where
  type : Int
deriving DecidableEq

/-- PortAudio and the configuration as `Open`, `init_stream`, `start_stream` and
`must_close` see them, on top of what `find_srate` reads.  `Pa_GetHostApiInfo` answers
`none` for a null pointer; `device dir` is the name `sd[dir].device` given to the
constructor; `PortInIndex`, `PortOutIndex` and `PortFramesPerBuffer` are the settings of
`progdefaults`; `Pa_OpenStream dir rate frames`, `Pa_SetStreamFinishedCallback dir` and
`Pa_StartStream dir` are the error codes of these calls for the stream of direction
`dir`. -/
structure PortAudio extends PaHost where
  Pa_GetHostApiInfo : Int → Option PaHostApiInfo
  Pa_GetDefaultInputDevice : Int
  Pa_GetDefaultOutputDevice : Int
  device : Fin 2 → List Char
  PortInIndex : Int
  PortOutIndex : Int
  PortFramesPerBuffer : Int
  Pa_OpenStream : Fin 2 → ℚ → Nat → Int
  Pa_SetStreamFinishedCallback : Fin 2 → Int
  Pa_StartStream : Fin 2 → Int

/-- The statements of `SoundPort::must_close` behind its first `return`, as they would
run if control reached them. -/
def must_close_rest {F D R : Type} (pa : PortAudio) (s : SoundPort F D R) : Outcome Bool :=
  match stream_active s.sd1 with
  | .error e => .throw e
  | .ok false => .ret false
  | .ok true =>
    match pa.devs.get? s.sd1.idev with
    | none => .undefined
    | some dev =>
      match pa.Pa_GetHostApiInfo dev.hostApi with
      | none => .ret false
      | some api => .ret (decide (api.type = paOSS ∨ api.type = paMME))

/-- `return v;` with statements behind it: they are not run. -/
def return_first {A : Type} (v : A) (_rest : Outcome A) : Outcome A := .ret v

/-- `SoundPort::must_close()` -/
def must_close {F D R : Type} (pa : PortAudio) (s : SoundPort F D R) : Outcome Bool :=
  return_first false (must_close_rest pa s)

/-- A PortAudio for the examples: one full-duplex device named `card` with the default
rate 44100 on the host API 0 of type `api`; every rate is supported and every call
succeeds; the sample-rate setting codes are -1, 0 and 1 for unset, auto and native. -/
def paOf (api : Int) : PortAudio :=
  { SAMPLE_RATE_UNSET := -1, SAMPLE_RATE_AUTO := 0, SAMPLE_RATE_NATIVE := 1,
    devs := [{ defaultSampleRate := 44100, name := "card".toList }],
    Pa_IsFormatSupported := fun _ _ => 0,
    Pa_GetHostApiInfo := fun i => if i = 0 then some ⟨api⟩ else none,
    Pa_GetDefaultInputDevice := 0, Pa_GetDefaultOutputDevice := 0,
    device := fun _ => "card".toList,
    PortInIndex := 0, PortOutIndex := 0, PortFramesPerBuffer := 0,
    Pa_OpenStream := fun _ _ _ => 0, Pa_SetStreamFinishedCallback := fun _ => 0,
    Pa_StartStream := fun _ => 0 }

/-- The tx ratio is positive, and so is the one a retune to the `TX_corr` setting gives. -/
def TxOK {F D R : Type} (cx : Cx F D R) (s : SoundPort F D R) : Prop :=
  0 < s.tx_ratio ∧ 0 < tx_ratio_for s cx.cfg.TX_corr

/-- The port `txUpPort` with one token on the `rwsem` of its output stream. -/
def txUpPortToken : SoundPort Int Int Unit :=
  { txUpPort with sd1 := { txUpPort.sd1 with rwsem := 1 } }

/-- The loop of `ceil2_pow`: double `p` until it reaches `n`; the index bounds the rounds. -/
def ceil2_from (n : Nat) : Nat → Nat → Nat
  | 0, p => p
  | fuel + 1, p => if n ≤ p then p else ceil2_from n fuel (2 * p)

/-- Modelled from the spec: `ceil2` of misc.h, which is not among the sources, "rounding up
to a power of two": the least power of two that is not below `n`. -/
def ceil2_pow (n : Nat) : Nat := ceil2_from n n 1

/-- The length `src_data_reset` gives the input ring. -/
def rx_ring_length (ceil2 : Nat → Nat) (req dev : ℚ) : Nat :=
  2 * max (ceil2 (to_unsigned ((Nat.cast (2 * CHANNELS * SCBLOCKSIZE) : ℚ) * max req dev
    / min req dev))) 4096

/-- The length `src_data_reset` gives the output ring. -/
def tx_ring_length (ceil2 : Nat → Nat) (req dev : ℚ) : Nat :=
  max (if req > 8000 then
      ceil2 (to_unsigned ((Nat.cast (CHANNELS * SCBLOCKSIZE) : ℚ) * max req dev / min req dev)) * 2
    else ceil2 (to_unsigned ((Nat.cast (CHANNELS * SCBLOCKSIZE) : ℚ) * max req dev / min req dev)))
    2048

/-! ## Open -/

/-- `(int)x` for a double `x`: the fraction is dropped. -/
def to_int (x : ℚ) : Int := if 0 ≤ x then ⌊x⌋ else ⌈x⌉

/-- Run `f` on the system a step leaves when the step has returned; a step that has not
returned ends the sequence. -/
def andThen {F D R : Type} (r : Sys F D R × Outcome Unit)
    (f : Sys F D R → Sys F D R × Outcome Unit) : Sys F D R × Outcome Unit :=
  match r with
  | (m1, .ret _) => f m1
  | r => r

/-- A step on the object alone as a step on the system. -/
def onPort {F D R : Type} (f : SoundPort F D R → SoundPort F D R × Outcome Unit)
    (m : Sys F D R) : Sys F D R × Outcome Unit :=
  ({ m with sp := (f m.sp).1 }, (f m.sp).2)

/-- The loop of `init_stream` over the devices from index `i` on, `idx` being the index
saved so far: the index saved at the end, and where the iterator stands (`none` for
`devs.end()`, reached when the loop does not `break`). -/
def init_stream_search (device : List Char) (conf_idx : Int) :
    List PaDeviceInfo → Nat → Int → Int × Option Nat
  | [], _, idx => (idx, none)
  | d :: ds, i, idx =>
    if device = d.name then
      -- save this device index
      if (i : Int) = conf_idx then ((i : Int), some i) -- found it
      else init_stream_search device conf_idx ds (i + 1) (i : Int)
    else init_stream_search device conf_idx ds (i + 1) idx

/-- `SoundPort::init_stream(dir)`.  The stream parameters `sd[dir].params` are not part of
the model. -/
def init_stream {F D R : Type} (cx : Cx F D R) (pa : PortAudio) (dir : Fin 2)
    (s : SoundPort F D R) : SoundPort F D R × Outcome Unit :=
  let conf_idx := if dir = 0 then pa.PortInIndex else pa.PortOutIndex
  let found := init_stream_search (pa.device dir) conf_idx pa.devs 0 paNoDevice
  let dflt := if dir = 0 then pa.Pa_GetDefaultInputDevice else pa.Pa_GetDefaultOutputDevice
  if found.1 = paNoDevice ∧ dflt = paNoDevice then -- no match
    (s.setSd dir { s.sd dir with idev := pa.devs.length }, .throw (.port paDeviceUnavailable))
  else
    let idev : Nat :=
      if found.1 = paNoDevice then Int.toNat dflt
      else
        match found.2 with
        | some i => i
        | none => Int.toNat found.1 -- a near-match: point the iterator to it
    let s1 := s.setSd dir { s.sd dir with idev := idev }
    match pa.devs.get? idev with
    | none => (s1, .undefined)
    | some dev =>
      if (dir = 0 ∧ dev.maxInputChannels = 0) ∨ (dir = 1 ∧ dev.maxOutputChannels = 0) then
        (s1, .throw (.errno EBUSY))
      else
        match find_srate cx pa.toPaHost dir.val s1 with
        | .throw e => (s1, .throw e)
        | .undefined => (s1, .undefined)
        | .aborted => (s1, .aborted)
        | .ret rate =>
          let s2 := s1.setSd dir { s1.sd dir with dev_sample_rate := rate }
          if pa.PortFramesPerBuffer > 0 then
            (s2.setSd dir { s2.sd dir with frames_per_buffer := Int.toNat pa.PortFramesPerBuffer },
              .ret ())
          else (s2, .ret ())

/-- `sd[dir].stream = st` -/
def setStream {F D R : Type} (dir : Fin 2) (st : Option PaStream) (m : Sys F D R) : Sys F D R :=
  { m with sp := m.sp.setSd dir { m.sp.sd dir with stream := st } }

/-- `SoundPort::start_stream(dir)`.  A stream that `Pa_OpenStream` has opened is not
active; `Pa_StartStream` makes it active.  When `Pa_OpenStream` fails the handle is left
as it was. -/
def start_stream {F D R : Type} (cx : Cx F D R) (pa : PortAudio) (dir : Fin 2)
    (m : Sys F D R) : Sys F D R × Outcome Unit :=
  if pa.Pa_OpenStream dir (m.sp.sd dir).dev_sample_rate (m.sp.sd dir).frames_per_buffer
      ≠ paNoError then
    (m, .throw (.port (pa.Pa_OpenStream dir (m.sp.sd dir).dev_sample_rate
      (m.sp.sd dir).frames_per_buffer)))
  else
    let m1 := setStream dir (some ⟨0⟩) m
    if pa.Pa_SetStreamFinishedCallback dir ≠ paNoError then
      (m1, .throw (.port (pa.Pa_SetStreamFinishedCallback dir)))
    else if pa.Pa_StartStream dir ≠ paNoError then
      andThen (Close cx.ops.zero UINT_MAX m1)
        (fun m2 => (m2, .throw (.port (pa.Pa_StartStream dir))))
    else (setStream dir (some ⟨1⟩) m1, .ret ())

/-- `while (sem_trywait(sem) == 0);` on semaphore `k`: every token is taken.  The index
bounds the rounds. -/
def sem_drain {F : Type} (k : SemKind) : Nat → stream_data F → stream_data F
  | 0, sd => sd
  | n + 1, sd => if 0 < semCount sd k then sem_drain k n (sem_trywait sd k) else sd

/-- The element `sems[i]` of the array `{ sd[i].rwsem, sd[i].csem }` in `Open`. -/
def Open_sems (i : Fin 2) : SemKind := if i = 0 then .rw else .c

/-- `Open`, "reset the semaphores", for direction `i`: the loop over `j = 0, 1` that runs
`while (sem_trywait(sems[i]) == 0);`.  The loop ends on `EAGAIN`, so nothing is thrown. -/
def Open_drain {F : Type} (i : Fin 2) (sd : stream_data F) : stream_data F :=
  [0, 1].foldl (fun (x : stream_data F) (_j : Nat) =>
    sem_drain (Open_sems i) (semCount x (Open_sems i)) x) sd

/-- The mode `m[i]` of `Open`. -/
def Open_mode (i : Fin 2) : Nat := if i = 0 then 1 <<< O_RDONLY else 1 <<< O_WRONLY

/-- `Open`, the rebuild of direction `i` up to the call of `start_stream`. -/
def Open_prepare {F D R : Type} (cx : Cx F D R) (ceil2 : Nat → Nat) (pa : PortAudio)
    (i : Fin 2) (m : Sys F D R) : Sys F D R × Outcome Unit :=
  andThen (Close cx.ops.zero i.val m) fun m1 =>
  andThen (onPort (init_stream cx pa i) m1) fun m2 =>
  andThen (onPort (src_data_reset cx ceil2 (Open_mode i)) m2) fun m3 =>
  -- reset the semaphores
  ({ m3 with sp := m3.sp.setSd i (Open_drain i (m3.sp.sd i)) }, .ret ())

/-- `Open`, the rebuild of direction `i`. -/
def Open_rebuild {F D R : Type} (cx : Cx F D R) (ceil2 : Nat → Nat) (pa : PortAudio)
    (i : Fin 2) (m : Sys F D R) : Sys F D R × Outcome Unit :=
  andThen (Open_prepare cx ceil2 pa i m) (start_stream cx pa i)

/-- `Open`, the condition `stream_active(i) && (.. == paJACK || old_sample_rate == freq ||
sr[i] != SAMPLE_RATE_AUTO)` under which direction `i` is not rebuilt; `stream_active` may
throw, and `none` stands for a null pointer or a bad iterator dereferenced. -/
def Open_keeps {F D R : Type} (cx : Cx F D R) (pa : PortAudio) (old_sample_rate freq : Int)
    (i : Fin 2) (s : SoundPort F D R) : Except SndException (Option Bool) :=
  match stream_active (s.sd i) with
  | .error e => .error e
  | .ok false => .ok (some false)
  | .ok true =>
    match pa.devs.get? (s.sd i).idev with
    | none => .ok none
    | some dev =>
      match pa.Pa_GetHostApiInfo dev.hostApi with
      | none => .ok none
      | some api =>
        .ok (some (decide (api.type = paJACK ∨ old_sample_rate = freq ∨
          (if i = 0 then cx.cfg.in_sample_rate else cx.cfg.out_sample_rate)
            ≠ pa.SAMPLE_RATE_AUTO)))

/-- The body of the loop of `SoundPort::Open` for direction `i`. -/
def Open_one {F D R : Type} (cx : Cx F D R) (ceil2 : Nat → Nat) (pa : PortAudio)
    (old_sample_rate freq : Int) (i : Fin 2) (m : Sys F D R) : Sys F D R × Outcome Unit :=
  match Open_keeps cx pa old_sample_rate freq i m.sp with
  | .error e => (m, .throw e)
  | .ok none => (m, .undefined)
  | .ok (some false) => Open_rebuild cx ceil2 pa i m
  | .ok (some true) =>
    if old_sample_rate ≠ freq then onPort (src_data_reset cx ceil2 (Open_mode i)) m
    else (m, .ret ())

/-- `SoundPort::Open(mode, freq)` -/
def Open {F D R : Type} (cx : Cx F D R) (ceil2 : Nat → Nat) (pa : PortAudio) (_mode : Int)
    (freq : Int) (m : Sys F D R) : Sys F D R × Outcome Int :=
  let old_sample_rate := to_int m.sp.req_sample_rate
  let m1 : Sys F D R :=
    { m with sp := { m.sp with req_sample_rate := (freq : ℚ), sample_frequency := freq } }
  -- do we need to (re)initialise the streams?
  match forDirs (Open_one cx ceil2 pa old_sample_rate freq) [0, 1] m1 with
  | (m2, .ret _) => (m2, .ret 0)
  | (m2, .throw e) => (m2, .throw e)
  | (m2, .undefined) => (m2, .undefined)
  | (m2, .aborted) => (m2, .aborted)

/-- Modelled on the words of the specification for the decision of `Open`: "rebuild if not
currently running, OR if the requested modem rate changed AND (backend is not JACK AND user
setting is AUTO)". -/
def rebuild_spec (running changed jack auto : Prop) : Prop :=
  ¬ running ∨ (changed ∧ ¬ jack ∧ auto)

/-- A port as the constructor and a `Close` leave it apart from stale tokens: no stream is
open, the rings are allocated, and the semaphores of the input stream hold 2 (`rwsem`) and
1 (`csem`) tokens, those of the output stream 3 and 2. -/
def stalePort : SoundPort Int Int Unit :=
  { plainPort emptyRing8 emptyRing8 with
    sd0 := { runningSd emptyRing8 with stream := none, rwsem := 2, csem := 1 },
    sd1 := { runningSd emptyRing8 with stream := none, rwsem := 3, csem := 2 } }

/-! ## The states of the streams -/

/-- The state of a stream is one of CONTINUE, COMPLETE and DRAIN. -/
def StateOK {F : Type} (sd : stream_data F) : Prop :=
  sd.state = spa_continue ∨ sd.state = spa_complete ∨ sd.state = spa_drain

/-- From `s` to `s1` the state of every direction is kept or has become CONTINUE. -/
def Steps {F D R : Type} (s s1 : SoundPort F D R) : Prop :=
  ∀ j : Fin 2, (s1.sd j).state = (s.sd j).state ∨ (s1.sd j).state = spa_continue

/-- `sizeof(float)` -/
def sizeof_float : Nat := 4

/-- `SoundPort::SoundPort(in_dev, out_dev)` after `SoundBase::SoundBase()`, when it does
not throw.  The ratios in the two fresh `SRC_DATA` are not initialised (`rx0`, `tx0`), nor
are the iterators `idev`; `memset(fbuf, 0, CHANNELS * SND_BUF_LEN)` zeroes the first
`CHANNELS * SND_BUF_LEN` bytes of `fbuf`. -/
def SoundPort.new {F D R : Type} (cx : Cx F D R) (rx0 tx0 : ℚ) : SoundPort F D R :=
  { sample_frequency := 0, txppm := cx.cfg.TX_corr, rxppm := cx.cfg.RX_corr,
    tx_src_state := none, rx_src_state := none, tx_ratio := tx0, rx_ratio := rx0,
    ofCapture := none, ifPlayback := none, ofGenerate := none,
    capture := false, playback := false, generate := false,
    req_sample_rate := 0,
    fbuf := List.replicate (CHANNELS * SND_BUF_LEN / sizeof_float) cx.ops.zero,
    sd0 := { stream := none, dev_sample_rate := 0, rwsem := 0, csem := 0,
             state := spa_continue, rb := none, frames_per_buffer := 0 },
    sd1 := { stream := none, dev_sample_rate := 0, rwsem := 0, csem := 0,
             state := spa_continue, rb := none, frames_per_buffer := 0 } }

/-- The states the object can be in.  `Reach false` are the states between the calls of
the modem thread: the constructed object, and what `Open`, `Close`, `Abort`, `flush`,
`Read`, `Write` and `Write_stereo` leave, however they end, with the callbacks of the
realtime thread running at any time and its script being anything.  `Reach true` has in
addition the states in which `Close` and `flush` wait for the realtime thread: the state
of an active stream set to COMPLETE or to DRAIN. -/
inductive Reach {F D R : Type} (cx : Cx F D R) (ceil2 : Nat → Nat) (pa : PortAudio) :
    Bool → Sys F D R → Prop
  | constructed (rx0 tx0 : ℚ) (env : List (Episode F)) :
      Reach cx ceil2 pa false ⟨SoundPort.new cx rx0 tx0, env, []⟩
  | between (m : Sys F D R) : Reach cx ceil2 pa false m → Reach cx ceil2 pa true m
  | opened (b : Bool) (m : Sys F D R) (mode freq : Int) :
      Reach cx ceil2 pa b m → Reach cx ceil2 pa b (Open cx ceil2 pa mode freq m).1
  | closed (b : Bool) (m : Sys F D R) (dir : Nat) :
      Reach cx ceil2 pa b m → Reach cx ceil2 pa b (Close cx.ops.zero dir m).1
  | aborted (b : Bool) (m : Sys F D R) (dir : Nat) :
      Reach cx ceil2 pa b m → Reach cx ceil2 pa b (Abort dir m).1
  | flushed (b : Bool) (m : Sys F D R) (dir : Nat) :
      Reach cx ceil2 pa b m → Reach cx ceil2 pa b (flush cx.ops.zero dir m).1
  | read (b : Bool) (m : Sys F D R) (fuel : Nat) (buf : Nat → D) (off count : Nat)
      (r : ReadRun F D R) :
      Reach cx ceil2 pa b m → Read cx fuel m buf off count = some r → Reach cx ceil2 pa b r.m
  | written (b : Bool) (m : Sys F D R) (fuel : Nat) (buf : Nat → D) (count : Nat)
      (r : WriteRun F D R) :
      Reach cx ceil2 pa b m → Write cx fuel m buf count = some r → Reach cx ceil2 pa b r.m
  | written_stereo (b : Bool) (m : Sys F D R) (fuel : Nat) (l rt : Nat → D) (count : Nat)
      (r : WriteRun F D R) :
      Reach cx ceil2 pa b m → Write_stereo cx fuel m l rt count = some r →
      Reach cx ceil2 pa b r.m
  | callback (b : Bool) (m : Sys F D R) (cb : Callback F) :
      Reach cx ceil2 pa b m → Reach cx ceil2 pa b { m with sp := runCallback cx.ops.zero m.sp cb }
  | script (b : Bool) (m : Sys F D R) (env : List (Episode F)) :
      Reach cx ceil2 pa b m → Reach cx ceil2 pa b { m with env := env }
  | closing (b : Bool) (m : Sys F D R) (i : Fin 2) :
      Reach cx ceil2 pa b m → stream_active (m.sp.sd i) = .ok true →
      Reach cx ceil2 pa true (setState i spa_complete m)
  | flushing (b : Bool) (m : Sys F D R) (i : Fin 2) :
      Reach cx ceil2 pa b m → stream_active (m.sp.sd i) = .ok true →
      Reach cx ceil2 pa true (setState i spa_drain m)

/-- The port of the examples right after its construction, with a silent realtime thread. -/
def freshSys : Sys Int Int Unit :=
  ⟨SoundPort.new (srCx 0) 1 1, [], []⟩

/-! ## The ratios in double arithmetic -/

/-- `req_sample_rate / (sd[0].dev_sample_rate * (1.0 + rxppm / 1e6))`, the expression that
`src_data_reset` and `resample` assign to `rx_src_data->src_ratio`, with every operation
followed by the rounding `fl`. -/
def rx_ratio_fl (fl : ℚ → ℚ) (req dev : ℚ) (ppm : Int) : ℚ :=
  fl (req / fl (dev * fl (1 + fl ((ppm : ℚ) / 1000000))))

/-- `sd[1].dev_sample_rate * (1.0 + txppm / 1e6) / req_sample_rate`, the expression that
`src_data_reset` and `resample` assign to `tx_src_data->src_ratio`, with every operation
followed by the rounding `fl`. -/
def tx_ratio_fl (fl : ℚ → ℚ) (dev req : ℚ) (ppm : Int) : ℚ :=
  fl (fl (dev * fl (1 + fl ((ppm : ℚ) / 1000000))) / req)

/-- `resample`, the retune of the capture ratio, with the rounding `fl`. -/
def resample_retune_rx_fl {F D R : Type} (fl : ℚ → ℚ) (cx : Cx F D R) (s : SoundPort F D R) :
    SoundPort F D R :=
  if s.rxppm ≠ cx.cfg.RX_corr then
    let ratio := rx_ratio_fl fl s.req_sample_rate s.sd0.dev_sample_rate cx.cfg.RX_corr
    { s with rxppm := cx.cfg.RX_corr, rx_ratio := ratio,
             rx_src_state := cx.src.src_set_ratio s.rx_src_state ratio }
  else s

/-- `resample`, the retune of the playback ratio, with the rounding `fl`. -/
def resample_retune_tx_fl {F D R : Type} (fl : ℚ → ℚ) (cx : Cx F D R) (s : SoundPort F D R) :
    SoundPort F D R :=
  if s.txppm ≠ cx.cfg.TX_corr then
    let ratio := tx_ratio_fl fl s.sd1.dev_sample_rate s.req_sample_rate cx.cfg.TX_corr
    { s with txppm := cx.cfg.TX_corr, tx_ratio := ratio,
             tx_src_state := cx.src.src_set_ratio s.tx_src_state ratio }
  else s

/-- `SoundPort::resample(mode, inbuf, outbuf, count, max)` with the rounding `fl` in the
ratio it assigns. -/
def resample_fl {F D R : Type} (fl : ℚ → ℚ) (cx : Cx F D R) (mode : Nat) (data_in : List F)
    (count max : Nat) (s : SoundPort F D R) : SoundPort F D R × Outcome (SrcResult F R) :=
  if mode &&& (1 <<< O_RDONLY) ≠ 0 then
    let s1 := resample_retune_rx_fl fl cx s
    match cx.src.src_process s1.rx_src_state s1.rx_ratio data_in count
        (if max ≠ 0 then max else SND_BUF_LEN) with
    | .error r => (s1, .throw (.msg r))
    | .ok res => ({ s1 with rx_src_state := res.state }, .ret res)
  else if mode &&& (1 <<< O_WRONLY) ≠ 0 then
    let s1 := resample_retune_tx_fl fl cx s
    match cx.src.src_process s1.tx_src_state s1.tx_ratio data_in count
        (if max ≠ 0 then max else SND_BUF_LEN) with
    | .error r => (s1, .throw (.msg r))
    | .ok res => ({ s1 with tx_src_state := res.state }, .ret res)
  else (s, .ret ⟨none, 0, []⟩)

/-- `src_data_reset`, the capture part, with the rounding `fl` in the ratio and in the
size of the ring. -/
def src_data_reset_rx_fl {F D R : Type} (fl : ℚ → ℚ) (cx : Cx F D R) (ceil2 : Nat → Nat)
    (s : SoundPort F D R) : SoundPort F D R × Outcome Unit :=
  match cx.src.src_new cx.cfg.sample_converter CHANNELS with
  | .error err => ({ s with rx_src_state := none }, .throw (.msg err))
  | .ok st =>
    let ratio := rx_ratio_fl fl s.req_sample_rate s.sd0.dev_sample_rate s.rxppm
    let rbsize0 := ceil2 (to_unsigned (fl (fl ((Nat.cast (2 * CHANNELS * SCBLOCKSIZE) : ℚ) *
      max s.req_sample_rate s.sd0.dev_sample_rate) / min s.req_sample_rate s.sd0.dev_sample_rate)))
    let rbsize := 2 * max rbsize0 4096
    let rb : ringbuffer F :=
      match s.sd0.rb with
      | some old => if old.length ≠ rbsize then { size := rbsize, rpos := 0, data := [] } else old
      | none => { size := rbsize, rpos := 0, data := [] }
    ({ s with rx_src_state := some st, rx_ratio := ratio, sd0 := { s.sd0 with rb := some rb } },
      .ret ())

/-- `src_data_reset`, the playback part, with the rounding `fl` in the ratio and in the
size of the ring. -/
def src_data_reset_tx_fl {F D R : Type} (fl : ℚ → ℚ) (cx : Cx F D R) (ceil2 : Nat → Nat)
    (s : SoundPort F D R) : SoundPort F D R × Outcome Unit :=
  match cx.src.src_new cx.cfg.sample_converter CHANNELS with
  | .error err => ({ s with tx_src_state := none }, .throw (.msg err))
  | .ok st =>
    let ratio := tx_ratio_fl fl s.sd1.dev_sample_rate s.req_sample_rate s.txppm
    let rbsize0 := ceil2 (to_unsigned (fl (fl ((Nat.cast (CHANNELS * SCBLOCKSIZE) : ℚ) *
      max s.req_sample_rate s.sd1.dev_sample_rate) / min s.req_sample_rate s.sd1.dev_sample_rate)))
    let rbsize1 := if s.req_sample_rate > 8000 then rbsize0 * 2 else rbsize0
    let rbsize := max rbsize1 2048
    let rb : ringbuffer F :=
      match s.sd1.rb with
      | some old => if old.length ≠ rbsize then { size := rbsize, rpos := 0, data := [] } else old
      | none => { size := rbsize, rpos := 0, data := [] }
    ({ s with tx_src_state := some st, tx_ratio := ratio, sd1 := { s.sd1 with rb := some rb } },
      .ret ())

/-- `SoundPort::src_data_reset(mode)` with the rounding `fl`. -/
def src_data_reset_fl {F D R : Type} (fl : ℚ → ℚ) (cx : Cx F D R) (ceil2 : Nat → Nat)
    (mode : Nat) (s : SoundPort F D R) : SoundPort F D R × Outcome Unit :=
  let r1 : SoundPort F D R × Outcome Unit :=
    if mode &&& (1 <<< O_RDONLY) ≠ 0 then src_data_reset_rx_fl fl cx ceil2 s else (s, .ret ())
  match r1 with
  | (s1, .ret _) =>
    if mode &&& (1 <<< O_WRONLY) ≠ 0 then src_data_reset_tx_fl fl cx ceil2 s1 else (s1, .ret ())
  | r => r

/-- Both ratios are what the formulas give in double arithmetic for the ppm values applied
last. -/
def RatiosTuned_fl {F D R : Type} (fl : ℚ → ℚ) (s : SoundPort F D R) : Prop :=
  s.rx_ratio = rx_ratio_fl fl s.req_sample_rate s.sd0.dev_sample_rate s.rxppm ∧
  s.tx_ratio = tx_ratio_fl fl s.sd1.dev_sample_rate s.req_sample_rate s.txppm

/-! ## The internal reads of a split `Read` -/

theorem store_at {A : Type} (buf : Nat → A) (off : Nat) (xs : List A) (i : Nat)
    (h : i < xs.length) : store buf off xs (off + i) = xs.getD i (buf (off + i)) := by
  simp [store, h]

theorem store_outside {A : Type} (buf : Nat → A) (off : Nat) (xs : List A) (k : Nat)
    (h : k < off ∨ off + xs.length ≤ k) : store buf off xs k = buf k := by
  unfold store
  split
  · omega
  · rfl

theorem waitLoop_ready {F D R : Type} (zero : F) (cond : SoundPort F D R → Option Bool)
    (dir : Fin 2) (k : SemKind) (t : ℚ) (fuel : Nat) (m : Sys F D R)
    (h : cond m.sp = some true) :
    waitLoop zero cond dir k t (fuel + 1) m = some (m, .ready) := by
  simp [waitLoop, h]

theorem WAIT_FOR_COND_ready {F D R : Type} (zero : F) (cond : SoundPort F D R → Option Bool)
    (dir : Fin 2) (k : SemKind) (t : ℚ) (m : Sys F D R) (h : cond m.sp = some true) :
    WAIT_FOR_COND zero cond dir k t m = some (m, .ready) := by
  unfold WAIT_FOR_COND
  exact waitLoop_ready zero cond dir k t _ m h

theorem Read_wait_ready {F D R : Type} (cx : Cx F D R) (m : Sys F D R) (ncount : Nat)
    (rb : ringbuffer F) (hrb : m.sp.sd0.rb = some rb)
    (hdata : CHANNELS * ncount ≤ rb.read_space) :
    Read_wait cx m ncount = some (m, .ready) := by
  unfold Read_wait
  apply WAIT_FOR_COND_ready
  simp [hrb, hdata]

theorem Read_ncount_one {F D R : Type} (s : SoundPort F D R) (count : Nat)
    (h : s.rx_ratio = 1) : Read_ncount s count = count := by
  simp [Read_ncount, h]

/-- Both ways of `Read_peek` show the same floats at the front of `rbuf`. -/
theorem Read_peek_getD {F D R : Type} (s : SoundPort F D R) (rb : ringbuffer F) (ncount : Nat)
    (stale : F) (hdata : CHANNELS * ncount ≤ rb.read_space) (j : Nat)
    (hj : j < CHANNELS * ncount) :
    (Read_peek s rb ncount).2.1.getD j stale = rb.data.getD j stale := by
  unfold ringbuffer.read_space at hdata
  by_cases h : (rb.get_rv).1.length ≥ CHANNELS * ncount
  · simp only [Read_peek, h, if_true]
    simp only [ringbuffer.get_rv, List.length_take] at h ⊢
    rw [List.getD_eq_getElem?_getD, List.getD_eq_getElem?_getD, List.getElem?_take_of_lt]
    omega
  · simp only [Read_peek, h, if_false, overlay, ringbuffer.read]
    rw [List.getD_eq_getElem?_getD, List.getD_eq_getElem?_getD, List.getElem?_append_left,
      List.getElem?_take_of_lt hj]
    simp; omega

theorem deinterleave_congr {F D : Type} (ops : SampleOps F D) (xs ys : List F) (count : Nat)
    (h : ∀ j, j < CHANNELS * count → xs.getD j ops.stale = ys.getD j ops.stale) :
    deinterleave ops xs count = deinterleave ops ys count := by
  unfold deinterleave
  apply List.map_congr_left
  intro i hi
  rw [h]
  have := List.mem_range.mp hi
  unfold CHANNELS; omega

theorem deinterleave_length {F D : Type} (ops : SampleOps F D) (xs : List F) (count : Nat) :
    (deinterleave ops xs count).length = count := by
  simp [deinterleave]

/-- The block `Read_body` delivers without resampling when the ring holds the floats. -/
theorem Read_body_plain {F D R : Type} (cx : Cx F D R) (m : Sys F D R) (buf : Nat → D)
    (off count : Nat) (rb : ringbuffer F)
    (hrate : m.sp.req_sample_rate = m.sp.sd0.dev_sample_rate) (hcorr : cx.cfg.RX_corr = 0)
    (hrb : m.sp.sd0.rb = some rb) (hdata : CHANNELS * count ≤ rb.read_space) :
    (Read_body cx m buf off count count).out = .ret count ∧
    (Read_body cx m buf off count count).buf = store buf off (deinterleave cx.ops rb.data count) ∧
    (Read_body cx m buf off count count).m.sp.sd0.rb = some (rb.read_advance (CHANNELS * count)) ∧
    (Read_body cx m buf off count count).m.env = m.env ∧
    (Read_body cx m buf off count count).m.trace = m.trace := by
  have hdeint : deinterleave cx.ops (Read_peek m.sp rb count).2.1 count
      = deinterleave cx.ops rb.data count :=
    deinterleave_congr _ _ _ _ (fun j hj => Read_peek_getD m.sp rb count _ hdata j hj)
  have hmin : min (CHANNELS * count) rb.read_space = CHANNELS * count := Nat.min_eq_left hdata
  by_cases h : (rb.get_rv).1.length ≥ CHANNELS * count
  · have hp : Read_peek m.sp rb count = (m.sp, rb.get_rv.1, true) := by
      simp only [Read_peek, h, if_true]
    simp only [hp] at hdeint
    simp only [Read_body, hrb, hp, Read_resample, hrate, hcorr, Read_deliver]
    by_cases hc : m.sp.capture <;> simp [hc, hrb, hdeint]
  · have hp : Read_peek m.sp rb count =
        ({ m.sp with fbuf := overlay (rb.read (CHANNELS * count)).1 m.sp.fbuf,
                     sd0 := { m.sp.sd0 with rb := some (rb.read (CHANNELS * count)).2 } },
         overlay (rb.read (CHANNELS * count)).1 m.sp.fbuf, false) := by
      simp only [Read_peek, h, if_false]
    simp only [hp, ringbuffer.read] at hdeint
    simp only [Read_body, hrb, hp, Read_resample, hrate, hcorr, Read_deliver]
    by_cases hc : m.sp.capture <;> simp [hc, ringbuffer.read, hmin, hdeint]

theorem semCount_setSem {F : Type} (sd : stream_data F) (k k1 : SemKind) (n : Nat) :
    semCount (setSem sd k n) k1 = if k1 = k then n else semCount sd k1 := by
  cases k <;> cases k1 <;> simp [semCount, setSem]

theorem semCount_sem_post {F : Type} (sd : stream_data F) (k k1 : SemKind) :
    semCount (sem_post sd k) k1 = semCount sd k1 + (if k1 = k then 1 else 0) := by
  unfold sem_post
  rw [semCount_setSem]
  split
  · subst_vars; rfl
  · rfl

@[simp] theorem sem_post_state {F : Type} (sd : stream_data F) (k : SemKind) :
    (sem_post sd k).state = sd.state := by
  cases k <;> rfl

@[simp] theorem sem_post_rb {F : Type} (sd : stream_data F) (k : SemKind) :
    (sem_post sd k).rb = sd.rb := by
  cases k <;> rfl

@[simp] theorem sem_post_stream {F : Type} (sd : stream_data F) (k : SemKind) :
    (sem_post sd k).stream = sd.stream := by
  cases k <;> rfl

@[simp] theorem sem_post_dev_sample_rate {F : Type} (sd : stream_data F) (k : SemKind) :
    (sem_post sd k).dev_sample_rate = sd.dev_sample_rate := by
  cases k <;> rfl

theorem stream_input_semCount {F : Type} (input : Option (Nat → F))
    (nframes : Nat) (sd sd1 : stream_data F) (k : SemKind)
    (h : stream_input input nframes sd = some sd1) :
    semCount sd1 k ≤ semCount sd k + 1 := by
  unfold stream_input at h
  cases input with
  | none => cases h; omega
  | some inp =>
    cases hrb : sd.rb <;> simp only [hrb] at h <;> split_ifs at h <;> cases h
    · omega
    · rw [semCount_sem_post]; cases k <;> simp [semCount]
    · omega

theorem stream_output_semCount {F : Type} (zero : F) (nframes : Nat) (sd : stream_data F)
    (r : ProcessResult F) (k : SemKind) (h : stream_output zero nframes sd = some r) :
    semCount r.sd k ≤ semCount sd k + 1 := by
  unfold stream_output at h
  cases hrb : sd.rb <;> simp only [hrb] at h <;> split_ifs at h <;> cases h <;>
    cases k <;> simp [semCount, sem_post, setSem]

theorem stream_process_semCount {F : Type} (zero : F) (input : Option (Nat → F))
    (hasOut : Bool) (nframes : Nat) (sd : stream_data F) (r : ProcessResult F) (k : SemKind)
    (h : stream_process zero input hasOut nframes sd = some r) :
    semCount r.sd k ≤ semCount sd k + 2 := by
  unfold stream_process at h
  cases hin : stream_input input nframes sd with
  | none => simp [hin] at h
  | some sd1 =>
    have h1 := stream_input_semCount input nframes sd sd1 k hin
    simp only [hin] at h
    split_ifs at h
    · cases h; rw [semCount_sem_post]; split <;> omega
    · cases h; exact le_trans h1 (by omega)
    · have := stream_output_semCount zero nframes sd1 r k h; omega


/-! ## The wait always returns -/

theorem sd_setSd {F D R : Type} (s : SoundPort F D R) (i j : Fin 2) (x : stream_data F) :
    (s.setSd i x).sd j = if j = i then x else s.sd j := by
  fin_cases i <;> fin_cases j <;> simp [SoundPort.sd, SoundPort.setSd]

theorem runCallback_semCount {F D R : Type} (zero : F) (s : SoundPort F D R) (cb : Callback F)
    (dir : Fin 2) (k : SemKind) :
    semCount ((runCallback zero s cb).sd dir) k ≤ semCount (s.sd dir) k + 2 := by
  cases cb with
  | process d input hasOut nframes =>
    simp only [runCallback]
    cases h : stream_process zero input hasOut nframes (s.sd d) with
    | none => simp
    | some r =>
      simp only [sd_setSd]
      split
      · subst_vars; exact stream_process_semCount _ _ _ _ _ _ _ h
      · omega
  | stopped d =>
    simp only [runCallback, sd_setSd]
    split
    · subst_vars
      simp only [stream_stopped, semCount_sem_post]
      cases k <;> simp [semCount]
    · omega

theorem runCallbacks_semCount {F D R : Type} (zero : F) (cbs : List (Callback F))
    (s : SoundPort F D R) (dir : Fin 2) (k : SemKind) :
    semCount ((runCallbacks zero s cbs).sd dir) k ≤ semCount (s.sd dir) k + 2 * cbs.length := by
  induction cbs generalizing s with
  | nil => simp [runCallbacks]
  | cons cb cbs ih =>
    have h1 := runCallback_semCount zero s cb dir k
    have h2 := ih (runCallback zero s cb)
    simp only [runCallbacks, List.foldl_cons, List.length_cons] at h2 ⊢
    omega

/-- The measure of `WAIT_FOR_COND`, the tokens at hand plus the weight of the script,
decreases with every wait that does not fail. -/
theorem sem_timedwaitr_measure {F D R : Type} (zero : F) (dir : Fin 2) (k : SemKind) (t : ℚ)
    (m : Sys F D R) (h : (sem_timedwaitr zero dir k t m).2 = 0) :
    semCount ((sem_timedwaitr zero dir k t m).1.sp.sd dir) k
        + scriptWeight (sem_timedwaitr zero dir k t m).1.env
      < semCount (m.sp.sd dir) k + scriptWeight m.env := by
  unfold sem_timedwaitr at h ⊢
  simp only at h ⊢
  by_cases hn : 0 < semCount (m.sp.sd dir) k
  · simp only [hn, if_true, sd_setSd, semCount_setSem]
    simp; omega
  · simp only [hn, if_false] at h ⊢
    cases henv : m.env with
    | nil => simp [henv, ETIMEDOUT] at h
    | cons ep env =>
      cases ep with
      | fail e =>
        simp [scriptWeight, Episode.weight]
      | run cbs =>
        simp only [henv] at h ⊢
        have hb := runCallbacks_semCount zero cbs m.sp dir k
        by_cases hn1 : 0 < semCount ((runCallbacks zero m.sp cbs).sd dir) k
        · simp only [hn1, if_true, sd_setSd, semCount_setSem]
          simp [scriptWeight, Episode.weight]; omega
        · simp [hn1, ETIMEDOUT] at h

theorem waitLoop_returns {F D R : Type} (zero : F) (cond : SoundPort F D R → Option Bool)
    (dir : Fin 2) (k : SemKind) (t : ℚ) (fuel : Nat) (m : Sys F D R)
    (h : semCount (m.sp.sd dir) k + scriptWeight m.env < fuel) :
    ∃ r, waitLoop zero cond dir k t fuel m = some r := by
  induction fuel generalizing m with
  | zero => omega
  | succ fuel ih =>
    unfold waitLoop
    cases hc : cond m.sp with
    | none => exact ⟨_, rfl⟩
    | some b =>
      cases b with
      | true => exact ⟨_, rfl⟩
      | false =>
        simp only
        by_cases hr : (sem_timedwaitr zero dir k t m).2 = 0
        · simp only [hr, if_true]
          apply ih
          have := sem_timedwaitr_measure zero dir k t m hr
          omega
        · simp only [hr, if_false]
          split <;> exact ⟨_, rfl⟩

/-- `WAIT_FOR_COND` returns: its rounds never run out. -/
theorem WAIT_FOR_COND_returns {F D R : Type} (zero : F) (cond : SoundPort F D R → Option Bool)
    (dir : Fin 2) (k : SemKind) (t : ℚ) (m : Sys F D R) :
    ∃ r, WAIT_FOR_COND zero cond dir k t m = some r :=
  waitLoop_returns zero cond dir k t _ m (Nat.lt_succ_self _)

/-! ## What the callbacks and the waits leave alone -/

theorem stream_input_frame {F : Type} (input : Option (Nat → F)) (nframes : Nat)
    (sd sd1 : stream_data F) (h : stream_input input nframes sd = some sd1) :
    sd1.dev_sample_rate = sd.dev_sample_rate ∧
      sd1.rb.map (fun rb => rb.size) = sd.rb.map (fun rb => rb.size) := by
  unfold stream_input at h
  cases input with
  | none => cases h; exact ⟨rfl, rfl⟩
  | some inp =>
    cases hrb : sd.rb <;> simp only [hrb] at h <;> split_ifs at h <;> cases h <;>
      simp [hrb, ringbuffer.write]

theorem stream_output_frame {F : Type} (zero : F) (nframes : Nat) (sd : stream_data F)
    (r : ProcessResult F) (h : stream_output zero nframes sd = some r) :
    r.sd.dev_sample_rate = sd.dev_sample_rate ∧
      r.sd.rb.map (fun rb => rb.size) = sd.rb.map (fun rb => rb.size) := by
  unfold stream_output at h
  cases hrb : sd.rb <;> simp only [hrb] at h <;> split_ifs at h <;> cases h <;>
    simp [hrb, ringbuffer.read, ringbuffer.read_advance]

theorem stream_process_frame {F : Type} (zero : F) (input : Option (Nat → F))
    (hasOut : Bool) (nframes : Nat) (sd : stream_data F) (r : ProcessResult F)
    (h : stream_process zero input hasOut nframes sd = some r) :
    r.sd.dev_sample_rate = sd.dev_sample_rate ∧
      r.sd.rb.map (fun rb => rb.size) = sd.rb.map (fun rb => rb.size) := by
  unfold stream_process at h
  cases hin : stream_input input nframes sd with
  | none => simp [hin] at h
  | some sd1 =>
    have h1 := stream_input_frame input nframes sd sd1 hin
    simp only [hin] at h
    split_ifs at h
    · cases h; simpa using h1
    · cases h; simpa using h1
    · have h2 := stream_output_frame zero nframes sd1 r h
      exact ⟨h2.1.trans h1.1, h2.2.trans h1.2⟩

theorem rxKey_setSd {F D R : Type} (s : SoundPort F D R) (i : Fin 2) (x : stream_data F)
    (h1 : x.dev_sample_rate = (s.sd i).dev_sample_rate)
    (h2 : x.rb.map (fun rb => rb.size) = (s.sd i).rb.map (fun rb => rb.size)) :
    rxKey (s.setSd i x) = rxKey s := by
  fin_cases i <;> simp_all [rxKey, SoundPort.sd, SoundPort.setSd]

theorem runCallback_rxKey {F D R : Type} (zero : F) (s : SoundPort F D R) (cb : Callback F) :
    rxKey (runCallback zero s cb) = rxKey s := by
  cases cb with
  | process d input hasOut nframes =>
    simp only [runCallback]
    cases h : stream_process zero input hasOut nframes (s.sd d) with
    | none => rfl
    | some r =>
      have := stream_process_frame _ _ _ _ _ _ h
      exact rxKey_setSd s d r.sd this.1 this.2
  | stopped d =>
    simp only [runCallback]
    apply rxKey_setSd
    · simp [stream_stopped]
    · simp only [stream_stopped, sem_post_rb]
      cases (s.sd d).rb <;> simp [ringbuffer.reset]

theorem runCallbacks_rxKey {F D R : Type} (zero : F) (cbs : List (Callback F))
    (s : SoundPort F D R) : rxKey (runCallbacks zero s cbs) = rxKey s := by
  induction cbs generalizing s with
  | nil => rfl
  | cons cb cbs ih =>
    simp only [runCallbacks, List.foldl_cons] at ih ⊢
    rw [ih, runCallback_rxKey]

theorem rxKey_setSem {F D R : Type} (s : SoundPort F D R) (i : Fin 2) (k : SemKind) (n : Nat) :
    rxKey (s.setSd i (setSem (s.sd i) k n)) = rxKey s := by
  apply rxKey_setSd <;> cases k <;> rfl

theorem sem_timedwaitr_rxKey {F D R : Type} (zero : F) (dir : Fin 2) (k : SemKind) (t : ℚ)
    (m : Sys F D R) : rxKey (sem_timedwaitr zero dir k t m).1.sp = rxKey m.sp := by
  unfold sem_timedwaitr
  simp only
  split
  · exact rxKey_setSem _ _ _ _
  · split
    · rfl
    · rfl
    · split
      · simp only [rxKey_setSem, runCallbacks_rxKey]
      · simp only [runCallbacks_rxKey]

theorem waitLoop_rxKey {F D R : Type} (zero : F) (cond : SoundPort F D R → Option Bool)
    (dir : Fin 2) (k : SemKind) (t : ℚ) (fuel : Nat) (m : Sys F D R) (r : Sys F D R × WaitEnd)
    (h : waitLoop zero cond dir k t fuel m = some r) : rxKey r.1.sp = rxKey m.sp := by
  induction fuel generalizing m with
  | zero => simp [waitLoop] at h
  | succ fuel ih =>
    unfold waitLoop at h
    cases hc : cond m.sp with
    | none => simp only [hc] at h; cases h; rfl
    | some b =>
      cases b with
      | true => simp only [hc] at h; cases h; rfl
      | false =>
        simp only [hc] at h
        have hk := sem_timedwaitr_rxKey zero dir k t m
        split_ifs at h
        · rw [ih _ h, hk]
        · cases h; exact hk
        · cases h; exact hk

/-- When the loop ends ready, the condition holds. -/
theorem waitLoop_cond {F D R : Type} (zero : F) (cond : SoundPort F D R → Option Bool)
    (dir : Fin 2) (k : SemKind) (t : ℚ) (fuel : Nat) (m m1 : Sys F D R)
    (h : waitLoop zero cond dir k t fuel m = some (m1, .ready)) : cond m1.sp = some true := by
  induction fuel generalizing m with
  | zero => simp [waitLoop] at h
  | succ fuel ih =>
    unfold waitLoop at h
    cases hc : cond m.sp with
    | none => simp only [hc] at h; cases h
    | some b =>
      cases b with
      | true => simp only [hc] at h; cases h; exact hc
      | false =>
        simp only [hc] at h
        split_ifs at h
        · exact ih _ h
        · cases h
        · cases h

/-! ## Read without resampling -/

theorem rxKey_rate {F D R : Type} (s s1 : SoundPort F D R) (hk : rxKey s1 = rxKey s)
    (hrate : s.req_sample_rate = s.sd0.dev_sample_rate) :
    s1.req_sample_rate = s1.sd0.dev_sample_rate := by
  simp only [rxKey, Prod.mk.injEq] at hk
  rw [hk.1, hk.2.2.1]; exact hrate

/-- Claim C3 fails on the code: `Read` advances the mono array by `CHANNELS * maxframes`
after each internal read.  Six frames asked from the ring of 8 floats (`maxframes` 4) with
the array filled with -7 beforehand: the first read stores `buf[0..4)`, the second stores
its two samples at `buf[8]` and `buf[9]`; `buf[4..8)` keeps the old contents and two
indices at or above `count = 6` are written. -/
theorem C3_split_leaves_gap :
    (Read plainCx 8 feedSys (fun _ => -7) 0 6).map (fun r => (r.out, load r.buf 0 11))
      = some (.ret 6, [10, 20, 30, 40, -7, -7, -7, -7, 50, 52, -7]) := by
  decide!

/-! ## The waits change the streams only -/

@[simp] theorem sem_post_frames_per_buffer {F : Type} (sd : stream_data F) (k : SemKind) :
    (sem_post sd k).frames_per_buffer = sd.frames_per_buffer := by
  cases k <;> rfl

@[simp] theorem sem_post_idev {F : Type} (sd : stream_data F) (k : SemKind) :
    (sem_post sd k).idev = sd.idev := by
  cases k <;> rfl

theorem blankSd_sem_post {F : Type} (sd : stream_data F) (k : SemKind) :
    blankSd (sem_post sd k) = blankSd sd := by
  cases k <;> rfl

theorem blankSd_setSem {F : Type} (sd : stream_data F) (k : SemKind) (n : Nat) :
    blankSd (setSem sd k n) = blankSd sd := by
  cases k <;> rfl

theorem stream_input_blank {F : Type} (input : Option (Nat → F)) (nframes : Nat)
    (sd sd1 : stream_data F) (h : stream_input input nframes sd = some sd1) :
    blankSd sd1 = blankSd sd := by
  unfold stream_input at h
  cases input with
  | none => cases h; rfl
  | some inp =>
    cases hrb : sd.rb <;> simp only [hrb] at h <;> split_ifs at h <;> cases h <;>
      simp [blankSd_sem_post, blankSd, hrb, ringbuffer.write]

theorem stream_output_blank {F : Type} (zero : F) (nframes : Nat) (sd : stream_data F)
    (r : ProcessResult F) (h : stream_output zero nframes sd = some r) :
    blankSd r.sd = blankSd sd := by
  unfold stream_output at h
  cases hrb : sd.rb <;> simp only [hrb] at h <;> split_ifs at h <;> cases h <;>
    simp [blankSd_sem_post, blankSd, hrb, ringbuffer.read, ringbuffer.read_advance]

theorem stream_process_blank {F : Type} (zero : F) (input : Option (Nat → F))
    (hasOut : Bool) (nframes : Nat) (sd : stream_data F) (r : ProcessResult F)
    (h : stream_process zero input hasOut nframes sd = some r) :
    blankSd r.sd = blankSd sd := by
  unfold stream_process at h
  cases hin : stream_input input nframes sd with
  | none => simp [hin] at h
  | some sd1 =>
    have h1 := stream_input_blank input nframes sd sd1 hin
    simp only [hin] at h
    split_ifs at h
    · cases h; simpa [blankSd_sem_post] using h1
    · cases h; simpa using h1
    · exact (stream_output_blank zero nframes sd1 r h).trans h1

theorem outer_setSd {F D R : Type} (s : SoundPort F D R) (i : Fin 2) (x : stream_data F)
    (h : blankSd x = blankSd (s.sd i)) : outer (s.setSd i x) = outer s := by
  fin_cases i <;> simp_all [outer, SoundPort.sd, SoundPort.setSd]

theorem runCallback_outer {F D R : Type} (zero : F) (s : SoundPort F D R) (cb : Callback F) :
    outer (runCallback zero s cb) = outer s := by
  cases cb with
  | process d input hasOut nframes =>
    simp only [runCallback]
    cases h : stream_process zero input hasOut nframes (s.sd d) with
    | none => rfl
    | some r => exact outer_setSd s d r.sd (stream_process_blank _ _ _ _ _ _ h)
  | stopped d =>
    simp only [runCallback]
    apply outer_setSd
    simp only [stream_stopped, blankSd_sem_post]
    cases h : (s.sd d).rb <;> simp [blankSd, h, ringbuffer.reset]

theorem runCallbacks_outer {F D R : Type} (zero : F) (cbs : List (Callback F))
    (s : SoundPort F D R) : outer (runCallbacks zero s cbs) = outer s := by
  induction cbs generalizing s with
  | nil => rfl
  | cons cb cbs ih =>
    simp only [runCallbacks, List.foldl_cons] at ih ⊢
    rw [ih, runCallback_outer]

theorem sem_timedwaitr_outer {F D R : Type} (zero : F) (dir : Fin 2) (k : SemKind) (t : ℚ)
    (m : Sys F D R) : outer (sem_timedwaitr zero dir k t m).1.sp = outer m.sp := by
  unfold sem_timedwaitr
  simp only
  split
  · exact outer_setSd _ _ _ (blankSd_setSem _ _ _)
  · split
    · rfl
    · rfl
    · split
      · simp only
        rw [outer_setSd _ _ _ (blankSd_setSem _ _ _), runCallbacks_outer]
      · simp only [runCallbacks_outer]

theorem waitLoop_outer {F D R : Type} (zero : F) (cond : SoundPort F D R → Option Bool)
    (dir : Fin 2) (k : SemKind) (t : ℚ) (fuel : Nat) (m : Sys F D R) (r : Sys F D R × WaitEnd)
    (h : waitLoop zero cond dir k t fuel m = some r) : outer r.1.sp = outer m.sp := by
  induction fuel generalizing m with
  | zero => simp [waitLoop] at h
  | succ fuel ih =>
    unfold waitLoop at h
    cases hc : cond m.sp with
    | none => simp only [hc] at h; cases h; rfl
    | some b =>
      cases b with
      | true => simp only [hc] at h; cases h; rfl
      | false =>
        simp only [hc] at h
        have hk := sem_timedwaitr_outer zero dir k t m
        split_ifs at h
        · rw [ih _ h, hk]
        · cases h; exact hk
        · cases h; exact hk

theorem txKey_outer {F D R : Type} (s : SoundPort F D R) : txKey (outer s) = txKey s := by
  simp only [txKey, outer, blankSd]
  cases s.sd1.rb <;> rfl

theorem txKey_of_outer {F D R : Type} (s s1 : SoundPort F D R) (h : outer s1 = outer s) :
    txKey s1 = txKey s := by
  rw [← txKey_outer s1, h, txKey_outer]

/-! ## Write without resampling -/

theorem resample_write_copy_out {F D R : Type} (cx : Cx F D R) (m : Sys F D R)
    (wbuf : List F) (count : Nat) :
    ∃ r, resample_write_copy cx m wbuf count = some r ∧ txKey r.m.sp = txKey m.sp ∧
      ∀ n, r.out = .ret n → n = count := by
  unfold resample_write_copy
  obtain ⟨⟨m1, e⟩, hw⟩ := WAIT_FOR_COND_returns cx.ops.zero
    (fun sp => sp.sd1.rb.map (fun rb => decide (rb.write_space ≥ CHANNELS * count)))
    1 .rw (max 1 ((Nat.cast (2 * CHANNELS * count) : ℚ) / m.sp.sd1.dev_sample_rate)) m
  have hk : txKey m1.sp = txKey m.sp := txKey_of_outer _ _ (waitLoop_outer _ _ _ _ _ _ _ _ hw)
  simp only [hw]
  cases e with
  | ready =>
    simp only
    cases hrb : m1.sp.sd1.rb with
    | none => exact ⟨_, rfl, hk, fun n h => by cases h⟩
    | some rb =>
      refine ⟨_, rfl, ?_, fun n h => by cases h; rfl⟩
      rw [← hk]
      simp [txKey, hrb, ringbuffer.write]
  | timedout => exact ⟨_, rfl, hk, fun n h => by cases h⟩
  | failed e => exact ⟨_, rfl, hk, fun n h => by cases h⟩
  | undefined => exact ⟨_, rfl, hk, fun n h => by cases h⟩

theorem resample_write_block_plain {F D R : Type} (cx : Cx F D R) (m : Sys F D R)
    (data : List F) (count : Nat)
    (hrate : m.sp.req_sample_rate = m.sp.sd1.dev_sample_rate) (hcorr : cx.cfg.TX_corr = 0) :
    ∃ r, resample_write_block cx m data count = some r ∧ txKey r.m.sp = txKey m.sp ∧
      ∀ n, r.out = .ret n → n = count := by
  unfold resample_write_block
  cases hrb : m.sp.sd1.rb with
  | none => exact ⟨_, rfl, rfl, fun n h => by cases h⟩
  | some rb =>
    simp only [hrate, hcorr, ne_eq, not_true_eq_false, or_self, if_false]
    split_ifs
    · exact resample_write_copy_out cx m data count
    · exact ⟨_, rfl, rfl, fun n h => by cases h⟩

theorem txKey_maxframes {F D R : Type} (s s1 : SoundPort F D R) (rb rb1 : ringbuffer F)
    (hk : txKey s1 = txKey s) (hrb : s.sd1.rb = some rb) (hrb1 : s1.sd1.rb = some rb1) :
    resample_write_maxframes rb1 s1.tx_ratio = resample_write_maxframes rb s.tx_ratio := by
  simp only [txKey, Prod.mk.injEq, hrb, hrb1, Option.map_some', Option.some.injEq] at hk
  simp only [resample_write_maxframes, ringbuffer.length, hk.2.1, hk.2.2.2]

theorem txKey_rate {F D R : Type} (s s1 : SoundPort F D R) (hk : txKey s1 = txKey s)
    (hrate : s.req_sample_rate = s.sd1.dev_sample_rate) :
    s1.req_sample_rate = s1.sd1.dev_sample_rate := by
  simp only [txKey, Prod.mk.injEq] at hk
  rw [hk.1, hk.2.2.1]; exact hrate

theorem resample_write_nosplit_plain {F D R : Type} (cx : Cx F D R) (fuel : Nat)
    (m : Sys F D R) (data : List F) (count : Nat)
    (hrate : m.sp.req_sample_rate = m.sp.sd1.dev_sample_rate) (hcorr : cx.cfg.TX_corr = 0)
    (hmax : ∀ rb, m.sp.sd1.rb = some rb → count ≤ resample_write_maxframes rb m.sp.tx_ratio) :
    ∃ r, resample_write cx (fuel + 1) m data count = some r ∧ txKey r.m.sp = txKey m.sp ∧
      ∀ n, r.out = .ret n → n = count := by
  unfold resample_write
  cases hrb : m.sp.sd1.rb with
  | none => exact ⟨_, rfl, rfl, fun n h => by cases h⟩
  | some rb =>
    simp only [if_neg (not_lt.mpr (hmax rb hrb))]
    exact resample_write_block_plain cx m data count hrate hcorr

theorem resample_write_split_plain {F D R : Type}
    (rw : Sys F D R → List F → Nat → Option (WriteRun F D R)) (mf : Nat)
    (K : ℚ × ℚ × ℚ × Option Nat) (hmf : 1 ≤ mf)
    (hrw : ∀ m data c, txKey m.sp = K → c ≤ mf →
      ∃ r, rw m data c = some r ∧ txKey r.m.sp = K ∧ ∀ n, r.out = .ret n → n = c)
    (k : Nat) (m : Sys F D R) (data : List F) (count n0 : Nat)
    (hK : txKey m.sp = K) (hk : count < k) :
    ∃ r, resample_write_split rw mf k m data count n0 = some r ∧ txKey r.m.sp = K ∧
      ∀ n, r.out = .ret n → n = n0 + count := by
  induction k generalizing m data count n0 with
  | zero => omega
  | succ k ih =>
    unfold resample_write_split
    by_cases hc : count > mf
    · simp only [hc, if_true]
      obtain ⟨r, h1, h2, h3⟩ := hrw m data mf hK (le_refl _)
      simp only [h1]
      cases ho : r.out with
      | ret x =>
        simp only
        obtain ⟨r2, g1, g2, g3⟩ := ih r.m (data.drop (CHANNELS * mf)) (count - mf) (n0 + x) h2
          (by omega)
        refine ⟨r2, g1, g2, fun n hn => ?_⟩
        have := g3 n hn
        have := h3 x ho
        omega
      | throw e => exact ⟨r, rfl, h2, fun n hn => by rw [ho] at hn; cases hn⟩
      | undefined => exact ⟨r, rfl, h2, fun n hn => by rw [ho] at hn; cases hn⟩
      | aborted => exact ⟨r, rfl, h2, fun n hn => by rw [ho] at hn; cases hn⟩
    · simp only [hc, if_false]
      by_cases h0 : count > 0
      · simp only [h0, if_true]
        obtain ⟨r, h1, h2, h3⟩ := hrw m data count hK (by omega)
        simp only [h1]
        cases ho : r.out with
        | ret x =>
          refine ⟨_, rfl, h2, fun n hn => ?_⟩
          cases hn
          have := h3 x ho
          omega
        | throw e => exact ⟨r, rfl, h2, fun n hn => by rw [ho] at hn; cases hn⟩
        | undefined => exact ⟨r, rfl, h2, fun n hn => by rw [ho] at hn; cases hn⟩
        | aborted => exact ⟨r, rfl, h2, fun n hn => by rw [ho] at hn; cases hn⟩
      · simp only [h0, if_false]
        exact ⟨_, rfl, hK, fun n hn => by cases hn; omega⟩

/-- Without resampling `resample_write` returns, and the value it returns is `count`. -/
theorem resample_write_plain {F D R : Type} (cx : Cx F D R) (fuel : Nat)
    (m : Sys F D R) (data : List F) (count : Nat) (rb : ringbuffer F)
    (hrate : m.sp.req_sample_rate = m.sp.sd1.dev_sample_rate) (hcorr : cx.cfg.TX_corr = 0)
    (hrb : m.sp.sd1.rb = some rb)
    (hmf : 1 ≤ resample_write_maxframes rb m.sp.tx_ratio ∨
      count ≤ resample_write_maxframes rb m.sp.tx_ratio)
    (hfuel : count + 2 ≤ fuel) :
    ∃ r, resample_write cx fuel m data count = some r ∧ txKey r.m.sp = txKey m.sp ∧
      ∀ n, r.out = .ret n → n = count := by
  obtain ⟨f, rfl⟩ : ∃ f, fuel = f + 1 := ⟨fuel - 1, by omega⟩
  obtain ⟨g, rfl⟩ : ∃ g, f = g + 1 := ⟨f - 1, by omega⟩
  by_cases hc : count ≤ resample_write_maxframes rb m.sp.tx_ratio
  · exact resample_write_nosplit_plain cx (g + 1) m data count hrate hcorr
      (fun rb1 h1 => by rw [hrb] at h1; cases h1; exact hc)
  · have hmf1 : 1 ≤ resample_write_maxframes rb m.sp.tx_ratio := hmf.resolve_right hc
    have hrw : ∀ (m1 : Sys F D R) (d : List F) (c : Nat), txKey m1.sp = txKey m.sp →
        c ≤ resample_write_maxframes rb m.sp.tx_ratio →
        ∃ r, resample_write cx (g + 1) m1 d c = some r ∧ txKey r.m.sp = txKey m.sp ∧
          ∀ n, r.out = .ret n → n = c := by
      intro m1 d c hk hc1
      obtain ⟨r, h1, h2, h3⟩ := resample_write_nosplit_plain cx g m1 d c
        (txKey_rate _ _ hk hrate) hcorr
        (fun rb1 hrb1 => by rw [txKey_maxframes _ _ _ _ hk hrb hrb1]; exact hc1)
      exact ⟨r, h1, h2.trans hk, h3⟩
    conv => enter [1, r, 1, 1]; unfold resample_write
    simp only [hrb, not_le.mp hc, if_true]
    obtain ⟨r, h1, h2, h3⟩ := resample_write_split_plain (resample_write cx (g + 1))
      (resample_write_maxframes rb m.sp.tx_ratio) (txKey m.sp) hmf1 hrw (g + 1) m data count 0
      rfl (by omega)
    exact ⟨r, h1, h2, fun n h => by simpa using h3 n h⟩

@[simp] theorem Write_fill_sd1 {F D R : Type} (cx : Cx F D R) (s : SoundPort F D R)
    (buf : Nat → D) (count : Nat) : (Write_fill cx s buf count).sd1 = s.sd1 := by
  unfold Write_fill; split_ifs <;> rfl

@[simp] theorem Write_fill_req {F D R : Type} (cx : Cx F D R) (s : SoundPort F D R)
    (buf : Nat → D) (count : Nat) :
    (Write_fill cx s buf count).req_sample_rate = s.req_sample_rate := by
  unfold Write_fill; split_ifs <;> rfl

@[simp] theorem Write_fill_tx_ratio {F D R : Type} (cx : Cx F D R) (s : SoundPort F D R)
    (buf : Nat → D) (count : Nat) : (Write_fill cx s buf count).tx_ratio = s.tx_ratio := by
  unfold Write_fill; split_ifs <;> rfl

/-- When `resample_write` resamples a block that is not split, the value it returns is the
`output_frames_gen` of the converter. -/
theorem resample_write_block_resampled {F D R : Type} (cx : Cx F D R) (m : Sys F D R)
    (data : List F) (count : Nat)
    (hres : m.sp.req_sample_rate ≠ m.sp.sd1.dev_sample_rate ∨ cx.cfg.TX_corr ≠ 0) :
    ∃ r, resample_write_block cx m data count = some r ∧
      ∀ n, r.out = .ret n → ∃ s1 res,
        resample cx (1 <<< O_WRONLY) (window cx.ops.stale data (CHANNELS * count)) count 0 m.sp
          = (s1, .ret res) ∧ n = res.output_frames_gen := by
  unfold resample_write_block
  cases hrb : m.sp.sd1.rb with
  | none => exact ⟨_, rfl, fun n h => by cases h⟩
  | some rb =>
    simp only [hres, if_true]
    by_cases hassert : (Nat.cast (count * CHANNELS) : ℚ) * m.sp.tx_ratio ≤ (rb.length : ℚ)
    · simp only [hassert, not_true_eq_false, if_false]
      rcases hr : resample cx (1 <<< O_WRONLY) (window cx.ops.stale data (CHANNELS * count))
        count 0 m.sp with ⟨s1, o⟩
      cases o with
      | ret res =>
        simp only
        by_cases hd : decide (rb.get_wv.1 ≥ CHANNELS * Int.toNat ⌈(count : ℚ) * m.sp.tx_ratio⌉) = true
        · simp only [hd, if_true]
          exact ⟨_, rfl, fun n h => by cases h; exact ⟨s1, res, rfl, rfl⟩⟩
        · simp only [hd, if_false]
          obtain ⟨r, h1, _, h3⟩ := resample_write_copy_out cx { m with sp := s1 } res.data_out
            res.output_frames_gen
          exact ⟨r, h1, fun n h => ⟨s1, res, rfl, h3 n h⟩⟩
      | throw e => exact ⟨_, rfl, fun n h => by cases h⟩
      | undefined => exact ⟨_, rfl, fun n h => by cases h⟩
      | aborted => exact ⟨_, rfl, fun n h => by cases h⟩
    · simp only [hassert, not_false_eq_true, if_true]
      exact ⟨_, rfl, fun n h => by cases h⟩

/-- Claim C4 (as amended).  `SoundPort::Write(buf, count)` returns (given `count + 2`
rounds), and on success the value is the number of frames put into the output ring:
`count` itself when nothing is resampled (the modem rate equals the output device rate and
`TX_corr` is 0), also when the request is split because `count > maxframes`; the
`output_frames_gen` of the converter, in device-rate frames, when a block of at most
`maxframes` frames is resampled. -/
theorem C4_Write_returns_frames_enqueued {F D R : Type} (cx : Cx F D R) (fuel : Nat)
    (m : Sys F D R) (buf : Nat → D) (count : Nat) (rb : ringbuffer F)
    (hrb : m.sp.sd1.rb = some rb)
    (hmf : 1 ≤ resample_write_maxframes rb m.sp.tx_ratio ∨
      count ≤ resample_write_maxframes rb m.sp.tx_ratio)
    (hfuel : count + 2 ≤ fuel) :
    (m.sp.req_sample_rate = m.sp.sd1.dev_sample_rate → cx.cfg.TX_corr = 0 →
      ∃ r, Write cx fuel m buf count = some r ∧ ∀ n, r.out = .ret n → n = count) ∧
    (count ≤ resample_write_maxframes rb m.sp.tx_ratio →
      (m.sp.req_sample_rate ≠ m.sp.sd1.dev_sample_rate ∨ cx.cfg.TX_corr ≠ 0) →
      ∃ r, Write cx fuel m buf count = some r ∧
        ∀ n, r.out = .ret n → ∃ s1 res,
          resample cx (1 <<< O_WRONLY)
              (window cx.ops.stale (Write_fill cx m.sp buf count).fbuf (CHANNELS * count))
              count 0 (Write_fill cx m.sp buf count) = (s1, .ret res) ∧
            n = res.output_frames_gen) := by
  constructor
  · intro hrate hcorr
    obtain ⟨r, h1, _, h3⟩ := resample_write_plain cx fuel
      { m with sp := Write_fill cx m.sp buf count } (Write_fill cx m.sp buf count).fbuf count rb
      (by simpa using hrate) hcorr (by simpa using hrb) (by simpa using hmf) hfuel
    exact ⟨r, h1, h3⟩
  · intro hc hres
    obtain ⟨f, rfl⟩ : ∃ f, fuel = f + 1 := ⟨fuel - 1, by omega⟩
    obtain ⟨r, h1, h2⟩ := resample_write_block_resampled cx
      { m with sp := Write_fill cx m.sp buf count } (Write_fill cx m.sp buf count).fbuf count
      (by simpa using hres)
    refine ⟨r, ?_, h2⟩
    simp only [Write, resample_write, Write_fill_sd1, hrb, Write_fill_tx_ratio,
      if_neg (not_lt.mpr hc)]
    exact h1

/-- Witness of C4: on the plain port with an empty output ring of 64 floats, `Write` of 20
frames (`maxframes` is 16, so the request is split) returns 20. -/
theorem C4_witness :
    resample_write_maxframes emptyRing64 1 = 16 ∧
    (Write plainCx 22 (quietSys (plainPort emptyRing8 emptyRing64)) (fun i => 100 + (i : Int)) 20).map
      (fun r => r.out) = some (.ret 20) ∧
    ∃ r, Write plainCx 22 (quietSys (plainPort emptyRing8 emptyRing64))
        (fun i => 100 + (i : Int)) 20 = some r ∧ ∀ n, r.out = .ret n → n = 20 :=
  ⟨by decide!, by decide!,
   (C4_Write_returns_frames_enqueued plainCx 22 (quietSys (plainPort emptyRing8 emptyRing64))
      (fun i => 100 + (i : Int)) 20 emptyRing64 rfl (Or.inl (by decide!)) (by decide)).1 rfl rfl⟩

/-- Counterexample to C4 as stated: the modem at 8000 Hz on an output device at 48000 Hz
(tx ratio 6), the output ring of 64 floats empty (`maxframes` is 2).  `Write` of 2 frames
succeeds and returns 12, the device-rate frames put into the ring, not 2. -/
theorem C4_counterexample :
    resample_write_maxframes emptyRing64 txUpPort.tx_ratio = 2 ∧
    (Write plainCx 3 (quietSys txUpPort) (fun i => 100 + (i : Int)) 2).map
      (fun r => (r.out, r.m.sp.sd1.rb.map (fun rb => rb.data.length))) = some (.ret 12, some 24) := by
  decide!

/-! ## The round trip -/

theorem window_eq_self {F : Type} (stale : F) (xs : List F) :
    window stale xs xs.length = xs := by
  apply List.ext_getElem
  · simp [window]
  · intro i h1 h2
    simp [window, List.getD_eq_getElem?_getD, List.getElem?_eq_getElem h2]

theorem window_append_left {F : Type} (stale : F) (xs ys : List F) :
    window stale (xs ++ ys) xs.length = xs := by
  apply List.ext_getElem
  · simp [window]
  · intro i h1 h2
    simp [window, List.getD_eq_getElem?_getD, List.getElem?_append_left h2,
      List.getElem?_eq_getElem h2]

theorem interleave_length {F D : Type} (ops : SampleOps F D) (l r : Nat → D) (count : Nat) :
    (interleave ops l r count).length = CHANNELS * count := by
  simp [interleave]

theorem load_length {A : Type} (buf : Nat → A) (off n : Nat) : (load buf off n).length = n := by
  simp [load]

theorem load_getD_window {F : Type} (zero stale : F) (xs : List F) :
    window stale (load (fun i => xs.getD i zero) 0 xs.length) xs.length = xs := by
  apply List.ext_getElem
  · simp [window]
  · intro i h1 h2
    simp [window, load, List.getD_eq_getElem?_getD, List.getElem?_eq_getElem h2, h2]

/-- The copy of `resample_write` when the ring has the space at once. -/
theorem resample_write_copy_ready {F D R : Type} (cx : Cx F D R) (m : Sys F D R)
    (wbuf : List F) (count : Nat) (rb : ringbuffer F) (hrb : m.sp.sd1.rb = some rb)
    (hspace : CHANNELS * count ≤ rb.write_space) :
    resample_write_copy cx m wbuf count =
      some ⟨{ m with sp := { m.sp with sd1 := { m.sp.sd1 with
              rb := some { rb with data := rb.data ++ window cx.ops.stale wbuf (CHANNELS * count) } } } },
            .ret count⟩ := by
  unfold resample_write_copy
  rw [WAIT_FOR_COND_ready]
  · simp only [hrb, ringbuffer.write]
    have : min (window cx.ops.stale wbuf (CHANNELS * count)).length rb.write_space
        = CHANNELS * count := by
      simp [window]; exact hspace
    rw [this]
    have h2 : List.take (CHANNELS * count) (window cx.ops.stale wbuf (CHANNELS * count))
        = window cx.ops.stale wbuf (CHANNELS * count) := by
      apply List.take_of_length_le; simp [window]
    rw [h2]
  · simp [hrb, hspace]

/-- `Write` of a block that is not split, nothing resampled, into a ring that has the space
at once: the interleaved block is appended to the output ring. -/
theorem Write_plain_ready {F D R : Type} (cx : Cx F D R) (fuel : Nat) (m : Sys F D R)
    (buf : Nat → D) (count : Nat) (rb : ringbuffer F)
    (hrate : m.sp.req_sample_rate = m.sp.sd1.dev_sample_rate) (hcorr : cx.cfg.TX_corr = 0)
    (hrb : m.sp.sd1.rb = some rb)
    (hmax : count ≤ resample_write_maxframes rb m.sp.tx_ratio)
    (hassert : (Nat.cast (count * CHANNELS) : ℚ) * m.sp.tx_ratio ≤ (rb.length : ℚ))
    (hspace : CHANNELS * count ≤ rb.write_space) :
    Write cx (fuel + 1) m buf count =
      some ⟨{ m with sp := { Write_fill cx m.sp buf count with sd1 := { m.sp.sd1 with
              rb := some { rb with data := rb.data ++ interleave cx.ops buf buf count } } } },
            .ret count⟩ := by
  have hfb : window cx.ops.stale (Write_fill cx m.sp buf count).fbuf (CHANNELS * count)
      = interleave cx.ops buf buf count := by
    have : (Write_fill cx m.sp buf count).fbuf
        = interleave cx.ops buf buf count ++
          (if m.sp.generate then m.sp.fbuf else m.sp.fbuf).drop (interleave cx.ops buf buf count).length := by
      unfold Write_fill overlay; split_ifs <;> rfl
    rw [this, ← interleave_length cx.ops buf buf count, window_append_left]
  simp only [Write, resample_write, Write_fill_sd1, hrb, Write_fill_tx_ratio,
    if_neg (not_lt.mpr hmax), resample_write_block, Write_fill_req, hrate, hcorr, hassert]
  simp only [ne_eq, not_true_eq_false, or_self, if_false]
  rw [resample_write_copy_ready cx _ _ count rb (by simpa using hrb) hspace, hfb]
  simp [hrate]

@[simp] theorem Write_fill_playback {F D R : Type} (cx : Cx F D R) (s : SoundPort F D R)
    (buf : Nat → D) (count : Nat) : (Write_fill cx s buf count).playback = s.playback := by
  unfold Write_fill; split_ifs <;> rfl

@[simp] theorem Write_fill_rxppm {F D R : Type} (cx : Cx F D R) (s : SoundPort F D R)
    (buf : Nat → D) (count : Nat) : (Write_fill cx s buf count).rxppm = s.rxppm := by
  unfold Write_fill; split_ifs <;> rfl

@[simp] theorem Write_fill_rx_ratio {F D R : Type} (cx : Cx F D R) (s : SoundPort F D R)
    (buf : Nat → D) (count : Nat) : (Write_fill cx s buf count).rx_ratio = s.rx_ratio := by
  unfold Write_fill; split_ifs <;> rfl

theorem resample_write_maxframes_one {F : Type} (rb : ringbuffer F) :
    resample_write_maxframes rb 1 = rb.size / CHANNELS / 2 := by
  simp only [resample_write_maxframes, ringbuffer.length, div_one, Int.floor_natCast,
    Int.toNat_ofNat]

theorem interleave_even {F D : Type} (ops : SampleOps F D) (l r : Nat → D) (count i : Nat)
    (hi : i < count) : (interleave ops l r count)[CHANNELS * i]? = some (ops.toFloat (l i)) := by
  have h : CHANNELS * i < CHANNELS * count := by unfold CHANNELS; omega
  unfold interleave
  rw [List.getElem?_map, List.getElem?_range h]
  simp [CHANNELS]

theorem interleave_odd {F D : Type} (ops : SampleOps F D) (l r : Nat → D) (count i : Nat)
    (hi : i < count) :
    (interleave ops l r count)[CHANNELS * i + 1]? = some (ops.toFloat (r i)) := by
  have h : CHANNELS * i + 1 < CHANNELS * count := by unfold CHANNELS; omega
  have h2 : (2 * i + 1) / 2 = i := by omega
  unfold interleave
  rw [List.getElem?_map, List.getElem?_range h]
  simp [CHANNELS, Nat.add_mod, h2]

/-! ## `resample_write` does not look at the sound files -/

section files

variable {F D R : Type} (c g : Option (SNDFILE D))

theorem withFiles_sd (s : SoundPort F D R) (i : Fin 2) : (withFiles c g s).sd i = s.sd i := by
  fin_cases i <;> rfl

theorem withFiles_setSd (s : SoundPort F D R) (i : Fin 2) (x : stream_data F) :
    (withFiles c g s).setSd i x = withFiles c g (s.setSd i x) := by
  fin_cases i <;> rfl

theorem runCallback_withFiles (zero : F) (s : SoundPort F D R) (cb : Callback F) :
    runCallback zero (withFiles c g s) cb = withFiles c g (runCallback zero s cb) := by
  cases cb with
  | process d input hasOut nframes =>
    simp only [runCallback, withFiles_sd]
    cases stream_process zero input hasOut nframes (s.sd d) with
    | none => rfl
    | some r => exact withFiles_setSd c g s d r.sd
  | stopped d =>
    simp only [runCallback, withFiles_sd]
    exact withFiles_setSd c g s d _

theorem runCallbacks_withFiles (zero : F) (cbs : List (Callback F)) (s : SoundPort F D R) :
    runCallbacks zero (withFiles c g s) cbs = withFiles c g (runCallbacks zero s cbs) := by
  induction cbs generalizing s with
  | nil => rfl
  | cons cb cbs ih =>
    simp only [runCallbacks, List.foldl_cons] at ih ⊢
    rw [runCallback_withFiles, ih]

theorem sem_timedwaitr_withFiles (zero : F) (dir : Fin 2) (k : SemKind) (t : ℚ)
    (m : Sys F D R) :
    sem_timedwaitr zero dir k t (m.withFiles c g)
      = ((sem_timedwaitr zero dir k t m).1.withFiles c g, (sem_timedwaitr zero dir k t m).2) := by
  unfold sem_timedwaitr
  simp only [Sys.withFiles, withFiles_sd]
  split
  · simp only [withFiles_setSd]
  · cases m.env with
    | nil => rfl
    | cons ep env =>
      cases ep with
      | fail e => rfl
      | run cbs =>
        simp only [runCallbacks_withFiles, withFiles_sd]
        split <;> simp only [withFiles_setSd]

theorem waitLoop_withFiles (zero : F) (cond : SoundPort F D R → Option Bool)
    (hcond : ∀ s, cond (withFiles c g s) = cond s)
    (dir : Fin 2) (k : SemKind) (t : ℚ) (fuel : Nat) (m : Sys F D R) :
    waitLoop zero cond dir k t fuel (m.withFiles c g)
      = (waitLoop zero cond dir k t fuel m).map (fun r => (r.1.withFiles c g, r.2)) := by
  induction fuel generalizing m with
  | zero => rfl
  | succ fuel ih =>
    unfold waitLoop
    have hc : cond (m.withFiles c g).sp = cond m.sp := hcond m.sp
    rw [hc, sem_timedwaitr_withFiles]
    cases cond m.sp with
    | none => rfl
    | some b =>
      cases b with
      | true => rfl
      | false =>
        simp only
        split_ifs
        · exact ih _
        · rfl
        · rfl

theorem WAIT_FOR_COND_withFiles (zero : F) (cond : SoundPort F D R → Option Bool)
    (hcond : ∀ s, cond (withFiles c g s) = cond s)
    (dir : Fin 2) (k : SemKind) (t : ℚ) (m : Sys F D R) :
    WAIT_FOR_COND zero cond dir k t (m.withFiles c g)
      = (WAIT_FOR_COND zero cond dir k t m).map (fun r => (r.1.withFiles c g, r.2)) := by
  unfold WAIT_FOR_COND
  rw [waitLoop_withFiles c g zero cond hcond]
  simp only [Sys.withFiles, withFiles_sd]

theorem resample_retune_rx_withFiles (cx : Cx F D R) (s : SoundPort F D R) :
    resample_retune_rx cx (withFiles c g s) = withFiles c g (resample_retune_rx cx s) := by
  unfold resample_retune_rx
  split_ifs with h1 h2 h2
  · rfl
  · exact absurd h1 h2
  · exact absurd h2 h1
  · rfl

theorem resample_retune_tx_withFiles (cx : Cx F D R) (s : SoundPort F D R) :
    resample_retune_tx cx (withFiles c g s) = withFiles c g (resample_retune_tx cx s) := by
  unfold resample_retune_tx
  split_ifs with h1 h2 h2
  · rfl
  · exact absurd h1 h2
  · exact absurd h2 h1
  · rfl

theorem resample_withFiles (cx : Cx F D R) (mode : Nat) (data : List F) (count max : Nat)
    (s : SoundPort F D R) :
    resample cx mode data count max (withFiles c g s)
      = (withFiles c g (resample cx mode data count max s).1,
          (resample cx mode data count max s).2) := by
  unfold resample
  by_cases h1 : mode &&& (1 <<< O_RDONLY) ≠ 0
  · rw [if_pos h1, if_pos h1]
    simp only [resample_retune_rx_withFiles]
    have : (withFiles c g (resample_retune_rx cx s)).rx_src_state
        = (resample_retune_rx cx s).rx_src_state := rfl
    have h2 : (withFiles c g (resample_retune_rx cx s)).rx_ratio
        = (resample_retune_rx cx s).rx_ratio := rfl
    rw [this, h2]
    cases cx.src.src_process (resample_retune_rx cx s).rx_src_state
      (resample_retune_rx cx s).rx_ratio data count (if max ≠ 0 then max else SND_BUF_LEN) <;> rfl
  · rw [if_neg h1, if_neg h1]
    by_cases h3 : mode &&& (1 <<< O_WRONLY) ≠ 0
    · rw [if_pos h3, if_pos h3]
      simp only [resample_retune_tx_withFiles]
      have : (withFiles c g (resample_retune_tx cx s)).tx_src_state
          = (resample_retune_tx cx s).tx_src_state := rfl
      have h2 : (withFiles c g (resample_retune_tx cx s)).tx_ratio
          = (resample_retune_tx cx s).tx_ratio := rfl
      rw [this, h2]
      cases cx.src.src_process (resample_retune_tx cx s).tx_src_state
        (resample_retune_tx cx s).tx_ratio data count (if max ≠ 0 then max else SND_BUF_LEN) <;> rfl
    · rw [if_neg h3, if_neg h3]

theorem resample_write_copy_withFiles (cx : Cx F D R) (m : Sys F D R) (wbuf : List F)
    (count : Nat) :
    resample_write_copy cx (m.withFiles c g) wbuf count
      = (resample_write_copy cx m wbuf count).map (WriteRun.withFiles c g) := by
  unfold resample_write_copy
  rw [show (m.withFiles c g).sp.sd1.dev_sample_rate = m.sp.sd1.dev_sample_rate from rfl,
    WAIT_FOR_COND_withFiles c g cx.ops.zero
      (fun sp => sp.sd1.rb.map (fun rb => decide (rb.write_space ≥ CHANNELS * count)))
      (fun s => rfl)]
  cases WAIT_FOR_COND cx.ops.zero
      (fun sp => sp.sd1.rb.map (fun rb => decide (rb.write_space ≥ CHANNELS * count)))
      1 .rw (max 1 ((Nat.cast (2 * CHANNELS * count) : ℚ) / m.sp.sd1.dev_sample_rate)) m with
  | none => rfl
  | some r =>
    obtain ⟨m1, e⟩ := r
    cases e with
    | ready =>
      simp only [Option.map_some']
      rw [show (m1.withFiles c g).sp.sd1.rb = m1.sp.sd1.rb from rfl]
      cases m1.sp.sd1.rb <;> rfl
    | timedout => rfl
    | failed e => rfl
    | undefined => rfl

theorem resample_write_block_withFiles (cx : Cx F D R) (m : Sys F D R) (data : List F)
    (count : Nat) :
    resample_write_block cx (m.withFiles c g) data count
      = (resample_write_block cx m data count).map (WriteRun.withFiles c g) := by
  unfold resample_write_block
  rw [show (m.withFiles c g).sp.sd1.rb = m.sp.sd1.rb from rfl]
  cases m.sp.sd1.rb with
  | none => rfl
  | some rb =>
    simp only [show (m.withFiles c g).sp = withFiles c g m.sp from rfl,
      show (withFiles c g m.sp).tx_ratio = m.sp.tx_ratio from rfl,
      show (withFiles c g m.sp).req_sample_rate = m.sp.req_sample_rate from rfl,
      show (withFiles c g m.sp).sd1 = m.sp.sd1 from rfl, resample_withFiles]
    by_cases hassert : (Nat.cast (count * CHANNELS) : ℚ) * m.sp.tx_ratio ≤ (rb.length : ℚ)
    · simp only [hassert, not_true_eq_false, if_false]
      by_cases hres : m.sp.req_sample_rate ≠ m.sp.sd1.dev_sample_rate ∨ cx.cfg.TX_corr ≠ 0
      · rw [if_pos hres, if_pos hres]
        rcases resample cx (1 <<< O_WRONLY) (window cx.ops.stale data (CHANNELS * count))
          count 0 m.sp with ⟨s1, o⟩
        cases o with
        | ret res =>
          simp only
          by_cases hd : decide (rb.get_wv.1 ≥ CHANNELS * Int.toNat ⌈(count : ℚ) * m.sp.tx_ratio⌉) = true
          · rw [if_pos hd, if_pos hd]; rfl
          · rw [if_neg hd, if_neg hd]
            exact resample_write_copy_withFiles c g cx { m with sp := s1 } _ _
        | throw e => rfl
        | undefined => rfl
        | aborted => rfl
      · rw [if_neg hres, if_neg hres]
        exact resample_write_copy_withFiles c g cx m data count
    · simp only [hassert, not_false_eq_true, if_true]
      rfl

theorem resample_write_split_withFiles
    (rw1 : Sys F D R → List F → Nat → Option (WriteRun F D R)) (mf : Nat)
    (hrw : ∀ m data n, rw1 (m.withFiles c g) data n = (rw1 m data n).map (WriteRun.withFiles c g))
    (k : Nat) (m : Sys F D R) (data : List F) (count n0 : Nat) :
    resample_write_split rw1 mf k (m.withFiles c g) data count n0
      = (resample_write_split rw1 mf k m data count n0).map (WriteRun.withFiles c g) := by
  induction k generalizing m data count n0 with
  | zero => rfl
  | succ k ih =>
    unfold resample_write_split
    simp only [hrw]
    split_ifs
    · cases rw1 m data mf with
      | none => rfl
      | some r =>
        simp only [Option.map_some']
        rw [show (WriteRun.withFiles c g r).out = r.out from rfl]
        cases r.out with
        | ret x => exact ih r.m _ _ _
        | throw e => rfl
        | undefined => rfl
        | aborted => rfl
    · cases rw1 m data count with
      | none => rfl
      | some r =>
        simp only [Option.map_some']
        rw [show (WriteRun.withFiles c g r).out = r.out from rfl]
        cases r.out <;> rfl
    · rfl

/-- `resample_write` neither reads nor writes the capture and generate file handles. -/
theorem resample_write_withFiles (cx : Cx F D R) (fuel : Nat) (m : Sys F D R) (data : List F)
    (count : Nat) :
    resample_write cx fuel (m.withFiles c g) data count
      = (resample_write cx fuel m data count).map (WriteRun.withFiles c g) := by
  induction fuel generalizing m data count with
  | zero => rfl
  | succ fuel ih =>
    unfold resample_write
    rw [show (m.withFiles c g).sp.sd1.rb = m.sp.sd1.rb from rfl]
    cases m.sp.sd1.rb with
    | none => rfl
    | some rb =>
      simp only [show (m.withFiles c g).sp.tx_ratio = m.sp.tx_ratio from rfl]
      split_ifs
      · exact resample_write_split_withFiles c g _ _ (fun m1 d n => ih m1 d n) _ _ _ _ _
      · exact resample_write_block_withFiles c g cx m data count

end files

theorem Write_fill_eq_withFiles {F D R : Type} (cx : Cx F D R) (s : SoundPort F D R)
    (b : Nat → D) (n : Nat) :
    Write_fill cx s b n =
      withFiles s.ofCapture
        (if s.generate then write_file s.ofGenerate (load b 0 n) else s.ofGenerate)
        { s with fbuf := overlay (interleave cx.ops b b n) s.fbuf } := by
  unfold Write_fill withFiles
  split_ifs <;> rfl

theorem Write_stereo_fill_eq_withFiles {F D R : Type} (cx : Cx F D R) (s : SoundPort F D R)
    (l r : Nat → D) (n : Nat) :
    Write_stereo_fill cx s l r n =
      withFiles (if s.generate then write_file s.ofCapture (load l 0 n) else s.ofCapture)
        s.ofGenerate
        { s with fbuf := overlay (interleave cx.ops l r n) s.fbuf } := by
  unfold Write_stereo_fill withFiles
  split_ifs <;> rfl

/-- Claim C6.  `SoundPort::Write_stereo(l, r, n)` hands `resample_write` the array `fbuf`
whose first `2 * n` floats are `l[0], r[0], l[1], r[1], ..., l[n-1], r[n-1]`;
`Write_stereo(b, b, n)` returns the same value as `Write(b, n)` from the same state, and
leaves the same output stream data (the ring with its floats, the semaphores, the state),
the same `fbuf`, script and trace. -/
theorem C6_Write_stereo_interleaves {F D R : Type} (cx : Cx F D R) (fuel : Nat)
    (m : Sys F D R) (l r b : Nat → D) (n : Nat) :
    (Write_stereo cx fuel m l r n =
        resample_write cx fuel { m with sp := Write_stereo_fill cx m.sp l r n }
          (Write_stereo_fill cx m.sp l r n).fbuf n ∧
      window cx.ops.stale (Write_stereo_fill cx m.sp l r n).fbuf (CHANNELS * n)
        = interleave cx.ops l r n ∧
      ∀ i, i < n →
        (interleave cx.ops l r n)[CHANNELS * i]? = some (cx.ops.toFloat (l i)) ∧
        (interleave cx.ops l r n)[CHANNELS * i + 1]? = some (cx.ops.toFloat (r i))) ∧
    (Write_stereo cx fuel m b b n).map
        (fun w => (w.out, w.m.sp.sd1, w.m.sp.sd0, w.m.sp.fbuf, w.m.env, w.m.trace))
      = (Write cx fuel m b n).map
        (fun w => (w.out, w.m.sp.sd1, w.m.sp.sd0, w.m.sp.fbuf, w.m.env, w.m.trace)) := by
  refine ⟨⟨rfl, ?_, fun i hi => ⟨interleave_even _ _ _ _ _ hi, interleave_odd _ _ _ _ _ hi⟩⟩, ?_⟩
  · rw [Write_stereo_fill_eq_withFiles]
    simp only [withFiles, overlay]
    rw [← interleave_length cx.ops l r n, window_append_left]
  · unfold Write_stereo Write
    simp only [Write_stereo_fill_eq_withFiles, Write_fill_eq_withFiles]
    have key : ∀ (c g : Option (SNDFILE D)),
        (resample_write cx fuel
          { m with sp := withFiles c g { m.sp with fbuf := overlay (interleave cx.ops b b n) m.sp.fbuf } }
          (withFiles c g { m.sp with fbuf := overlay (interleave cx.ops b b n) m.sp.fbuf }).fbuf n).map
          (fun w => (w.out, w.m.sp.sd1, w.m.sp.sd0, w.m.sp.fbuf, w.m.env, w.m.trace))
        = (resample_write cx fuel
          { m with sp := { m.sp with fbuf := overlay (interleave cx.ops b b n) m.sp.fbuf } }
          (overlay (interleave cx.ops b b n) m.sp.fbuf) n).map
          (fun w => (w.out, w.m.sp.sd1, w.m.sp.sd0, w.m.sp.fbuf, w.m.env, w.m.trace)) := by
      intro c g
      have := resample_write_withFiles c g cx fuel
        { m with sp := { m.sp with fbuf := overlay (interleave cx.ops b b n) m.sp.fbuf } }
        (overlay (interleave cx.ops b b n) m.sp.fbuf) n
      simp only [Sys.withFiles] at this
      rw [show (withFiles c g { m.sp with fbuf := overlay (interleave cx.ops b b n) m.sp.fbuf }).fbuf
        = overlay (interleave cx.ops b b n) m.sp.fbuf from rfl, this, Option.map_map]
      rfl
    rw [key, key]

/-! ## The output side of the callback -/

theorem stream_input_state {F : Type} (input : Option (Nat → F)) (nframes : Nat)
    (sd sd1 : stream_data F) (h : stream_input input nframes sd = some sd1) :
    sd1.state = sd.state ∧ sd1.csem = sd.csem ∧
      ((input = none ∨ sd.state ≠ spa_continue) → sd1 = sd) := by
  unfold stream_input at h
  cases input with
  | none => cases h; exact ⟨rfl, rfl, fun _ => rfl⟩
  | some inp =>
    cases hrb : sd.rb <;> simp only [hrb] at h <;> split_ifs at h with hs <;> cases h
    · exact ⟨rfl, rfl, fun _ => rfl⟩
    · refine ⟨by simp, by simp [sem_post, setSem], fun h => ?_⟩
      rcases h with h | h
      · cases h
      · exact absurd hs h
    · exact ⟨rfl, rfl, fun _ => rfl⟩

/-- The output part of `stream_process`, case by case. -/
theorem stream_output_spec {F : Type} (zero : F) (nframes : Nat) (sd : stream_data F)
    (rb : ringbuffer F) (hrb : sd.rb = some rb) (hst : sd.state ≠ spa_abort) :
    ∃ res, stream_output zero nframes sd = some res ∧
      res.out = rb.data.take (CHANNELS * nframes) ++
        List.replicate (CHANNELS * nframes - (rb.data.take (CHANNELS * nframes)).length) zero ∧
      res.sd.rb = some (rb.read (CHANNELS * nframes)).2 ∧
      res.sd.rwsem = sd.rwsem + (if (rb.data.take (CHANNELS * nframes)).length ≠ 0 then 1 else 0) ∧
      ((sd.state = spa_continue ∨ (rb.read (CHANNELS * nframes)).2.read_space > 0) →
        res.ret = paContinue ∧ res.sd.state = sd.state ∧ res.sd.csem = sd.csem) ∧
      (¬ (sd.state = spa_continue ∨ (rb.read (CHANNELS * nframes)).2.read_space > 0) →
        sd.state = spa_drain →
        res.ret = paContinue ∧ res.sd.state = spa_continue ∧ res.sd.csem = sd.csem + 1) ∧
      (¬ (sd.state = spa_continue ∨ (rb.read (CHANNELS * nframes)).2.read_space > 0) →
        sd.state ≠ spa_drain →
        res.ret = sd.state ∧ res.sd.state = sd.state ∧ res.sd.csem = sd.csem) := by
  unfold stream_output
  simp only [hst, hrb, if_false]
  have hread1 : (rb.read (CHANNELS * nframes)).1 = rb.data.take (CHANNELS * nframes) := rfl
  simp only [hread1]
  by_cases hs : (rb.data.take (CHANNELS * nframes)).length = 0
  · simp only [hs, ne_eq, not_true_eq_false, if_false]
    by_cases hc : sd.state = spa_continue ∨ (rb.read (CHANNELS * nframes)).2.read_space > 0
    · rw [if_pos hc]
      exact ⟨_, rfl, rfl, rfl, rfl, fun _ => ⟨rfl, rfl, rfl⟩, fun h => absurd hc h,
        fun h => absurd hc h⟩
    · rw [if_neg hc]
      by_cases hd : sd.state = spa_drain
      · rw [if_pos hd]
        exact ⟨_, rfl, rfl, by simp, by simp [sem_post, setSem], fun h => absurd h hc,
          fun _ _ => ⟨rfl, by simp, by simp [sem_post, setSem, semCount]⟩,
          fun _ h => absurd hd h⟩
      · rw [if_neg hd]
        exact ⟨_, rfl, rfl, rfl, rfl, fun h => absurd h hc, fun _ h => absurd h hd,
          fun _ _ => ⟨rfl, rfl, rfl⟩⟩
  · simp only [hs, ne_eq, not_false_eq_true, if_true, sem_post_state]
    by_cases hc : sd.state = spa_continue ∨ (rb.read (CHANNELS * nframes)).2.read_space > 0
    · rw [if_pos hc]
      exact ⟨_, rfl, rfl, by simp, by simp [sem_post, setSem, semCount],
        fun _ => ⟨rfl, by simp, by simp [sem_post, setSem]⟩, fun h => absurd hc h,
        fun h => absurd hc h⟩
    · rw [if_neg hc]
      by_cases hd : sd.state = spa_drain
      · rw [if_pos hd]
        exact ⟨_, rfl, rfl, by simp, by simp [sem_post, setSem, semCount], fun h => absurd h hc,
          fun _ _ => ⟨rfl, by simp, by simp [sem_post, setSem, semCount]⟩,
          fun _ h => absurd hd h⟩
      · rw [if_neg hd]
        exact ⟨_, rfl, rfl, by simp, by simp [sem_post, setSem, semCount], fun h => absurd h hc,
          fun _ h => absurd h hd, fun _ _ => ⟨by simp, by simp, by simp [sem_post, setSem]⟩⟩

theorem stream_process_out {F : Type} (zero : F) (input : Option (Nat → F)) (nframes : Nat)
    (sd sd1 : stream_data F) (hin : stream_input input nframes sd = some sd1) :
    stream_process zero input true nframes sd = stream_output zero nframes sd1 := by
  simp [stream_process, hin]

/-- Claim C7.  An invocation of `SoundPort::stream_process` with a non-null output buffer,
`nframes` frames and `state != ABORT`; `sd1` is the stream data when the output part is
reached (`sd` itself when `in` is null, as for every output stream, or when the state is
not CONTINUE), its ring `rb` holds `r` readable floats and `m = min(r, 2 * nframes)`.
Then `out` has `2 * nframes` floats, `out[0..m)` are the `m` oldest floats of the ring in
FIFO order, `out[m..2*nframes)` are all 0, the ring loses exactly these `m` floats, and
`rw_sem` is posted once if `m > 0` and not at all if `m = 0`. -/
theorem C7_stream_process_output {F : Type} (zero : F) (input : Option (Nat → F))
    (nframes : Nat) (sd sd1 : stream_data F) (rb : ringbuffer F)
    (hin : stream_input input nframes sd = some sd1)
    (hrb : sd1.rb = some rb) (hst : sd.state ≠ spa_abort) :
    ((input = none ∨ sd.state ≠ spa_continue) → sd1 = sd) ∧
    ∃ res, stream_process zero input true nframes sd = some res ∧
      res.out.length = CHANNELS * nframes ∧
      res.out.take (min rb.read_space (CHANNELS * nframes))
        = rb.data.take (min rb.read_space (CHANNELS * nframes)) ∧
      (∀ j, min rb.read_space (CHANNELS * nframes) ≤ j → j < CHANNELS * nframes →
        res.out[j]? = some zero) ∧
      (∃ rb1, res.sd.rb = some rb1 ∧
        rb1.data = rb.data.drop (min rb.read_space (CHANNELS * nframes)) ∧
        rb1.read_space + min rb.read_space (CHANNELS * nframes) = rb.read_space) ∧
      res.sd.rwsem
        = sd1.rwsem + (if min rb.read_space (CHANNELS * nframes) > 0 then 1 else 0) := by
  obtain ⟨hs1, _, hsame⟩ := stream_input_state input nframes sd sd1 hin
  refine ⟨hsame, ?_⟩
  obtain ⟨res, h1, hout, hring, hsem, _⟩ := stream_output_spec zero nframes sd1 rb hrb
    (by rw [hs1]; exact hst)
  have hlen : (List.take (CHANNELS * nframes) rb.data).length
      = min rb.read_space (CHANNELS * nframes) := by
    simp [ringbuffer.read_space, Nat.min_comm]
  rw [hlen] at hout hsem
  refine ⟨res, by rw [stream_process_out zero input nframes sd sd1 hin]; exact h1, ?_, ?_, ?_, ?_, ?_⟩
  · rw [hout, List.length_append, List.length_replicate, hlen]; omega
  · rw [hout, ← hlen, List.take_append_eq_append_take, List.take_length]
    simp
  · intro j hj1 hj2
    rw [hout, List.getElem?_append_right (by rw [hlen]; exact hj1), hlen,
      List.getElem?_replicate]
    have : j - min rb.read_space (CHANNELS * nframes)
        < CHANNELS * nframes - min rb.read_space (CHANNELS * nframes) := by omega
    simp [this]
  · refine ⟨_, hring, ?_, ?_⟩
    · simp [ringbuffer.read, ringbuffer.read_advance, Nat.min_comm]
    · simp only [ringbuffer.read, ringbuffer.read_advance, ringbuffer.read_space,
        List.length_drop]
      omega
  · rw [hsem]
    by_cases h0 : min rb.read_space (CHANNELS * nframes) = 0
    · simp [h0]
    · simp [h0, Nat.pos_of_ne_zero h0]

/-- Claim C8.  The output branch of `SoundPort::stream_process` (`out` non-null,
`state != ABORT`), after the ring read; `rb` is the ring when the output part is reached
and `left` the read space the ring read leaves.  If the state is CONTINUE or `left > 0`
the callback returns CONTINUE and changes neither the state nor `c_sem`; if the state is
DRAIN and `left = 0` it sets the state to CONTINUE, posts `c_sem` exactly once and returns
CONTINUE; if the state is COMPLETE and `left = 0` it returns COMPLETE without posting
`c_sem` and keeps the state. -/
theorem C8_stream_process_output_state {F : Type} (zero : F) (input : Option (Nat → F))
    (nframes : Nat) (sd sd1 : stream_data F) (rb : ringbuffer F)
    (hin : stream_input input nframes sd = some sd1)
    (hrb : sd1.rb = some rb) (hst : sd.state ≠ spa_abort) :
    ∃ res, stream_process zero input true nframes sd = some res ∧
      ((sd.state = spa_continue ∨ (rb.read (CHANNELS * nframes)).2.read_space > 0) →
        res.ret = paContinue ∧ res.sd.state = sd.state ∧ res.sd.csem = sd.csem) ∧
      (sd.state = spa_drain → (rb.read (CHANNELS * nframes)).2.read_space = 0 →
        res.sd.state = spa_continue ∧ res.sd.csem = sd.csem + 1 ∧ res.ret = paContinue) ∧
      (sd.state = spa_complete → (rb.read (CHANNELS * nframes)).2.read_space = 0 →
        res.ret = paComplete ∧ res.sd.csem = sd.csem ∧ res.sd.state = spa_complete) := by
  obtain ⟨hs1, hc1, _⟩ := stream_input_state input nframes sd sd1 hin
  obtain ⟨res, h1, _, _, _, hA, hB, hC⟩ := stream_output_spec zero nframes sd1 rb hrb
    (by rw [hs1]; exact hst)
  rw [hs1, hc1] at hA hB hC
  refine ⟨res, by rw [stream_process_out zero input nframes sd sd1 hin]; exact h1, hA, ?_, ?_⟩
  · intro hd h0
    have hn : ¬ (sd.state = spa_continue ∨ (rb.read (CHANNELS * nframes)).2.read_space > 0) := by
      rw [hd, h0]; decide
    obtain ⟨a, b, c⟩ := hB hn hd
    exact ⟨b, c, a⟩
  · intro hd h0
    have hn : ¬ (sd.state = spa_continue ∨ (rb.read (CHANNELS * nframes)).2.read_space > 0) := by
      rw [hd, h0]; decide
    obtain ⟨a, b, c⟩ := hC hn (by rw [hd]; decide)
    exact ⟨by rw [a, hd]; rfl, c, by rw [b, hd]⟩

/-- Witness of C7: four frames asked from a running output stream whose ring holds three;
the last frame is filled with zeroes and `rw_sem` is posted once. -/
theorem C7_witness :
    (stream_process (0 : Int) none true 4 (runningSd (ring8 0))).map
        (fun res => (res.out, res.sd.rwsem, res.sd.rb.map (fun rb => rb.data)))
      = some ([10, 11, 20, 21, 30, 31, 0, 0], 1, some []) ∧
    (((none : Option (Nat → Int)) = none ∨ (runningSd (ring8 0)).state ≠ spa_continue) →
      runningSd (ring8 0) = runningSd (ring8 0)) ∧
    ∃ res, stream_process (0 : Int) none true 4 (runningSd (ring8 0)) = some res ∧
      res.out.length = CHANNELS * 4 ∧
      res.out.take (min (ring8 0).read_space (CHANNELS * 4))
        = (ring8 0).data.take (min (ring8 0).read_space (CHANNELS * 4)) ∧
      (∀ j, min (ring8 0).read_space (CHANNELS * 4) ≤ j → j < CHANNELS * 4 →
        res.out[j]? = some 0) ∧
      (∃ rb1, res.sd.rb = some rb1 ∧
        rb1.data = (ring8 0).data.drop (min (ring8 0).read_space (CHANNELS * 4)) ∧
        rb1.read_space + min (ring8 0).read_space (CHANNELS * 4) = (ring8 0).read_space) ∧
      res.sd.rwsem = (runningSd (ring8 0)).rwsem
        + (if min (ring8 0).read_space (CHANNELS * 4) > 0 then 1 else 0) :=
  ⟨by decide,
   C7_stream_process_output (0 : Int) none 4 (runningSd (ring8 0)) (runningSd (ring8 0)) (ring8 0)
     rfl rfl (by decide)⟩

/-- Witness of C8: a draining output stream whose ring is emptied by the callback goes
back to CONTINUE, with one post on `c_sem`. -/
theorem C8_witness :
    (stream_process (0 : Int) none true 4 drainingSd).map
        (fun res => (res.ret, res.sd.state, res.sd.csem)) = some (paContinue, spa_continue, 1) ∧
    ∃ res, stream_process (0 : Int) none true 4 drainingSd = some res ∧
      ((drainingSd.state = spa_continue ∨ ((ring8 0).read (CHANNELS * 4)).2.read_space > 0) →
        res.ret = paContinue ∧ res.sd.state = drainingSd.state ∧ res.sd.csem = drainingSd.csem) ∧
      (drainingSd.state = spa_drain → ((ring8 0).read (CHANNELS * 4)).2.read_space = 0 →
        res.sd.state = spa_continue ∧ res.sd.csem = drainingSd.csem + 1 ∧
          res.ret = paContinue) ∧
      (drainingSd.state = spa_complete → ((ring8 0).read (CHANNELS * 4)).2.read_space = 0 →
        res.ret = paComplete ∧ res.sd.csem = drainingSd.csem ∧
          res.sd.state = spa_complete) :=
  ⟨by decide,
   C8_stream_process_output_state (0 : Int) none 4 drainingSd drainingSd (ring8 0)
     rfl rfl (by decide)⟩

/-! ## Close and flush -/

theorem stream_input_stream {F : Type} (input : Option (Nat → F)) (nframes : Nat)
    (sd sd1 : stream_data F) (h : stream_input input nframes sd = some sd1) :
    sd1.stream = sd.stream := by
  unfold stream_input at h
  cases input with
  | none => cases h; rfl
  | some inp =>
    cases hrb : sd.rb <;> simp only [hrb] at h <;> split_ifs at h <;> cases h <;> simp

theorem stream_output_stream {F : Type} (zero : F) (nframes : Nat) (sd : stream_data F)
    (r : ProcessResult F) (h : stream_output zero nframes sd = some r) :
    r.sd.stream = sd.stream ∧ (sd.state = spa_continue → r.sd.state = spa_continue) := by
  unfold stream_output at h
  cases hrb : sd.rb <;> simp only [hrb] at h <;> split_ifs at h <;> cases h <;> simp_all

theorem stream_process_stream {F : Type} (zero : F) (input : Option (Nat → F))
    (hasOut : Bool) (nframes : Nat) (sd : stream_data F) (r : ProcessResult F)
    (h : stream_process zero input hasOut nframes sd = some r) :
    r.sd.stream = sd.stream ∧ (sd.state = spa_continue → r.sd.state = spa_continue) := by
  unfold stream_process at h
  cases hin : stream_input input nframes sd with
  | none => simp [hin] at h
  | some sd1 =>
    have h1 := stream_input_stream input nframes sd sd1 hin
    have h2 := (stream_input_state input nframes sd sd1 hin).1
    simp only [hin] at h
    split_ifs at h with ha hb
    · cases h
      refine ⟨by simpa using h1, fun hc => ?_⟩
      rw [h2, hc] at hb
      exact absurd hb (by decide)
    · cases h; exact ⟨h1, fun hc => by simpa [h2] using hc⟩
    · obtain ⟨g1, g2⟩ := stream_output_stream zero nframes sd1 r h
      exact ⟨g1.trans h1, fun hc => g2 (by rw [h2]; exact hc)⟩

/-- A stream that `stream_active` reports as not active. -/
theorem stream_active_of_stream {F : Type} (sd sd1 : stream_data F)
    (h : sd1.stream = sd.stream) : stream_active sd1 = stream_active sd := by
  unfold stream_active; rw [h]

theorem runCallback_inactive {F D R : Type} (zero : F) (s : SoundPort F D R) (cb : Callback F)
    (j : Fin 2) (h : stream_active (s.sd j) = .ok false) :
    stream_active ((runCallback zero s cb).sd j) = .ok false := by
  cases cb with
  | process d input hasOut nframes =>
    simp only [runCallback]
    cases hp : stream_process zero input hasOut nframes (s.sd d) with
    | none => exact h
    | some r =>
      simp only [sd_setSd]
      split
      · subst_vars
        rw [stream_active_of_stream _ _ (stream_process_stream _ _ _ _ _ _ hp).1]; exact h
      · exact h
  | stopped d =>
    simp only [runCallback, sd_setSd]
    split
    · subst_vars
      simp only [stream_stopped, stream_active, sem_post_stream]
      cases hs : (s.sd d).stream <;> simp
    · exact h

theorem runCallback_continue {F D R : Type} (zero : F) (s : SoundPort F D R) (cb : Callback F)
    (j : Fin 2) (h : (s.sd j).state = spa_continue) :
    ((runCallback zero s cb).sd j).state = spa_continue := by
  cases cb with
  | process d input hasOut nframes =>
    simp only [runCallback]
    cases hp : stream_process zero input hasOut nframes (s.sd d) with
    | none => exact h
    | some r =>
      simp only [sd_setSd]
      split
      · subst_vars; exact (stream_process_stream _ _ _ _ _ _ hp).2 h
      · exact h
  | stopped d =>
    simp only [runCallback, sd_setSd]
    split
    · subst_vars; simpa [stream_stopped] using h
    · exact h

theorem runCallback_other {F D R : Type} (zero : F) (s : SoundPort F D R) (cb : Callback F)
    (j : Fin 2) (h : cb.dir ≠ j) : (runCallback zero s cb).sd j = s.sd j := by
  cases cb with
  | process d input hasOut nframes =>
    simp only [Callback.dir] at h
    simp only [runCallback]
    cases stream_process zero input hasOut nframes (s.sd d) with
    | none => rfl
    | some r => rw [sd_setSd, if_neg (Ne.symm h)]
  | stopped d =>
    simp only [Callback.dir] at h
    simp only [runCallback]
    rw [sd_setSd, if_neg (Ne.symm h)]

theorem runCallbacks_preserves {F D R : Type} (zero : F) (P : stream_data F → Prop) (j : Fin 2)
    (hcb : ∀ (s : SoundPort F D R) cb, P (s.sd j) → P ((runCallback zero s cb).sd j))
    (cbs : List (Callback F)) (s : SoundPort F D R) (h : P (s.sd j)) :
    P ((runCallbacks zero s cbs).sd j) := by
  induction cbs generalizing s with
  | nil => exact h
  | cons cb cbs ih =>
    simp only [runCallbacks, List.foldl_cons] at ih ⊢
    exact ih _ (hcb s cb h)

/-- What the callbacks and the semaphore operations keep of a stream, `sem_timedwaitr`
keeps. -/
theorem sem_timedwaitr_preserves {F D R : Type} (zero : F) (P : stream_data F → Prop)
    (j : Fin 2) (hsem : ∀ sd k n, P sd → P (setSem sd k n))
    (hcb : ∀ (s : SoundPort F D R) cb, P (s.sd j) → P ((runCallback zero s cb).sd j))
    (dir : Fin 2) (k : SemKind) (t : ℚ) (m : Sys F D R) (h : P (m.sp.sd j)) :
    P ((sem_timedwaitr zero dir k t m).1.sp.sd j) := by
  unfold sem_timedwaitr
  simp only
  split
  · simp only [sd_setSd]
    split
    · subst_vars; exact hsem _ _ _ h
    · exact h
  · cases m.env with
    | nil => exact h
    | cons ep env =>
      cases ep with
      | fail e => exact h
      | run cbs =>
        have h1 := runCallbacks_preserves zero P j hcb cbs m.sp h
        simp only
        split
        · simp only [sd_setSd]
          split
          · subst_vars; exact hsem _ _ _ h1
          · exact h1
        · exact h1

theorem dirRange_fin (i : Fin 2) : dirRange i.val = some [i] := by
  fin_cases i <;> rfl

theorem sd_setState {F D R : Type} (i j : Fin 2) (v : Int) (m : Sys F D R) :
    (setState i v m).sp.sd j = if j = i then { m.sp.sd i with state := v } else m.sp.sd j := by
  simp only [setState, sd_setSd]

theorem setSem_state {F : Type} (sd : stream_data F) (k : SemKind) (n : Nat) :
    (setSem sd k n).state = sd.state := by
  cases k <;> rfl

theorem setSem_stream {F : Type} (sd : stream_data F) (k : SemKind) (n : Nat) :
    (setSem sd k n).stream = sd.stream := by
  cases k <;> rfl

theorem sem_timedwaitr_trace {F D R : Type} (zero : F) (dir : Fin 2) (k : SemKind) (t : ℚ)
    (m : Sys F D R) :
    (sem_timedwaitr zero dir k t m).1.trace = m.trace ++ [Call.sem_timedwaitr dir k t] := by
  unfold sem_timedwaitr
  simp only
  split
  · rfl
  · cases m.env with
    | nil => rfl
    | cons ep env =>
      cases ep with
      | fail e => rfl
      | run cbs => simp only; split <;> rfl

theorem runCallbacks_other {F D R : Type} (zero : F) (j : Fin 2) (cbs : List (Callback F))
    (s : SoundPort F D R) (h : ∀ cb ∈ cbs, cb.dir ≠ j) :
    (runCallbacks zero s cbs).sd j = s.sd j := by
  induction cbs generalizing s with
  | nil => rfl
  | cons cb cbs ih =>
    simp only [runCallbacks, List.foldl_cons] at ih ⊢
    rw [ih _ (fun c hc => h c (List.mem_cons_of_mem _ hc)),
      runCallback_other zero s cb j (h cb (List.mem_cons_self _ _))]

/-- A wait on a semaphore of direction `dir` leaves another direction alone when no
callback of the script is for it. -/
theorem sem_timedwaitr_other {F D R : Type} (zero : F) (dir j : Fin 2) (k : SemKind) (t : ℚ)
    (m : Sys F D R) (hj : j ≠ dir) (h : scriptAvoids j m.env) :
    (sem_timedwaitr zero dir k t m).1.sp.sd j = m.sp.sd j ∧
      scriptAvoids j (sem_timedwaitr zero dir k t m).1.env := by
  unfold sem_timedwaitr
  simp only
  split
  · exact ⟨by rw [sd_setSd, if_neg hj], h⟩
  · cases henv : m.env with
    | nil => exact ⟨rfl, by rw [henv] at h; exact h⟩
    | cons ep env =>
      rw [henv] at h
      have htail : scriptAvoids j env := fun e he => h e (List.mem_cons_of_mem _ he)
      cases ep with
      | fail e => exact ⟨rfl, htail⟩
      | run cbs =>
        have hcbs := runCallbacks_other zero j cbs m.sp
          (h (.run cbs) (List.mem_cons_self _ _) cbs rfl)
        simp only
        split
        · exact ⟨by rw [sd_setSd, if_neg hj]; exact hcbs, htail⟩
        · exact ⟨hcbs, htail⟩

theorem flush_one_continue {F D R : Type} (zero : F) (i j : Fin 2) (m : Sys F D R)
    (h : (m.sp.sd j).state = spa_continue) :
    ((flush_one zero i m).1.sp.sd j).state = spa_continue := by
  unfold flush_one
  cases ha : stream_active (m.sp.sd i) with
  | error e => exact h
  | ok b =>
    cases b with
    | false => exact h
    | true =>
      simp only [sd_setState]
      split
      · rfl
      · rename_i hji
        apply sem_timedwaitr_preserves zero (fun sd => sd.state = spa_continue) j
          (fun sd k n hs => by rw [setSem_state]; exact hs)
          (fun s cb hs => runCallback_continue zero s cb j hs)
        rw [sd_setState, if_neg hji]; exact h

theorem forDirs_flush_continue {F D R : Type} (zero : F) (j : Fin 2) (is : List (Fin 2))
    (m : Sys F D R) (hc : (m.sp.sd j).state = spa_continue) :
    ((forDirs (flush_one zero) is m).1.sp.sd j).state = spa_continue := by
  induction is generalizing m with
  | nil => exact hc
  | cons a is ih =>
    simp only [forDirs]
    have h1 := flush_one_continue zero a j m hc
    rcases hf : flush_one zero a m with ⟨m1, o⟩
    rw [hf] at h1
    cases o with
    | ret u => exact ih m1 h1
    | throw e => exact h1
    | undefined => exact h1
    | aborted => exact h1

/-- Claim C10.  `SoundPort::flush(dir)`, for a direction `i`.  When the stream of `i` is
active, `flush(i)` sets `state[i]` to DRAIN, waits once on `c_sem[i]` with a timeout of 2
seconds (the only outside call it makes), sets `state[i]` to CONTINUE whatever the wait
answered, and returns without raising.  When the stream of `i` is not active nothing
changes at all.  A direction `j` other than `i` is left as it is (state, ring, semaphores
and handle) when no callback for `j` runs during the wait.  `flush(UINT_MAX)` is `flush(0)`
followed by `flush(1)`, and no `flush` moves a state away from CONTINUE. -/
theorem C10_flush_drains_and_resumes {F D R : Type} (zero : F) (m : Sys F D R) (i : Fin 2) :
    (stream_active (m.sp.sd i) = .ok true →
      flush zero i.val m
        = (setState i spa_continue
            (sem_timedwaitr zero i .c 2 (setState i spa_drain m)).1, .ret ()) ∧
      ((setState i spa_drain m).sp.sd i).state = spa_drain ∧
      ((flush zero i.val m).1.sp.sd i).state = spa_continue ∧
      (flush zero i.val m).1.trace = m.trace ++ [Call.sem_timedwaitr i .c 2]) ∧
    (stream_active (m.sp.sd i) = .ok false → flush zero i.val m = (m, .ret ())) ∧
    (∀ j, j ≠ i → scriptAvoids j m.env → (flush zero i.val m).1.sp.sd j = m.sp.sd j) ∧
    (flush zero UINT_MAX m =
      match flush zero (0 : Fin 2).val m with
      | (m1, .ret _) => flush zero (1 : Fin 2).val m1
      | r => r) ∧
    (∀ dir j, (m.sp.sd j).state = spa_continue →
      ((flush zero dir m).1.sp.sd j).state = spa_continue) := by
  have hfl : flush zero i.val m = match flush_one zero i m with
      | (m1, .ret _) => (m1, .ret ())
      | r => r := by
    simp only [flush, dirRange_fin, forDirs]
  refine ⟨fun ha => ?_, fun ha => ?_, fun j hj hav => ?_, ?_, fun dir j hc => ?_⟩
  · have h1 : flush zero i.val m = (setState i spa_continue
        (sem_timedwaitr zero i .c 2 (setState i spa_drain m)).1, .ret ()) := by
      rw [hfl]; simp only [flush_one, ha]
    refine ⟨h1, by simp [sd_setState], ?_, ?_⟩
    · rw [h1]; simp [sd_setState]
    · rw [h1]; simp only [setState, sem_timedwaitr_trace]
  · rw [hfl]; simp only [flush_one, ha]
  · rw [hfl]
    unfold flush_one
    cases ha : stream_active (m.sp.sd i) with
    | error e => rfl
    | ok b =>
      cases b with
      | false => rfl
      | true =>
        simp only [sd_setState, if_neg hj]
        rw [(sem_timedwaitr_other zero i j .c 2 (setState i spa_drain m) hj hav).1,
          sd_setState, if_neg hj]
  · simp only [flush, dirRange_fin]
    have : dirRange UINT_MAX = some [0, 1] := rfl
    rw [this]
    simp only [forDirs]
    rcases flush_one zero 0 m with ⟨m1, o⟩
    cases o <;> rfl
  · unfold flush
    cases dirRange dir with
    | none => exact hc
    | some is => exact forDirs_flush_continue zero j is m hc

/-- Witness of C10: `flush(1)` on the plain port with three frames queued for output.
With the callback running during the wait the ring is drained and the wait succeeds; with
a silent realtime thread the wait times out; either way `flush` returns normally with the
state at CONTINUE, after one wait of 2 seconds on `c_sem[1]`. -/
theorem C10_witness :
    ((flush (0 : Int) 1 drainSys).2,
      ((flush (0 : Int) 1 drainSys).1.sp.sd 1).state,
      ((flush (0 : Int) 1 drainSys).1.sp.sd 1).rb.map (fun rb => rb.data),
      (flush (0 : Int) 1 drainSys).1.trace)
      = (.ret (), spa_continue, some [], [Call.sem_timedwaitr 1 .c 2]) ∧
    ((flush (0 : Int) 1 (quietSys (plainPort emptyRing8 (ring8 0)))).2,
      ((flush (0 : Int) 1 (quietSys (plainPort emptyRing8 (ring8 0)))).1.sp.sd 1).state,
      (flush (0 : Int) 1 (quietSys (plainPort emptyRing8 (ring8 0)))).1.trace)
      = (.ret (), spa_continue, [Call.sem_timedwaitr 1 .c 2]) ∧
    (flush (0 : Int) (1 : Fin 2).val drainSys
        = (setState 1 spa_continue
            (sem_timedwaitr (0 : Int) 1 .c 2 (setState 1 spa_drain drainSys)).1, .ret ()) ∧
      ((setState 1 spa_drain drainSys).sp.sd 1).state = spa_drain ∧
      ((flush (0 : Int) (1 : Fin 2).val drainSys).1.sp.sd 1).state = spa_continue ∧
      (flush (0 : Int) (1 : Fin 2).val drainSys).1.trace
        = drainSys.trace ++ [Call.sem_timedwaitr 1 .c 2]) :=
  ⟨by decide!, by decide!, (C10_flush_drains_and_resumes (0 : Int) drainSys 1).1 rfl⟩

theorem sd_clearStream {F D R : Type} (i j : Fin 2) (m : Sys F D R) :
    (clearStream i m).sp.sd j = if j = i then { m.sp.sd i with stream := none } else m.sp.sd j := by
  simp only [clearStream, sd_setSd]

theorem Close_one_inactive {F D R : Type} (zero : F) (i : Fin 2) (m : Sys F D R)
    (hret : (Close_one zero i m).2 = .ret ()) :
    stream_active ((Close_one zero i m).1.sp.sd i) = .ok false := by
  unfold Close_one at hret ⊢
  cases ha : stream_active (m.sp.sd i) with
  | error e => rw [ha] at hret; cases hret
  | ok b =>
    cases b with
    | false => exact ha
    | true => simp [sd_clearStream, stream_active]

theorem Close_one_keeps_inactive {F D R : Type} (zero : F) (i j : Fin 2) (m : Sys F D R)
    (h : stream_active (m.sp.sd j) = .ok false) :
    stream_active ((Close_one zero i m).1.sp.sd j) = .ok false := by
  unfold Close_one
  cases ha : stream_active (m.sp.sd i) with
  | error e => exact h
  | ok b =>
    cases b with
    | false => exact h
    | true =>
      simp only [sd_clearStream]
      split
      · simp [stream_active]
      · rename_i hji
        simp only [logCall, sd_setState, if_neg hji]
        apply sem_timedwaitr_preserves zero (fun sd => stream_active sd = .ok false) j
          (fun sd k n hs => by rw [stream_active_of_stream _ _ (setSem_stream sd k n)]; exact hs)
          (fun s cb hs => runCallback_inactive zero s cb j hs)
        rw [sd_setState, if_neg hji]; exact h

theorem forDirs_Close_keeps_inactive {F D R : Type} (zero : F) (j : Fin 2) (is : List (Fin 2))
    (m : Sys F D R) (h : stream_active (m.sp.sd j) = .ok false) :
    stream_active ((forDirs (Close_one zero) is m).1.sp.sd j) = .ok false := by
  induction is generalizing m with
  | nil => exact h
  | cons a is ih =>
    simp only [forDirs]
    have h1 := Close_one_keeps_inactive zero a j m h
    rcases hf : Close_one zero a m with ⟨m1, o⟩
    rw [hf] at h1
    cases o with
    | ret u => exact ih m1 h1
    | throw e => exact h1
    | undefined => exact h1
    | aborted => exact h1

theorem forDirs_Close_inactive {F D R : Type} (zero : F) (is : List (Fin 2)) (m : Sys F D R)
    (hret : (forDirs (Close_one zero) is m).2 = .ret ()) :
    ∀ i ∈ is, stream_active ((forDirs (Close_one zero) is m).1.sp.sd i) = .ok false := by
  induction is generalizing m with
  | nil => intro i hi; cases hi
  | cons a is ih =>
    intro i hi
    simp only [forDirs] at hret ⊢
    have h1 := Close_one_inactive zero a m
    rcases hf : Close_one zero a m with ⟨m1, o⟩
    rw [hf] at h1 hret
    cases o with
    | ret u =>
      simp only at hret ⊢
      rcases List.mem_cons.mp hi with rfl | hi'
      · exact forDirs_Close_keeps_inactive zero _ is m1 (h1 rfl)
      · exact ih m1 hret i hi'
    | throw e => cases hret
    | undefined => cases hret
    | aborted => cases hret

/-- With a silent realtime thread a wait changes no ring. -/
theorem sem_timedwaitr_quiet {F D R : Type} (zero : F) (dir : Fin 2) (k : SemKind) (t : ℚ)
    (m : Sys F D R) (henv : m.env = []) :
    (sem_timedwaitr zero dir k t m).1.env = [] ∧
      ∀ j, ((sem_timedwaitr zero dir k t m).1.sp.sd j).rb = (m.sp.sd j).rb := by
  unfold sem_timedwaitr
  simp only [henv]
  split
  · refine ⟨rfl, fun j => ?_⟩
    rw [sd_setSd]
    split
    · subst_vars; cases k <;> rfl
    · rfl
  · exact ⟨rfl, fun j => rfl⟩

theorem Close_one_quiet {F D R : Type} (zero : F) (i : Fin 2) (m : Sys F D R)
    (henv : m.env = []) :
    (Close_one zero i m).1.env = [] ∧
      ∀ j, ((Close_one zero i m).1.sp.sd j).rb = (m.sp.sd j).rb := by
  unfold Close_one
  cases ha : stream_active (m.sp.sd i) with
  | error e => exact ⟨henv, fun j => rfl⟩
  | ok b =>
    cases b with
    | false => exact ⟨henv, fun j => rfl⟩
    | true =>
      obtain ⟨h1, h2⟩ := sem_timedwaitr_quiet zero i .c 2 (setState i spa_complete m) henv
      refine ⟨h1, fun j => ?_⟩
      simp only [sd_clearStream, logCall, sd_setState]
      have h3 := h2 j
      have h4 := h2 i
      simp only [sd_setState, if_true] at h3 h4
      split
      · subst_vars; simpa using h4
      · rename_i hji; simpa [hji] using h3

theorem forDirs_Close_quiet {F D R : Type} (zero : F) (is : List (Fin 2)) (m : Sys F D R)
    (henv : m.env = []) :
    ∀ j, ((forDirs (Close_one zero) is m).1.sp.sd j).rb = (m.sp.sd j).rb := by
  induction is generalizing m with
  | nil => intro j; rfl
  | cons a is ih =>
    intro j
    simp only [forDirs]
    obtain ⟨h1, h2⟩ := Close_one_quiet zero a m henv
    rcases hf : Close_one zero a m with ⟨m1, o⟩
    rw [hf] at h1 h2
    cases o with
    | ret u => exact (ih m1 h1 j).trans (h2 j)
    | throw e => exact h2 j
    | undefined => exact h2 j
    | aborted => exact h2 j

/-- Claim C9 (as amended).  After `SoundPort::Close(dir)` returns, for every direction
covered by `dir`, `stream_active` is false, for every prior state and whatever the wait
on `c_sem` answered.  `Close` itself does not touch a ring: when no callback runs during
the call (a stream that is not active is skipped without a wait, a wedged one times out)
every ring is left exactly as it was.  It is `stream_stopped` that resets the ring. -/
theorem C9_Close_deactivates {F D R : Type} (zero : F) (dir : Nat) (m : Sys F D R)
    (is : List (Fin 2)) (hdir : dirRange dir = some is)
    (hret : (Close zero dir m).2 = .ret ()) :
    (∀ i ∈ is, stream_active ((Close zero dir m).1.sp.sd i) = .ok false) ∧
    (m.env = [] → ∀ j, ((Close zero dir m).1.sp.sd j).rb = (m.sp.sd j).rb) ∧
    (∀ sd : stream_data F, (stream_stopped sd).rb = sd.rb.map ringbuffer.reset) := by
  simp only [Close, hdir] at hret ⊢
  exact ⟨forDirs_Close_inactive zero is m hret, fun henv => forDirs_Close_quiet zero is m henv,
    fun sd => by simp [stream_stopped]⟩

/-- Witness of C9: `Close(UINT_MAX)` on the plain port with three frames queued for
output, the realtime thread silent: both waits time out, both streams are torn down and
the output ring still holds the three frames. -/
theorem C9_witness :
    ((Close (0 : Int) UINT_MAX (quietSys (plainPort emptyRing8 (ring8 0)))).2,
      (Close (0 : Int) UINT_MAX (quietSys (plainPort emptyRing8 (ring8 0)))).1.trace,
      ((Close (0 : Int) UINT_MAX (quietSys (plainPort emptyRing8 (ring8 0)))).1.sp.sd 1).rb.map
        (fun rb => rb.data))
      = (.ret (), [Call.sem_timedwaitr 0 .c 2, Call.Pa_CloseStream 0,
          Call.sem_timedwaitr 1 .c 2, Call.Pa_CloseStream 1], some [10, 11, 20, 21, 30, 31]) ∧
    (∀ i ∈ [(0 : Fin 2), 1], stream_active
      ((Close (0 : Int) UINT_MAX (quietSys (plainPort emptyRing8 (ring8 0)))).1.sp.sd i)
        = .ok false) ∧
    ((quietSys (plainPort emptyRing8 (ring8 0))).env = [] → ∀ j,
      ((Close (0 : Int) UINT_MAX (quietSys (plainPort emptyRing8 (ring8 0)))).1.sp.sd j).rb
        = ((quietSys (plainPort emptyRing8 (ring8 0))).sp.sd j).rb) ∧
    (∀ sd : stream_data Int, (stream_stopped sd).rb = sd.rb.map ringbuffer.reset) :=
  ⟨by decide!,
   C9_Close_deactivates (0 : Int) UINT_MAX (quietSys (plainPort emptyRing8 (ring8 0)))
     [0, 1] rfl (by decide!)⟩

/-- Counterexample to C9 as stated: on the plain port, `Abort(1)` tears the output stream
down, `Write` of two frames then queues four floats in the output ring (it does not look
at the stream), and `Close(1)` finds the stream not active and skips it.  `Close` returns,
`stream_active(1)` is false, and the output ring is neither freed nor empty. -/
theorem C9_counterexample :
    (Write plainCx 3 (Abort 1 (quietSys (plainPort emptyRing8 emptyRing64))).1
        (fun i => 100 + (i : Int)) 2).map
      (fun w => (w.out, (Close (0 : Int) 1 w.m).2,
        (stream_active ((Close (0 : Int) 1 w.m).1.sp.sd 1)).toOption,
        ((Close (0 : Int) 1 w.m).1.sp.sd 1).rb.map (fun rb => rb.data)))
      = some (.ret 2, .ret (), some false, some [100, 100, 101, 101]) := by
  decide!

/-- `Read` of a block that is not split, playback off, nothing resampled and the rx ratio
at 1, whose wait for data ends with the floats in the ring: what it returns and leaves
behind, relative to the ring `rb1` the wait ends with. -/
theorem Read_plain_after_wait {F D R : Type} (cx : Cx F D R) (fuel : Nat) (m m1 : Sys F D R)
    (buf : Nat → D) (off count : Nat) (rb : ringbuffer F)
    (hplay : m.sp.playback = false)
    (hdev : m.sp.sd0.dev_sample_rate ≠ 0)
    (hrate : m.sp.req_sample_rate = m.sp.sd0.dev_sample_rate)
    (hppm : m.sp.rxppm = 0) (hcorr : cx.cfg.RX_corr = 0)
    (hratio : m.sp.rx_ratio =
      m.sp.req_sample_rate / (m.sp.sd0.dev_sample_rate * (1 + (m.sp.rxppm : ℚ) / 1000000)))
    (hrb : m.sp.sd0.rb = some rb)
    (hmax : count ≤ Read_maxframes rb m.sp.rx_ratio)
    (hwait : Read_wait cx m count = some (m1, .ready)) :
    ∃ rb1 r, m1.sp.sd0.rb = some rb1 ∧ rb1.read_space ≥ CHANNELS * count ∧
      Read cx (fuel + 1) m buf off count = some r ∧
      r.out = .ret count ∧
      (∀ i, i < count → (rb1.data[CHANNELS * i]?).map cx.ops.toDouble = some (r.buf (off + i))) ∧
      (∀ k, k < off ∨ off + count ≤ k → r.buf k = buf k) ∧
      (∃ rb2, r.m.sp.sd0.rb = some rb2 ∧ rb2.data = rb1.data.drop (CHANNELS * count) ∧
        rb2.read_space + CHANNELS * count = rb1.read_space ∧ rb2.size = rb1.size) := by
  have hone : m.sp.rx_ratio = 1 := by
    rw [hratio, hrate, hppm]; simp [hdev]
  have hcond := waitLoop_cond _ _ _ _ _ _ _ _ hwait
  have hkey : rxKey m1.sp = rxKey m.sp := waitLoop_rxKey _ _ _ _ _ _ _ _ hwait
  cases hrb1 : m1.sp.sd0.rb with
  | none => simp [hrb1] at hcond
  | some rb1 =>
    have hdata : CHANNELS * count ≤ rb1.read_space := by simpa [hrb1] using hcond
    obtain ⟨h1, h2, h3, _, _⟩ := Read_body_plain cx m1 buf off count rb1
      (rxKey_rate _ _ hkey hrate) hcorr hrb1 hdata
    refine ⟨rb1, Read_body cx m1 buf off count count, rfl, hdata, ?_, h1, ?_, ?_, ?_⟩
    · simp only [Read, Read_playback, hplay, hrb]
      simp only [hplay, Bool.false_eq_true, false_and, if_false, hrb, gt_iff_lt,
        not_lt.mpr hmax]
      simp only [Read_block, Read_ncount_one _ _ hone, hwait]
    · intro i hi
      rw [h2, store_at _ _ _ _ (by rw [deinterleave_length]; exact hi)]
      have hlt : CHANNELS * i < rb1.data.length := by
        unfold ringbuffer.read_space CHANNELS at hdata; unfold CHANNELS; omega
      simp [deinterleave, List.getD_eq_getElem?_getD, hi, List.getElem?_eq_getElem hlt]
    · intro k hk
      rw [h2, store_outside]
      rw [deinterleave_length]; exact hk
    · refine ⟨_, h3, rfl, ?_, rfl⟩
      simp only [ringbuffer.read_advance, ringbuffer.read_space, List.length_drop]
      unfold ringbuffer.read_space at hdata
      omega


/-- Claim C1.  `SoundPort::Read` with playback off, the modem rate equal to the input
device rate and no ppm correction (`rxppm = RX_corr = 0`, so the rx ratio is 1 and nothing
is resampled), for `count <= maxframes`: once the input ring holds at least `2 * count`
floats (the wait for data ends with the ring `rb1`; it ends at once, without any wait,
when the floats are there on entry), `Read` returns `count`, `buf[i]` is the `(2*i)`-th
oldest float of the ring for every `i < count`, the rest of `buf` is untouched, and
exactly `2 * count` floats are consumed from the ring.  The statement does not depend on
the offset `rpos` of the read index, that is on whether the first contiguous span covers
the floats (peek and `read_advance`) or the data wraps around (copy through `fbuf`). -/
theorem C1_Read_delivers_channel0 {F D R : Type} (cx : Cx F D R) (fuel : Nat)
    (m m1 : Sys F D R) (buf : Nat → D) (off count : Nat) (rb : ringbuffer F)
    (hplay : m.sp.playback = false)
    (hdev : m.sp.sd0.dev_sample_rate ≠ 0)
    (hrate : m.sp.req_sample_rate = m.sp.sd0.dev_sample_rate)
    (hppm : m.sp.rxppm = 0) (hcorr : cx.cfg.RX_corr = 0)
    (hratio : m.sp.rx_ratio =
      m.sp.req_sample_rate / (m.sp.sd0.dev_sample_rate * (1 + (m.sp.rxppm : ℚ) / 1000000)))
    (hrb : m.sp.sd0.rb = some rb)
    (hmax : count ≤ Read_maxframes rb m.sp.rx_ratio)
    (hwait : Read_wait cx m count = some (m1, .ready)) :
    (rb.read_space ≥ CHANNELS * count → m1 = m) ∧
    ∃ rb1 r, m1.sp.sd0.rb = some rb1 ∧ rb1.read_space ≥ CHANNELS * count ∧
      Read cx (fuel + 1) m buf off count = some r ∧
      r.out = .ret count ∧
      (∀ i, i < count → (rb1.data[CHANNELS * i]?).map cx.ops.toDouble = some (r.buf (off + i))) ∧
      (∀ k, k < off ∨ off + count ≤ k → r.buf k = buf k) ∧
      (∃ rb2, r.m.sp.sd0.rb = some rb2 ∧ rb2.data = rb1.data.drop (CHANNELS * count) ∧
        rb2.read_space + CHANNELS * count = rb1.read_space ∧ rb2.size = rb1.size) := by
  refine ⟨fun hdata => ?_,
    Read_plain_after_wait cx fuel m m1 buf off count rb hplay hdev hrate hppm hcorr hratio hrb
      hmax hwait⟩
  have h := Read_wait_ready cx m count rb hrb hdata
  rw [h] at hwait
  cases hwait
  rfl

/-- Witness of C1: two frames read from a ring of 8 floats whose first span covers them
(read index at 0), from one where they wrap around (read index at 6), and four frames
read from the ring that holds three, after a wait during which the callback delivers the
fourth. -/
theorem C1_witness :
    ((∃ rb1 r, (quietSys (plainPort (ring8 0) emptyRing8)).sp.sd0.rb = some rb1 ∧
      rb1.read_space ≥ CHANNELS * 2 ∧
      Read plainCx (0 + 1) (quietSys (plainPort (ring8 0) emptyRing8)) (fun _ => 0) 0 2 = some r ∧
      r.out = .ret 2 ∧
      (∀ i, i < 2 → (rb1.data[CHANNELS * i]?).map plainCx.ops.toDouble = some (r.buf (0 + i))) ∧
      (∀ k, k < 0 ∨ 0 + 2 ≤ k → r.buf k = (fun _ => 0) k) ∧
      (∃ rb2, r.m.sp.sd0.rb = some rb2 ∧ rb2.data = rb1.data.drop (CHANNELS * 2) ∧
        rb2.read_space + CHANNELS * 2 = rb1.read_space ∧ rb2.size = rb1.size)) ∧
     (∃ rb1 r, (quietSys (plainPort (ring8 6) emptyRing8)).sp.sd0.rb = some rb1 ∧
      rb1.read_space ≥ CHANNELS * 2 ∧
      Read plainCx (0 + 1) (quietSys (plainPort (ring8 6) emptyRing8)) (fun _ => 0) 0 2 = some r ∧
      r.out = .ret 2 ∧
      (∀ i, i < 2 → (rb1.data[CHANNELS * i]?).map plainCx.ops.toDouble = some (r.buf (0 + i))) ∧
      (∀ k, k < 0 ∨ 0 + 2 ≤ k → r.buf k = (fun _ => 0) k) ∧
      (∃ rb2, r.m.sp.sd0.rb = some rb2 ∧ rb2.data = rb1.data.drop (CHANNELS * 2) ∧
        rb2.read_space + CHANNELS * 2 = rb1.read_space ∧ rb2.size = rb1.size))) ∧
    ((Read plainCx 1 feedSys (fun _ => 0) 0 4).map
        (fun r => (r.out, load r.buf 0 5, r.m.sp.sd0.rb.map (fun rb => rb.data)))
      = some (.ret 4, [10, 20, 30, 40, 0], some []) ∧
     ∃ rb1 r, fedSys.sp.sd0.rb = some rb1 ∧ rb1.read_space ≥ CHANNELS * 4 ∧
      Read plainCx (0 + 1) feedSys (fun _ => 0) 0 4 = some r ∧
      r.out = .ret 4 ∧
      (∀ i, i < 4 → (rb1.data[CHANNELS * i]?).map plainCx.ops.toDouble = some (r.buf (0 + i))) ∧
      (∀ k, k < 0 ∨ 0 + 4 ≤ k → r.buf k = (fun _ => 0) k) ∧
      (∃ rb2, r.m.sp.sd0.rb = some rb2 ∧ rb2.data = rb1.data.drop (CHANNELS * 4) ∧
        rb2.read_space + CHANNELS * 4 = rb1.read_space ∧ rb2.size = rb1.size)) :=
  ⟨⟨(C1_Read_delivers_channel0 plainCx 0 (quietSys (plainPort (ring8 0) emptyRing8)) _
        (fun _ => 0) 0 2 (ring8 0) rfl (by decide!) rfl rfl rfl (by decide!) rfl (by decide!)
        (Read_wait_ready plainCx _ 2 (ring8 0) rfl (by decide))).2,
     (C1_Read_delivers_channel0 plainCx 0 (quietSys (plainPort (ring8 6) emptyRing8)) _
        (fun _ => 0) 0 2 (ring8 6) rfl (by decide!) rfl rfl rfl (by decide!) rfl (by decide!)
        (Read_wait_ready plainCx _ 2 (ring8 6) rfl (by decide))).2⟩,
   by decide!,
   (C1_Read_delivers_channel0 plainCx 0 feedSys fedSys (fun _ => 0) 0 4 (ring8 0)
      rfl (by decide!) rfl rfl rfl (by decide!) rfl (by decide!) rfl).2⟩

/-! ## Abort -/

theorem Abort_one_eq {F D R : Type} (i : Fin 2) (m : Sys F D R) :
    Abort_one i m = (m, .ret ()) ∨ (∃ e, Abort_one i m = (m, .throw e)) ∨
    (stream_active (m.sp.sd i) = .ok true ∧
      Abort_one i m = (clearStream i (logCall (Call.Pa_AbortStream i) m), .ret ())) := by
  unfold Abort_one
  cases ha : stream_active (m.sp.sd i) with
  | error e => exact Or.inr (Or.inl ⟨e, rfl⟩)
  | ok b =>
    cases b with
    | false => exact Or.inl rfl
    | true => exact Or.inr (Or.inr ⟨rfl, rfl⟩)

theorem AbortFrame.refl {F D R : Type} (m : Sys F D R) : AbortFrame m m :=
  ⟨rfl, fun _ => rfl, fun _ h => h, [], by simp, by simp⟩

theorem AbortFrame.trans {F D R : Type} {m m1 m2 : Sys F D R} (h1 : AbortFrame m m1)
    (h2 : AbortFrame m1 m2) : AbortFrame m m2 := by
  obtain ⟨a1, b1, c1, cs1, d1, e1⟩ := h1
  obtain ⟨a2, b2, c2, cs2, d2, e2⟩ := h2
  refine ⟨a2.trans a1, fun j => (b2 j).trans (b1 j), fun j h => c2 j (c1 j h), cs1 ++ cs2, ?_, ?_⟩
  · rw [d2, d1, List.append_assoc]
  · intro c hc
    rcases List.mem_append.mp hc with h | h
    · exact e1 c h
    · exact e2 c h

theorem Abort_one_frame {F D R : Type} (i : Fin 2) (m : Sys F D R) :
    AbortFrame m (Abort_one i m).1 := by
  rcases Abort_one_eq i m with h | ⟨e, h⟩ | ⟨_, h⟩
  · rw [h]; exact AbortFrame.refl m
  · rw [h]; exact AbortFrame.refl m
  · rw [h]
    refine ⟨rfl, fun j => ?_, fun j hj => ?_, [Call.Pa_AbortStream i], rfl, ?_⟩
    · rw [sd_clearStream]; split
      · subst_vars; rfl
      · rfl
    · rw [sd_clearStream]; split
      · rfl
      · exact hj
    · intro c hc; exact ⟨i, by simpa using hc⟩

theorem forDirs_Abort_frame {F D R : Type} (is : List (Fin 2)) (m : Sys F D R) :
    AbortFrame m (forDirs Abort_one is m).1 := by
  induction is generalizing m with
  | nil => exact AbortFrame.refl m
  | cons a is ih =>
    simp only [forDirs]
    have h1 := Abort_one_frame a m
    rcases hf : Abort_one a m with ⟨m1, o⟩
    rw [hf] at h1
    cases o with
    | ret u => exact h1.trans (ih m1)
    | throw e => exact h1
    | undefined => exact h1
    | aborted => exact h1

theorem forDirs_Abort_tears_down {F D R : Type} (is : List (Fin 2)) (m : Sys F D R)
    (hret : (forDirs Abort_one is m).2 = .ret ()) (j : Fin 2) (hj : j ∈ is)
    (ha : stream_active (m.sp.sd j) = .ok true) :
    ((forDirs Abort_one is m).1.sp.sd j).stream = none ∧
      Call.Pa_AbortStream j ∈ (forDirs Abort_one is m).1.trace := by
  induction is generalizing m with
  | nil => cases hj
  | cons a is ih =>
    simp only [forDirs] at hret ⊢
    by_cases hja : j = a
    · subst hja
      have h : Abort_one j m = (clearStream j (logCall (Call.Pa_AbortStream j) m), .ret ()) := by
        simp only [Abort_one, ha]
      rw [h] at hret ⊢
      simp only at hret ⊢
      obtain ⟨_, _, hs, cs, ht, _⟩ := forDirs_Abort_frame is
        (clearStream j (logCall (Call.Pa_AbortStream j) m))
      refine ⟨hs j (by simp [sd_clearStream]), ?_⟩
      rw [ht]
      simp [clearStream, logCall]
    · have hjis : j ∈ is := by
        rcases List.mem_cons.mp hj with h | h
        · exact absurd h hja
        · exact h
      rcases Abort_one_eq a m with h | ⟨e, h⟩ | ⟨_, h⟩
      · rw [h] at hret ⊢; exact ih m hret hjis ha
      · rw [h] at hret; cases hret
      · rw [h] at hret ⊢
        exact ih _ hret hjis (by rw [sd_clearStream, if_neg hja]; exact ha)

/-- Claim C11 (as amended).  `SoundPort::Abort(dir)` tears down, with `Pa_AbortStream`,
the stream of every direction covered by `dir` that is active (handle set to null), and it
does nothing else: it waits on no semaphore (the trace grows by calls of `Pa_AbortStream`
only and the script of the realtime thread is not advanced) and it leaves every other
field of both streams as it was, the state included.  The state is not set to ABORT: no
code of `sound.cxx` assigns `spa_abort`. -/
theorem C11_Abort_tears_down {F D R : Type} (m : Sys F D R) :
    (∀ i : Fin 2, stream_active (m.sp.sd i) = .ok true →
      Abort i.val m = (clearStream i (logCall (Call.Pa_AbortStream i) m), .ret ()) ∧
      ((Abort i.val m).1.sp.sd i).stream = none ∧
      ((Abort i.val m).1.sp.sd i).state = (m.sp.sd i).state ∧
      (Abort i.val m).1.trace = m.trace ++ [Call.Pa_AbortStream i]) ∧
    (∀ dir is, dirRange dir = some is → (Abort dir m).2 = .ret () →
      ∀ j ∈ is, stream_active (m.sp.sd j) = .ok true →
        ((Abort dir m).1.sp.sd j).stream = none ∧
        Call.Pa_AbortStream j ∈ (Abort dir m).1.trace) ∧
    (∀ dir, (Abort dir m).1.env = m.env ∧
      (∀ j, ((Abort dir m).1.sp.sd j).state = (m.sp.sd j).state ∧
        ((Abort dir m).1.sp.sd j).rwsem = (m.sp.sd j).rwsem ∧
        ((Abort dir m).1.sp.sd j).csem = (m.sp.sd j).csem ∧
        ((Abort dir m).1.sp.sd j).rb = (m.sp.sd j).rb) ∧
      ∃ cs, (Abort dir m).1.trace = m.trace ++ cs ∧
        ∀ c ∈ cs, ∃ j, c = Call.Pa_AbortStream j) := by
  refine ⟨fun i ha => ?_, fun dir is hdir hret j hj ha => ?_, fun dir => ?_⟩
  · have h1 : Abort i.val m = (clearStream i (logCall (Call.Pa_AbortStream i) m), .ret ()) := by
      simp only [Abort, dirRange_fin, forDirs, Abort_one, ha]
    refine ⟨h1, ?_, ?_, ?_⟩
    · rw [h1]; simp [sd_clearStream]
    · rw [h1]; simp [sd_clearStream, logCall]
    · rw [h1]; rfl
  · simp only [Abort, hdir] at hret ⊢
    exact forDirs_Abort_tears_down is m hret j hj ha
  · have hfr : AbortFrame m (Abort dir m).1 := by
      unfold Abort
      cases dirRange dir with
      | none => exact AbortFrame.refl m
      | some is => exact forDirs_Abort_frame is m
    obtain ⟨h1, h2, _, h4⟩ := hfr
    refine ⟨h1, fun j => ?_, h4⟩
    have h2j := h2 j
    have a1 := congrArg (fun x : stream_data F => x.state) h2j
    have a2 := congrArg (fun x : stream_data F => x.rwsem) h2j
    have a3 := congrArg (fun x : stream_data F => x.csem) h2j
    have a4 := congrArg (fun x : stream_data F => x.rb) h2j
    exact ⟨a1, a2, a3, a4⟩

/-- Witness of C11: `Abort(1)` and `Abort(UINT_MAX)` on the plain port with three frames
queued for output. -/
theorem C11_witness :
    (Abort 1 (quietSys (plainPort emptyRing8 (ring8 0)))
      = (clearStream 1 (logCall (Call.Pa_AbortStream 1) (quietSys (plainPort emptyRing8 (ring8 0)))),
          .ret ()) ∧
      ((Abort 1 (quietSys (plainPort emptyRing8 (ring8 0)))).1.sp.sd 1).stream = none ∧
      ((Abort 1 (quietSys (plainPort emptyRing8 (ring8 0)))).1.sp.sd 1).state = spa_continue ∧
      (Abort 1 (quietSys (plainPort emptyRing8 (ring8 0)))).1.trace = [Call.Pa_AbortStream 1]) ∧
    (Abort UINT_MAX (quietSys (plainPort emptyRing8 (ring8 0)))).1.trace
      = [Call.Pa_AbortStream 0, Call.Pa_AbortStream 1] :=
  ⟨(C11_Abort_tears_down (quietSys (plainPort emptyRing8 (ring8 0)))).1 1 rfl, by decide!⟩

/-- Counterexample to C11 as stated: on the plain port the output stream is active and its
state is CONTINUE; after `Abort(1)` the handle is null and the state is still CONTINUE, not
ABORT. -/
theorem C11_counterexample :
    stream_active ((quietSys (plainPort emptyRing8 (ring8 0))).sp.sd 1) = .ok true ∧
    (Abort 1 (quietSys (plainPort emptyRing8 (ring8 0)))).2 = .ret () ∧
    ((Abort 1 (quietSys (plainPort emptyRing8 (ring8 0)))).1.sp.sd 1).stream = none ∧
    ((Abort 1 (quietSys (plainPort emptyRing8 (ring8 0)))).1.sp.sd 1).state = spa_continue ∧
    ((Abort 1 (quietSys (plainPort emptyRing8 (ring8 0)))).1.sp.sd 1).state ≠ spa_abort :=
  ⟨rfl, by decide!⟩

/-! ## Close twice -/

theorem Close_one_cases {F D R : Type} (zero : F) (i : Fin 2) (m : Sys F D R) :
    (stream_active (m.sp.sd i) = .ok false ∧ Close_one zero i m = (m, .ret ())) ∨
    (∃ e, stream_active (m.sp.sd i) = .error e ∧ Close_one zero i m = (m, .throw e)) ∨
    (stream_active (m.sp.sd i) = .ok true ∧ (Close_one zero i m).2 = .ret ()) := by
  unfold Close_one
  cases ha : stream_active (m.sp.sd i) with
  | error e => exact Or.inr (Or.inl ⟨e, rfl, rfl⟩)
  | ok b =>
    cases b with
    | false => exact Or.inl ⟨rfl, rfl⟩
    | true => exact Or.inr (Or.inr ⟨rfl, rfl⟩)

theorem forDirs_Close_skip {F D R : Type} (zero : F) (done is : List (Fin 2)) (m : Sys F D R)
    (h : ∀ j ∈ done, stream_active (m.sp.sd j) = .ok false) :
    forDirs (Close_one zero) (done ++ is) m = forDirs (Close_one zero) is m := by
  induction done with
  | nil => rfl
  | cons a done ih =>
    have ha : Close_one zero a m = (m, .ret ()) := by
      simp only [Close_one, h a (List.mem_cons_self _ _)]
    simp only [List.cons_append, forDirs, ha]
    exact ih (fun j hj => h j (List.mem_cons_of_mem _ hj))

theorem forDirs_Close_again {F D R : Type} (zero : F) (is done : List (Fin 2)) (m : Sys F D R)
    (h : ∀ j ∈ done, stream_active (m.sp.sd j) = .ok false) :
    forDirs (Close_one zero) (done ++ is) (forDirs (Close_one zero) is m).1
      = forDirs (Close_one zero) is m := by
  induction is generalizing m done with
  | nil =>
    simp only [forDirs, List.append_nil]
    have := forDirs_Close_skip zero done [] m h
    simpa [forDirs] using this
  | cons a is ih =>
    rcases Close_one_cases zero a m with ⟨_, hc⟩ | ⟨e, he, hc⟩ | ⟨hact, hc⟩
    · have h1 : forDirs (Close_one zero) (a :: is) m = forDirs (Close_one zero) is m := by
        simp only [forDirs, hc]
      rw [h1]
      have := ih (done ++ [a]) m (by
        intro j hj
        rcases List.mem_append.mp hj with hj | hj
        · exact h j hj
        · simp only [List.mem_singleton] at hj; subst hj; assumption)
      simpa using this
    · have h1 : forDirs (Close_one zero) (a :: is) m = (m, .throw e) := by
        simp only [forDirs, hc]
      rw [h1, forDirs_Close_skip zero done (a :: is) m h, h1]
    · rcases hf : Close_one zero a m with ⟨m1, o⟩
      rw [hf] at hc
      simp only at hc
      subst hc
      have h1 : forDirs (Close_one zero) (a :: is) m = forDirs (Close_one zero) is m1 := by
        simp only [forDirs, hf]
      rw [h1]
      have ha1 : stream_active (m1.sp.sd a) = .ok false := by
        have := Close_one_inactive zero a m (by rw [hf])
        rw [hf] at this; exact this
      have := ih (done ++ [a]) m1 (by
        intro j hj
        rcases List.mem_append.mp hj with hj | hj
        · have := Close_one_keeps_inactive zero a j m (h j hj)
          rw [hf] at this; exact this
        · simp only [List.mem_singleton] at hj; subst hj; exact ha1)
      simpa using this
theorem Pulse_stream_setStream {F D R : Type} (s : SoundPulse F D R) (i j : Fin 2)
    (x : Option pa_simple) :
    (s.setStream i x).stream j = if j = i then x else s.stream j := by
  fin_cases i <;> fin_cases j <;> simp [SoundPulse.setStream, SoundPulse.stream]

theorem Pulse_Close_one_spec {F D R : Type} (i : Fin 2) (m : PulseSys F D R) :
    (SoundPulse.Close_one i m).2 = .ret () ∧
    (SoundPulse.Close_one i m).1.sp.stream i = none ∧
    (∀ j, m.sp.stream j = none → (SoundPulse.Close_one i m).1.sp.stream j = none) ∧
    (m.sp.stream i = none → (SoundPulse.Close_one i m).1 = m) := by
  unfold SoundPulse.Close_one
  cases hs : m.sp.stream i with
  | none => exact ⟨rfl, hs, fun j hj => hj, fun _ => rfl⟩
  | some st =>
    simp only [SoundPulse.flush, SoundPulse.Abort, dirRange_fin, List.foldl_cons, List.foldl_nil,
      SoundPulse.flush_one, SoundPulse.Abort_one, hs]
    refine ⟨?_, ?_, fun j hj => ?_, fun h => by cases h⟩
    · first | rfl | trivial
    · simp [Pulse_stream_setStream]
    · rw [Pulse_stream_setStream]; split
      · rfl
      · exact hj

theorem Pulse_Close_loop_spec {F D R : Type} (is : List (Fin 2)) (m : PulseSys F D R) :
    (SoundPulse.Close_loop is m).2 = .ret () ∧
    (∀ j ∈ is, (SoundPulse.Close_loop is m).1.sp.stream j = none) ∧
    (∀ j, m.sp.stream j = none → (SoundPulse.Close_loop is m).1.sp.stream j = none) ∧
    ((∀ j ∈ is, m.sp.stream j = none) → (SoundPulse.Close_loop is m).1 = m) := by
  induction is generalizing m with
  | nil => exact ⟨rfl, fun j hj => absurd hj (List.not_mem_nil j), fun j hj => hj, fun _ => rfl⟩
  | cons a is ih =>
    obtain ⟨h1, h2, h3, h4⟩ := Pulse_Close_one_spec a m
    rcases hf : SoundPulse.Close_one a m with ⟨m1, o⟩
    rw [hf] at h1 h2 h3 h4
    simp only at h1 h2 h3 h4
    subst h1
    obtain ⟨g1, g2, g3, g4⟩ := ih m1
    simp only [SoundPulse.Close_loop, hf]
    refine ⟨g1, fun j hj => ?_, fun j hj => g3 j (h3 j hj), fun hall => ?_⟩
    · rcases List.mem_cons.mp hj with rfl | hj
      · exact g3 _ h2
      · exact g2 j hj
    · have hm : m1 = m := h4 (hall a (List.mem_cons_self _ _))
      subst hm
      exact g4 (fun j hj => hall j (List.mem_cons_of_mem _ hj))

/-- Claim C12.  `Close` is idempotent for every backend and every `dir`: a second
`Close(dir)` right after the first leaves everything exactly as the first left it, the
object, the record of the outside calls (no backend call, no semaphore wait) and the script
of the realtime thread, and it ends as the first did.  For `SoundPort` and `SoundPulse` a
`dir` other than 0, 1 and `UINT_MAX` is no index of the streams, and both calls are
undefined.  (`stream_active`, which only asks PortAudio whether a handle that is not null
is active, is not counted as a backend call.) -/
theorem C12_Close_idempotent {F D R : Type} (zero : F) (dir : Nat) :
    (∀ m : Sys F D R, Close zero dir (Close zero dir m).1 = Close zero dir m) ∧
    (∀ m : PulseSys F D R,
      SoundPulse.Close dir (SoundPulse.Close dir m).1 = SoundPulse.Close dir m) ∧
    (∀ m : OssSys, SoundOSS.Close dir (SoundOSS.Close dir m) = SoundOSS.Close dir m) ∧
    (∀ m : NullSys D, SoundNull.Close dir (SoundNull.Close dir m) = SoundNull.Close dir m) := by
  refine ⟨fun m => ?_, fun m => ?_, fun m => ?_, fun m => rfl⟩
  · unfold Close
    cases hd : dirRange dir with
    | none => rfl
    | some is => exact forDirs_Close_again zero is [] m (fun j hj => by cases hj)
  · unfold SoundPulse.Close
    cases hd : dirRange dir with
    | none => rfl
    | some is =>
      obtain ⟨h1, h2, _, _⟩ := Pulse_Close_loop_spec is m
      obtain ⟨g1, _, _, g4⟩ := Pulse_Close_loop_spec is (SoundPulse.Close_loop is m).1
      simp only
      apply Prod.ext
      · exact g4 h2
      · rw [g1, h1]
  · unfold SoundOSS.Close
    by_cases h : m.sp.device_fd = -1
    · simp [h]
    · simp [h]

/-- Witness of C12: the calls of the first `Close(UINT_MAX)` on an open port (the realtime
thread silent), an open PulseAudio object and an open OSS device; the second `Close` adds
none. -/
theorem C12_witness :
    (Close (0 : Int) UINT_MAX (quietSys (plainPort emptyRing8 (ring8 0)))).1.trace
      = [Call.sem_timedwaitr 0 .c 2, Call.Pa_CloseStream 0,
          Call.sem_timedwaitr 1 .c 2, Call.Pa_CloseStream 1] ∧
    (Close (0 : Int) UINT_MAX
        (Close (0 : Int) UINT_MAX (quietSys (plainPort emptyRing8 (ring8 0)))).1).1.trace
      = [Call.sem_timedwaitr 0 .c 2, Call.Pa_CloseStream 0,
          Call.sem_timedwaitr 1 .c 2, Call.Pa_CloseStream 1] ∧
    (SoundPulse.Close UINT_MAX (⟨plainPulse, []⟩ : PulseSys Int Int Unit)).1.trace
      = [.pa_simple_drain 0, .pa_simple_free 0, .pa_simple_drain 1, .pa_simple_free 1] ∧
    (SoundPulse.Close UINT_MAX
        (SoundPulse.Close UINT_MAX (⟨plainPulse, []⟩ : PulseSys Int Int Unit)).1).1.trace
      = [.pa_simple_drain 0, .pa_simple_free 0, .pa_simple_drain 1, .pa_simple_free 1] ∧
    SoundOSS.Close UINT_MAX ⟨⟨5⟩, []⟩ = ⟨⟨-1⟩, [.close 5]⟩ ∧
    SoundOSS.Close UINT_MAX (SoundOSS.Close UINT_MAX ⟨⟨5⟩, []⟩) = ⟨⟨-1⟩, [.close 5]⟩ ∧
    Close (0 : Int) UINT_MAX (Close (0 : Int) UINT_MAX (quietSys (plainPort emptyRing8 (ring8 0)))).1
      = Close (0 : Int) UINT_MAX (quietSys (plainPort emptyRing8 (ring8 0))) :=
  ⟨by decide!, by decide!, by decide!, by decide!, by decide!, by decide!,
   (C12_Close_idempotent (D := Int) (0 : Int) UINT_MAX).1 (quietSys (plainPort emptyRing8 (ring8 0)))⟩

/-! ## Write when the output ring is full -/

theorem setSem_rb {F : Type} (sd : stream_data F) (k : SemKind) (n : Nat) :
    (setSem sd k n).rb = sd.rb := by
  cases k <;> rfl

/-- A wait leaves the ring of a direction alone when no callback of the script is for that
direction. -/
theorem sem_timedwaitr_rb_avoids {F D R : Type} (zero : F) (dir j : Fin 2) (k : SemKind)
    (t : ℚ) (m : Sys F D R) (h : scriptAvoids j m.env) :
    ((sem_timedwaitr zero dir k t m).1.sp.sd j).rb = (m.sp.sd j).rb ∧
      scriptAvoids j (sem_timedwaitr zero dir k t m).1.env := by
  unfold sem_timedwaitr
  simp only
  split
  · refine ⟨?_, h⟩
    rw [sd_setSd]; split
    · subst_vars; exact setSem_rb _ _ _
    · rfl
  · cases henv : m.env with
    | nil => exact ⟨rfl, by rw [henv] at h; exact h⟩
    | cons ep env =>
      rw [henv] at h
      have htail : scriptAvoids j env := fun e he => h e (List.mem_cons_of_mem _ he)
      cases ep with
      | fail e => exact ⟨rfl, htail⟩
      | run cbs =>
        have hcbs := runCallbacks_other zero j cbs m.sp
          (h (.run cbs) (List.mem_cons_self _ _) cbs rfl)
        simp only
        split
        · refine ⟨?_, htail⟩
          rw [sd_setSd]; split
          · subst_vars; rw [setSem_rb, hcbs]
          · rw [hcbs]
        · exact ⟨by rw [hcbs], htail⟩

theorem waitLoop_rb_avoids {F D R : Type} (zero : F) (cond : SoundPort F D R → Option Bool)
    (dir j : Fin 2) (k : SemKind) (t : ℚ) (fuel : Nat) (m : Sys F D R)
    (r : Sys F D R × WaitEnd) (hav : scriptAvoids j m.env)
    (h : waitLoop zero cond dir k t fuel m = some r) :
    (r.1.sp.sd j).rb = (m.sp.sd j).rb := by
  induction fuel generalizing m with
  | zero => simp [waitLoop] at h
  | succ fuel ih =>
    unfold waitLoop at h
    cases hc : cond m.sp with
    | none => simp only [hc] at h; cases h; rfl
    | some b =>
      cases b with
      | true => simp only [hc] at h; cases h; rfl
      | false =>
        simp only [hc] at h
        obtain ⟨h1, h2⟩ := sem_timedwaitr_rb_avoids zero dir j k t m hav
        rcases hs : sem_timedwaitr zero dir k t m with ⟨m1, c⟩
        rw [hs] at h h1 h2
        simp only at h h1 h2
        split_ifs at h
        · exact (ih m1 h2 h).trans h1
        · cases h; exact h1
        · cases h; exact h1

/-- With a silent realtime thread a wait for a condition on the rings that does not hold
takes the tokens left on the semaphore and expires. -/
theorem waitLoop_quiet_timedout {F D R : Type} (zero : F) (cond : SoundPort F D R → Option Bool)
    (hcond : ∀ s s1 : SoundPort F D R, (∀ j, (s1.sd j).rb = (s.sd j).rb) → cond s1 = cond s)
    (dir : Fin 2) (k : SemKind) (t : ℚ) (fuel : Nat) (m : Sys F D R)
    (henv : m.env = []) (hc : cond m.sp = some false)
    (hfuel : semCount (m.sp.sd dir) k < fuel) :
    ∃ m1, waitLoop zero cond dir k t fuel m = some (m1, .timedout) ∧
      ∀ j, (m1.sp.sd j).rb = (m.sp.sd j).rb := by
  induction fuel generalizing m with
  | zero => omega
  | succ fuel ih =>
    unfold waitLoop
    simp only [hc]
    obtain ⟨q1, q2⟩ := sem_timedwaitr_quiet zero dir k t m henv
    by_cases hn : 0 < semCount (m.sp.sd dir) k
    · have hs : sem_timedwaitr zero dir k t m
          = ({ m with trace := m.trace ++ [Call.sem_timedwaitr dir k t],
                      sp := m.sp.setSd dir (setSem (m.sp.sd dir) k (semCount (m.sp.sd dir) k - 1)) }, 0) := by
        simp only [sem_timedwaitr, hn, if_true]
      rw [hs] at q1 q2
      simp only [hs, if_true]
      obtain ⟨m1, g1, g2⟩ := ih _ q1 (by rw [hcond _ _ q2]; exact hc)
        (by simp only [sd_setSd, if_true, semCount_setSem]; omega)
      exact ⟨m1, g1, fun j => (g2 j).trans (q2 j)⟩
    · have hs : sem_timedwaitr zero dir k t m
          = ({ m with trace := m.trace ++ [Call.sem_timedwaitr dir k t] }, ETIMEDOUT) := by
        simp only [sem_timedwaitr, hn, if_false, henv]
      simp only [hs]
      have h0 : (ETIMEDOUT : Int) ≠ 0 := by decide
      simp only [h0, if_false, if_true]
      exact ⟨_, rfl, fun j => rfl⟩

/-- The `assert` of `resample_write` holds for a block of at most `maxframes` frames when
the tx ratio is positive. -/
theorem resample_write_assert_holds {F : Type} (rb : ringbuffer F) (r : ℚ) (count : Nat)
    (hr : 0 < r) (hmax : count ≤ resample_write_maxframes rb r) :
    (Nat.cast (count * CHANNELS) : ℚ) * r ≤ (rb.length : ℚ) := by
  unfold resample_write_maxframes at hmax
  have h2 : 2 * count ≤ Int.toNat ⌊(Nat.cast (rb.length / CHANNELS) : ℚ) / r⌋ := by omega
  have hnn : (0 : ℚ) ≤ (Nat.cast (rb.length / CHANNELS) : ℚ) / r :=
    div_nonneg (Nat.cast_nonneg _) hr.le
  have h3 : ((Int.toNat ⌊(Nat.cast (rb.length / CHANNELS) : ℚ) / r⌋ : Nat) : ℚ)
      ≤ (Nat.cast (rb.length / CHANNELS) : ℚ) / r := by
    have hz : (0 : Int) ≤ ⌊(Nat.cast (rb.length / CHANNELS) : ℚ) / r⌋ := Int.floor_nonneg.mpr hnn
    have : ((Int.toNat ⌊(Nat.cast (rb.length / CHANNELS) : ℚ) / r⌋ : Nat) : ℚ)
        = ((⌊(Nat.cast (rb.length / CHANNELS) : ℚ) / r⌋ : Int) : ℚ) := by
      have := Int.toNat_of_nonneg hz
      exact_mod_cast congrArg (fun z : Int => (z : ℚ)) this
    rw [this]
    exact Int.floor_le _
  have h4 : ((2 * count : Nat) : ℚ) ≤ (Nat.cast (rb.length / CHANNELS) : ℚ) / r :=
    le_trans (by exact_mod_cast h2) h3
  have h5 : ((2 * count : Nat) : ℚ) * r ≤ (Nat.cast (rb.length / CHANNELS) : ℚ) :=
    (le_div_iff₀ hr).mp h4
  have h6 : (Nat.cast (rb.length / CHANNELS) : ℚ) ≤ (rb.length : ℚ) := by
    exact_mod_cast Nat.div_le_self _ _
  have h7 : (Nat.cast (count * CHANNELS) : ℚ) = ((2 * count : Nat) : ℚ) := by
    simp only [CHANNELS]; push_cast; ring
  rw [h7]
  exact le_trans h5 h6
theorem Write_fill_window {F D R : Type} (cx : Cx F D R) (s : SoundPort F D R)
    (buf : Nat → D) (count : Nat) :
    window cx.ops.stale (Write_fill cx s buf count).fbuf (CHANNELS * count)
      = interleave cx.ops buf buf count := by
  have : (Write_fill cx s buf count).fbuf
      = interleave cx.ops buf buf count ++
        (if s.generate then s.fbuf else s.fbuf).drop (interleave cx.ops buf buf count).length := by
    unfold Write_fill overlay; split_ifs <;> rfl
  rw [this, ← interleave_length cx.ops buf buf count, window_append_left]

/-- `Write` of a block that is not split and not resampled is the copy into the ring,
"possibly waiting for space first". -/
theorem Write_plain_copy {F D R : Type} (cx : Cx F D R) (fuel : Nat) (m : Sys F D R)
    (buf : Nat → D) (count : Nat) (rb : ringbuffer F)
    (hrb : m.sp.sd1.rb = some rb)
    (hrate : m.sp.req_sample_rate = m.sp.sd1.dev_sample_rate) (hcorr : cx.cfg.TX_corr = 0)
    (hratio : 0 < m.sp.tx_ratio)
    (hmax : count ≤ resample_write_maxframes rb m.sp.tx_ratio) :
    Write cx (fuel + 1) m buf count =
      resample_write_copy cx { m with sp := Write_fill cx m.sp buf count }
        (Write_fill cx m.sp buf count).fbuf count := by
  have hassert := resample_write_assert_holds rb m.sp.tx_ratio count hratio hmax
  simp only [Write, resample_write, Write_fill_sd1, hrb, Write_fill_tx_ratio,
    if_neg (not_lt.mpr hmax), resample_write_block, Write_fill_req, hrate, hcorr, hassert]
  simp only [ne_eq, not_true_eq_false, or_self, if_false]

theorem resample_write_copy_wait {F D R : Type} (cx : Cx F D R) (m : Sys F D R)
    (wbuf : List F) (count : Nat) :
    resample_write_copy cx m wbuf count =
      match resample_write_wait cx m count with
      | none => none
      | some (m1, .undefined) => some ⟨m1, .undefined⟩
      | some (m1, .failed e) => some ⟨m1, .throw (.errno e)⟩
      | some (m1, .timedout) => some ⟨m1, .throw (.errno ETIMEDOUT)⟩
      | some (m1, .ready) =>
        match m1.sp.sd1.rb with
        | none => some ⟨m1, .undefined⟩
        | some rb =>
          some ⟨{ m1 with sp := { m1.sp with sd1 := { m1.sp.sd1 with
                    rb := some (rb.write (window cx.ops.stale wbuf (CHANNELS * count))).2 } } },
                .ret count⟩ := by
  rfl

/-- Claim C13.  `SoundPort::Write` of a block of `count <= maxframes` frames that is not
resampled (the modem rate equals the output device rate, `TX_corr` is 0), the tx ratio
positive.  The call returns.  It is the wait for `2 * count` floats of write space in
the output ring followed by the copy: when the space is there on entry the interleaved
block is appended at once and `count` is returned; when the wait ends with the space
available the block is appended to the ring the wait left and `count` is returned, no
exception raised; when a wait on `rw_sem` of the output times out first the call raises
`SndException` with error `ETIMEDOUT` and leaves the system as the expired wait left it:
the call has enqueued no float, and the output ring is exactly as on entry when no
callback of the output stream ran meanwhile.  With a silent realtime thread and too
little space the call does raise `ETIMEDOUT`, the ring unchanged. -/
theorem C13_Write_timeout {F D R : Type} (cx : Cx F D R) (fuel : Nat) (m : Sys F D R)
    (buf : Nat → D) (count : Nat) (rb : ringbuffer F)
    (hrb : m.sp.sd1.rb = some rb)
    (hrate : m.sp.req_sample_rate = m.sp.sd1.dev_sample_rate) (hcorr : cx.cfg.TX_corr = 0)
    (hratio : 0 < m.sp.tx_ratio)
    (hmax : count ≤ resample_write_maxframes rb m.sp.tx_ratio) :
    (∃ r, Write cx (fuel + 1) m buf count = some r) ∧
    (CHANNELS * count ≤ rb.write_space →
      Write cx (fuel + 1) m buf count =
        some ⟨{ m with sp := { Write_fill cx m.sp buf count with sd1 := { m.sp.sd1 with
                rb := some { rb with data := rb.data ++ interleave cx.ops buf buf count } } } },
              .ret count⟩) ∧
    (∀ m1, resample_write_wait cx { m with sp := Write_fill cx m.sp buf count } count
        = some (m1, .ready) →
      ∃ rb1, m1.sp.sd1.rb = some rb1 ∧ CHANNELS * count ≤ rb1.write_space ∧
        Write cx (fuel + 1) m buf count =
          some ⟨{ m1 with sp := { m1.sp with sd1 := { m1.sp.sd1 with
                  rb := some { rb1 with data := rb1.data ++ interleave cx.ops buf buf count } } } },
                .ret count⟩) ∧
    (∀ m1, resample_write_wait cx { m with sp := Write_fill cx m.sp buf count } count
        = some (m1, .timedout) →
      Write cx (fuel + 1) m buf count = some ⟨m1, .throw (.errno ETIMEDOUT)⟩ ∧
      (SndException.errno ETIMEDOUT).error = ETIMEDOUT ∧
      (scriptAvoids 1 m.env → m1.sp.sd1.rb = some rb)) ∧
    (m.env = [] → rb.write_space < CHANNELS * count →
      ∃ m1, Write cx (fuel + 1) m buf count = some ⟨m1, .throw (.errno ETIMEDOUT)⟩ ∧
        m1.sp.sd1.rb = some rb) := by
  have hW := Write_plain_copy cx fuel m buf count rb hrb hrate hcorr hratio hmax
  refine ⟨?_, fun hspace => ?_, fun m1 hw => ?_, fun m1 hw => ?_, fun henv hfull => ?_⟩
  · obtain ⟨r, h1, _⟩ := resample_write_copy_out cx { m with sp := Write_fill cx m.sp buf count }
      (Write_fill cx m.sp buf count).fbuf count
    exact ⟨r, hW.trans h1⟩
  · exact Write_plain_ready cx fuel m buf count rb hrate hcorr hrb hmax
      (resample_write_assert_holds rb m.sp.tx_ratio count hratio hmax) hspace
  · have hc := waitLoop_cond _ _ _ _ _ _ _ _ hw
    simp only at hc
    cases hrb1 : m1.sp.sd1.rb with
    | none => simp [hrb1] at hc
    | some rb1 =>
      simp only [hrb1, Option.map_some', Option.some.injEq, decide_eq_true_eq] at hc
      refine ⟨rb1, rfl, hc, ?_⟩
      rw [hW, resample_write_copy_wait, hw]
      simp only [hrb1, Write_fill_window, ringbuffer.write]
      have hlen : min (interleave cx.ops buf buf count).length rb1.write_space
          = (interleave cx.ops buf buf count).length := by
        rw [interleave_length]; exact Nat.min_eq_left hc
      rw [hlen, List.take_length]
  · refine ⟨?_, rfl, fun hav => ?_⟩
    · rw [hW, resample_write_copy_wait, hw]
    · have := waitLoop_rb_avoids _ _ 1 1 _ _ _ _ _ (by exact hav) hw
      simp only [SoundPort.sd] at this
      simp only [Fin.isValue, one_ne_zero, if_false, Write_fill_sd1] at this
      rw [this, hrb]
  · obtain ⟨m1, h1, h2⟩ := waitLoop_quiet_timedout cx.ops.zero
      (fun sp => sp.sd1.rb.map (fun rb => decide (rb.write_space ≥ CHANNELS * count)))
      (fun s s1 h => by
        have := h 1
        simp only [SoundPort.sd, Fin.isValue, one_ne_zero, if_false] at this
        simp only [this])
      1 .rw (max 1 ((Nat.cast (2 * CHANNELS * count) : ℚ) / m.sp.sd1.dev_sample_rate))
      (semCount (m.sp.sd 1) .rw + scriptWeight m.env + 1)
      { m with sp := Write_fill cx m.sp buf count } henv
      (by simp only [Write_fill_sd1, hrb, Option.map_some', Option.some.injEq,
            decide_eq_false_iff_not, not_le]; exact hfull)
      (by simp only [SoundPort.sd, Fin.isValue, one_ne_zero, if_false, Write_fill_sd1]; omega)
    refine ⟨m1, ?_, ?_⟩
    · rw [hW, resample_write_copy_wait]
      have hw : resample_write_wait cx { m with sp := Write_fill cx m.sp buf count } count
          = some (m1, .timedout) := by
        simp only [resample_write_wait, WAIT_FOR_COND, SoundPort.sd, Fin.isValue, one_ne_zero,
          if_false, Write_fill_sd1]
        simp only [SoundPort.sd, Fin.isValue, one_ne_zero, if_false, Write_fill_sd1] at h1
        exact h1
      rw [hw]
    · have := h2 1
      simp only [SoundPort.sd, Fin.isValue, one_ne_zero, if_false, Write_fill_sd1] at this
      rw [this, hrb]

/-- Witness of C13: `Write` of two frames on the plain port with a full output ring of 8
floats.  With a silent realtime thread the wait of one second on `rw_sem[1]` expires: the
call raises `ETIMEDOUT` and the ring is as before.  When the callback plays two frames
during the wait the block is appended behind the two frames that are left. -/
theorem C13_witness :
    (Write plainCx 1 (quietSys (plainPort emptyRing8 fullRing8)) (fun i => 100 + (i : Int)) 2).map
        (fun r => (r.out, r.m.sp.sd1.rb.map (fun rb => rb.data), r.m.trace))
      = some (.throw (.errno ETIMEDOUT), some [10, 11, 20, 21, 30, 31, 40, 41],
          [Call.sem_timedwaitr 1 .rw 1]) ∧
    (Write plainCx 1 playSys (fun i => 100 + (i : Int)) 2).map
        (fun r => (r.out, r.m.sp.sd1.rb.map (fun rb => rb.data), r.m.trace))
      = some (.ret 2, some [30, 31, 40, 41, 100, 100, 101, 101],
          [Call.sem_timedwaitr 1 .rw 1]) ∧
    ∃ m1, Write plainCx (0 + 1) (quietSys (plainPort emptyRing8 fullRing8))
        (fun i => 100 + (i : Int)) 2 = some ⟨m1, .throw (.errno ETIMEDOUT)⟩ ∧
      m1.sp.sd1.rb = some fullRing8 :=
  ⟨by decide!, by decide!,
   (C13_Write_timeout plainCx 0 (quietSys (plainPort emptyRing8 fullRing8))
      (fun i => 100 + (i : Int)) 2 fullRing8 rfl rfl rfl (by decide!) (by decide!)).2.2.2.2
      rfl (by decide)⟩

/-! ## The retune of the rx ratio -/

/-- `Read` of a block that is not split, playback off, is the part of `Read` after the
split. -/
theorem Read_noplay_block {F D R : Type} (cx : Cx F D R) (fuel : Nat) (m : Sys F D R)
    (buf : Nat → D) (off count : Nat) (rb : ringbuffer F)
    (hplay : m.sp.playback = false) (hrb : m.sp.sd0.rb = some rb)
    (hmax : count ≤ Read_maxframes rb m.sp.rx_ratio) :
    Read cx (fuel + 1) m buf off count = Read_block cx m buf off count := by
  have hp : Read_playback cx m buf off count = (m, buf) := by
    simp only [Read_playback, hplay]; rfl
  unfold Read
  simp only [hp, hplay, hrb, if_neg (not_lt.mpr hmax)]
  simp

theorem outer_fields {F D R : Type} (s s1 : SoundPort F D R) (h : outer s1 = outer s) :
    s1.rxppm = s.rxppm ∧ s1.txppm = s.txppm ∧ s1.req_sample_rate = s.req_sample_rate ∧
    s1.sd0.dev_sample_rate = s.sd0.dev_sample_rate ∧
    s1.sd1.dev_sample_rate = s.sd1.dev_sample_rate ∧
    s1.rx_src_state = s.rx_src_state ∧ s1.tx_src_state = s.tx_src_state ∧
    s1.rx_ratio = s.rx_ratio ∧ s1.tx_ratio = s.tx_ratio ∧
    s1.capture = s.capture ∧ s1.playback = s.playback ∧ s1.generate = s.generate ∧
    s1.ofCapture = s.ofCapture ∧ s1.ifPlayback = s.ifPlayback ∧ s1.ofGenerate = s.ofGenerate ∧
    s1.fbuf = s.fbuf := by
  have a1 := congrArg (fun x : SoundPort F D R => x.rxppm) h
  have a2 := congrArg (fun x : SoundPort F D R => x.txppm) h
  have a3 := congrArg (fun x : SoundPort F D R => x.req_sample_rate) h
  have a4 := congrArg (fun x : SoundPort F D R => x.sd0.dev_sample_rate) h
  have a5 := congrArg (fun x : SoundPort F D R => x.sd1.dev_sample_rate) h
  have a6 := congrArg (fun x : SoundPort F D R => x.rx_src_state) h
  have a7 := congrArg (fun x : SoundPort F D R => x.tx_src_state) h
  have a8 := congrArg (fun x : SoundPort F D R => x.rx_ratio) h
  have a9 := congrArg (fun x : SoundPort F D R => x.tx_ratio) h
  have b1 := congrArg (fun x : SoundPort F D R => x.capture) h
  have b2 := congrArg (fun x : SoundPort F D R => x.playback) h
  have b3 := congrArg (fun x : SoundPort F D R => x.generate) h
  have b4 := congrArg (fun x : SoundPort F D R => x.ofCapture) h
  have b5 := congrArg (fun x : SoundPort F D R => x.ifPlayback) h
  have b6 := congrArg (fun x : SoundPort F D R => x.ofGenerate) h
  have b7 := congrArg (fun x : SoundPort F D R => x.fbuf) h
  exact ⟨a1, a2, a3, a4, a5, a6, a7, a8, a9, b1, b2, b3, b4, b5, b6, b7⟩

theorem sf_readf_double_length_le {D : Type} (file : SNDFILE D) (n : Nat) :
    (sf_readf_double file n).1.length ≤ n := by
  simp [sf_readf_double, List.length_take]

theorem read_file_loop_length_le {D : Type} (k : Nat) (file : SNDFILE D) (acc : List D)
    (count : Nat) (h : acc.length ≤ count) :
    (read_file_loop k file acc count).1.length ≤ count := by
  induction k generalizing file acc with
  | zero => exact h
  | succ k ih =>
    unfold read_file_loop
    by_cases hlt : acc.length < count
    · simp only [hlt, if_true]
      have hg := sf_readf_double_length_le (sf_seek0 file) (count - acc.length)
      have hle : (acc ++ (sf_readf_double (sf_seek0 file) (count - acc.length)).1).length ≤ count := by
        rw [List.length_append]; omega
      split_ifs
      · exact hle
      · exact ih _ _ hle
    · simp only [hlt, if_false]; exact h

theorem read_file_length_le {D : Type} (file : SNDFILE D) (count : Nat) :
    (read_file file count).1.length ≤ count := by
  unfold read_file
  exact read_file_loop_length_le _ _ _ _ (sf_readf_double_length_le file count)

/-- The block a backend leaves in the caller's array when it reads `got` from the playback
file and scales by the volume. -/
theorem mixer_scale_store {D : Type} (mul : D → D → D) (en : Bool) (vol : D) (buf : Nat → D)
    (off count : Nat) (got : List D) (hlen : got.length ≤ count) :
    load (mixer_scale mul en vol (store buf off got) off count) off got.length
      = got.map (fun x => if en then mul x vol else x) := by
  apply List.ext_getElem
  · simp [load]
  · intro i h1 h2
    have hi : i < got.length := by simpa [load] using h1
    have hs : store buf off got (off + i) = got[i] := by
      rw [store_at buf off got i hi, List.getD_eq_getElem?_getD, List.getElem?_eq_getElem hi]
      rfl
    simp only [load, List.getElem_map, List.getElem_range]
    unfold mixer_scale
    cases en with
    | false => simpa using hs
    | true =>
      simp only [if_true]
      have hic : i < ((load (store buf off got) off count).map (fun x => mul x vol)).length := by
        simp [load]; omega
      rw [store_at _ off _ i hic, List.getD_eq_getElem?_getD, List.getElem?_eq_getElem hic]
      simp [load, hs]

theorem Read_playback_eq {F D R : Type} (cx : Cx F D R) (m : Sys F D R) (buf : Nat → D)
    (off count : Nat) (f : SNDFILE D) (hplay : m.sp.playback = true)
    (hfile : m.sp.ifPlayback = some f) :
    Read_playback cx m buf off count =
      ({ m with sp := { m.sp with ifPlayback := some (read_file f count).2 } },
        mixer_scale cx.ops.mul cx.cfg.EnableMixer cx.cfg.RcvMixer
          (store buf off (read_file f count).1) off count) := by
  simp only [Read_playback, hplay, hfile, mixer_scale, if_true]

theorem resample_files {F D R : Type} (cx : Cx F D R) (mode : Nat) (data_in : List F)
    (count max : Nat) (s : SoundPort F D R) :
    fileKey (resample cx mode data_in count max s).1 = fileKey s ∧
    (resample cx mode data_in count max s).1.ofCapture = s.ofCapture := by
  have hrx : fileKey (resample_retune_rx cx s) = fileKey s ∧
      (resample_retune_rx cx s).ofCapture = s.ofCapture := by
    unfold resample_retune_rx; split_ifs <;> exact ⟨rfl, rfl⟩
  have htx : fileKey (resample_retune_tx cx s) = fileKey s ∧
      (resample_retune_tx cx s).ofCapture = s.ofCapture := by
    unfold resample_retune_tx; split_ifs <;> exact ⟨rfl, rfl⟩
  unfold resample
  by_cases h1 : mode &&& (1 <<< O_RDONLY) ≠ 0
  · rw [if_pos h1]
    dsimp only
    split
    · exact hrx
    · exact hrx
  · rw [if_neg h1]
    by_cases h3 : mode &&& (1 <<< O_WRONLY) ≠ 0
    · rw [if_pos h3]
      dsimp only
      split
      · exact htx
      · exact htx
    · rw [if_neg h3]
      exact ⟨rfl, rfl⟩

theorem Read_peek_files {F D R : Type} (s : SoundPort F D R) (rb : ringbuffer F) (ncount : Nat) :
    fileKey (Read_peek s rb ncount).1 = fileKey s ∧
    (Read_peek s rb ncount).1.ofCapture = s.ofCapture := by
  unfold Read_peek
  simp only
  split <;> exact ⟨rfl, rfl⟩

theorem Read_deliver_spec {F D R : Type} (cx : Cx F D R) (s : SoundPort F D R) (rbadv : Bool)
    (ncount : Nat) (rbuf : List F) (count : Nat) (buf : Nat → D) (off : Nat) :
    (Read_deliver cx s rbadv ncount rbuf count buf off).2
      = store buf off (deinterleave cx.ops rbuf count) ∧
    fileKey (Read_deliver cx s rbadv ncount rbuf count buf off).1 = fileKey s ∧
    (Read_deliver cx s rbadv ncount rbuf count buf off).1.ofCapture
      = if s.capture then write_file s.ofCapture (deinterleave cx.ops rbuf count)
        else s.ofCapture := by
  unfold Read_deliver
  cases rbadv <;> cases hc : s.capture <;> simp [hc, fileKey]

/-- Whenever the body of `Read` returns `n`, it has stored a block of `n` samples in the
caller's array and, with capture on, has appended that same block to the capture file. -/
theorem Read_body_tee {F D R : Type} (cx : Cx F D R) (m1 : Sys F D R) (buf : Nat → D)
    (off count ncount : Nat) :
    fileKey (Read_body cx m1 buf off count ncount).m.sp = fileKey m1.sp ∧
    (Read_body cx m1 buf off count ncount).m.env = m1.env ∧
    (Read_body cx m1 buf off count ncount).m.trace = m1.trace ∧
    (∀ n, (Read_body cx m1 buf off count ncount).out = .ret n →
      ∃ block : List D, block.length = n ∧
        (Read_body cx m1 buf off count ncount).buf = store buf off block ∧
        (Read_body cx m1 buf off count ncount).m.sp.ofCapture
          = if m1.sp.capture then write_file m1.sp.ofCapture block else m1.sp.ofCapture) ∧
    ((∀ n, (Read_body cx m1 buf off count ncount).out ≠ .ret n) →
      (Read_body cx m1 buf off count ncount).buf = buf ∧
      (Read_body cx m1 buf off count ncount).m.sp.ofCapture = m1.sp.ofCapture) := by
  unfold Read_body
  cases hrb : m1.sp.sd0.rb with
  | none => exact ⟨rfl, rfl, rfl, fun n h => by simp at h, fun _ => ⟨rfl, rfl⟩⟩
  | some rb =>
    dsimp only
    obtain ⟨p1, p2⟩ := Read_peek_files m1.sp rb ncount
    have hcap : (Read_peek m1.sp rb ncount).1.capture = m1.sp.capture :=
      congrArg Prod.fst p1
    rcases hr : Read_resample cx (Read_peek m1.sp rb ncount).1 (Read_peek m1.sp rb ncount).2.1
      ncount count with ⟨s3, o⟩
    have hs3 : fileKey s3 = fileKey (Read_peek m1.sp rb ncount).1 ∧
        s3.ofCapture = (Read_peek m1.sp rb ncount).1.ofCapture := by
      unfold Read_resample at hr
      split_ifs at hr
      · obtain ⟨q1, q2⟩ := resample_files cx (1 <<< O_RDONLY)
          (window cx.ops.stale (Read_peek m1.sp rb ncount).2.1 (CHANNELS * ncount)) ncount count
          (Read_peek m1.sp rb ncount).1
        rcases hq : resample cx (1 <<< O_RDONLY)
          (window cx.ops.stale (Read_peek m1.sp rb ncount).2.1 (CHANNELS * ncount)) ncount count
          (Read_peek m1.sp rb ncount).1 with ⟨s2, o2⟩
        rw [hq] at hr q1 q2
        cases o2 <;> cases hr <;> exact ⟨q1, q2⟩
      · cases hr; exact ⟨rfl, rfl⟩
    obtain ⟨q1, q2⟩ := hs3
    have hcap3 : s3.capture = m1.sp.capture := (congrArg Prod.fst q1).trans hcap
    cases o with
    | throw e =>
      refine ⟨q1.trans p1, rfl, rfl, fun n h => ?_, fun _ => ⟨rfl, q2.trans p2⟩⟩
      cases h
    | undefined =>
      refine ⟨q1.trans p1, rfl, rfl, fun n h => ?_, fun _ => ⟨rfl, q2.trans p2⟩⟩
      cases h
    | aborted =>
      refine ⟨q1.trans p1, rfl, rfl, fun n h => ?_, fun _ => ⟨rfl, q2.trans p2⟩⟩
      cases h
    | ret x =>
      obtain ⟨rbuf1, count1⟩ := x
      obtain ⟨d1, d2, d3⟩ := Read_deliver_spec cx s3 (Read_peek m1.sp rb ncount).2.2 ncount rbuf1
        count1 buf off
      refine ⟨d2.trans (q1.trans p1), rfl, rfl, fun n hn => ?_, fun hno => absurd rfl (hno count1)⟩
      cases hn
      refine ⟨deinterleave cx.ops rbuf1 count1, deinterleave_length _ _ _, d1, ?_⟩
      show (Read_deliver cx s3 (Read_peek m1.sp rb ncount).2.2 ncount rbuf1 count1 buf off).1.ofCapture
        = _
      rw [d3, hcap3, q2, p2]
theorem load_store {A : Type} (buf : Nat → A) (off : Nat) (xs : List A) :
    load (store buf off xs) off xs.length = xs := by
  apply List.ext_getElem
  · simp [load]
  · intro i h1 h2
    simp only [load, List.getElem_map, List.getElem_range]
    rw [store_at buf off xs i h2, List.getD_eq_getElem?_getD, List.getElem?_eq_getElem h2]
    rfl

/-- A request that is not split: whenever it returns `n`, it has stored a block of `n`
samples in the caller's array and, with capture on, has appended that same block to the
capture file; when it does not return a value it has stored and appended nothing. -/
theorem Read_block_tee {F D R : Type} (cx : Cx F D R) (m : Sys F D R) (buf : Nat → D)
    (off count : Nat) (r : ReadRun F D R) (h : Read_block cx m buf off count = some r) :
    fileKey r.m.sp = fileKey m.sp ∧
    (∀ n, r.out = .ret n →
      ∃ block : List D, block.length = n ∧ r.buf = store buf off block ∧
        r.m.sp.ofCapture
          = if m.sp.capture then write_file m.sp.ofCapture block else m.sp.ofCapture) ∧
    ((∀ n, r.out ≠ .ret n) → r.buf = buf ∧ r.m.sp.ofCapture = m.sp.ofCapture) := by
  unfold Read_block at h
  cases hw : Read_wait cx m (Read_ncount m.sp count) with
  | none => rw [hw] at h; cases h
  | some p =>
    obtain ⟨m1, e⟩ := p
    have ho := outer_fields _ _ (waitLoop_outer _ _ _ _ _ _ _ _ hw)
    simp only at ho
    have hk : fileKey m1.sp = fileKey m.sp := by
      simp only [fileKey, ho.2.2.2.2.2.2.2.2.2.1, ho.2.2.2.2.2.2.2.2.2.2.1,
        ho.2.2.2.2.2.2.2.2.2.2.2.1, ho.2.2.2.2.2.2.2.2.2.2.2.2.2.1,
        ho.2.2.2.2.2.2.2.2.2.2.2.2.2.2.1]
    have hcapf : m1.sp.ofCapture = m.sp.ofCapture := ho.2.2.2.2.2.2.2.2.2.2.2.2.1
    have hcap : m1.sp.capture = m.sp.capture := ho.2.2.2.2.2.2.2.2.2.1
    rw [hw] at h
    cases e with
    | ready =>
      simp only [Option.some.injEq] at h
      subst h
      obtain ⟨b1, _, _, b4, b5⟩ := Read_body_tee cx m1 buf off count (Read_ncount m.sp count)
      refine ⟨b1.trans hk, fun n hn => ?_, fun hno => ?_⟩
      · obtain ⟨block, g1, g2, g3⟩ := b4 n hn
        exact ⟨block, g1, g2, by rw [g3, hcap, hcapf]⟩
      · obtain ⟨g1, g2⟩ := b5 hno
        exact ⟨g1, g2.trans hcapf⟩
    | timedout =>
      simp only [Option.some.injEq] at h
      subst h
      refine ⟨hk, fun n hn => ?_, fun _ => ⟨rfl, hcapf⟩⟩
      cases hn
    | failed e =>
      simp only [Option.some.injEq] at h
      subst h
      refine ⟨hk, fun n hn => ?_, fun _ => ⟨rfl, hcapf⟩⟩
      cases hn
    | undefined =>
      simp only [Option.some.injEq] at h
      subst h
      refine ⟨hk, fun n hn => ?_, fun _ => ⟨rfl, hcapf⟩⟩
      cases hn

/-- Claim C15 (as amended).  `Read` of `SoundPort` with playback on and capture off, and
`Read` of `SoundPulse` (when its read of the device block succeeds) and of `SoundNull`
whenever playback is on, return `count` and leave in the caller's array the block read
from the playback file, multiplied by the receive volume when the mixer is enabled,
whatever the device delivers: `SoundPort` touches neither its input stream nor the
realtime thread, `SoundPulse` discards the data it has read.  None of them appends that
block to the capture file: `SoundPort` with capture off writes no file, and with capture
also on it goes on to the device read, whose block overwrites the playback block, is
returned, and is what the capture file receives; `SoundPulse` returns before its capture
tee; `SoundNull` tees the zeroed block before it reads the playback file. -/
theorem C15_playback_block {F D R : Type} (cx : Cx F D R) (st : Status D) (dzero : D)
    (buf : Nat → D) (off count : Nat) (f : SNDFILE D) :
    (∀ (fuel : Nat) (m : Sys F D R), m.sp.playback = true → m.sp.capture = false →
      m.sp.ifPlayback = some f →
      ∃ r, Read cx (fuel + 1) m buf off count = some r ∧ r.out = .ret count ∧
        load r.buf off (read_file f count).1.length
          = playback_block cx.ops.mul cx.cfg.EnableMixer cx.cfg.RcvMixer f count ∧
        r.m.sp.sd0 = m.sp.sd0 ∧ r.m.env = m.env ∧ r.m.sp.ofCapture = m.sp.ofCapture ∧
        r.m.sp.ifPlayback = some (read_file f count).2) ∧
    (∀ (srv : PulseServer F) (m : PulseSys F D R) (h : pa_simple) (data : List F),
      m.sp.playback = true → m.sp.ifPlayback = some f → m.sp.stream0 = some h →
      srv.pa_simple_read (SoundPulse.sizeof_double * SoundPulse.Read_ncount m.sp count)
        = .ok data →
      (SoundPulse.Read cx st srv m buf off count).out = .ret count ∧
      load (SoundPulse.Read cx st srv m buf off count).buf off (read_file f count).1.length
        = playback_block cx.ops.mul cx.cfg.EnableMixer st.RcvMixer f count ∧
      (SoundPulse.Read cx st srv m buf off count).m.sp.ofCapture = m.sp.ofCapture) ∧
    (∀ (mul : D → D → D) (cfg : Settings D) (m : NullSys D),
      m.sp.playback = true → m.sp.ifPlayback = some f →
      (SoundNull.Read mul dzero cfg st m buf off count).2.2 = count ∧
      load (SoundNull.Read mul dzero cfg st m buf off count).2.1 off (read_file f count).1.length
        = playback_block mul cfg.EnableMixer st.RcvMixer f count ∧
      (SoundNull.Read mul dzero cfg st m buf off count).1.sp.ofCapture
        = if m.sp.capture then write_file m.sp.ofCapture (List.replicate count dzero)
          else m.sp.ofCapture) ∧
    (∀ (fuel : Nat) (m : Sys F D R) (rb : ringbuffer F),
      m.sp.playback = true → m.sp.capture = true → m.sp.sd0.rb = some rb →
      count ≤ Read_maxframes rb m.sp.rx_ratio →
      Read cx (fuel + 1) m buf off count
        = Read_block cx (Read_playback cx m buf off count).1 (Read_playback cx m buf off count).2
            off count ∧
      ∀ r n, Read cx (fuel + 1) m buf off count = some r → r.out = .ret n →
        ∃ block : List D, block.length = n ∧
          r.buf = store (Read_playback cx m buf off count).2 off block ∧
          r.m.sp.ofCapture = write_file m.sp.ofCapture block) := by
  have hlen := read_file_length_le f count
  refine ⟨fun fuel m hplay hcap hfile => ?_, fun srv m h data hplay hfile hs hrd => ?_,
    fun mul cfg m hplay hfile => ?_, fun fuel m rb hplay hcap hrb hmax => ?_⟩
  · have hp := Read_playback_eq cx m buf off count f hplay hfile
    refine ⟨⟨{ m with sp := { m.sp with ifPlayback := some (read_file f count).2 },
                      trace := m.trace ++ [Call.usleep
                        (Int.toNat ⌈(1000000 * (count : ℚ)) / m.sp.req_sample_rate⌉)] },
              mixer_scale cx.ops.mul cx.cfg.EnableMixer cx.cfg.RcvMixer
                (store buf off (read_file f count).1) off count, .ret count⟩,
            ?_, rfl, ?_, rfl, rfl, rfl, rfl⟩
    · unfold Read
      simp only [hp, hplay, hcap]
      simp
    · exact mixer_scale_store _ _ _ _ _ _ _ hlen
  · have hR : SoundPulse.Read cx st srv m buf off count
        = ⟨{ sp := { m.sp with fbuf := overlay data m.sp.fbuf,
                               ifPlayback := some (read_file f count).2 },
             trace := m.trace ++ [PulseCall.pa_simple_read
               (SoundPulse.sizeof_double * SoundPulse.Read_ncount m.sp count)] },
           mixer_scale cx.ops.mul cx.cfg.EnableMixer st.RcvMixer
             (store buf off (read_file f count).1) off count, .ret count⟩ := by
      simp only [SoundPulse.Read, hs, hrd, SoundPulse.Read_body, hplay, if_true, hfile,
        read_playback_file]
    rw [hR]
    exact ⟨rfl, mixer_scale_store _ _ _ _ _ _ _ hlen, rfl⟩
  · have hz : load (store buf off (List.replicate count dzero)) off count
        = List.replicate count dzero := by
      have := load_store buf off (List.replicate count dzero)
      simpa using this
    have hR : SoundNull.Read mul dzero cfg st m buf off count
        = (⟨{ m.sp with
                ofCapture := if m.sp.capture then
                    write_file m.sp.ofCapture (List.replicate count dzero)
                  else m.sp.ofCapture,
                ifPlayback := some (read_file f count).2 },
              m.trace ++ [Call.usleep (SoundNull.sleep_usec m.sp count)]⟩,
            mixer_scale mul cfg.EnableMixer st.RcvMixer
              (store (store buf off (List.replicate count dzero)) off (read_file f count).1)
              off count, count) := by
      obtain ⟨⟨sf, oc, ip, og, cap, pb, gen⟩, trace⟩ := m
      simp only at hplay hfile
      subst hplay hfile
      cases cap
      · rfl
      · simp only [SoundNull.Read, if_true, read_playback_file, hz, SoundNull.sleep_usec]
    rw [hR]
    exact ⟨rfl, mixer_scale_store _ _ _ _ _ _ _ hlen, rfl⟩
  · have hfr : (Read_playback cx m buf off count).1.sp.sd0 = m.sp.sd0 ∧
        (Read_playback cx m buf off count).1.sp.rx_ratio = m.sp.rx_ratio ∧
        (Read_playback cx m buf off count).1.sp.capture = m.sp.capture ∧
        (Read_playback cx m buf off count).1.sp.playback = m.sp.playback ∧
        (Read_playback cx m buf off count).1.sp.ofCapture = m.sp.ofCapture := by
      cases hf : m.sp.ifPlayback <;> simp [Read_playback, hplay, hf]
    obtain ⟨f1, f2, f3, f4, f5⟩ := hfr
    have heq : Read cx (fuel + 1) m buf off count
        = Read_block cx (Read_playback cx m buf off count).1
            (Read_playback cx m buf off count).2 off count := by
      conv => lhs; unfold Read
      simp only [f1, f2, f3, f4, hplay, hcap, hrb, if_neg (not_lt.mpr hmax)]
      simp
    refine ⟨heq, fun r n hr hn => ?_⟩
    rw [heq] at hr
    obtain ⟨_, b2, _⟩ := Read_block_tee cx _ _ off count r hr
    obtain ⟨block, g1, g2, g3⟩ := b2 n hn
    refine ⟨block, g1, g2, ?_⟩
    rw [g3, f3, hcap, f5]
    rfl

/-- Witness of C15: `Read` of two frames with the mixer enabled at volume 3 and a playback
file holding 1, 2, 3, on the port with capture off. -/
theorem C15_witness :
    playback_block mixerCx.ops.mul mixerCx.cfg.EnableMixer mixerCx.cfg.RcvMixer ⟨[1, 2, 3], 0⟩ 2
      = [3, 6] ∧
    ∃ r, Read mixerCx (0 + 1) (quietSys (playPort false)) (fun _ => -7) 0 2 = some r ∧
      r.out = .ret 2 ∧
      load r.buf 0 (read_file (⟨[1, 2, 3], 0⟩ : SNDFILE Int) 2).1.length
        = playback_block mixerCx.ops.mul mixerCx.cfg.EnableMixer mixerCx.cfg.RcvMixer
            ⟨[1, 2, 3], 0⟩ 2 ∧
      r.m.sp.sd0 = (quietSys (playPort false)).sp.sd0 ∧
      r.m.env = (quietSys (playPort false)).env ∧
      r.m.sp.ofCapture = (quietSys (playPort false)).sp.ofCapture ∧
      r.m.sp.ifPlayback = some (read_file (⟨[1, 2, 3], 0⟩ : SNDFILE Int) 2).2 :=
  ⟨by decide!,
   (C15_playback_block mixerCx ⟨3⟩ 0 (fun _ => -7) 0 2 ⟨[1, 2, 3], 0⟩).1 0
      (quietSys (playPort false)) rfl rfl rfl⟩

/-- Counterexample to C15 as stated: the mixer enabled at volume 3, a playback file holding
1, 2, 3 (so that the playback block of two frames is 3, 6), playback and capture both on,
an empty capture file, `Read` of two frames.  `SoundPort`, with the frames (10,11),
(20,21), (30,31) in its input ring, returns 10, 20, the device block, and appends that to
the capture file.  `SoundPulse` returns 3, 6 and appends nothing.  `SoundNull` returns
3, 6 and appends 0, 0. -/
theorem C15_counterexample :
    playback_block mixerCx.ops.mul true 3 ⟨[1, 2, 3], 0⟩ 2 = [3, 6] ∧
    (Read mixerCx 1 (quietSys (playPort true)) (fun _ => -7) 0 2).map
      (fun r => (r.out, load r.buf 0 2, r.m.sp.ofCapture.map (fun c => c.frames)))
      = some (.ret 2, [10, 20], some [10, 20]) ∧
    ((SoundPulse.Read mixerCx ⟨3⟩ rampServer ⟨playPulse, []⟩ (fun _ => -7) 0 2).out,
      load (SoundPulse.Read mixerCx ⟨3⟩ rampServer ⟨playPulse, []⟩ (fun _ => -7) 0 2).buf 0 2,
      (SoundPulse.Read mixerCx ⟨3⟩ rampServer ⟨playPulse, []⟩
        (fun _ => -7) 0 2).m.sp.ofCapture.map (fun c => c.frames))
      = (.ret 2, [3, 6], some []) ∧
    ((SoundNull.Read (fun x y => x * y) 0 mixerCx.cfg ⟨3⟩ ⟨playNull, []⟩ (fun _ => -7) 0 2).2.2,
      load (SoundNull.Read (fun x y => x * y) 0 mixerCx.cfg ⟨3⟩ ⟨playNull, []⟩
        (fun _ => -7) 0 2).2.1 0 2,
      (SoundNull.Read (fun x y => x * y) 0 mixerCx.cfg ⟨3⟩ ⟨playNull, []⟩
        (fun _ => -7) 0 2).1.sp.ofCapture.map (fun c => c.frames))
      = (2, [3, 6], some [0, 0]) :=
  ⟨by decide!, by decide!, by decide!, by decide!⟩

/-! ## The tee to the generate file -/

theorem resample_write_keeps_files {F D R : Type} (cx : Cx F D R) (fuel : Nat) (m : Sys F D R)
    (data : List F) (count : Nat) (w : WriteRun F D R)
    (h : resample_write cx fuel m data count = some w) :
    w.m.sp.ofCapture = m.sp.ofCapture ∧ w.m.sp.ofGenerate = m.sp.ofGenerate := by
  have hw := resample_write_withFiles m.sp.ofCapture m.sp.ofGenerate cx fuel m data count
  have hm : m.withFiles m.sp.ofCapture m.sp.ofGenerate = m := rfl
  rw [hm, h] at hw
  simp only [Option.map_some', Option.some.injEq] at hw
  rw [hw]
  exact ⟨rfl, rfl⟩

/-- Claim C16 fails on the code for `SoundPort::Write_stereo`: with generate on it appends
the left block to the file `ofCapture` and leaves the generate file as it was, in every
state.  `SoundPort::Write` appends its block to the generate file and leaves the capture
file alone, as `Write_stereo` of `SoundPulse` and of `SoundNull` do.  On the open port
with generate and capture on, both files empty, `Write_stereo` of the two frames
(100,200), (101,201) leaves the generate file empty and the capture file holding 100,
101. -/
theorem C16_Write_stereo_tees_to_capture {F D R : Type} (cx : Cx F D R) (fuel : Nat)
    (m : Sys F D R) (l r : Nat → D) (n : Nat) :
    (∀ w, Write_stereo cx fuel m l r n = some w →
      w.m.sp.ofGenerate = m.sp.ofGenerate ∧
      w.m.sp.ofCapture
        = if m.sp.generate then write_file m.sp.ofCapture (load l 0 n) else m.sp.ofCapture) ∧
    (∀ w, Write cx fuel m l n = some w →
      w.m.sp.ofGenerate
        = (if m.sp.generate then write_file m.sp.ofGenerate (load l 0 n) else m.sp.ofGenerate) ∧
      w.m.sp.ofCapture = m.sp.ofCapture) ∧
    (Write_stereo plainCx 3 (quietSys genPort) (fun i => 100 + (i : Int))
        (fun i => 200 + (i : Int)) 2).map
      (fun w => (w.out, w.m.sp.ofGenerate.map (fun g => g.frames),
        w.m.sp.ofCapture.map (fun c => c.frames)))
      = some (.ret 2, some [], some [100, 101]) ∧
    (Write plainCx 3 (quietSys genPort) (fun i => 100 + (i : Int)) 2).map
      (fun w => (w.out, w.m.sp.ofGenerate.map (fun g => g.frames),
        w.m.sp.ofCapture.map (fun c => c.frames)))
      = some (.ret 2, some [100, 101], some []) ∧
    ((SoundPulse.Write_stereo plainCx rampServer ⟨genPulse, []⟩ (fun i => 100 + (i : Int))
        (fun i => 200 + (i : Int)) 2).out,
      (SoundPulse.Write_stereo plainCx rampServer ⟨genPulse, []⟩ (fun i => 100 + (i : Int))
        (fun i => 200 + (i : Int)) 2).m.sp.ofGenerate.map (fun g => g.frames),
      (SoundPulse.Write_stereo plainCx rampServer ⟨genPulse, []⟩ (fun i => 100 + (i : Int))
        (fun i => 200 + (i : Int)) 2).m.sp.ofCapture.map (fun c => c.frames))
      = (.ret 2, some [100, 101], some []) ∧
    ((SoundNull.Write_stereo ⟨genNull, []⟩ (fun i => 100 + (i : Int))
        (fun i => 200 + (i : Int)) 2).2,
      (SoundNull.Write_stereo ⟨genNull, []⟩ (fun i => 100 + (i : Int))
        (fun i => 200 + (i : Int)) 2).1.sp.ofGenerate.map (fun g => g.frames),
      (SoundNull.Write_stereo ⟨genNull, []⟩ (fun i => 100 + (i : Int))
        (fun i => 200 + (i : Int)) 2).1.sp.ofCapture.map (fun c => c.frames))
      = (2, some [100, 101], some []) := by
  refine ⟨fun w hw => ?_, fun w hw => ?_, by decide!, by decide!, by decide!, by decide!⟩
  · obtain ⟨h1, h2⟩ := resample_write_keeps_files cx fuel _ _ _ w hw
    rw [h1, h2, Write_stereo_fill_eq_withFiles]
    exact ⟨rfl, rfl⟩
  · obtain ⟨h1, h2⟩ := resample_write_keeps_files cx fuel _ _ _ w hw
    rw [h1, h2, Write_fill_eq_withFiles]
    exact ⟨rfl, rfl⟩

/-! ## The tee to the capture file -/

theorem write_file_append {D : Type} (c : Option (SNDFILE D)) (xs ys : List D) :
    write_file (write_file c xs) ys = write_file c (xs ++ ys) := by
  cases c <;> simp [write_file]

theorem write_file_nil {D : Type} (c : Option (SNDFILE D)) : write_file c [] = c := by
  cases c <;> simp [write_file]

theorem storeAll_append {A : Type} (buf : Nat → A) (ws vs : List (Nat × List A)) :
    storeAll (storeAll buf ws) vs = storeAll buf (ws ++ vs) := by
  simp [storeAll, List.foldl_append]

theorem Read_split_teed {F D R : Type}
    (rd : Sys F D R → (Nat → D) → Nat → Nat → Option (ReadRun F D R)) (mf : Nat)
    (hrd : ∀ m buf off c r n, m.sp.capture = true → m.sp.playback = false →
      rd m buf off c = some r → r.out = .ret n → Teed m buf r n)
    (k : Nat) (m : Sys F D R) (buf : Nat → D) (off count n0 : Nat) (r : ReadRun F D R) (n : Nat)
    (hcap : m.sp.capture = true) (hplay : m.sp.playback = false)
    (h : Read_split rd mf k m buf off count n0 = some r) (hn : r.out = .ret n) :
    fileKey r.m.sp = fileKey m.sp ∧
    ∃ ws : List (Nat × List D), r.buf = storeAll buf ws ∧
      r.m.sp.ofCapture = write_file m.sp.ofCapture (ws.map Prod.snd).flatten ∧
      n0 + (ws.map (fun w => w.2.length)).sum = n := by
  induction k generalizing m buf off count n0 with
  | zero => simp [Read_split] at h
  | succ k ih =>
    unfold Read_split at h
    by_cases hc : count > mf
    · rw [if_pos hc] at h
      cases h1 : rd m buf off mf with
      | none => rw [h1] at h; cases h
      | some r1 =>
        rw [h1] at h
        simp only at h
        cases ho : r1.out with
        | ret x =>
          rw [ho] at h
          simp only at h
          obtain ⟨fk, ws, a1, a2, a3⟩ := hrd m buf off mf r1 x hcap hplay h1 ho
          have hcap1 : r1.m.sp.capture = true := by
            have := congrArg Prod.fst fk; simp only [fileKey] at this; rw [this]; exact hcap
          have hplay1 : r1.m.sp.playback = false := by
            have := congrArg (fun p => p.2.1) fk; simp only [fileKey] at this
            rw [this]; exact hplay
          obtain ⟨fk2, vs, b1, b2, b3⟩ := ih r1.m r1.buf _ _ _ hcap1 hplay1 h
          refine ⟨fk2.trans fk, ws ++ vs, ?_, ?_, ?_⟩
          · rw [b1, a1, storeAll_append]
          · rw [b2, a2, write_file_append]; simp
          · simp only [List.map_append, List.sum_append]; omega
        | throw e => rw [ho] at h; simp only [Option.some.injEq] at h; subst h; rw [ho] at hn; cases hn
        | undefined => rw [ho] at h; simp only [Option.some.injEq] at h; subst h; rw [ho] at hn; cases hn
        | aborted => rw [ho] at h; simp only [Option.some.injEq] at h; subst h; rw [ho] at hn; cases hn
    · rw [if_neg hc] at h
      by_cases h0 : count > 0
      · rw [if_pos h0] at h
        cases h1 : rd m buf off count with
        | none => rw [h1] at h; cases h
        | some r1 =>
          rw [h1] at h
          simp only at h
          cases ho : r1.out with
          | ret x =>
            rw [ho] at h
            simp only [Option.some.injEq] at h
            subst h
            simp only at hn
            cases hn
            obtain ⟨fk, ws, a1, a2, a3⟩ := hrd m buf off count r1 x hcap hplay h1 ho
            exact ⟨fk, ws, a1, a2, by omega⟩
          | throw e => rw [ho] at h; simp only [Option.some.injEq] at h; subst h; rw [ho] at hn; cases hn
          | undefined => rw [ho] at h; simp only [Option.some.injEq] at h; subst h; rw [ho] at hn; cases hn
          | aborted => rw [ho] at h; simp only [Option.some.injEq] at h; subst h; rw [ho] at hn; cases hn
      · rw [if_neg h0] at h
        simp only [Option.some.injEq] at h
        subst h
        cases hn
        exact ⟨rfl, [], rfl, by simp [write_file_nil], by simp⟩

theorem Read_teed {F D R : Type} (cx : Cx F D R) (fuel : Nat) (m : Sys F D R) (buf : Nat → D)
    (off count : Nat) (r : ReadRun F D R) (n : Nat)
    (hcap : m.sp.capture = true) (hplay : m.sp.playback = false)
    (h : Read cx fuel m buf off count = some r) (hn : r.out = .ret n) :
    Teed m buf r n := by
  induction fuel generalizing m buf off count r n with
  | zero => simp [Read] at h
  | succ fuel ih =>
    have hp : Read_playback cx m buf off count = (m, buf) := by
      simp only [Read_playback, hplay]; rfl
    unfold Read at h
    simp only [hp, hplay] at h
    simp only [Bool.false_eq_true, false_and, if_false] at h
    cases hrb : m.sp.sd0.rb with
    | none => rw [hrb] at h; simp only [Option.some.injEq] at h; subst h; cases hn
    | some rb =>
      rw [hrb] at h
      simp only at h
      by_cases hc : count > Read_maxframes rb m.sp.rx_ratio
      · rw [if_pos hc] at h
        obtain ⟨fk, ws, a1, a2, a3⟩ := Read_split_teed (Read cx fuel) _
          (fun m1 b o c r1 n1 h1 h2 h3 h4 => ih m1 b o c r1 n1 h1 h2 h3 h4)
          fuel m buf off count 0 r n hcap hplay h hn
        exact ⟨fk, ws, a1, a2, by omega⟩
      · rw [if_neg hc] at h
        obtain ⟨fk, b2, _⟩ := Read_block_tee cx m buf off count r h
        obtain ⟨block, g1, g2, g3⟩ := b2 n hn
        refine ⟨fk, [(off, block)], ?_, ?_, ?_⟩
        · rw [g2]; rfl
        · rw [g3, hcap]; simp
        · simpa using g1

theorem ReadSession_count {F D R : Type} (cx : Cx F D R) (fuel : Nat)
    (reqs : List ((Nat → D) × Nat × Nat)) (m m1 : Sys F D R) (ns : List Nat) (f : SNDFILE D)
    (hcap : m.sp.capture = true) (hplay : m.sp.playback = false)
    (hfile : m.sp.ofCapture = some f)
    (h : ReadSession cx fuel m reqs = some (m1, ns)) :
    ∃ f1, m1.sp.ofCapture = some f1 ∧ f1.frames.length = f.frames.length + ns.sum := by
  induction reqs generalizing m ns f with
  | nil =>
    simp only [ReadSession, Option.some.injEq, Prod.mk.injEq] at h
    obtain ⟨rfl, rfl⟩ := h
    exact ⟨f, hfile, by simp⟩
  | cons q reqs ih =>
    obtain ⟨buf, off, count⟩ := q
    unfold ReadSession at h
    cases hr : Read cx fuel m buf off count with
    | none => rw [hr] at h; cases h
    | some r =>
      rw [hr] at h
      simp only at h
      cases ho : r.out with
      | ret n =>
        rw [ho] at h
        simp only at h
        cases hs : ReadSession cx fuel r.m reqs with
        | none => rw [hs] at h; cases h
        | some p =>
          obtain ⟨m2, ns2⟩ := p
          rw [hs] at h
          simp only [Option.some.injEq, Prod.mk.injEq] at h
          obtain ⟨rfl, rfl⟩ := h
          obtain ⟨fk, ws, a1, a2, a3⟩ := Read_teed cx fuel m buf off count r n hcap hplay hr ho
          have hcap1 : r.m.sp.capture = true := by
            have := congrArg Prod.fst fk; simp only [fileKey] at this; rw [this]; exact hcap
          have hplay1 : r.m.sp.playback = false := by
            have := congrArg (fun p => p.2.1) fk; simp only [fileKey] at this
            rw [this]; exact hplay
          rw [hfile] at a2
          obtain ⟨f1, g1, g2⟩ := ih r.m ns2 _ hcap1 hplay1 a2 hs
          refine ⟨f1, g1, ?_⟩
          rw [g2]
          simp only [List.length_append, List.length_flatten, List.map_map, List.sum_cons]
          have : (List.map (List.length ∘ Prod.snd) ws).sum = n := by
            rw [← a3]; rfl
          omega
      | throw e => rw [ho] at h; cases h
      | undefined => rw [ho] at h; cases h
      | aborted => rw [ho] at h; cases h

/-! ## The format of a sound file -/

theorem strrchr_none (s : List Char) (c : Char) (h : c ∉ s) : strrchr s c = none := by
  induction s with
  | nil => rfl
  | cons x xs ih =>
    have hx : x ≠ c := fun e => h (by rw [e]; exact List.mem_cons_self _ _)
    have hxs : c ∉ xs := fun e => h (List.mem_cons_of_mem _ e)
    simp [strrchr, ih hxs, hx]

/-- The suffix `strrchr` finds in a name that ends in `.ext`, `ext` without a dot. -/
theorem strrchr_ext (stem ext : List Char) (c : Char) (h : c ∉ ext) :
    strrchr (stem ++ c :: ext) c = some (c :: ext) := by
  induction stem with
  | nil => simp [strrchr, strrchr_none ext c h]
  | cons x xs ih => simp [strrchr, ih]

theorem strcaseeq_dot (ext t : List Char) :
    strcaseeq ('.' :: ext) ('.' :: t) = strcaseeq ext t := by
  simp [strcaseeq]

/-- The name the chooser answers is the name `get_file_params` hands back, and the format
follows from its suffix alone. -/
theorem get_file_params_of_name (ui : FileChooser) (sup : Nat → Bool) (def_fname : List Char)
    (format0 : Nat) (name : List Char)
    (h : (get_file_params ui sup def_fname format0).1 = some name) :
    (get_file_params ui sup def_fname format0).2 =
      if (strrchr name '.').any (fun s => strcaseeq s ".flac".toList) then
        SF_FORMAT_FLAC ||| SF_FORMAT_PCM_16
      else if (strrchr name '.').any (fun s => strcaseeq s ".au".toList) then
        SF_FORMAT_AU ||| SF_FORMAT_FLOAT ||| SF_ENDIAN_CPU
      else SF_FORMAT_WAV ||| SF_FORMAT_PCM_16 := by
  unfold get_file_params at h ⊢
  simp only at h ⊢
  split at h
  · cases h
  · rename_i nm hnm
    have hname : nm = name := by
      split_ifs at h <;> simpa using h
    subst hname
    split_ifs <;> rfl

/-- Claim C18 (as amended).  `SoundBase::get_file_params` chooses the format from the part
of the selected file name after its last `.`, compared without regard to case:
`flac` gives FLAC/PCM16, whether or not the sound-file library reports FLAC/PCM16 as
supported (the report only decides whether the chooser offers the `*.flac` filter); `au`
gives AU/float/CPU-endian; `wav`, every suffix other than `flac`, `au` and `snd`, and a
name without `.` give WAV/PCM16.  When the chooser is cancelled the name is null and the
format is left as it was. -/
theorem C18_get_file_params (ui : FileChooser) (sup : Nat → Bool) (def_fname : List Char)
    (format0 : Nat) :
    (∀ stem ext, '.' ∉ ext →
      (get_file_params ui sup def_fname format0).1 = some (stem ++ '.' :: ext) →
      (ext.map Char.toLower = "flac".toList →
        (get_file_params ui sup def_fname format0).2 = SF_FORMAT_FLAC ||| SF_FORMAT_PCM_16) ∧
      (ext.map Char.toLower = "au".toList →
        (get_file_params ui sup def_fname format0).2
          = SF_FORMAT_AU ||| SF_FORMAT_FLOAT ||| SF_ENDIAN_CPU) ∧
      (ext.map Char.toLower = "wav".toList →
        (get_file_params ui sup def_fname format0).2 = SF_FORMAT_WAV ||| SF_FORMAT_PCM_16) ∧
      (ext.map Char.toLower ≠ "flac".toList → ext.map Char.toLower ≠ "au".toList →
        ext.map Char.toLower ≠ "snd".toList →
        (get_file_params ui sup def_fname format0).2 = SF_FORMAT_WAV ||| SF_FORMAT_PCM_16)) ∧
    (∀ name, '.' ∉ name → (get_file_params ui sup def_fname format0).1 = some name →
      (get_file_params ui sup def_fname format0).2 = SF_FORMAT_WAV ||| SF_FORMAT_PCM_16) ∧
    ((get_file_params ui sup def_fname format0).1 = none →
      (get_file_params ui sup def_fname format0).2 = format0) ∧
    (SF_FORMAT_FLAC ||| SF_FORMAT_PCM_16 ≠ SF_FORMAT_WAV ||| SF_FORMAT_PCM_16 ∧
      SF_FORMAT_AU ||| SF_FORMAT_FLOAT ||| SF_ENDIAN_CPU ≠ SF_FORMAT_WAV ||| SF_FORMAT_PCM_16 ∧
      SF_FORMAT_FLAC ||| SF_FORMAT_PCM_16 ≠ SF_FORMAT_AU ||| SF_FORMAT_FLOAT ||| SF_ENDIAN_CPU) := by
  refine ⟨fun stem ext hdot hsel => ?_, fun name hdot hsel => ?_, fun hnone => ?_,
    by decide, by decide, by decide⟩
  · have hfmt := get_file_params_of_name ui sup def_fname format0 _ hsel
    rw [strrchr_ext stem ext '.' hdot] at hfmt
    simp only [Option.any_some] at hfmt
    have hflac : strcaseeq ('.' :: ext) ".flac".toList = true
        ↔ ext.map Char.toLower = "flac".toList := by
      show strcaseeq ('.' :: ext) ('.' :: "flac".toList) = true ↔ _
      rw [strcaseeq_dot]
      unfold strcaseeq
      rw [beq_iff_eq]
      exact Iff.rfl
    have hau : strcaseeq ('.' :: ext) ".au".toList = true
        ↔ ext.map Char.toLower = "au".toList := by
      show strcaseeq ('.' :: ext) ('.' :: "au".toList) = true ↔ _
      rw [strcaseeq_dot]
      unfold strcaseeq
      rw [beq_iff_eq]
      exact Iff.rfl
    simp only [hflac, hau] at hfmt
    refine ⟨fun h => ?_, fun h => ?_, fun h => ?_, fun h1 h2 _ => ?_⟩
    · rw [hfmt, if_pos h]
    · rw [hfmt, if_neg (by rw [h]; decide), if_pos h]
    · rw [hfmt, if_neg (by rw [h]; decide), if_neg (by rw [h]; decide)]
    · rw [hfmt, if_neg h1, if_neg h2]
  · have hfmt := get_file_params_of_name ui sup def_fname format0 _ hsel
    rw [strrchr_none name '.' hdot] at hfmt
    simpa using hfmt
  · unfold get_file_params at hnone ⊢
    simp only at hnone ⊢
    split
    · rfl
    · rename_i nm hnm
      rw [hnm] at hnone
      simp only at hnone
      split_ifs at hnone

/-- Witness of C18: the formats for the names `a.wav`, `b.FLAC`, `c.au`, `d.ogg` and
`noext`. -/
theorem C18_witness :
    (get_file_params (answering "a.wav".toList) (fun _ => true) "./capture.wav".toList 0).2
      = SF_FORMAT_WAV ||| SF_FORMAT_PCM_16 ∧
    (get_file_params (answering "b.FLAC".toList) (fun _ => true) "./capture.wav".toList 0).2
      = SF_FORMAT_FLAC ||| SF_FORMAT_PCM_16 ∧
    (get_file_params (answering "c.au".toList) (fun _ => true) "./capture.wav".toList 0).2
      = SF_FORMAT_AU ||| SF_FORMAT_FLOAT ||| SF_ENDIAN_CPU ∧
    (get_file_params (answering "d.ogg".toList) (fun _ => true) "./capture.wav".toList 0).2
      = SF_FORMAT_WAV ||| SF_FORMAT_PCM_16 ∧
    (get_file_params (answering "noext".toList) (fun _ => true) "./playback.wav".toList 0).2
      = SF_FORMAT_WAV ||| SF_FORMAT_PCM_16 :=
  ⟨by decide, by decide,
   ((C18_get_file_params (answering "c.au".toList) (fun _ => true) "./capture.wav".toList 0).1
      "c".toList "au".toList (by decide) (by decide)).2.1 (by decide),
   by decide,
   (C18_get_file_params (answering "noext".toList) (fun _ => true) "./playback.wav".toList 0).2.1
      "noext".toList (by decide) (by decide)⟩

/-- Counterexample to C18 as stated: the sound-file library reports FLAC/PCM16 as not
supported (so that the chooser does not offer the `*.flac` filter) and the user enters the
name `take1.flac`: the format chosen is FLAC/PCM16 all the same. -/
theorem C18_counterexample :
    file_filters false = "Waveform Audio Format\t*.wav\nAU\t*.\x7bau,snd\x7d\n".toList ∧
    get_file_params (answering "take1.flac".toList) (fun _ => false) "./capture.wav".toList 0
      = (some "take1.flac".toList, SF_FORMAT_FLAC ||| SF_FORMAT_PCM_16) ∧
    SF_FORMAT_FLAC ||| SF_FORMAT_PCM_16 ≠ SF_FORMAT_WAV ||| SF_FORMAT_PCM_16 := by
  decide

/-! ## The ratios -/

theorem src_data_reset_rx_spec {F D R : Type} (cx : Cx F D R) (ceil2 : Nat → Nat)
    (s : SoundPort F D R) :
    (src_data_reset_rx cx ceil2 s).1.rxppm = s.rxppm ∧
    (src_data_reset_rx cx ceil2 s).1.txppm = s.txppm ∧
    (src_data_reset_rx cx ceil2 s).1.tx_ratio = s.tx_ratio ∧
    (src_data_reset_rx cx ceil2 s).1.req_sample_rate = s.req_sample_rate ∧
    (src_data_reset_rx cx ceil2 s).1.sd0.dev_sample_rate = s.sd0.dev_sample_rate ∧
    (src_data_reset_rx cx ceil2 s).1.sd1 = s.sd1 ∧
    ((src_data_reset_rx cx ceil2 s).2 = .ret () →
      (src_data_reset_rx cx ceil2 s).1.rx_ratio = rx_ratio_for s s.rxppm) := by
  unfold src_data_reset_rx
  cases cx.src.src_new cx.cfg.sample_converter CHANNELS with
  | error err => exact ⟨rfl, rfl, rfl, rfl, rfl, rfl, fun h => by cases h⟩
  | ok st => exact ⟨rfl, rfl, rfl, rfl, rfl, rfl, fun _ => rfl⟩

theorem src_data_reset_tx_spec {F D R : Type} (cx : Cx F D R) (ceil2 : Nat → Nat)
    (s : SoundPort F D R) :
    (src_data_reset_tx cx ceil2 s).1.rxppm = s.rxppm ∧
    (src_data_reset_tx cx ceil2 s).1.txppm = s.txppm ∧
    (src_data_reset_tx cx ceil2 s).1.rx_ratio = s.rx_ratio ∧
    (src_data_reset_tx cx ceil2 s).1.req_sample_rate = s.req_sample_rate ∧
    (src_data_reset_tx cx ceil2 s).1.sd1.dev_sample_rate = s.sd1.dev_sample_rate ∧
    (src_data_reset_tx cx ceil2 s).1.sd0 = s.sd0 ∧
    ((src_data_reset_tx cx ceil2 s).2 = .ret () →
      (src_data_reset_tx cx ceil2 s).1.tx_ratio = tx_ratio_for s s.txppm) := by
  unfold src_data_reset_tx
  cases cx.src.src_new cx.cfg.sample_converter CHANNELS with
  | error err => exact ⟨rfl, rfl, rfl, rfl, rfl, rfl, fun h => by cases h⟩
  | ok st => exact ⟨rfl, rfl, rfl, rfl, rfl, rfl, fun _ => rfl⟩

/-! ## The sample rate of a device -/

/-- The loop of `find_srate` over the two rates it tries. -/
theorem find_srate_loop_two (supported : ℚ → Int) (req dflt : ℚ) :
    (supported req = paFormatIsSupported →
      find_srate_loop supported [req, dflt] none = .ret req) ∧
    (supported req ≠ paFormatIsSupported → supported dflt = paFormatIsSupported →
      find_srate_loop supported [req, dflt] none = .ret dflt) ∧
    (supported req ≠ paFormatIsSupported → supported dflt ≠ paFormatIsSupported →
      find_srate_loop supported [req, dflt] none = .throw (.port (supported dflt))) := by
  refine ⟨fun h => ?_, fun h1 h2 => ?_, fun h1 h2 => ?_⟩
  · simp only [find_srate_loop, if_pos h]
  · simp only [find_srate_loop, if_neg h1, if_pos h2]
  · simp only [find_srate_loop, if_neg h1, if_neg h2]

theorem device_of_dir {F D R : Type} (pa : PaHost) (s : SoundPort F D R) (dir : Fin 2) :
    s.device pa dir.val = pa.devs.get? (s.sd dir).idev := by
  unfold SoundPort.device
  rw [dif_pos dir.isLt]

/-- Claim C20.  `SoundPort::find_srate(dir)`, for the user setting `sr` of the direction
(`in_sample_rate` for `dir` 0, `out_sample_rate` otherwise) and the device `dev` that
`sd[dir].idev` points at.  When `sr` is `SAMPLE_RATE_NATIVE` it returns
`dev.defaultSampleRate`.  When `sr` is none of the three codes it returns `sr` itself,
whatever `Pa_IsFormatSupported` would answer and whatever the devices are (nothing is
checked, for any `dir`).  When `sr` is `SAMPLE_RATE_UNSET` or `SAMPLE_RATE_AUTO` it returns
`req_sample_rate` if `Pa_IsFormatSupported` answers `paFormatIsSupported` for it;
otherwise `dev.defaultSampleRate` if that is answered for the default rate; otherwise it
throws `SndPortException` with the error of the second check.  (The three codes are the
labels of one `switch`: they differ from each other.) -/
theorem C20_find_srate {F D R : Type} (cx : Cx F D R) (pa : PaHost) (s : SoundPort F D R)
    (hU : pa.SAMPLE_RATE_NATIVE ≠ pa.SAMPLE_RATE_UNSET)
    (hA : pa.SAMPLE_RATE_NATIVE ≠ pa.SAMPLE_RATE_AUTO) :
    (∀ (dir : Fin 2) (dev : PaDeviceInfo), pa.devs.get? (s.sd dir).idev = some dev →
      ((if dir.val = 0 then cx.cfg.in_sample_rate else cx.cfg.out_sample_rate)
          = pa.SAMPLE_RATE_NATIVE →
        find_srate cx pa dir.val s = .ret dev.defaultSampleRate) ∧
      ((if dir.val = 0 then cx.cfg.in_sample_rate else cx.cfg.out_sample_rate)
          = pa.SAMPLE_RATE_UNSET ∨
        (if dir.val = 0 then cx.cfg.in_sample_rate else cx.cfg.out_sample_rate)
          = pa.SAMPLE_RATE_AUTO →
        (pa.Pa_IsFormatSupported dir s.req_sample_rate = paFormatIsSupported →
          find_srate cx pa dir.val s = .ret s.req_sample_rate) ∧
        (pa.Pa_IsFormatSupported dir s.req_sample_rate ≠ paFormatIsSupported →
          pa.Pa_IsFormatSupported dir dev.defaultSampleRate = paFormatIsSupported →
          find_srate cx pa dir.val s = .ret dev.defaultSampleRate) ∧
        (pa.Pa_IsFormatSupported dir s.req_sample_rate ≠ paFormatIsSupported →
          pa.Pa_IsFormatSupported dir dev.defaultSampleRate ≠ paFormatIsSupported →
          find_srate cx pa dir.val s
            = .throw (.port (pa.Pa_IsFormatSupported dir dev.defaultSampleRate))))) ∧
    (∀ (dir : Nat) (sr : Int),
      (if dir = 0 then cx.cfg.in_sample_rate else cx.cfg.out_sample_rate) = sr →
      sr ≠ pa.SAMPLE_RATE_UNSET → sr ≠ pa.SAMPLE_RATE_AUTO → sr ≠ pa.SAMPLE_RATE_NATIVE →
      ∀ devs supported,
        find_srate cx { pa with devs := devs, Pa_IsFormatSupported := supported } dir s
          = .ret (sr : ℚ)) := by
  refine ⟨fun dir dev hdev => ⟨fun hn => ?_, fun hua => ?_⟩,
    fun dir sr hsr h1 h2 h3 devs supported => ?_⟩
  · unfold find_srate
    simp only
    rw [hn, if_neg (by rintro (h | h); exact hU h; exact hA h), if_pos rfl, device_of_dir, hdev]
  · have hl := find_srate_loop_two (pa.Pa_IsFormatSupported dir) s.req_sample_rate
      dev.defaultSampleRate
    have hf : find_srate cx pa dir.val s
        = find_srate_loop (pa.Pa_IsFormatSupported dir)
            [s.req_sample_rate, dev.defaultSampleRate] none := by
      unfold find_srate
      simp only
      rw [if_pos hua, device_of_dir, hdev]
      simp only
      rw [dif_pos dir.isLt]
    rw [hf]
    exact hl
  · unfold find_srate
    simp only
    rw [hsr, if_neg (by rintro (h | h); exact h1 h; exact h2 h), if_neg h3]

/-- Witness of C20: with the modem at 8000 Hz and a device whose default rate is 44100 Hz,
the setting native gives 44100; the setting 22050 gives 22050 although PortAudio supports
no rate at all; the settings auto and unset give 8000 when 8000 is supported, 44100 when
only 44100 is, and `SndPortException(-9997)` when neither is. -/
theorem C20_witness :
    find_srate (srCx 1) (hostOf [8000, 44100]) 0 (plainPort emptyRing8 emptyRing8)
      = .ret 44100 ∧
    find_srate (srCx 22050) (hostOf []) 1 (plainPort emptyRing8 emptyRing8) = .ret 22050 ∧
    find_srate (srCx 0) (hostOf [8000, 44100]) 0 (plainPort emptyRing8 emptyRing8)
      = .ret 8000 ∧
    find_srate (srCx (-1)) (hostOf [44100]) 1 (plainPort emptyRing8 emptyRing8)
      = .ret 44100 ∧
    find_srate (srCx 0) (hostOf []) 1 (plainPort emptyRing8 emptyRing8)
      = .throw (.port (-9997)) :=
  ⟨((C20_find_srate (srCx 1) (hostOf [8000, 44100]) (plainPort emptyRing8 emptyRing8)
      (by decide) (by decide)).1 0 { defaultSampleRate := 44100 } (by decide)).1 (by decide),
   by decide!, by decide!, by decide!, by decide!⟩

/-! ## `must_close` -/

/-- Claim C21.  `SoundPort::must_close()` returns `false` in every state of the object and
of PortAudio.  The statements behind its first `return` are never reached: where they
would answer `true` (the output stream active on a device whose host API is OSS or MME),
where they would throw (`Pa_IsStreamActive` fails) and where they would dereference an
iterator that points at no device, the call returns `false` all the same. -/
theorem C21_must_close_false {F D R : Type} (pa : PortAudio) (s : SoundPort F D R) :
    must_close pa s = .ret false ∧
    (∀ dev api, stream_active s.sd1 = .ok true → pa.devs.get? s.sd1.idev = some dev →
      pa.Pa_GetHostApiInfo dev.hostApi = some api → api.type = paOSS ∨ api.type = paMME →
      must_close_rest pa s = .ret true ∧ must_close pa s = .ret false) ∧
    (∀ e, stream_active s.sd1 = .error e →
      must_close_rest pa s = .throw e ∧ must_close pa s = .ret false) ∧
    (stream_active s.sd1 = .ok true → pa.devs.get? s.sd1.idev = none →
      must_close_rest pa s = .undefined ∧ must_close pa s = .ret false) := by
  refine ⟨rfl, fun dev api ha hd hapi ht => ⟨?_, rfl⟩, fun e he => ⟨?_, rfl⟩,
    fun ha hd => ⟨?_, rfl⟩⟩
  · simp only [must_close_rest, ha, hd, hapi, ht, decide_True]
  · simp only [must_close_rest, he]
  · simp only [must_close_rest, ha, hd]

/-- Witness of C21: the plain port, whose output stream is active, on a device of an OSS
host API and on one of an MME host API: the statements behind the `return` would answer
`true`, `must_close` answers `false`. -/
theorem C21_witness :
    must_close_rest (paOf paOSS) (plainPort emptyRing8 emptyRing8) = .ret true ∧
    must_close (paOf paOSS) (plainPort emptyRing8 emptyRing8) = .ret false ∧
    must_close_rest (paOf paMME) (plainPort emptyRing8 emptyRing8) = .ret true ∧
    must_close (paOf paMME) (plainPort emptyRing8 emptyRing8) = .ret false :=
  ⟨by decide, (C21_must_close_false (paOf paOSS) (plainPort emptyRing8 emptyRing8)).1,
   by decide, by decide⟩

/-! ## The null backend -/

/-! ## The input side of the callback -/

theorem ringbuffer_write_fits {T : Type} (rb : ringbuffer T) (src : List T)
    (h : src.length ≤ rb.write_space) :
    (rb.write src).2 = { rb with data := rb.data ++ src } ∧ (rb.write src).1 = src.length := by
  unfold ringbuffer.write
  simp only [Nat.min_eq_left h, List.take_length, and_self]

/-- Claim C23.  `SoundPort::stream_process` run for an input stream (`in` non-null, `out`
null) with `nframes` frames.  With `state == spa_continue` the `2 * nframes` floats at `in`
are handed to `write` of the ring (all of them are appended when the ring has room for
them), `rwsem` is posted once, `csem` is left alone and the callback returns `paContinue`.
With `state == spa_drain` the ring and `rwsem` are left alone, `csem` is posted once and
the callback returns `paContinue`.  With `state == spa_complete` nothing at all changes
and the callback returns `paComplete`.  Whatever the state is, the callback leaves it as
it is. -/
theorem C23_stream_process_input {F : Type} (zero : F) (inp : Nat → F) (nframes : Nat)
    (sd : stream_data F) :
    (∀ rb, sd.state = spa_continue → sd.rb = some rb →
      stream_process zero (some inp) false nframes sd
        = some ⟨{ sd with rb := some (rb.write (load inp 0 (2 * nframes))).2,
                          rwsem := sd.rwsem + 1 }, [], paContinue⟩ ∧
      (2 * nframes ≤ rb.write_space →
        (rb.write (load inp 0 (2 * nframes))).2
          = { rb with data := rb.data ++ load inp 0 (2 * nframes) })) ∧
    (sd.state = spa_drain →
      stream_process zero (some inp) false nframes sd
        = some ⟨{ sd with csem := sd.csem + 1 }, [], paContinue⟩) ∧
    (sd.state = spa_complete →
      stream_process zero (some inp) false nframes sd = some ⟨sd, [], paComplete⟩) ∧
    (∀ r, stream_process zero (some inp) false nframes sd = some r →
      r.sd.state = sd.state) := by
  refine ⟨fun rb hst hrb => ⟨?_, fun hfit => ?_⟩, fun hst => ?_, fun hst => ?_, fun r hr => ?_⟩
  · have hnd : spa_continue ≠ spa_drain := by decide
    simp only [stream_process, stream_input, hst, hrb, if_true, if_neg hnd, sem_post, setSem,
      semCount, CHANNELS, Bool.not_false]
    rfl
  · exact (ringbuffer_write_fits rb _ (by simpa [load] using hfit)).1
  · have hnc : spa_drain ≠ spa_continue := by decide
    simp [stream_process, stream_input, hst, hnc, sem_post, setSem, semCount]
  · have hnc : spa_complete ≠ spa_continue := by decide
    have hnd : spa_complete ≠ spa_drain := by decide
    simp only [stream_process, stream_input, hst, if_neg hnc, if_neg hnd, Bool.not_false,
      if_true]
    rfl
  · unfold stream_process at hr
    cases hi : stream_input (some inp) nframes sd with
    | none => rw [hi] at hr; cases hr
    | some sd1 =>
      rw [hi] at hr
      have hs1 : sd1.state = sd.state := by
        unfold stream_input at hi
        simp only at hi
        split_ifs at hi with hc
        · cases hrb : sd.rb with
          | none => rw [hrb] at hi; cases hi
          | some rb =>
            rw [hrb] at hi
            simp only [Option.some.injEq] at hi
            rw [← hi]
            simp
        · simp only [Option.some.injEq] at hi
          rw [← hi]
      simp only [Bool.not_false, if_true] at hr
      split_ifs at hr with hd
      · simp only [Option.some.injEq] at hr
        rw [← hr]
        simpa using hs1
      · simp only [Option.some.injEq] at hr
        rw [← hr]
        exact hs1

/-- Witness of C23: a frame (40, 41) arrives for the input stream with three frames queued
in its ring of 8 floats.  Running: the ring holds four frames, `rwsem` is 1.  Draining:
the ring is as before, `csem` is 1.  Completing: nothing changes, the callback returns
`paComplete`. -/
theorem C23_witness :
    (stream_process 0 (some (fun i => 40 + (i : Int))) false 1 (runningSd (ring8 0))).map
        (fun r => (r.sd.rb.map (fun rb => rb.data), r.sd.rwsem, r.sd.csem, r.sd.state, r.ret))
      = some (some [10, 11, 20, 21, 30, 31, 40, 41], 1, 0, spa_continue, paContinue) ∧
    (stream_process 0 (some (fun i => 40 + (i : Int))) false 1 drainingSd).map
        (fun r => (r.sd.rb.map (fun rb => rb.data), r.sd.rwsem, r.sd.csem, r.sd.state, r.ret))
      = some (some [10, 11, 20, 21, 30, 31], 0, 1, spa_drain, paContinue) ∧
    stream_process 0 (some (fun i => 40 + (i : Int))) false 1
        { runningSd (ring8 0) with state := spa_complete }
      = some ⟨{ runningSd (ring8 0) with state := spa_complete }, [], paComplete⟩ :=
  ⟨by decide, by decide,
   (C23_stream_process_input 0 (fun i => 40 + (i : Int)) 1
      { runningSd (ring8 0) with state := spa_complete }).2.2.1 rfl⟩

/-! ## The playback file loops -/

/-- One round of the loop of `read_file`: the read after the rewind. -/
theorem sf_readf_double_rewound {D : Type} (file : SNDFILE D) (n : Nat) :
    (sf_readf_double (sf_seek0 file) n).1 = file.frames.take n ∧
    (sf_readf_double (sf_seek0 file) n).2.frames = file.frames := by
  simp [sf_readf_double, sf_seek0]

/-- More rounds than `count - r` change nothing: the loop has left by its condition or by
its `break`.  The file is not empty, or nothing is read so far. -/
theorem read_file_loop_succ {D : Type} (count k : Nat) (file : SNDFILE D) (acc : List D)
    (hne : file.frames ≠ [] ∨ acc = []) (hk : count - acc.length ≤ k) :
    read_file_loop (k + 1) file acc count = read_file_loop k file acc count := by
  induction k generalizing file acc with
  | zero =>
    have hge : ¬ acc.length < count := by omega
    simp only [read_file_loop, hge, if_false]
  | succ k ih =>
    rw [read_file_loop, read_file_loop.eq_def (k + 1)]
    by_cases hlt : acc.length < count
    · simp only [hlt, if_true]
      obtain ⟨hg, hf⟩ := sf_readf_double_rewound file (count - acc.length)
      by_cases h0 : (acc ++ (sf_readf_double (sf_seek0 file) (count - acc.length)).1).length = 0
      · simp only [h0, if_true]
      · simp only [h0, if_false]
        have hfr : file.frames ≠ [] := by
          rcases hne with h | h
          · exact h
          · intro hnil
            apply h0
            rw [hg, h, hnil]
            simp
        apply ih
        · left; rw [hf]; exact hfr
        · rw [List.length_append, hg, List.length_take]
          have : 0 < file.frames.length := List.length_pos.mpr hfr
          omega
    · simp only [hlt, if_false]

theorem read_file_loop_fuel {D : Type} (count : Nat) (file : SNDFILE D) (acc : List D)
    (hne : file.frames ≠ [] ∨ acc = []) (k : Nat) (hk : count - acc.length ≤ k) :
    read_file_loop k file acc count = read_file_loop (count - acc.length) file acc count := by
  induction k with
  | zero =>
    have : count - acc.length = 0 := by omega
    rw [this]
  | succ k ih =>
    by_cases h : count - acc.length ≤ k
    · rw [read_file_loop_succ count k file acc hne h]
      exact ih h
    · have : count - acc.length = k + 1 := by omega
      rw [this]

/-- The loop of `read_file` on a file of `L >= 1` frames, entered with the frames
`(p + i) mod L` read so far and, when more are wanted, at a multiple of `L`. -/
theorem read_file_loop_cyclic {D : Type} (frames : List D) (p count : Nat)
    (hL : frames ≠ []) (k : Nat) (file : SNDFILE D) (acc : List D)
    (hfile : file.frames = frames) (hle : acc.length ≤ count) (hk : count - acc.length ≤ k)
    (hacc : ∀ i, i < acc.length → acc[i]? = frames[(p + i) % frames.length]?)
    (hend : acc.length < count → (p + acc.length) % frames.length = 0) :
    (read_file_loop k file acc count).1.length = count ∧
    ∀ i, i < count → (read_file_loop k file acc count).1[i]? = frames[(p + i) % frames.length]? := by
  have hLpos : 0 < frames.length := List.length_pos.mpr hL
  induction k generalizing file acc with
  | zero =>
    have hc : acc.length = count := by omega
    simp only [read_file_loop]
    exact ⟨hc, fun i hi => hacc i (by omega)⟩
  | succ k ih =>
    rw [read_file_loop]
    by_cases hlt : acc.length < count
    · simp only [hlt, if_true]
      obtain ⟨hg, hf⟩ := sf_readf_double_rewound file (count - acc.length)
      rw [hfile] at hg hf
      have hglen : (sf_readf_double (sf_seek0 file) (count - acc.length)).1.length
          = min (count - acc.length) frames.length := by
        rw [hg, List.length_take]
      have h0 : ¬ (acc ++ (sf_readf_double (sf_seek0 file) (count - acc.length)).1).length = 0 := by
        rw [List.length_append, hglen]; omega
      simp only [h0, if_false]
      apply ih
      · exact hf
      · rw [List.length_append, hglen]; omega
      · rw [List.length_append, hglen]; omega
      · intro i hi
        rw [List.length_append, hglen] at hi
        by_cases hia : i < acc.length
        · rw [List.getElem?_append_left hia]
          exact hacc i hia
        · have hia1 : acc.length ≤ i := by omega
          rw [List.getElem?_append_right hia1, hg, List.getElem?_take_of_lt (by omega)]
          have hz := hend hlt
          have hmod : (p + i) % frames.length = i - acc.length := by
            have e : p + i = (p + acc.length) + (i - acc.length) := by omega
            rw [e, Nat.add_mod, hz, Nat.zero_add, Nat.mod_mod]
            exact Nat.mod_eq_of_lt (by omega)
          rw [hmod]
      · intro hlt1
        rw [List.length_append, hglen] at hlt1 ⊢
        have hmin : min (count - acc.length) frames.length = frames.length := by omega
        rw [hmin, ← Nat.add_assoc, Nat.add_mod_right]
        exact hend hlt
    · simp only [hlt, if_false]
      have hc : acc.length = count := by omega
      exact ⟨hc, fun i hi => hacc i (by omega)⟩

/-- Claim C28.  `SoundBase::read_file(file, buf, count)` on a file of `L >= 1` frames at
the position `p` (`p <= L`): it returns exactly `count` and has stored the frame
`(p + i) mod L` of the file at `buf[i]` for every `i < count`.  On an empty file it returns
0.  The loop ends in both cases: a larger bound on its rounds than the `count` of the
definition gives the same result. -/
theorem C28_read_file_loops {D : Type} (f : SNDFILE D) (count : Nat) :
    (f.frames ≠ [] → f.pos ≤ f.frames.length →
      (read_file f count).1.length = count ∧
      (∀ i, i < count →
        (read_file f count).1[i]? = f.frames[(f.pos + i) % f.frames.length]?) ∧
      (∀ (buf : Nat → D) off i, i < count →
        some (store buf off (read_file f count).1 (off + i))
          = f.frames[(f.pos + i) % f.frames.length]?)) ∧
    (f.frames = [] → (read_file f count).1 = []) ∧
    (∀ k, count ≤ k →
      read_file_loop k (sf_readf_double f count).2 (sf_readf_double f count).1 count
        = read_file f count) := by
  have hgot : (sf_readf_double f count).1 = (f.frames.drop f.pos).take count := rfl
  have hfr : (sf_readf_double f count).2.frames = f.frames := rfl
  refine ⟨fun hne hpos => ?_, fun hnil => ?_, fun k hk => ?_⟩
  · have hLpos : 0 < f.frames.length := List.length_pos.mpr hne
    have hlen : (sf_readf_double f count).1.length = min count (f.frames.length - f.pos) := by
      rw [hgot, List.length_take, List.length_drop]
    have main := read_file_loop_cyclic f.frames f.pos count hne count (sf_readf_double f count).2
      (sf_readf_double f count).1 hfr (by rw [hlen]; omega) (by omega)
      (fun i hi => by
        rw [hlen] at hi
        rw [hgot, List.getElem?_take_of_lt (by omega), List.getElem?_drop,
          Nat.mod_eq_of_lt (by omega)])
      (fun hlt => by
        rw [hlen] at hlt ⊢
        have : min count (f.frames.length - f.pos) = f.frames.length - f.pos := by omega
        rw [this, Nat.add_sub_cancel' hpos, Nat.mod_self])
    have hrf : read_file f count
        = read_file_loop count (sf_readf_double f count).2 (sf_readf_double f count).1 count := rfl
    rw [hrf]
    refine ⟨main.1, main.2, fun buf off i hi => ?_⟩
    rw [← main.2 i hi]
    have hil : i < (read_file_loop count (sf_readf_double f count).2
        (sf_readf_double f count).1 count).1.length := by rw [main.1]; exact hi
    simp only [store]
    rw [if_pos ⟨by omega, by omega⟩, Nat.add_sub_cancel_left, List.getD_eq_getElem?_getD,
      List.getElem?_eq_getElem hil]
    rfl
  · have hg0 : (sf_readf_double f count).1 = [] := by rw [hgot, hnil]; simp
    have hrf : read_file f count
        = read_file_loop count (sf_readf_double f count).2 (sf_readf_double f count).1 count := rfl
    rw [hrf, hg0]
    cases count with
    | zero => rfl
    | succ c =>
      rw [read_file_loop]
      obtain ⟨hg, _⟩ := sf_readf_double_rewound (sf_readf_double f (c + 1)).2 (c + 1 - ([] : List D).length)
      rw [hfr, hnil] at hg
      simp only [List.length_nil, Nat.sub_zero, List.take_nil] at hg
      simp [hg]
  · have hrf : read_file f count
        = read_file_loop count (sf_readf_double f count).2 (sf_readf_double f count).1 count := rfl
    rw [hrf]
    have hne : (sf_readf_double f count).2.frames ≠ [] ∨ (sf_readf_double f count).1 = [] := by
      by_cases h : f.frames = []
      · right; rw [hgot, h]; simp
      · left; rw [hfr]; exact h
    rw [read_file_loop_fuel count _ _ hne k (by omega),
      read_file_loop_fuel count _ _ hne count (by omega)]

/-- Witness of C28: a file of the three frames 7, 8, 9 at position 2, read for 8 frames:
the frames 9, 7, 8, 9, 7, 8, 9, 7; an empty file gives no frame. -/
theorem C28_witness :
    (read_file (⟨[7, 8, 9], 2⟩ : SNDFILE Int) 8).1 = [9, 7, 8, 9, 7, 8, 9, 7] ∧
    (read_file (⟨[], 0⟩ : SNDFILE Int) 8).1 = [] ∧
    (read_file (⟨[7, 8, 9], 2⟩ : SNDFILE Int) 8).1.length = 8 :=
  ⟨by decide, by decide,
   ((C28_read_file_loops (⟨[7, 8, 9], 2⟩ : SNDFILE Int) 8).1 (by decide) (by decide)).1⟩

/-! ## The assertion of `resample_write` -/

theorem TxOK_of_outer {F D R : Type} (cx : Cx F D R) (s s1 : SoundPort F D R)
    (h : outer s1 = outer s) (hok : TxOK cx s) : TxOK cx s1 := by
  obtain ⟨_, _, a3, _, a5, _, _, _, a9, _⟩ := outer_fields s s1 h
  unfold TxOK tx_ratio_for at hok ⊢
  rw [a9, a3, a5]
  exact hok

/-- What `resample` of the playback direction leaves: the streams and the modem rate as
they are, a positive tx ratio, and never a failed assertion. -/
theorem resample_wronly_TxOK {F D R : Type} (cx : Cx F D R) (data_in : List F)
    (count max : Nat) (s : SoundPort F D R) (hok : TxOK cx s) :
    (resample cx (1 <<< O_WRONLY) data_in count max s).1.sd1 = s.sd1 ∧
    (resample cx (1 <<< O_WRONLY) data_in count max s).1.sd0 = s.sd0 ∧
    TxOK cx (resample cx (1 <<< O_WRONLY) data_in count max s).1 ∧
    (resample cx (1 <<< O_WRONLY) data_in count max s).2 ≠ .aborted := by
  have h1 : ¬ ((1 <<< O_WRONLY) &&& (1 <<< O_RDONLY) ≠ 0) := by decide
  have h2 : (1 <<< O_WRONLY) &&& (1 <<< O_WRONLY) ≠ 0 := by decide
  have hrt : (resample_retune_tx cx s).sd1 = s.sd1 ∧ (resample_retune_tx cx s).sd0 = s.sd0 ∧
      TxOK cx (resample_retune_tx cx s) := by
    unfold resample_retune_tx
    by_cases h : s.txppm ≠ cx.cfg.TX_corr
    · rw [if_pos h]
      exact ⟨rfl, rfl, hok.2, hok.2⟩
    · rw [if_neg h]
      exact ⟨rfl, rfl, hok⟩
  unfold resample
  rw [if_neg h1, if_pos h2]
  dsimp only
  split
  · exact ⟨hrt.1, hrt.2.1, hrt.2.2, by simp⟩
  · exact ⟨hrt.1, hrt.2.1, hrt.2.2, by simp⟩

theorem resample_write_copy_outer {F D R : Type} (cx : Cx F D R) (m : Sys F D R)
    (wbuf : List F) (count : Nat) (r : WriteRun F D R)
    (h : resample_write_copy cx m wbuf count = some r) :
    outer r.m.sp = outer m.sp ∧ r.out ≠ .aborted := by
  unfold resample_write_copy at h
  cases hw : WAIT_FOR_COND cx.ops.zero
      (fun sp => sp.sd1.rb.map (fun rb => decide (rb.write_space ≥ CHANNELS * count)))
      1 .rw (max 1 ((Nat.cast (2 * CHANNELS * count) : ℚ) / m.sp.sd1.dev_sample_rate)) m with
  | none => rw [hw] at h; cases h
  | some p =>
    obtain ⟨m1, e⟩ := p
    rw [hw] at h
    have ho : outer m1.sp = outer m.sp := waitLoop_outer _ _ _ _ _ _ _ _ hw
    cases e with
    | ready =>
      simp only at h
      cases hrb : m1.sp.sd1.rb with
      | none =>
        rw [hrb] at h
        simp only [Option.some.injEq] at h
        rw [← h]
        exact ⟨ho, by simp⟩
      | some rb =>
        rw [hrb] at h
        simp only [Option.some.injEq] at h
        rw [← h]
        refine ⟨?_, by simp⟩
        rw [← ho]
        simp only [outer, blankSd, hrb, ringbuffer.write, Option.map_some']
    | timedout =>
      simp only [Option.some.injEq] at h
      rw [← h]
      exact ⟨ho, by simp⟩
    | failed e =>
      simp only [Option.some.injEq] at h
      rw [← h]
      exact ⟨ho, by simp⟩
    | undefined =>
      simp only [Option.some.injEq] at h
      rw [← h]
      exact ⟨ho, by simp⟩

/-- A block of at most `maxframes` frames passes the `assert` of `resample_write`. -/
theorem resample_write_block_asserts {F D R : Type} (cx : Cx F D R) (m : Sys F D R)
    (data : List F) (count : Nat) (rb : ringbuffer F) (r : WriteRun F D R)
    (hrb : m.sp.sd1.rb = some rb)
    (hmax : count ≤ resample_write_maxframes rb m.sp.tx_ratio) (hok : TxOK cx m.sp)
    (h : resample_write_block cx m data count = some r) :
    r.out ≠ .aborted ∧ TxOK cx r.m.sp := by
  have hassert := resample_write_assert_holds rb m.sp.tx_ratio count hok.1 hmax
  unfold resample_write_block at h
  rw [hrb] at h
  simp only [hassert, not_true_eq_false, if_false] at h
  by_cases hres : m.sp.req_sample_rate ≠ m.sp.sd1.dev_sample_rate ∨ cx.cfg.TX_corr ≠ 0
  · rw [if_pos hres] at h
    obtain ⟨a1, a2, a3, a4⟩ := resample_wronly_TxOK cx
      (window cx.ops.stale data (CHANNELS * count)) count 0 m.sp hok
    rcases hr : resample cx (1 <<< O_WRONLY) (window cx.ops.stale data (CHANNELS * count))
      count 0 m.sp with ⟨s1, o⟩
    rw [hr] at h a1 a2 a3 a4
    simp only at a1 a2 a3 a4
    cases o with
    | ret res =>
      simp only at h
      by_cases hd : decide (rb.get_wv.1 ≥ CHANNELS * Int.toNat ⌈(count : ℚ) * m.sp.tx_ratio⌉) = true
      · simp only [hd, if_true, Option.some.injEq] at h
        rw [← h]
        refine ⟨by simp, ?_⟩
        unfold TxOK tx_ratio_for at a3 ⊢
        simpa [sem_trywait, setSem] using a3
      · simp only [hd, Bool.false_eq_true, if_false] at h
        obtain ⟨b1, b2⟩ := resample_write_copy_outer cx _ _ _ r h
        exact ⟨b2, TxOK_of_outer cx s1 r.m.sp b1 a3⟩
    | throw e =>
      simp only [Option.some.injEq] at h
      rw [← h]
      exact ⟨by simp, a3⟩
    | undefined =>
      simp only [Option.some.injEq] at h
      rw [← h]
      exact ⟨by simp, a3⟩
    | aborted => exact absurd rfl a4
  · rw [if_neg hres] at h
    obtain ⟨b1, b2⟩ := resample_write_copy_outer cx _ _ _ r h
    exact ⟨b2, TxOK_of_outer cx m.sp r.m.sp b1 hok⟩

/-- The splitting loop of `resample_write` over calls that pass the assertion. -/
theorem resample_write_split_asserts {F D R : Type} (cx : Cx F D R)
    (rw : Sys F D R → List F → Nat → Option (WriteRun F D R)) (mf : Nat)
    (hrw : ∀ m data c r, TxOK cx m.sp → rw m data c = some r →
      r.out ≠ .aborted ∧ TxOK cx r.m.sp)
    (k : Nat) (m : Sys F D R) (data : List F) (count n0 : Nat) (r : WriteRun F D R)
    (hok : TxOK cx m.sp) (h : resample_write_split rw mf k m data count n0 = some r) :
    r.out ≠ .aborted ∧ TxOK cx r.m.sp := by
  induction k generalizing m data count n0 with
  | zero => simp [resample_write_split] at h
  | succ k ih =>
    unfold resample_write_split at h
    by_cases hc : count > mf
    · simp only [hc, if_true] at h
      cases h1 : rw m data mf with
      | none => rw [h1] at h; cases h
      | some r1 =>
        rw [h1] at h
        obtain ⟨g1, g2⟩ := hrw m data mf r1 hok h1
        simp only at h
        cases ho : r1.out with
        | ret x =>
          rw [ho] at h
          exact ih _ _ _ _ g2 h
        | throw e =>
          rw [ho] at h
          simp only [Option.some.injEq] at h
          rw [← h]
          exact ⟨g1, g2⟩
        | undefined =>
          rw [ho] at h
          simp only [Option.some.injEq] at h
          rw [← h]
          exact ⟨g1, g2⟩
        | aborted => exact absurd ho g1
    · simp only [hc, if_false] at h
      by_cases h0 : count > 0
      · simp only [h0, if_true] at h
        cases h1 : rw m data count with
        | none => rw [h1] at h; cases h
        | some r1 =>
          rw [h1] at h
          obtain ⟨g1, g2⟩ := hrw m data count r1 hok h1
          simp only at h
          cases ho : r1.out with
          | ret x =>
            rw [ho] at h
            simp only [Option.some.injEq] at h
            rw [← h]
            exact ⟨by simp, g2⟩
          | throw e =>
            rw [ho] at h
            simp only [Option.some.injEq] at h
            rw [← h]
            exact ⟨g1, g2⟩
          | undefined =>
            rw [ho] at h
            simp only [Option.some.injEq] at h
            rw [← h]
            exact ⟨g1, g2⟩
          | aborted => exact absurd ho g1
      · simp only [h0, if_false, Option.some.injEq] at h
        rw [← h]
        exact ⟨by simp, hok⟩

/-- No call of `resample_write`, split or not, fails its assertion. -/
theorem resample_write_asserts {F D R : Type} (cx : Cx F D R) (fuel : Nat) (m : Sys F D R)
    (data : List F) (count : Nat) (r : WriteRun F D R) (hok : TxOK cx m.sp)
    (h : resample_write cx fuel m data count = some r) :
    r.out ≠ .aborted ∧ TxOK cx r.m.sp := by
  induction fuel generalizing m data count r with
  | zero => simp [resample_write] at h
  | succ fuel ih =>
    unfold resample_write at h
    cases hrb : m.sp.sd1.rb with
    | none =>
      rw [hrb] at h
      simp only [Option.some.injEq] at h
      rw [← h]
      exact ⟨by simp, hok⟩
    | some rb =>
      rw [hrb] at h
      simp only at h
      by_cases hc : count > resample_write_maxframes rb m.sp.tx_ratio
      · rw [if_pos hc] at h
        exact resample_write_split_asserts cx (resample_write cx fuel) _
          (fun m1 d c r1 hok1 h1 => ih m1 d c r1 hok1 h1) fuel m data count 0 r hok h
      · rw [if_neg hc] at h
        exact resample_write_block_asserts cx m data count rb r hrb (by omega) hok h

/-- Claim C29.  The `assert` of `SoundPort::resample_write` never fails.  For every ring,
of length `L`, every tx ratio `r > 0` and every `count <= maxframes`, where `maxframes` is
`floor((L / 2) / r)` (`L / 2` in whole numbers) halved in whole numbers,
`count * 2 * r <= L` holds.  Hence no call of `resample_write`, of `Write` or of
`Write_stereo` that returns ends in a failed assertion, whether the request is split or
not, as long as the tx ratio is positive on entry and a retune to the `TX_corr` setting
gives a positive ratio as well. -/
theorem C29_assert_never_fails {F D R : Type} (cx : Cx F D R) :
    (∀ (rb : ringbuffer F) (r : ℚ),
      resample_write_maxframes rb r = Int.toNat ⌊((rb.length / 2 : Nat) : ℚ) / r⌋ / 2) ∧
    (∀ (rb : ringbuffer F) (r : ℚ) (count : Nat), 0 < r →
      count ≤ resample_write_maxframes rb r →
      ((count * 2 : Nat) : ℚ) * r ≤ (rb.length : ℚ)) ∧
    (∀ fuel (m : Sys F D R) data count r, TxOK cx m.sp →
      resample_write cx fuel m data count = some r → r.out ≠ .aborted) ∧
    (∀ fuel (m : Sys F D R) buf count r, TxOK cx m.sp →
      Write cx fuel m buf count = some r → r.out ≠ .aborted) ∧
    (∀ fuel (m : Sys F D R) l rt count r, TxOK cx m.sp →
      Write_stereo cx fuel m l rt count = some r → r.out ≠ .aborted) := by
  refine ⟨fun rb r => rfl, fun rb r count hr hmax => ?_, fun fuel m data count r hok h => ?_,
    fun fuel m buf count r hok h => ?_, fun fuel m l rt count r hok h => ?_⟩
  · exact resample_write_assert_holds rb r count hr hmax
  · exact (resample_write_asserts cx fuel m data count r hok h).1
  · unfold Write at h
    refine (resample_write_asserts cx fuel _ _ count r ?_ h).1
    unfold TxOK tx_ratio_for at hok ⊢
    simpa using hok
  · unfold Write_stereo at h
    refine (resample_write_asserts cx fuel _ _ count r ?_ h).1
    have hs : (Write_stereo_fill cx m.sp l rt count).sd1 = m.sp.sd1 ∧
        (Write_stereo_fill cx m.sp l rt count).tx_ratio = m.sp.tx_ratio ∧
        (Write_stereo_fill cx m.sp l rt count).req_sample_rate = m.sp.req_sample_rate := by
      unfold Write_stereo_fill; split_ifs <;> exact ⟨rfl, rfl, rfl⟩
    unfold TxOK tx_ratio_for at hok ⊢
    simp only [hs.1, hs.2.1, hs.2.2]
    exact hok

/-- Witness of C29: the modem at 8000 Hz on an output device at 48000 Hz (tx ratio 6) with
an output ring of 64 floats: `maxframes` is 2, and `2 * 2 * 6 <= 64`; a `Write` of 5
frames, split in three, returns 30 frames. -/
theorem C29_witness :
    resample_write_maxframes emptyRing64 6 = 2 ∧
    (((2 * 2 : Nat) : ℚ) * 6 ≤ (emptyRing64.length : ℚ)) ∧
    (Write plainCx 8 (quietSys txUpPort) (fun i => 100 + (i : Int)) 5).map (fun r => r.out)
      = some (.ret 30) ∧
    ∀ r, Write plainCx 8 (quietSys txUpPort) (fun i => 100 + (i : Int)) 5 = some r →
      r.out ≠ .aborted :=
  ⟨by decide!,
   (C29_assert_never_fails plainCx).2.1 emptyRing64 6 2 (by norm_num) (by decide!),
   by decide!,
   fun r h => (C29_assert_never_fails plainCx).2.2.2.1 8 (quietSys txUpPort)
     (fun i => 100 + (i : Int)) 5 r (by unfold TxOK tx_ratio_for; decide!) h⟩

/-! ## The direct write into the output ring -/

/-- The function `resample` leaves both streams as they are. -/
theorem resample_sd {F D R : Type} (cx : Cx F D R) (mode : Nat) (data_in : List F)
    (count max : Nat) (s : SoundPort F D R) :
    (resample cx mode data_in count max s).1.sd0 = s.sd0 ∧
    (resample cx mode data_in count max s).1.sd1 = s.sd1 := by
  have hrx : (resample_retune_rx cx s).sd0 = s.sd0 ∧ (resample_retune_rx cx s).sd1 = s.sd1 := by
    unfold resample_retune_rx; split_ifs <;> exact ⟨rfl, rfl⟩
  have htx : (resample_retune_tx cx s).sd0 = s.sd0 ∧ (resample_retune_tx cx s).sd1 = s.sd1 := by
    unfold resample_retune_tx; split_ifs <;> exact ⟨rfl, rfl⟩
  unfold resample
  by_cases h1 : mode &&& (1 <<< O_RDONLY) ≠ 0
  · rw [if_pos h1]
    dsimp only
    split <;> exact hrx
  · rw [if_neg h1]
    by_cases h3 : mode &&& (1 <<< O_WRONLY) ≠ 0
    · rw [if_pos h3]
      dsimp only
      split <;> exact htx
    · rw [if_neg h3]
      exact ⟨rfl, rfl⟩

/-- Claim C26 (as amended).  `SoundPort::resample_write` with `count <= maxframes`, a
positive tx ratio, and resampling needed (the modem rate differs from the output device
rate, or `TX_corr` is not 0).  If the first span of the write vector of the output ring
holds `2 * ceil(count * ratio)` floats and the converter succeeds, producing `produced`
frames, then the block is resampled directly into the ring, the write index is advanced by
`2 * produced` floats, `sem_trywait` is called on `rwsem` (its count goes down by one when
it is positive and stays 0 otherwise: it is not posted), and the function returns
`produced`.  It waits on no semaphore: the trace of outside calls and the script of the
realtime thread are as before. -/
theorem C26_direct_write {F D R : Type} (cx : Cx F D R) (fuel : Nat) (m : Sys F D R)
    (data : List F) (count : Nat) (rb : ringbuffer F) (res : SrcResult F R)
    (hrb : m.sp.sd1.rb = some rb)
    (hmax : count ≤ resample_write_maxframes rb m.sp.tx_ratio)
    (hpos : 0 < m.sp.tx_ratio)
    (hres : m.sp.req_sample_rate ≠ m.sp.sd1.dev_sample_rate ∨ cx.cfg.TX_corr ≠ 0)
    (hfit : rb.get_wv.1 ≥ 2 * Int.toNat ⌈(count : ℚ) * m.sp.tx_ratio⌉)
    (hr : (resample cx (1 <<< O_WRONLY) (window cx.ops.stale data (CHANNELS * count)) count 0
      m.sp).2 = .ret res) :
    ∃ r, resample_write cx (fuel + 1) m data count = some r ∧
      r.out = .ret res.output_frames_gen ∧
      r.m.sp.sd1.rb = some { rb with
        data := rb.data ++ window cx.ops.stale res.data_out (2 * res.output_frames_gen) } ∧
      (∃ rb1, r.m.sp.sd1.rb = some rb1 ∧
        rb1.data.length = rb.data.length + 2 * res.output_frames_gen) ∧
      r.m.sp.sd1.rwsem = m.sp.sd1.rwsem - 1 ∧
      r.m.sp.sd1.csem = m.sp.sd1.csem ∧
      r.m.sp.sd0 = m.sp.sd0 ∧
      r.m.trace = m.trace ∧ r.m.env = m.env := by
  have hassert := resample_write_assert_holds rb m.sp.tx_ratio count hpos hmax
  have hsd := (resample_sd cx (1 <<< O_WRONLY) (window cx.ops.stale data (CHANNELS * count))
    count 0 m.sp)
  rcases hrs : resample cx (1 <<< O_WRONLY) (window cx.ops.stale data (CHANNELS * count))
    count 0 m.sp with ⟨s1, o⟩
  rw [hrs] at hsd hr
  simp only at hsd hr
  subst hr
  have hd : decide (rb.get_wv.1 ≥ CHANNELS * Int.toNat ⌈(count : ℚ) * m.sp.tx_ratio⌉) = true := by
    simpa [CHANNELS] using hfit
  have heq : resample_write cx (fuel + 1) m data count
      = some ⟨{ m with sp := { s1 with sd1 := sem_trywait { s1.sd1 with
                  rb := s1.sd1.rb.map (fun r => r.write_advance
                    (window cx.ops.stale res.data_out (CHANNELS * res.output_frames_gen))) } .rw } },
              .ret res.output_frames_gen⟩ := by
    simp only [resample_write, hrb, if_neg (not_lt.mpr hmax), resample_write_block, hassert,
      not_true_eq_false, if_false, hres, if_true, hrs, hd]
  have hring : (sem_trywait { s1.sd1 with
        rb := s1.sd1.rb.map (fun r => r.write_advance
          (window cx.ops.stale res.data_out (CHANNELS * res.output_frames_gen))) } .rw).rb
      = some { rb with
          data := rb.data ++ window cx.ops.stale res.data_out (2 * res.output_frames_gen) } := by
    simp only [sem_trywait, setSem, semCount, hsd.2, hrb, Option.map_some',
      ringbuffer.write_advance, CHANNELS]
  refine ⟨_, heq, rfl, hring, ⟨_, hring, ?_⟩, ?_, ?_, hsd.1, rfl, rfl⟩
  · simp [window]
  · simp only [sem_trywait, setSem, semCount, hsd.2]
  · simp only [sem_trywait, setSem, semCount, hsd.2]

/-- Witness of C26: the modem at 8000 Hz on an output device at 48000 Hz (tx ratio 6), the
empty output ring of 64 floats and one token on `rwsem`: a block of 2 frames is resampled
into the ring directly, which then holds 12 frames. -/
theorem C26_witness :
    ∃ r, resample_write plainCx 1 (quietSys txUpPortToken) [100, 100, 101, 101] 2 = some r ∧
      r.out = .ret 12 ∧
      r.m.sp.sd1.rb = some { emptyRing64 with
        data := [] ++ window plainCx.ops.stale
          (List.replicate 12 100 ++ List.replicate 12 101) (2 * 12) } :=
  (C26_direct_write plainCx 0 (quietSys txUpPortToken) [100, 100, 101, 101] 2 emptyRing64
    ⟨some (), 12, List.replicate 12 100 ++ List.replicate 12 101⟩
    rfl (by decide!) (by decide!) (Or.inl (by decide!)) (by decide!) (by decide!)).imp
    (fun _ hr => ⟨hr.1, hr.2.1, hr.2.2.1⟩)

/-- Counterexample to C26 as stated: in that situation, with one token on `rwsem` before
the call, `rwsem` holds no token afterwards (not two); with no token before the call it
holds none afterwards (not one).  No wait is recorded, and 12 frames are returned. -/
theorem C26_counterexample :
    (resample_write plainCx 1 (quietSys txUpPortToken) [100, 100, 101, 101] 2).map
        (fun r => (r.out, r.m.sp.sd1.rwsem, r.m.trace)) = some (.ret 12, 0, []) ∧
    (quietSys txUpPortToken).sp.sd1.rwsem = 1 ∧
    (resample_write plainCx 1 (quietSys txUpPort) [100, 100, 101, 101] 2).map
        (fun r => (r.out, r.m.sp.sd1.rwsem, r.m.trace)) = some (.ret 12, 0, []) ∧
    (quietSys txUpPort).sp.sd1.rwsem = 0 := by
  decide!

/-! ## The lengths of the rings -/

theorem ceil2_from_spec (n : Nat) (fuel p k : Nat) (hp : p = 2 ^ k) (hfuel : n ≤ p + fuel)
    (hmin : ∀ j, n ≤ 2 ^ j → k ≤ j) :
    n ≤ ceil2_from n fuel p ∧
    ∃ k1, ceil2_from n fuel p = 2 ^ k1 ∧ ∀ j, n ≤ 2 ^ j → k1 ≤ j := by
  induction fuel generalizing p k with
  | zero => exact ⟨by simpa [ceil2_from] using hfuel, k, by simp [ceil2_from, hp], hmin⟩
  | succ fuel ih =>
    unfold ceil2_from
    by_cases h : n ≤ p
    · rw [if_pos h]
      exact ⟨h, k, hp, hmin⟩
    · rw [if_neg h]
      have hp1 : 1 ≤ p := by rw [hp]; exact Nat.one_le_two_pow
      apply ih (2 * p) (k + 1)
      · rw [hp, pow_succ]; ring
      · omega
      · intro j hj
        by_contra hlt
        have hjk : j ≤ k := by omega
        have : 2 ^ j ≤ 2 ^ k := Nat.pow_le_pow_right (by norm_num) hjk
        omega

/-- The modelled `ceil2` rounds up to a power of two: the least one not below `n`. -/
theorem ceil2_pow_spec (n : Nat) :
    n ≤ ceil2_pow n ∧ ∃ k, ceil2_pow n = 2 ^ k ∧ ∀ j, n ≤ 2 ^ j → k ≤ j :=
  ceil2_from_spec n n 1 0 rfl (by omega) (fun j _ => Nat.zero_le j)

theorem src_data_reset_rx_ring {F D R : Type} (cx : Cx F D R) (ceil2 : Nat → Nat)
    (s : SoundPort F D R) (h : (src_data_reset_rx cx ceil2 s).2 = .ret ()) :
    ∃ rb, (src_data_reset_rx cx ceil2 s).1.sd0.rb = some rb ∧
      rb.length = rx_ring_length ceil2 s.req_sample_rate s.sd0.dev_sample_rate := by
  unfold src_data_reset_rx at h ⊢
  cases hn : cx.src.src_new cx.cfg.sample_converter CHANNELS with
  | error err => rw [hn] at h; cases h
  | ok st =>
    simp only
    cases hrb : s.sd0.rb with
    | none => exact ⟨_, rfl, rfl⟩
    | some old =>
      simp only
      by_cases hl : old.length ≠ 2 * max (ceil2 (to_unsigned
          ((Nat.cast (2 * CHANNELS * SCBLOCKSIZE) : ℚ) * max s.req_sample_rate
            s.sd0.dev_sample_rate / min s.req_sample_rate s.sd0.dev_sample_rate))) 4096
      · rw [if_pos hl]
        exact ⟨_, rfl, rfl⟩
      · rw [if_neg hl]
        exact ⟨_, rfl, not_not.mp hl⟩

theorem src_data_reset_tx_ring {F D R : Type} (cx : Cx F D R) (ceil2 : Nat → Nat)
    (s : SoundPort F D R) (h : (src_data_reset_tx cx ceil2 s).2 = .ret ()) :
    ∃ rb, (src_data_reset_tx cx ceil2 s).1.sd1.rb = some rb ∧
      rb.length = tx_ring_length ceil2 s.req_sample_rate s.sd1.dev_sample_rate := by
  unfold src_data_reset_tx at h ⊢
  cases hn : cx.src.src_new cx.cfg.sample_converter CHANNELS with
  | error err => rw [hn] at h; cases h
  | ok st =>
    simp only
    cases hrb : s.sd1.rb with
    | none => exact ⟨_, rfl, rfl⟩
    | some old =>
      simp only
      by_cases hl : old.length ≠ tx_ring_length ceil2 s.req_sample_rate s.sd1.dev_sample_rate
      · have hl1 := hl
        unfold tx_ring_length at hl1
        rw [if_pos hl1]
        exact ⟨_, rfl, rfl⟩
      · have hl1 := hl
        unfold tx_ring_length at hl1
        rw [if_neg hl1]
        exact ⟨_, rfl, not_not.mp hl⟩

/-- Claim C27 (as amended).  When `SoundPort::src_data_reset(mode)` returns, with `ceil2`
of misc.h whatever it is: for a `mode` with the `O_RDONLY` bit the input ring has
`2 * max(ceil2(trunc(2 * 2 * 512 * max(req, dev) / min(req, dev))), 4096)` floats, which is
never less than 8192, and is `ceil2(..)` doubled when `ceil2(..)` is at least 4096; for a
`mode` with the `O_WRONLY` bit the output ring has `max(c, 2048)` floats, never less than
2048, where `c` is `ceil2(trunc(2 * 512 * max(req, dev) / min(req, dev)))`, doubled when
`req > 8000`.  Here `req` is the modem rate and `dev` the rate of the device of the
direction. -/
theorem C27_ring_lengths {F D R : Type} (cx : Cx F D R) (ceil2 : Nat → Nat) (mode : Nat)
    (s : SoundPort F D R) (h : (src_data_reset cx ceil2 mode s).2 = .ret ()) :
    (mode &&& (1 <<< O_RDONLY) ≠ 0 →
      ∃ rb, (src_data_reset cx ceil2 mode s).1.sd0.rb = some rb ∧
        rb.length = 2 * max (ceil2 (to_unsigned (((2 * 2 * 512 : Nat) : ℚ) *
          max s.req_sample_rate s.sd0.dev_sample_rate /
            min s.req_sample_rate s.sd0.dev_sample_rate))) 4096 ∧
        8192 ≤ rb.length ∧
        (4096 ≤ ceil2 (to_unsigned (((2 * 2 * 512 : Nat) : ℚ) *
            max s.req_sample_rate s.sd0.dev_sample_rate /
              min s.req_sample_rate s.sd0.dev_sample_rate)) →
          rb.length = 2 * ceil2 (to_unsigned (((2 * 2 * 512 : Nat) : ℚ) *
            max s.req_sample_rate s.sd0.dev_sample_rate /
              min s.req_sample_rate s.sd0.dev_sample_rate)))) ∧
    (mode &&& (1 <<< O_WRONLY) ≠ 0 →
      ∃ rb, (src_data_reset cx ceil2 mode s).1.sd1.rb = some rb ∧
        rb.length = max
          (if s.req_sample_rate > 8000 then
            ceil2 (to_unsigned (((2 * 512 : Nat) : ℚ) *
              max s.req_sample_rate s.sd1.dev_sample_rate /
                min s.req_sample_rate s.sd1.dev_sample_rate)) * 2
          else
            ceil2 (to_unsigned (((2 * 512 : Nat) : ℚ) *
              max s.req_sample_rate s.sd1.dev_sample_rate /
                min s.req_sample_rate s.sd1.dev_sample_rate))) 2048 ∧
        2048 ≤ rb.length) := by
  unfold src_data_reset at h ⊢
  by_cases hr : mode &&& (1 <<< O_RDONLY) ≠ 0
  · obtain ⟨a1, a2, a3, a4, a5, a6, a7⟩ := src_data_reset_rx_spec cx ceil2 s
    rw [if_pos hr] at h ⊢
    have hring := src_data_reset_rx_ring cx ceil2 s
    rcases hx : src_data_reset_rx cx ceil2 s with ⟨s1, o⟩
    rw [hx] at h a1 a2 a3 a4 a5 a6 a7 hring
    simp only at a1 a2 a3 a4 a5 a6 a7 hring
    cases o with
    | ret u =>
      simp only at h ⊢
      obtain ⟨rb0, g1, g2⟩ := hring rfl
      have hin : ∃ rb, s1.sd0.rb = some rb ∧
          rb.length = 2 * max (ceil2 (to_unsigned (((2 * 2 * 512 : Nat) : ℚ) *
            max s.req_sample_rate s.sd0.dev_sample_rate /
              min s.req_sample_rate s.sd0.dev_sample_rate))) 4096 ∧
          8192 ≤ rb.length ∧
          (4096 ≤ ceil2 (to_unsigned (((2 * 2 * 512 : Nat) : ℚ) *
              max s.req_sample_rate s.sd0.dev_sample_rate /
                min s.req_sample_rate s.sd0.dev_sample_rate)) →
            rb.length = 2 * ceil2 (to_unsigned (((2 * 2 * 512 : Nat) : ℚ) *
              max s.req_sample_rate s.sd0.dev_sample_rate /
                min s.req_sample_rate s.sd0.dev_sample_rate))) := by
        refine ⟨rb0, g1, g2, ?_, fun h4 => ?_⟩
        · rw [g2]; unfold rx_ring_length; omega
        · rw [g2]
          show 2 * max (ceil2 (to_unsigned (((2 * 2 * 512 : Nat) : ℚ) *
            max s.req_sample_rate s.sd0.dev_sample_rate /
              min s.req_sample_rate s.sd0.dev_sample_rate))) 4096 = _
          rw [Nat.max_eq_left h4]
      by_cases hw : mode &&& (1 <<< O_WRONLY) ≠ 0
      · obtain ⟨b1, b2, b3, b4, b5, b6, b7⟩ := src_data_reset_tx_spec cx ceil2 s1
        rw [if_pos hw] at h ⊢
        obtain ⟨rb1, e1, e2⟩ := src_data_reset_tx_ring cx ceil2 s1 h
        refine ⟨fun _ => ?_, fun _ => ⟨rb1, e1, ?_, ?_⟩⟩
        · rw [b6]; exact hin
        · rw [e2, a4, a6]; rfl
        · rw [e2]; unfold tx_ring_length; omega
      · rw [if_neg hw]
        exact ⟨fun _ => hin, fun h0 => absurd h0 hw⟩
    | throw e => cases h
    | undefined => cases h
    | aborted => cases h
  · rw [if_neg hr] at h ⊢
    simp only at h ⊢
    by_cases hw : mode &&& (1 <<< O_WRONLY) ≠ 0
    · rw [if_pos hw] at h ⊢
      obtain ⟨rb1, e1, e2⟩ := src_data_reset_tx_ring cx ceil2 s h
      refine ⟨fun h0 => absurd h0 hr, fun _ => ⟨rb1, e1, ?_, ?_⟩⟩
      · rw [e2]; rfl
      · rw [e2]; unfold tx_ring_length; omega
    · rw [if_neg hw]
      exact ⟨fun h0 => absurd h0 hr, fun h0 => absurd h0 hw⟩

/-- Witness of C27: the reset of both directions with the modem at 48000 Hz on devices at
8000 Hz gives an input ring of `2 * ceil2(12288)` = 32768 floats and an output ring of
`ceil2(6144) * 2` = 16384 floats. -/
theorem C27_witness :
    ((src_data_reset plainCx ceil2_pow (1 <<< O_RDONLY ||| 1 <<< O_WRONLY) upPort).1.sd0.rb.map
        ringbuffer.length,
      (src_data_reset plainCx ceil2_pow (1 <<< O_RDONLY ||| 1 <<< O_WRONLY) upPort).1.sd1.rb.map
        ringbuffer.length) = (some 32768, some 16384) ∧
    ∃ rb, (src_data_reset plainCx ceil2_pow (1 <<< O_RDONLY ||| 1 <<< O_WRONLY) upPort).1.sd1.rb
        = some rb ∧ 2048 ≤ rb.length :=
  ⟨by decide!,
   ((C27_ring_lengths plainCx ceil2_pow (1 <<< O_RDONLY ||| 1 <<< O_WRONLY) upPort
      (by decide!)).2 (by decide)).imp (fun _ hr => ⟨hr.1, hr.2.2⟩)⟩

/-- Counterexample to C27 as stated, with `ceil2` rounding up to a power of two.  The
modem at 8000 Hz on an output device at 48000 Hz: the output ring has 8192 floats, not
`ceil2(2 * 2 * 512 * 48000 / 8000)` = 16384.  The modem at 8000 Hz on an input device at
8000 Hz: the input ring has 8192 floats, not `ceil2(2 * 2 * 512)` doubled, 4096. -/
theorem C27_counterexample :
    (src_data_reset plainCx ceil2_pow (1 <<< O_WRONLY) txUpPort).1.sd1.rb.map ringbuffer.length
      = some 8192 ∧
    ceil2_pow (to_unsigned (((2 * 2 * 512 : Nat) : ℚ) * max 8000 48000 / min 8000 48000))
      = 16384 ∧
    (src_data_reset plainCx ceil2_pow (1 <<< O_RDONLY)
      (plainPort emptyRing8 emptyRing8)).1.sd0.rb.map ringbuffer.length = some 8192 ∧
    2 * ceil2_pow (to_unsigned (((2 * 2 * 512 : Nat) : ℚ) * max 8000 8000 / min 8000 8000))
      = 4096 := by
  decide!

/-! ## The decision of `Open` -/

theorem to_int_cast (n : Int) : to_int (n : ℚ) = n := by
  unfold to_int
  split_ifs
  · exact Int.floor_intCast n
  · exact Int.ceil_intCast n

/-- Claim C24.  The body of the loop of `SoundPort::Open(mode, freq)` for direction `i`,
with `old_sample_rate` the rate requested before.  When the stream is not active the
direction is rebuilt.  When it is active, on a device whose host API is `api`, the
direction is rebuilt if and only if `rebuild_spec` holds: `freq` differs from
`old_sample_rate`, the host API is not JACK and the sample-rate setting of the direction
is `SAMPLE_RATE_AUTO`; when it is not rebuilt, `src_data_reset(m[i])` alone is called if
`freq` differs from `old_sample_rate`, and nothing is done if it does not.  The rebuild is
`Close(i)`, `init_stream(i)`, `src_data_reset(m[i])`, the reset of the semaphores and
`start_stream(i)`, in this order, cut short by the first of them that throws.  `Open`
stores `freq` as the requested rate and runs the body for direction 0 and then, if that
returns, for direction 1, with the rate requested before as `old_sample_rate`. -/
theorem C24_Open_rebuild_decision {F D R : Type} (cx : Cx F D R) (ceil2 : Nat → Nat)
    (pa : PortAudio) (old_sample_rate freq : Int) (i : Fin 2) (m : Sys F D R) :
    (stream_active (m.sp.sd i) = .ok false →
      rebuild_spec False (old_sample_rate ≠ freq) False True ∧
      Open_one cx ceil2 pa old_sample_rate freq i m = Open_rebuild cx ceil2 pa i m) ∧
    (∀ dev api, stream_active (m.sp.sd i) = .ok true →
      pa.devs.get? (m.sp.sd i).idev = some dev → pa.Pa_GetHostApiInfo dev.hostApi = some api →
      (Open_keeps cx pa old_sample_rate freq i m.sp = .ok (some false) ↔
        rebuild_spec True (old_sample_rate ≠ freq) (api.type = paJACK)
          ((if i = 0 then cx.cfg.in_sample_rate else cx.cfg.out_sample_rate)
            = pa.SAMPLE_RATE_AUTO)) ∧
      (rebuild_spec True (old_sample_rate ≠ freq) (api.type = paJACK)
          ((if i = 0 then cx.cfg.in_sample_rate else cx.cfg.out_sample_rate)
            = pa.SAMPLE_RATE_AUTO) →
        Open_one cx ceil2 pa old_sample_rate freq i m = Open_rebuild cx ceil2 pa i m) ∧
      (¬ rebuild_spec True (old_sample_rate ≠ freq) (api.type = paJACK)
          ((if i = 0 then cx.cfg.in_sample_rate else cx.cfg.out_sample_rate)
            = pa.SAMPLE_RATE_AUTO) →
        (old_sample_rate ≠ freq →
          Open_one cx ceil2 pa old_sample_rate freq i m
            = onPort (src_data_reset cx ceil2 (Open_mode i)) m) ∧
        (old_sample_rate = freq →
          Open_one cx ceil2 pa old_sample_rate freq i m = (m, .ret ())))) ∧
    Open_rebuild cx ceil2 pa i m
      = andThen (Close cx.ops.zero i.val m) (fun m1 =>
        andThen (onPort (init_stream cx pa i) m1) (fun m2 =>
        andThen (onPort (src_data_reset cx ceil2 (Open_mode i)) m2) (fun m3 =>
        start_stream cx pa i
          { m3 with sp := m3.sp.setSd i (Open_drain i (m3.sp.sd i)) }))) ∧
    (∀ mode (f0 : Int), m.sp.req_sample_rate = (f0 : ℚ) →
      (Open cx ceil2 pa mode freq m).1
        = (andThen (Open_one cx ceil2 pa f0 freq 0
            { m with sp := { m.sp with req_sample_rate := (freq : ℚ),
                                       sample_frequency := freq } })
            (Open_one cx ceil2 pa f0 freq 1)).1 ∧
      ((Open cx ceil2 pa mode freq m).2 = .ret 0 ↔
        (andThen (Open_one cx ceil2 pa f0 freq 0
            { m with sp := { m.sp with req_sample_rate := (freq : ℚ),
                                       sample_frequency := freq } })
            (Open_one cx ceil2 pa f0 freq 1)).2 = .ret ())) := by
  refine ⟨fun ha => ⟨Or.inl not_false, ?_⟩, fun dev api ha hd hapi => ?_, ?_,
    fun mode f0 hf0 => ?_⟩
  · simp only [Open_one, Open_keeps, ha]
  · have hk : Open_keeps cx pa old_sample_rate freq i m.sp
        = .ok (some (decide (api.type = paJACK ∨ old_sample_rate = freq ∨
            (if i = 0 then cx.cfg.in_sample_rate else cx.cfg.out_sample_rate)
              ≠ pa.SAMPLE_RATE_AUTO))) := by
      simp only [Open_keeps, ha, hd, hapi]
    have hiff : decide (api.type = paJACK ∨ old_sample_rate = freq ∨
          (if i = 0 then cx.cfg.in_sample_rate else cx.cfg.out_sample_rate)
            ≠ pa.SAMPLE_RATE_AUTO) = false ↔
        rebuild_spec True (old_sample_rate ≠ freq) (api.type = paJACK)
          ((if i = 0 then cx.cfg.in_sample_rate else cx.cfg.out_sample_rate)
            = pa.SAMPLE_RATE_AUTO) := by
      unfold rebuild_spec
      rw [decide_eq_false_iff_not]
      constructor
      · intro h
        right
        exact ⟨fun e => h (Or.inr (Or.inl e)), fun e => h (Or.inl e),
          by_contra (fun e => h (Or.inr (Or.inr e)))⟩
      · rintro (h | ⟨h1, h2, h3⟩)
        · exact absurd trivial h
        · rintro (e | e | e)
          · exact h2 e
          · exact h1 e
          · exact e h3
    refine ⟨?_, fun hs => ?_, fun hs => ⟨fun hc => ?_, fun hc => ?_⟩⟩
    · rw [hk, ← hiff]
      constructor
      · intro h
        injection h with h
        injection h
      · intro h
        rw [h]
    · have hf := hiff.mpr hs
      simp only [Open_one, hk, hf]
    · have ht : decide (api.type = paJACK ∨ old_sample_rate = freq ∨
          (if i = 0 then cx.cfg.in_sample_rate else cx.cfg.out_sample_rate)
            ≠ pa.SAMPLE_RATE_AUTO) = true := by
        cases hb : decide (api.type = paJACK ∨ old_sample_rate = freq ∨
          (if i = 0 then cx.cfg.in_sample_rate else cx.cfg.out_sample_rate)
            ≠ pa.SAMPLE_RATE_AUTO) with
        | true => rfl
        | false => exact absurd (hiff.mp hb) hs
      simp only [Open_one, hk, ht, if_pos hc]
    · have ht : decide (api.type = paJACK ∨ old_sample_rate = freq ∨
          (if i = 0 then cx.cfg.in_sample_rate else cx.cfg.out_sample_rate)
            ≠ pa.SAMPLE_RATE_AUTO) = true := by
        cases hb : decide (api.type = paJACK ∨ old_sample_rate = freq ∨
          (if i = 0 then cx.cfg.in_sample_rate else cx.cfg.out_sample_rate)
            ≠ pa.SAMPLE_RATE_AUTO) with
        | true => rfl
        | false => exact absurd (hiff.mp hb) hs
      unfold Open_one
      rw [hk, ht]
      simp only [hc, ne_eq, not_true_eq_false, if_false]
  · unfold Open_rebuild Open_prepare andThen
    rcases Close cx.ops.zero i.val m with ⟨m1, o1⟩
    cases o1 <;> simp only
    rcases onPort (init_stream cx pa i) m1 with ⟨m2, o2⟩
    cases o2 <;> simp only
    rcases onPort (src_data_reset cx ceil2 (Open_mode i)) m2 with ⟨m3, o3⟩
    cases o3 <;> simp only
  · unfold Open
    simp only [hf0, to_int_cast, forDirs, andThen]
    rcases Open_one cx ceil2 pa f0 freq 0
      { m with sp := { m.sp with req_sample_rate := (freq : ℚ), sample_frequency := freq } }
      with ⟨m1, o1⟩
    cases o1 with
    | ret u =>
      simp only
      rcases Open_one cx ceil2 pa f0 freq 1 m1 with ⟨m2, o2⟩
      cases o2 <;> simp
    | throw e => simp
    | undefined => simp
    | aborted => simp

/-- Witness of C24: the plain port, both streams active at 8000 Hz on a device of a host
API that is not JACK, the sample-rate setting auto.  `Open` at 48000 Hz rebuilds both
directions (both streams are closed first); `Open` at 8000 Hz does nothing; on a JACK
device `Open` at 48000 Hz closes nothing and only resets the converters (rx ratio 6); a
port without streams is rebuilt also when the rate is the same. -/
theorem C24_witness :
    Open_one (srCx 0) ceil2_pow (paOf 0) 8000 48000 0
        (quietSys (plainPort emptyRing8 emptyRing8))
      = Open_rebuild (srCx 0) ceil2_pow (paOf 0) 0 (quietSys (plainPort emptyRing8 emptyRing8)) ∧
    ((Open (srCx 0) ceil2_pow (paOf 0) 2 48000 (quietSys (plainPort emptyRing8 emptyRing8))).2,
      (Open (srCx 0) ceil2_pow (paOf 0) 2 48000
        (quietSys (plainPort emptyRing8 emptyRing8))).1.trace)
      = (.ret 0, [Call.sem_timedwaitr 0 .c 2, Call.Pa_CloseStream 0,
          Call.sem_timedwaitr 1 .c 2, Call.Pa_CloseStream 1]) ∧
    ((Open (srCx 0) ceil2_pow (paOf 0) 2 8000 (quietSys (plainPort emptyRing8 emptyRing8))).2,
      (Open (srCx 0) ceil2_pow (paOf 0) 2 8000
        (quietSys (plainPort emptyRing8 emptyRing8))).1.trace,
      (Open (srCx 0) ceil2_pow (paOf 0) 2 8000
        (quietSys (plainPort emptyRing8 emptyRing8))).1.sp.sd0.rb.map ringbuffer.length)
      = (.ret 0, [], some 8) ∧
    ((Open (srCx 0) ceil2_pow (paOf paJACK) 2 48000
        (quietSys (plainPort emptyRing8 emptyRing8))).2,
      (Open (srCx 0) ceil2_pow (paOf paJACK) 2 48000
        (quietSys (plainPort emptyRing8 emptyRing8))).1.trace,
      (Open (srCx 0) ceil2_pow (paOf paJACK) 2 48000
        (quietSys (plainPort emptyRing8 emptyRing8))).1.sp.rx_ratio)
      = (.ret 0, [], 6) ∧
    ((Open (srCx 0) ceil2_pow (paOf 0) 2 8000 (quietSys stalePort)).2,
      (Open (srCx 0) ceil2_pow (paOf 0) 2 8000 (quietSys stalePort)).1.sp.sd0.stream,
      (Open (srCx 0) ceil2_pow (paOf 0) 2 8000 (quietSys stalePort)).1.sp.sd1.stream,
      (Open (srCx 0) ceil2_pow (paOf 0) 2 8000 (quietSys stalePort)).1.sp.sd0.rb.map
        ringbuffer.length)
      = (.ret 0, some ⟨1⟩, some ⟨1⟩, some 8192) :=
  ⟨((C24_Open_rebuild_decision (srCx 0) ceil2_pow (paOf 0) 8000 48000 0
      (quietSys (plainPort emptyRing8 emptyRing8))).2.1
      { defaultSampleRate := 44100, name := "card".toList } ⟨0⟩ rfl rfl rfl).2.1
      (Or.inr ⟨by decide, by decide, by decide⟩),
   by decide!, by decide!, by decide!, by decide!⟩

/-! ## The reset of the semaphores in `Open` -/

theorem sem_drain_all {F : Type} (k : SemKind) (n : Nat) (sd : stream_data F)
    (h : semCount sd k ≤ n) : sem_drain k n sd = setSem sd k 0 := by
  induction n generalizing sd with
  | zero =>
    have h0 : semCount sd k = 0 := by omega
    cases k <;> simp only [semCount] at h0 <;> simp [sem_drain, setSem, ← h0]
  | succ n ih =>
    unfold sem_drain
    by_cases hp : 0 < semCount sd k
    · rw [if_pos hp, ih]
      · cases k <;> simp [sem_trywait, setSem]
      · cases k <;> simp only [sem_trywait, setSem, semCount] at hp h ⊢ <;> omega
    · rw [if_neg hp]
      have h0 : semCount sd k = 0 := by omega
      cases k <;> simp only [semCount] at h0 <;> simp [setSem, ← h0]

/-- The reset of the semaphores of `Open` takes every token of `sems[i]` and touches
nothing else. -/
theorem Open_drain_eq {F : Type} (i : Fin 2) (sd : stream_data F) :
    Open_drain i sd = setSem sd (Open_sems i) 0 := by
  unfold Open_drain
  simp only [List.foldl_cons, List.foldl_nil]
  rw [sem_drain_all _ _ sd (le_refl _), sem_drain_all _ _ _ (le_refl _)]
  cases Open_sems i <;> rfl

/-- Claim C25, what the code does.  The reset of the semaphores in the rebuild of
direction `i` by `SoundPort::Open` runs its `sem_trywait` loop twice on `sems[i]`: for the
input direction it takes every token of `rwsem` and leaves `csem` as it is, for the output
direction it takes every token of `csem` and leaves `rwsem` as it is; nothing else of the
stream changes.  On a port without streams whose semaphores hold stale tokens (2 and 1 for
the input stream, 3 and 2 for the output stream) the rebuild of the input direction
arrives at `start_stream(0)` with one token on `csem` of the input stream, the rebuild of
the output direction at `start_stream(1)` with three tokens on `rwsem` of the output
stream; the semaphores of the other direction are not touched. -/
theorem C25_Open_drain_index {F : Type} (sd : stream_data F) :
    Open_drain 0 sd = { sd with rwsem := 0 } ∧
    Open_drain 1 sd = { sd with csem := 0 } ∧
    ((Open_prepare (srCx 0) ceil2_pow (paOf 0) 0 (quietSys stalePort)).2,
      (Open_prepare (srCx 0) ceil2_pow (paOf 0) 0 (quietSys stalePort)).1.sp.sd0.rwsem,
      (Open_prepare (srCx 0) ceil2_pow (paOf 0) 0 (quietSys stalePort)).1.sp.sd0.csem,
      (Open_prepare (srCx 0) ceil2_pow (paOf 0) 0 (quietSys stalePort)).1.sp.sd1.rwsem,
      (Open_prepare (srCx 0) ceil2_pow (paOf 0) 0 (quietSys stalePort)).1.sp.sd1.csem)
      = (.ret (), 0, 1, 3, 2) ∧
    ((Open_prepare (srCx 0) ceil2_pow (paOf 0) 1 (quietSys stalePort)).2,
      (Open_prepare (srCx 0) ceil2_pow (paOf 0) 1 (quietSys stalePort)).1.sp.sd0.rwsem,
      (Open_prepare (srCx 0) ceil2_pow (paOf 0) 1 (quietSys stalePort)).1.sp.sd0.csem,
      (Open_prepare (srCx 0) ceil2_pow (paOf 0) 1 (quietSys stalePort)).1.sp.sd1.rwsem,
      (Open_prepare (srCx 0) ceil2_pow (paOf 0) 1 (quietSys stalePort)).1.sp.sd1.csem)
      = (.ret (), 2, 1, 3, 0) ∧
    ((Open (srCx 0) ceil2_pow (paOf 0) 2 8000 (quietSys stalePort)).2,
      (Open (srCx 0) ceil2_pow (paOf 0) 2 8000 (quietSys stalePort)).1.sp.sd0.csem,
      (Open (srCx 0) ceil2_pow (paOf 0) 2 8000 (quietSys stalePort)).1.sp.sd1.rwsem)
      = (.ret 0, 1, 3) := by
  refine ⟨?_, ?_, by decide!, by decide!, by decide!⟩
  · rw [Open_drain_eq]; rfl
  · rw [Open_drain_eq]; rfl

/-! ## The states of the streams -/

theorem Steps.same {F D R : Type} (s : SoundPort F D R) : Steps s s := fun _ => Or.inl rfl

theorem Steps.comp {F D R : Type} {s s1 s2 : SoundPort F D R} (h1 : Steps s s1)
    (h2 : Steps s1 s2) : Steps s s2 := by
  intro j
  rcases h2 j with h | h
  · rw [h]; exact h1 j
  · exact Or.inr h

theorem Steps_of_sd {F D R : Type} (s s1 : SoundPort F D R)
    (h0 : s1.sd0.state = s.sd0.state) (h1 : s1.sd1.state = s.sd1.state) : Steps s s1 := by
  intro j
  left
  fin_cases j
  · exact h0
  · exact h1

theorem Steps_setSd {F D R : Type} (s : SoundPort F D R) (i : Fin 2) (x : stream_data F)
    (h : x.state = (s.sd i).state ∨ x.state = spa_continue) : Steps s (s.setSd i x) := by
  intro j
  rw [sd_setSd]
  split
  · subst_vars; exact h
  · exact Or.inl rfl

theorem Steps_sd {F D R : Type} (s s1 : SoundPort F D R) (h : Steps s s1) :
    (s1.sd0.state = s.sd0.state ∨ s1.sd0.state = spa_continue) ∧
    (s1.sd1.state = s.sd1.state ∨ s1.sd1.state = spa_continue) :=
  ⟨h 0, h 1⟩

/-- A run of `stream_process` keeps the state, or moves it from DRAIN to CONTINUE. -/
theorem stream_process_step {F : Type} (zero : F) (input : Option (Nat → F)) (hasOut : Bool)
    (nframes : Nat) (sd : stream_data F) (r : ProcessResult F)
    (h : stream_process zero input hasOut nframes sd = some r) :
    r.sd.state = sd.state ∨ (sd.state = spa_drain ∧ r.sd.state = spa_continue) := by
  unfold stream_process at h
  cases hi : stream_input input nframes sd with
  | none => rw [hi] at h; cases h
  | some sd1 =>
    rw [hi] at h
    have hs1 : sd1.state = sd.state := by
      unfold stream_input at hi
      cases input with
      | none => cases hi; rfl
      | some inp =>
        cases hrb : sd.rb <;> simp only [hrb] at hi <;> split_ifs at hi <;> cases hi <;> simp
    simp only at h
    cases hasOut with
    | false =>
      simp only [Bool.not_false, if_true] at h
      split_ifs at h <;> cases h <;> left <;> simpa using hs1
    | true =>
      simp only [Bool.not_true, Bool.false_eq_true, if_false] at h
      unfold stream_output at h
      cases hrb : sd1.rb with
      | none =>
        rw [hrb] at h
        split_ifs at h
        cases h; left; exact hs1
      | some rb =>
        rw [hrb] at h
        simp only at h
        split_ifs at h <;> cases h <;>
          first
          | (left; simpa using hs1)
          | (right; refine ⟨?_, by simp⟩; rw [← hs1]; simp_all)

theorem runCallback_steps {F D R : Type} (zero : F) (s : SoundPort F D R) (cb : Callback F) :
    Steps s (runCallback zero s cb) ∧
    ∀ j, ((runCallback zero s cb).sd j).state ≠ (s.sd j).state →
      (s.sd j).state = spa_drain ∧ ((runCallback zero s cb).sd j).state = spa_continue := by
  cases cb with
  | process d input hasOut nframes =>
    simp only [runCallback]
    cases hp : stream_process zero input hasOut nframes (s.sd d) with
    | none => exact ⟨Steps.same s, fun j h => absurd rfl h⟩
    | some r =>
      have hst := stream_process_step zero input hasOut nframes (s.sd d) r hp
      refine ⟨Steps_setSd s d r.sd (hst.imp id (fun h => h.2)), fun j hne => ?_⟩
      simp only [sd_setSd] at hne ⊢
      split at hne
      · subst_vars
        rw [if_pos rfl]
        rcases hst with h | h
        · exact absurd h hne
        · exact h
      · exact absurd rfl hne
  | stopped d =>
    simp only [runCallback]
    have hs : (stream_stopped { s.sd d with stream := (s.sd d).stream.map (fun _ => ⟨0⟩) }).state
        = (s.sd d).state := by
      simp [stream_stopped]
    refine ⟨Steps_setSd s d _ (Or.inl hs), fun j hne => ?_⟩
    simp only [sd_setSd] at hne
    split at hne
    · subst_vars; exact absurd hs hne
    · exact absurd rfl hne

theorem runCallbacks_steps {F D R : Type} (zero : F) (cbs : List (Callback F))
    (s : SoundPort F D R) : Steps s (runCallbacks zero s cbs) := by
  induction cbs generalizing s with
  | nil => exact Steps.same s
  | cons cb cbs ih =>
    simp only [runCallbacks, List.foldl_cons] at ih ⊢
    exact (runCallback_steps zero s cb).1.comp (ih _)

theorem sem_timedwaitr_steps {F D R : Type} (zero : F) (dir : Fin 2) (k : SemKind) (t : ℚ)
    (m : Sys F D R) : Steps m.sp (sem_timedwaitr zero dir k t m).1.sp := by
  unfold sem_timedwaitr
  simp only
  split
  · exact Steps_setSd _ _ _ (Or.inl (setSem_state _ _ _))
  · cases m.env with
    | nil => exact Steps.same _
    | cons ep env =>
      cases ep with
      | fail e => exact Steps.same _
      | run cbs =>
        have h1 := runCallbacks_steps zero cbs m.sp
        simp only
        split
        · exact h1.comp (Steps_setSd _ _ _ (Or.inl (setSem_state _ _ _)))
        · exact h1

theorem waitLoop_steps {F D R : Type} (zero : F) (cond : SoundPort F D R → Option Bool)
    (dir : Fin 2) (k : SemKind) (t : ℚ) (fuel : Nat) (m : Sys F D R) (r : Sys F D R × WaitEnd)
    (h : waitLoop zero cond dir k t fuel m = some r) : Steps m.sp r.1.sp := by
  induction fuel generalizing m with
  | zero => simp [waitLoop] at h
  | succ fuel ih =>
    unfold waitLoop at h
    cases hc : cond m.sp with
    | none => simp only [hc] at h; cases h; exact Steps.same _
    | some b =>
      cases b with
      | true => simp only [hc] at h; cases h; exact Steps.same _
      | false =>
        simp only [hc] at h
        have hk := sem_timedwaitr_steps zero dir k t m
        split_ifs at h
        · exact hk.comp (ih _ h)
        · cases h; exact hk
        · cases h; exact hk

theorem Read_peek_state {F D R : Type} (s : SoundPort F D R) (rb : ringbuffer F) (n : Nat) :
    (Read_peek s rb n).1.sd0.state = s.sd0.state ∧ (Read_peek s rb n).1.sd1 = s.sd1 := by
  unfold Read_peek
  simp only
  split_ifs <;> exact ⟨rfl, rfl⟩

theorem Read_resample_state {F D R : Type} (cx : Cx F D R) (s : SoundPort F D R)
    (rbuf : List F) (ncount count : Nat) :
    (Read_resample cx s rbuf ncount count).1.sd0 = s.sd0 ∧
    (Read_resample cx s rbuf ncount count).1.sd1 = s.sd1 := by
  unfold Read_resample
  split_ifs
  · have h := resample_sd cx (1 <<< O_RDONLY) (window cx.ops.stale rbuf (CHANNELS * ncount))
      ncount count s
    rcases hr : resample cx (1 <<< O_RDONLY) (window cx.ops.stale rbuf (CHANNELS * ncount))
      ncount count s with ⟨s3, o⟩
    rw [hr] at h
    cases o <;> exact h
  · exact ⟨rfl, rfl⟩

theorem Read_deliver_state {F D R : Type} (cx : Cx F D R) (s : SoundPort F D R) (rbadv : Bool)
    (ncount : Nat) (rbuf : List F) (count : Nat) (buf : Nat → D) (off : Nat) :
    (Read_deliver cx s rbadv ncount rbuf count buf off).1.sd0.state = s.sd0.state ∧
    (Read_deliver cx s rbadv ncount rbuf count buf off).1.sd1 = s.sd1 := by
  unfold Read_deliver
  simp only
  cases rbadv <;> split_ifs <;> exact ⟨rfl, rfl⟩

theorem Read_body_steps {F D R : Type} (cx : Cx F D R) (m : Sys F D R) (buf : Nat → D)
    (off count ncount : Nat) : Steps m.sp (Read_body cx m buf off count ncount).m.sp := by
  unfold Read_body
  cases hrb : m.sp.sd0.rb with
  | none => exact Steps.same _
  | some rb =>
    simp only
    obtain ⟨p1, p2⟩ := Read_peek_state m.sp rb ncount
    obtain ⟨q1, q2⟩ := Read_resample_state cx (Read_peek m.sp rb ncount).1
      (Read_peek m.sp rb ncount).2.1 ncount count
    rcases hr : Read_resample cx (Read_peek m.sp rb ncount).1 (Read_peek m.sp rb ncount).2.1
      ncount count with ⟨s3, o⟩
    rw [hr] at q1 q2
    simp only at q1 q2
    have h3 : s3.sd0.state = m.sp.sd0.state ∧ s3.sd1.state = m.sp.sd1.state :=
      ⟨by rw [q1, p1], by rw [q2, p2]⟩
    cases o with
    | ret v =>
      obtain ⟨rbuf1, count1⟩ := v
      simp only
      obtain ⟨d1, d2⟩ := Read_deliver_state cx s3 (Read_peek m.sp rb ncount).2.2 ncount rbuf1
        count1 buf off
      exact Steps_of_sd _ _ (Eq.trans d1 h3.1) (by rw [d2]; exact h3.2)
    | throw e => exact Steps_of_sd _ _ h3.1 h3.2
    | undefined => exact Steps_of_sd _ _ h3.1 h3.2
    | aborted => exact Steps_of_sd _ _ h3.1 h3.2

theorem Read_block_steps {F D R : Type} (cx : Cx F D R) (m : Sys F D R) (buf : Nat → D)
    (off count : Nat) (r : ReadRun F D R) (h : Read_block cx m buf off count = some r) :
    Steps m.sp r.m.sp := by
  unfold Read_block at h
  cases hw : Read_wait cx m (Read_ncount m.sp count) with
  | none => rw [hw] at h; cases h
  | some p =>
    obtain ⟨m1, e⟩ := p
    have hs : Steps m.sp m1.sp := waitLoop_steps _ _ _ _ _ _ _ _ hw
    rw [hw] at h
    cases e with
    | ready =>
      simp only [Option.some.injEq] at h
      rw [← h]
      exact hs.comp (Read_body_steps cx m1 buf off count _)
    | timedout => simp only [Option.some.injEq] at h; rw [← h]; exact hs
    | failed e => simp only [Option.some.injEq] at h; rw [← h]; exact hs
    | undefined => simp only [Option.some.injEq] at h; rw [← h]; exact hs

theorem Read_split_steps {F D R : Type}
    (rd : Sys F D R → (Nat → D) → Nat → Nat → Option (ReadRun F D R)) (mf : Nat)
    (hrd : ∀ m buf off c r, rd m buf off c = some r → Steps m.sp r.m.sp)
    (k : Nat) (m : Sys F D R) (buf : Nat → D) (off count n0 : Nat) (r : ReadRun F D R)
    (h : Read_split rd mf k m buf off count n0 = some r) : Steps m.sp r.m.sp := by
  induction k generalizing m buf off count n0 with
  | zero => simp [Read_split] at h
  | succ k ih =>
    unfold Read_split at h
    by_cases hc : count > mf
    · simp only [hc, if_true] at h
      cases h1 : rd m buf off mf with
      | none => rw [h1] at h; cases h
      | some r1 =>
        rw [h1] at h
        have g := hrd _ _ _ _ _ h1
        simp only at h
        cases ho : r1.out with
        | ret x =>
          rw [ho] at h
          exact g.comp (ih _ _ _ _ _ h)
        | throw e => rw [ho] at h; simp only [Option.some.injEq] at h; rw [← h]; exact g
        | undefined => rw [ho] at h; simp only [Option.some.injEq] at h; rw [← h]; exact g
        | aborted => rw [ho] at h; simp only [Option.some.injEq] at h; rw [← h]; exact g
    · simp only [hc, if_false] at h
      by_cases h0 : count > 0
      · simp only [h0, if_true] at h
        cases h1 : rd m buf off count with
        | none => rw [h1] at h; cases h
        | some r1 =>
          rw [h1] at h
          have g := hrd _ _ _ _ _ h1
          simp only at h
          cases ho : r1.out with
          | ret x => rw [ho] at h; simp only [Option.some.injEq] at h; rw [← h]; exact g
          | throw e => rw [ho] at h; simp only [Option.some.injEq] at h; rw [← h]; exact g
          | undefined => rw [ho] at h; simp only [Option.some.injEq] at h; rw [← h]; exact g
          | aborted => rw [ho] at h; simp only [Option.some.injEq] at h; rw [← h]; exact g
      · simp only [h0, if_false, Option.some.injEq] at h
        rw [← h]
        exact Steps.same _

theorem Read_playback_state {F D R : Type} (cx : Cx F D R) (m : Sys F D R) (buf : Nat → D)
    (off count : Nat) :
    (Read_playback cx m buf off count).1.sp.sd0 = m.sp.sd0 ∧
    (Read_playback cx m buf off count).1.sp.sd1 = m.sp.sd1 := by
  unfold Read_playback
  by_cases hp : m.sp.playback = true
  · rw [if_pos hp]
    cases m.sp.ifPlayback <;> exact ⟨rfl, rfl⟩
  · rw [if_neg hp]
    exact ⟨rfl, rfl⟩

/-- `Read`, however it ends, keeps the state of every direction or leaves it at
CONTINUE. -/
theorem Read_steps {F D R : Type} (cx : Cx F D R) (fuel : Nat) (m : Sys F D R)
    (buf : Nat → D) (off count : Nat) (r : ReadRun F D R)
    (h : Read cx fuel m buf off count = some r) : Steps m.sp r.m.sp := by
  induction fuel generalizing m buf off count r with
  | zero => simp [Read] at h
  | succ fuel ih =>
    unfold Read at h
    obtain ⟨p0, p1⟩ := Read_playback_state cx m buf off count
    have hp : Steps m.sp (Read_playback cx m buf off count).1.sp :=
      Steps_of_sd _ _ (by rw [p0]) (by rw [p1])
    simp only at h
    split_ifs at h
    · simp only [Option.some.injEq] at h
      rw [← h]
      exact hp
    · cases hrb : (Read_playback cx m buf off count).1.sp.sd0.rb with
      | none =>
        rw [hrb] at h
        simp only [Option.some.injEq] at h
        rw [← h]
        exact hp
      | some rb =>
        rw [hrb] at h
        simp only at h
        split_ifs at h
        · exact hp.comp (Read_split_steps (Read cx fuel) _
            (fun m1 b o c r1 h1 => ih m1 b o c r1 h1) fuel _ _ _ _ _ r h)
        · exact hp.comp (Read_block_steps cx _ _ _ _ r h)

theorem resample_write_copy_steps {F D R : Type} (cx : Cx F D R) (m : Sys F D R)
    (wbuf : List F) (count : Nat) (r : WriteRun F D R)
    (h : resample_write_copy cx m wbuf count = some r) : Steps m.sp r.m.sp := by
  unfold resample_write_copy at h
  cases hw : WAIT_FOR_COND cx.ops.zero
      (fun sp => sp.sd1.rb.map (fun rb => decide (rb.write_space ≥ CHANNELS * count)))
      1 .rw (max 1 ((Nat.cast (2 * CHANNELS * count) : ℚ) / m.sp.sd1.dev_sample_rate)) m with
  | none => rw [hw] at h; cases h
  | some p =>
    obtain ⟨m1, e⟩ := p
    rw [hw] at h
    have hs : Steps m.sp m1.sp := waitLoop_steps _ _ _ _ _ _ _ _ hw
    cases e with
    | ready =>
      simp only at h
      cases hrb : m1.sp.sd1.rb with
      | none =>
        rw [hrb] at h
        simp only [Option.some.injEq] at h
        rw [← h]
        exact hs
      | some rb =>
        rw [hrb] at h
        simp only [Option.some.injEq] at h
        rw [← h]
        exact hs.comp (Steps_of_sd _ _ rfl rfl)
    | timedout => simp only [Option.some.injEq] at h; rw [← h]; exact hs
    | failed e => simp only [Option.some.injEq] at h; rw [← h]; exact hs
    | undefined => simp only [Option.some.injEq] at h; rw [← h]; exact hs

theorem resample_write_block_steps {F D R : Type} (cx : Cx F D R) (m : Sys F D R)
    (data : List F) (count : Nat) (r : WriteRun F D R)
    (h : resample_write_block cx m data count = some r) : Steps m.sp r.m.sp := by
  unfold resample_write_block at h
  cases hrb : m.sp.sd1.rb with
  | none =>
    rw [hrb] at h
    simp only [Option.some.injEq] at h
    rw [← h]
    exact Steps.same _
  | some rb =>
    rw [hrb] at h
    simp only at h
    by_cases ha : ¬ ((Nat.cast (count * CHANNELS) : ℚ) * m.sp.tx_ratio ≤ (rb.length : ℚ))
    · rw [if_pos ha] at h
      simp only [Option.some.injEq] at h
      rw [← h]
      exact Steps.same _
    · rw [if_neg ha] at h
      by_cases hres : m.sp.req_sample_rate ≠ m.sp.sd1.dev_sample_rate ∨ cx.cfg.TX_corr ≠ 0
      · rw [if_pos hres] at h
        obtain ⟨a1, a2⟩ := resample_sd cx (1 <<< O_WRONLY)
          (window cx.ops.stale data (CHANNELS * count)) count 0 m.sp
        rcases hr : resample cx (1 <<< O_WRONLY) (window cx.ops.stale data (CHANNELS * count))
          count 0 m.sp with ⟨s1, o⟩
        rw [hr] at h a1 a2
        simp only at a1 a2
        have hs1 : Steps m.sp s1 := Steps_of_sd _ _ (by rw [a1]) (by rw [a2])
        cases o with
        | ret res =>
          simp only at h
          split_ifs at h
          · simp only [Option.some.injEq] at h
            rw [← h]
            refine hs1.comp (Steps_of_sd _ _ rfl ?_)
            simp [sem_trywait, setSem_state]
          · exact hs1.comp (resample_write_copy_steps cx _ _ _ r h)
        | throw e => simp only [Option.some.injEq] at h; rw [← h]; exact hs1
        | undefined => simp only [Option.some.injEq] at h; rw [← h]; exact hs1
        | aborted => simp only [Option.some.injEq] at h; rw [← h]; exact hs1
      · rw [if_neg hres] at h
        exact resample_write_copy_steps cx _ _ _ r h

theorem resample_write_split_steps {F D R : Type}
    (rw : Sys F D R → List F → Nat → Option (WriteRun F D R)) (mf : Nat)
    (hrw : ∀ m data c r, rw m data c = some r → Steps m.sp r.m.sp)
    (k : Nat) (m : Sys F D R) (data : List F) (count n0 : Nat) (r : WriteRun F D R)
    (h : resample_write_split rw mf k m data count n0 = some r) : Steps m.sp r.m.sp := by
  induction k generalizing m data count n0 with
  | zero => simp [resample_write_split] at h
  | succ k ih =>
    unfold resample_write_split at h
    by_cases hc : count > mf
    · simp only [hc, if_true] at h
      cases h1 : rw m data mf with
      | none => rw [h1] at h; cases h
      | some r1 =>
        rw [h1] at h
        have g := hrw _ _ _ _ h1
        simp only at h
        cases ho : r1.out with
        | ret x =>
          rw [ho] at h
          exact g.comp (ih _ _ _ _ h)
        | throw e => rw [ho] at h; simp only [Option.some.injEq] at h; rw [← h]; exact g
        | undefined => rw [ho] at h; simp only [Option.some.injEq] at h; rw [← h]; exact g
        | aborted => rw [ho] at h; simp only [Option.some.injEq] at h; rw [← h]; exact g
    · simp only [hc, if_false] at h
      by_cases h0 : count > 0
      · simp only [h0, if_true] at h
        cases h1 : rw m data count with
        | none => rw [h1] at h; cases h
        | some r1 =>
          rw [h1] at h
          have g := hrw _ _ _ _ h1
          simp only at h
          cases ho : r1.out with
          | ret x => rw [ho] at h; simp only [Option.some.injEq] at h; rw [← h]; exact g
          | throw e => rw [ho] at h; simp only [Option.some.injEq] at h; rw [← h]; exact g
          | undefined => rw [ho] at h; simp only [Option.some.injEq] at h; rw [← h]; exact g
          | aborted => rw [ho] at h; simp only [Option.some.injEq] at h; rw [← h]; exact g
      · simp only [h0, if_false, Option.some.injEq] at h
        rw [← h]
        exact Steps.same _

theorem resample_write_steps {F D R : Type} (cx : Cx F D R) (fuel : Nat) (m : Sys F D R)
    (data : List F) (count : Nat) (r : WriteRun F D R)
    (h : resample_write cx fuel m data count = some r) : Steps m.sp r.m.sp := by
  induction fuel generalizing m data count r with
  | zero => simp [resample_write] at h
  | succ fuel ih =>
    unfold resample_write at h
    cases hrb : m.sp.sd1.rb with
    | none =>
      rw [hrb] at h
      simp only [Option.some.injEq] at h
      rw [← h]
      exact Steps.same _
    | some rb =>
      rw [hrb] at h
      simp only at h
      split_ifs at h
      · exact resample_write_split_steps (resample_write cx fuel) _
          (fun m1 d c r1 h1 => ih m1 d c r1 h1) fuel m data count 0 r h
      · exact resample_write_block_steps cx m data count r h

/-- `Write` and `Write_stereo`, however they end, keep the state of every direction or
leave it at CONTINUE. -/
theorem Write_steps {F D R : Type} (cx : Cx F D R) (fuel : Nat) (m : Sys F D R) :
    (∀ buf count r, Write cx fuel m buf count = some r → Steps m.sp r.m.sp) ∧
    (∀ l rt count r, Write_stereo cx fuel m l rt count = some r → Steps m.sp r.m.sp) := by
  constructor
  · intro buf count r h
    unfold Write at h
    have h0 : Steps m.sp (Write_fill cx m.sp buf count) := by
      unfold Write_fill; split_ifs <;> exact Steps_of_sd _ _ rfl rfl
    exact h0.comp (resample_write_steps cx fuel _ _ count r h)
  · intro l rt count r h
    unfold Write_stereo at h
    have h0 : Steps m.sp (Write_stereo_fill cx m.sp l rt count) := by
      unfold Write_stereo_fill; split_ifs <;> exact Steps_of_sd _ _ rfl rfl
    exact h0.comp (resample_write_steps cx fuel _ _ count r h)

theorem setState_steps_continue {F D R : Type} (i : Fin 2) (m : Sys F D R) :
    Steps m.sp (setState i spa_continue m).sp := by
  intro j
  rw [sd_setState]
  split
  · exact Or.inr rfl
  · exact Or.inl rfl

theorem clearStream_state {F D R : Type} (i j : Fin 2) (m : Sys F D R) :
    ((clearStream i m).sp.sd j).state = (m.sp.sd j).state := by
  simp only [clearStream, sd_setSd]
  split
  · subst_vars; rfl
  · rfl

/-- The body of `Close` keeps the state of every direction or leaves it at CONTINUE, and
leaves the state of a direction whose stream it found active at CONTINUE. -/
theorem Close_one_steps {F D R : Type} (zero : F) (i : Fin 2) (m : Sys F D R) :
    Steps m.sp (Close_one zero i m).1.sp ∧
    (stream_active (m.sp.sd i) = .ok true →
      ((Close_one zero i m).1.sp.sd i).state = spa_continue) := by
  unfold Close_one
  cases ha : stream_active (m.sp.sd i) with
  | error e => exact ⟨Steps.same _, fun h => by cases h⟩
  | ok b =>
    cases b with
    | false => exact ⟨Steps.same _, fun h => by cases h⟩
    | true =>
      simp only
      have hfin : ∀ j, ((clearStream i (logCall (Call.Pa_CloseStream i) (setState i spa_continue
          (sem_timedwaitr zero i .c 2 (setState i spa_complete m)).1))).sp.sd j).state
          = if j = i then spa_continue
            else ((sem_timedwaitr zero i .c 2 (setState i spa_complete m)).1.sp.sd j).state := by
        intro j
        rw [clearStream_state]
        simp only [logCall, sd_setState]
        split <;> rfl
      refine ⟨fun j => ?_, fun _ => by rw [hfin, if_pos rfl]⟩
      rw [hfin]
      split
      · exact Or.inr rfl
      · rename_i hji
        have hw := sem_timedwaitr_steps zero i .c 2 (setState i spa_complete m) j
        rw [sd_setState, if_neg hji] at hw
        exact hw

theorem flush_one_steps {F D R : Type} (zero : F) (i : Fin 2) (m : Sys F D R) :
    Steps m.sp (flush_one zero i m).1.sp ∧
    (stream_active (m.sp.sd i) = .ok true →
      ((flush_one zero i m).1.sp.sd i).state = spa_continue) := by
  unfold flush_one
  cases ha : stream_active (m.sp.sd i) with
  | error e => exact ⟨Steps.same _, fun h => by cases h⟩
  | ok b =>
    cases b with
    | false => exact ⟨Steps.same _, fun h => by cases h⟩
    | true =>
      simp only
      refine ⟨fun j => ?_, fun _ => by rw [sd_setState, if_pos rfl]⟩
      rw [sd_setState]
      split
      · exact Or.inr rfl
      · rename_i hji
        have hw := sem_timedwaitr_steps zero i .c 2 (setState i spa_drain m) j
        rw [sd_setState, if_neg hji] at hw
        exact hw

theorem Abort_one_steps {F D R : Type} (i : Fin 2) (m : Sys F D R) :
    Steps m.sp (Abort_one i m).1.sp := by
  unfold Abort_one
  cases ha : stream_active (m.sp.sd i) with
  | error e => exact Steps.same _
  | ok b =>
    cases b with
    | false => exact Steps.same _
    | true =>
      intro j
      left
      simp only
      rw [clearStream_state]
      rfl

theorem forDirs_steps {F D R : Type} (body : Fin 2 → Sys F D R → Sys F D R × Outcome Unit)
    (hbody : ∀ i m, Steps m.sp (body i m).1.sp) (is : List (Fin 2)) (m : Sys F D R) :
    Steps m.sp (forDirs body is m).1.sp := by
  induction is generalizing m with
  | nil => exact Steps.same _
  | cons a is ih =>
    simp only [forDirs]
    have h1 := hbody a m
    rcases hf : body a m with ⟨m1, o⟩
    rw [hf] at h1
    cases o with
    | ret u => exact h1.comp (ih m1)
    | throw e => exact h1
    | undefined => exact h1
    | aborted => exact h1

/-- `Close`, `Abort` and `flush`, however they end, keep the state of every direction or
leave it at CONTINUE. -/
theorem lifecycle_steps {F D R : Type} (zero : F) (dir : Nat) (m : Sys F D R) :
    Steps m.sp (Close zero dir m).1.sp ∧ Steps m.sp (Abort dir m).1.sp ∧
    Steps m.sp (flush zero dir m).1.sp := by
  unfold Close Abort flush
  cases dirRange dir with
  | none => exact ⟨Steps.same _, Steps.same _, Steps.same _⟩
  | some is =>
    exact ⟨forDirs_steps _ (fun i m1 => (Close_one_steps zero i m1).1) is m,
      forDirs_steps _ (fun i m1 => Abort_one_steps i m1) is m,
      forDirs_steps _ (fun i m1 => (flush_one_steps zero i m1).1) is m⟩

theorem andThen_steps {F D R : Type} (m : Sys F D R) (r : Sys F D R × Outcome Unit)
    (f : Sys F D R → Sys F D R × Outcome Unit) (hr : Steps m.sp r.1.sp)
    (hf : ∀ m1, Steps m1.sp (f m1).1.sp) : Steps m.sp (andThen r f).1.sp := by
  obtain ⟨m1, o⟩ := r
  unfold andThen
  cases o with
  | ret u => exact hr.comp (hf m1)
  | throw e => exact hr
  | undefined => exact hr
  | aborted => exact hr

theorem setSd_same_state {F D R : Type} (s : SoundPort F D R) (i : Fin 2) (x : stream_data F)
    (h : x.state = (s.sd i).state) : ∀ j, ((s.setSd i x).sd j).state = (s.sd j).state := by
  intro j
  rw [sd_setSd]
  split
  · subst_vars; exact h
  · rfl

theorem init_stream_steps {F D R : Type} (cx : Cx F D R) (pa : PortAudio) (i : Fin 2)
    (s : SoundPort F D R) : Steps s (init_stream cx pa i s).1 := by
  unfold init_stream
  simp only
  repeat' split
  all_goals (intro j; left; by_cases hj : j = i <;> simp [sd_setSd, hj])

theorem src_data_reset_steps {F D R : Type} (cx : Cx F D R) (ceil2 : Nat → Nat) (mode : Nat)
    (s : SoundPort F D R) : Steps s (src_data_reset cx ceil2 mode s).1 := by
  have hrx : ∀ t : SoundPort F D R, Steps t (src_data_reset_rx cx ceil2 t).1 := by
    intro t
    unfold src_data_reset_rx
    cases cx.src.src_new cx.cfg.sample_converter CHANNELS <;> exact Steps_of_sd _ _ rfl rfl
  have htx : ∀ t : SoundPort F D R, Steps t (src_data_reset_tx cx ceil2 t).1 := by
    intro t
    unfold src_data_reset_tx
    cases cx.src.src_new cx.cfg.sample_converter CHANNELS <;> exact Steps_of_sd _ _ rfl rfl
  unfold src_data_reset
  by_cases hr : mode &&& (1 <<< O_RDONLY) ≠ 0
  · rw [if_pos hr]
    have h1 := hrx s
    rcases hx : src_data_reset_rx cx ceil2 s with ⟨s1, o⟩
    rw [hx] at h1
    cases o with
    | ret u =>
      simp only
      split_ifs
      · exact h1.comp (htx s1)
      · exact h1
    | throw e => exact h1
    | undefined => exact h1
    | aborted => exact h1
  · rw [if_neg hr]
    simp only
    split_ifs
    · exact htx s
    · exact Steps.same _

theorem start_stream_steps {F D R : Type} (cx : Cx F D R) (pa : PortAudio) (i : Fin 2)
    (m : Sys F D R) : Steps m.sp (start_stream cx pa i m).1.sp := by
  have e1 : ∀ (t : Sys F D R) (st : Option PaStream), Steps t.sp (setStream i st t).sp :=
    fun t st => Steps_setSd t.sp i _ (Or.inl rfl)
  unfold start_stream
  split_ifs
  · exact Steps.same _
  · exact e1 _ _
  · exact (e1 m _).comp (andThen_steps _ _ _ (lifecycle_steps cx.ops.zero UINT_MAX _).1
      (fun m2 => Steps.same _))
  · exact (e1 m _).comp (e1 _ _)

/-- `Open`, however it ends, keeps the state of every direction or leaves it at
CONTINUE. -/
theorem Open_steps {F D R : Type} (cx : Cx F D R) (ceil2 : Nat → Nat) (pa : PortAudio)
    (mode freq : Int) (m : Sys F D R) : Steps m.sp (Open cx ceil2 pa mode freq m).1.sp := by
  have hon : ∀ (f : SoundPort F D R → SoundPort F D R × Outcome Unit) (t : Sys F D R),
      Steps t.sp (f t.sp).1 → Steps t.sp (onPort f t).1.sp := fun f t h => h
  have hprep : ∀ i (t : Sys F D R), Steps t.sp (Open_prepare cx ceil2 pa i t).1.sp := by
    intro i t
    unfold Open_prepare
    refine andThen_steps _ _ _ (lifecycle_steps cx.ops.zero i.val t).1 (fun m1 => ?_)
    refine andThen_steps _ _ _ (hon _ _ (init_stream_steps cx pa i m1.sp)) (fun m2 => ?_)
    refine andThen_steps _ _ _ (hon _ _ (src_data_reset_steps cx ceil2 _ m2.sp)) (fun m3 => ?_)
    refine Steps_setSd _ _ _ (Or.inl ?_)
    rw [Open_drain_eq, setSem_state]
  have hone : ∀ old i (t : Sys F D R),
      Steps t.sp (Open_one cx ceil2 pa old freq i t).1.sp := by
    intro old i t
    unfold Open_one
    split
    · exact Steps.same _
    · exact Steps.same _
    · unfold Open_rebuild
      exact andThen_steps _ _ _ (hprep i t) (fun m1 => start_stream_steps cx pa i m1)
    · split_ifs
      · exact hon _ _ (src_data_reset_steps cx ceil2 _ t.sp)
      · exact Steps.same _
  unfold Open
  simp only
  have h0 : Steps m.sp
      ({ m with sp := { m.sp with req_sample_rate := (freq : ℚ), sample_frequency := freq } }
        : Sys F D R).sp := Steps_of_sd _ _ rfl rfl
  have h1 := forDirs_steps (Open_one cx ceil2 pa (to_int m.sp.req_sample_rate) freq)
    (fun i t => hone _ i t) [0, 1]
    { m with sp := { m.sp with req_sample_rate := (freq : ℚ), sample_frequency := freq } }
  rcases hf : forDirs (Open_one cx ceil2 pa (to_int m.sp.req_sample_rate) freq) [0, 1]
    { m with sp := { m.sp with req_sample_rate := (freq : ℚ), sample_frequency := freq } }
    with ⟨m2, o⟩
  rw [hf] at h1
  cases o <;> exact h0.comp h1

theorem StateOK_of_steps {F D R : Type} (s s1 : SoundPort F D R) (h : Steps s s1)
    (hs : ∀ j, StateOK (s.sd j)) : ∀ j, StateOK (s1.sd j) := by
  intro j
  rcases h j with e | e
  · unfold StateOK; rw [e]; exact hs j
  · exact Or.inl e

theorem continue_of_steps {F D R : Type} (s s1 : SoundPort F D R) (h : Steps s s1)
    (hs : ∀ j, (s.sd j).state = spa_continue) : ∀ j, (s1.sd j).state = spa_continue := by
  intro j
  rcases h j with e | e
  · rw [e]; exact hs j
  · exact e

/-- Every state the object can be in has both stream states among CONTINUE, COMPLETE and
DRAIN, and between the calls of the modem thread both are CONTINUE. -/
theorem Reach_states {F D R : Type} (cx : Cx F D R) (ceil2 : Nat → Nat) (pa : PortAudio)
    (b : Bool) (m : Sys F D R) (h : Reach cx ceil2 pa b m) :
    (∀ j, StateOK (m.sp.sd j)) ∧ (b = false → ∀ j, (m.sp.sd j).state = spa_continue) := by
  have step : ∀ (b : Bool) (s s1 : SoundPort F D R), Steps s s1 →
      ((∀ j, StateOK (s.sd j)) ∧ (b = false → ∀ j, (s.sd j).state = spa_continue)) →
      ((∀ j, StateOK (s1.sd j)) ∧ (b = false → ∀ j, (s1.sd j).state = spa_continue)) :=
    fun b s s1 hst ih => ⟨StateOK_of_steps s s1 hst ih.1,
      fun hb => continue_of_steps s s1 hst (ih.2 hb)⟩
  induction h with
  | constructed rx0 tx0 env =>
    have hc : ∀ j : Fin 2, ((SoundPort.new cx rx0 tx0 : SoundPort F D R).sd j).state
        = spa_continue := by
      intro j
      fin_cases j <;> rfl
    exact ⟨fun j => Or.inl (hc j), fun _ => hc⟩
  | between m _ ih => exact ⟨ih.1, fun hb => by cases hb⟩
  | opened b m mode freq _ ih => exact step b _ _ (Open_steps cx ceil2 pa mode freq m) ih
  | closed b m dir _ ih => exact step b _ _ (lifecycle_steps cx.ops.zero dir m).1 ih
  | aborted b m dir _ ih => exact step b _ _ (lifecycle_steps cx.ops.zero dir m).2.1 ih
  | flushed b m dir _ ih => exact step b _ _ (lifecycle_steps cx.ops.zero dir m).2.2 ih
  | read b m fuel buf off count r _ hr ih =>
    exact step b _ _ (Read_steps cx fuel m buf off count r hr) ih
  | written b m fuel buf count r _ hr ih =>
    exact step b _ _ ((Write_steps cx fuel m).1 buf count r hr) ih
  | written_stereo b m fuel l rt count r _ hr ih =>
    exact step b _ _ ((Write_steps cx fuel m).2 l rt count r hr) ih
  | callback b m cb _ ih => exact step b _ _ (runCallback_steps cx.ops.zero m.sp cb).1 ih
  | script b m env _ ih => exact ih
  | closing b m i _ _ ih =>
    refine ⟨fun j => ?_, fun hb => by cases hb⟩
    rw [sd_setState]
    split
    · exact Or.inr (Or.inl rfl)
    · exact ih.1 j
  | flushing b m i _ _ ih =>
    refine ⟨fun j => ?_, fun hb => by cases hb⟩
    rw [sd_setState]
    split
    · exact Or.inr (Or.inr rfl)
    · exact ih.1 j

/-- A stream that PortAudio has started is active. -/
theorem stream_active_started {F : Type} (sd : stream_data F) (h : sd.stream = some ⟨1⟩) :
    stream_active sd = .ok true := by
  unfold stream_active
  rw [h]
  rfl

/-- Claim C30.  In every state the object can be in (`Reach`: from the constructor through
`Open`, `Close`, `Abort`, `flush`, `Read`, `Write`, `Write_stereo`, however they end, the
callbacks `stream_process` and `stream_stopped` at any time, and the states in which
`Close` and `flush` wait) the state of each direction is CONTINUE, COMPLETE or DRAIN, and
never ABORT; between the calls of the modem thread it is CONTINUE.  A callback changes the
state of a direction only from DRAIN to CONTINUE.  `Close(i)` and `flush(i)` on an active
stream leave the state of `i` at CONTINUE; `Close(UINT_MAX)` and `flush(UINT_MAX)` are the
call for direction 0 followed, if that returns, by the call for direction 1; and no
`Close` or `flush`, whatever its argument and however it ends, leaves a direction in
another state than it found it in or CONTINUE. -/
theorem C30_stream_states {F D R : Type} (cx : Cx F D R) (ceil2 : Nat → Nat)
    (pa : PortAudio) :
    (∀ b (m : Sys F D R), Reach cx ceil2 pa b m →
      ∀ j, StateOK (m.sp.sd j) ∧ (m.sp.sd j).state ≠ spa_abort) ∧
    (∀ m : Sys F D R, Reach cx ceil2 pa false m → ∀ j, (m.sp.sd j).state = spa_continue) ∧
    (∀ (s : SoundPort F D R) cb j,
      ((runCallback cx.ops.zero s cb).sd j).state ≠ (s.sd j).state →
      (s.sd j).state = spa_drain ∧ ((runCallback cx.ops.zero s cb).sd j).state = spa_continue) ∧
    (∀ (m : Sys F D R) i, stream_active (m.sp.sd i) = .ok true →
      ((Close cx.ops.zero i.val m).1.sp.sd i).state = spa_continue ∧
      ((flush cx.ops.zero i.val m).1.sp.sd i).state = spa_continue) ∧
    (∀ m : Sys F D R,
      Close cx.ops.zero UINT_MAX m
        = andThen (Close cx.ops.zero 0 m) (Close cx.ops.zero 1) ∧
      flush cx.ops.zero UINT_MAX m
        = andThen (flush cx.ops.zero 0 m) (flush cx.ops.zero 1)) ∧
    (∀ (m : Sys F D R) dir, Steps m.sp (Close cx.ops.zero dir m).1.sp ∧
      Steps m.sp (flush cx.ops.zero dir m).1.sp) := by
  refine ⟨fun b m h j => ?_, fun m h => (Reach_states cx ceil2 pa false m h).2 rfl,
    fun s cb j => (runCallback_steps cx.ops.zero s cb).2 j, fun m i ha => ?_, fun m => ?_,
    fun m dir => ⟨(lifecycle_steps cx.ops.zero dir m).1, (lifecycle_steps cx.ops.zero dir m).2.2⟩⟩
  · have hok := (Reach_states cx ceil2 pa b m h).1 j
    refine ⟨hok, fun ha => ?_⟩
    unfold StateOK at hok
    rw [ha] at hok
    revert hok
    decide
  · constructor
    · have h1 := (Close_one_steps cx.ops.zero i m).2 ha
      simp only [Close, dirRange_fin, forDirs]
      rcases hc : Close_one cx.ops.zero i m with ⟨m1, o⟩
      rw [hc] at h1
      cases o <;> exact h1
    · have h1 := (flush_one_steps cx.ops.zero i m).2 ha
      simp only [flush, dirRange_fin, forDirs]
      rcases hc : flush_one cx.ops.zero i m with ⟨m1, o⟩
      rw [hc] at h1
      cases o <;> exact h1
  · have hU : dirRange UINT_MAX = some [0, 1] := rfl
    have h0 : dirRange 0 = some [0] := rfl
    have h1 : dirRange 1 = some [1] := rfl
    constructor
    · simp only [Close, hU, h0, h1, forDirs, andThen]
      rcases Close_one cx.ops.zero 0 m with ⟨m1, o⟩
      cases o <;> rfl
    · simp only [flush, hU, h0, h1, forDirs, andThen]
      rcases flush_one cx.ops.zero 0 m with ⟨m1, o⟩
      cases o <;> rfl

/-- Witness of C30: the fresh port, opened at 8000 Hz, is in a state between calls, with
both streams active and both states CONTINUE; while `Close(1)` waits, the state of the
output direction is COMPLETE; when `Close(1)` has returned it is CONTINUE again. -/
theorem C30_witness :
    (∀ j, StateOK ((setState 1 spa_complete
        (Open (srCx 0) ceil2_pow (paOf 0) 2 8000 freshSys).1).sp.sd j) ∧
      ((setState 1 spa_complete
        (Open (srCx 0) ceil2_pow (paOf 0) 2 8000 freshSys).1).sp.sd j).state ≠ spa_abort) ∧
    ((Open (srCx 0) ceil2_pow (paOf 0) 2 8000 freshSys).1.sp.sd0.state,
      (Open (srCx 0) ceil2_pow (paOf 0) 2 8000 freshSys).1.sp.sd1.state,
      (setState 1 spa_complete
        (Open (srCx 0) ceil2_pow (paOf 0) 2 8000 freshSys).1).sp.sd1.state,
      (Close (srCx 0).ops.zero 1
        (Open (srCx 0) ceil2_pow (paOf 0) 2 8000 freshSys).1).1.sp.sd1.state)
      = (spa_continue, spa_continue, spa_complete, spa_continue) :=
  ⟨(C30_stream_states (srCx 0) ceil2_pow (paOf 0)).1 true _
      (Reach.closing false _ 1
        (Reach.opened false _ 2 8000 (Reach.constructed 1 1 []))
        (stream_active_started _ (by decide!))),
   by decide!⟩

/-! ## Double arithmetic -/

theorem log2_from_spec (fuel n : Nat) (h0 : 0 < n) (hf : n ≤ fuel) :
    2 ^ log2_from fuel n ≤ n ∧ n < 2 ^ (log2_from fuel n + 1) := by
  induction fuel generalizing n with
  | zero => omega
  | succ fuel ih =>
    unfold log2_from
    by_cases h2 : 2 ≤ n
    · rw [if_pos h2]
      obtain ⟨a, b⟩ := ih (n / 2) (by omega) (by omega)
      constructor
      · rw [pow_succ]; omega
      · rw [pow_succ] at b ⊢; omega
    · rw [if_neg h2]; simp; omega

theorem ilog2_spec (n : Nat) (h0 : 0 < n) : 2 ^ ilog2 n ≤ n ∧ n < 2 ^ (ilog2 n + 1) :=
  log2_from_spec n n h0 (le_refl _)

theorem pow2_eq (k : Int) : pow2 k = (2 : ℚ) ^ k := by
  unfold pow2
  by_cases h : 0 ≤ k
  · rw [if_pos h]
    obtain ⟨n, rfl⟩ := Int.eq_ofNat_of_zero_le h
    simp
  · rw [if_neg h]
    obtain ⟨n, hn⟩ := Int.exists_eq_neg_ofNat (le_of_lt (not_le.mp h))
    subst hn
    simp

theorem pow2_pos (k : Int) : 0 < pow2 k := by
  rw [pow2_eq]; positivity


theorem ratio_bounds (a b la lb : ℕ) (hb : 0 < b) (a1 : 2 ^ la ≤ a) (a2 : a < 2 ^ (la + 1))
    (b1 : 2 ^ lb ≤ b) (b2 : b < 2 ^ (lb + 1)) :
    (2 : ℚ) ^ ((la : Int) - (lb : Int) - 1) ≤ (a : ℚ) / (b : ℚ) ∧
    (a : ℚ) / (b : ℚ) < (2 : ℚ) ^ ((la : Int) - (lb : Int) + 1) := by
  have hbq : (0 : ℚ) < (b : ℚ) := by exact_mod_cast hb
  have A1 : ((2 : ℚ) ^ la) ≤ (a : ℚ) := by exact_mod_cast a1
  have A2 : (a : ℚ) < (2 : ℚ) ^ (la + 1) := by exact_mod_cast a2
  have B1 : ((2 : ℚ) ^ lb) ≤ (b : ℚ) := by exact_mod_cast b1
  have B2 : (b : ℚ) < (2 : ℚ) ^ (lb + 1) := by exact_mod_cast b2
  constructor
  · have e : (2 : ℚ) ^ ((la : Int) - (lb : Int) - 1) = (2 : ℚ) ^ la / (2 : ℚ) ^ (lb + 1) := by
      rw [show ((la : Int) - (lb : Int) - 1) = ((la : ℕ) : Int) - ((lb + 1 : ℕ) : Int) by
        push_cast; ring]
      rw [zpow_sub₀ (by norm_num : (2 : ℚ) ≠ 0), zpow_natCast, zpow_natCast]
    rw [e, div_le_div_iff₀ (by positivity) hbq]
    calc (2 : ℚ) ^ la * (b : ℚ) ≤ (a : ℚ) * (b : ℚ) :=
          mul_le_mul_of_nonneg_right A1 (le_of_lt hbq)
      _ ≤ (a : ℚ) * (2 : ℚ) ^ (lb + 1) :=
          mul_le_mul_of_nonneg_left (le_of_lt B2) (by positivity)
  · have e : (2 : ℚ) ^ ((la : Int) - (lb : Int) + 1) = (2 : ℚ) ^ (la + 1) / (2 : ℚ) ^ lb := by
      rw [show ((la : Int) - (lb : Int) + 1) = ((la + 1 : ℕ) : Int) - ((lb : ℕ) : Int) by
        push_cast; ring]
      rw [zpow_sub₀ (by norm_num : (2 : ℚ) ≠ 0), zpow_natCast, zpow_natCast]
    rw [e, div_lt_div_iff₀ hbq (by positivity)]
    calc (a : ℚ) * (2 : ℚ) ^ lb ≤ (a : ℚ) * (b : ℚ) :=
          mul_le_mul_of_nonneg_left B1 (by positivity)
      _ < (2 : ℚ) ^ (la + 1) * (b : ℚ) := mul_lt_mul_of_pos_right A2 hbq

theorem floorLog2_spec (q : ℚ) (hq : 0 < q) :
    (2 : ℚ) ^ floorLog2 q ≤ q ∧ q < (2 : ℚ) ^ (floorLog2 q + 1) := by
  have hnum : 0 < q.num := Rat.num_pos.mpr hq
  have ha0 : 0 < q.num.natAbs := Int.natAbs_pos.mpr (ne_of_gt hnum)
  obtain ⟨a1, a2⟩ := ilog2_spec _ ha0
  obtain ⟨b1, b2⟩ := ilog2_spec _ q.den_pos
  have hqa : (q.num.natAbs : ℚ) / (q.den : ℚ) = q := by
    rw [Nat.cast_natAbs, abs_of_pos hnum]
    exact Rat.num_div_den q
  obtain ⟨hlo, hup⟩ := ratio_bounds _ _ _ _ q.den_pos a1 a2 b1 b2
  rw [hqa] at hlo hup
  unfold floorLog2
  simp only
  by_cases h : pow2 ((ilog2 q.num.natAbs : Int) - (ilog2 q.den : Int)) ≤ q
  · rw [if_pos h]
    rw [pow2_eq] at h
    exact ⟨h, hup⟩
  · rw [if_neg h]
    rw [pow2_eq] at h
    refine ⟨hlo, ?_⟩
    rw [sub_add_cancel]
    exact not_le.mp h

theorem floor_le_roundEven (q : ℚ) : ⌊q⌋ ≤ roundEven q := by
  unfold roundEven
  split_ifs <;> omega

theorem roundEven_le (q : ℚ) (j : ℤ) (h : q ≤ j) : roundEven q ≤ j := by
  have hf : ⌊q⌋ ≤ j := Int.cast_le.mp (le_trans (Int.floor_le q) h)
  unfold roundEven
  by_cases h1 : q - ⌊q⌋ < 1 / 2
  · rw [if_pos h1]; exact hf
  · have hlt : (⌊q⌋ : ℚ) < j := by
      have := not_lt.mp h1
      linarith
    have hlt2 : ⌊q⌋ < j := by exact_mod_cast hlt
    rw [if_neg h1]
    split_ifs <;> omega

theorem lt_roundEven (q : ℚ) (j : ℤ) (h : (j : ℚ) + 1 / 2 < q) : j + 1 ≤ roundEven q := by
  have hj : j ≤ ⌊q⌋ := Int.le_floor.mpr (by linarith)
  by_cases hjf : j + 1 ≤ ⌊q⌋
  · exact le_trans hjf (floor_le_roundEven q)
  · have he : ⌊q⌋ = j := by omega
    have h1 : ¬ (q - ⌊q⌋ < 1 / 2) := by rw [he]; linarith
    have h2 : 1 / 2 < q - ⌊q⌋ := by rw [he]; linarith
    unfold roundEven
    rw [if_neg h1, if_pos h2, he]

theorem roundEven_intCast (j : ℤ) : roundEven (j : ℚ) = j := by
  apply le_antisymm (roundEven_le _ _ (le_refl _))
  have := floor_le_roundEven (j : ℚ)
  rwa [Int.floor_intCast] at this

/-- The double nearest to a positive `x`, with the exponent spelled out. -/
theorem to_double_pos (x : ℚ) (hx : 0 < x) :
    to_double x = (roundEven (x / (2 : ℚ) ^ (floorLog2 x - 52)) : ℚ) * (2 : ℚ) ^ (floorLog2 x - 52) := by
  unfold to_double
  rw [if_neg (ne_of_gt hx), abs_of_pos hx, pow2_eq]

/-- An integer below `2 ^ 53` is a double. -/
theorem to_double_natCast (n : ℕ) (h : n < 2 ^ 53) : to_double (n : ℚ) = n := by
  rcases Nat.eq_zero_or_pos n with h0 | h0
  · subst h0; simp [to_double]
  have hx : (0 : ℚ) < (n : ℚ) := by exact_mod_cast h0
  obtain ⟨l1, l2⟩ := floorLog2_spec _ hx
  have hlt : (2 : ℚ) ^ floorLog2 (n : ℚ) < (2 : ℚ) ^ (53 : ℤ) := by
    have : (n : ℚ) < (2 : ℚ) ^ (53 : ℤ) := by
      have : (n : ℚ) < ((2 ^ 53 : ℕ) : ℚ) := by exact_mod_cast h
      rw [show (2 : ℚ) ^ (53 : ℤ) = ((2 ^ 53 : ℕ) : ℚ) by norm_num]
      exact this
    linarith
  have he : floorLog2 (n : ℚ) < 53 := (zpow_lt_zpow_iff_right₀ (by norm_num : (1 : ℚ) < 2)).mp hlt
  obtain ⟨k, hk⟩ : ∃ k : ℕ, floorLog2 (n : ℚ) - 52 = -(k : ℤ) :=
    ⟨(52 - floorLog2 (n : ℚ)).toNat, by omega⟩
  rw [to_double_pos _ hx, hk, zpow_neg, zpow_natCast]
  have : (n : ℚ) / ((2 : ℚ) ^ k)⁻¹ = ((n * 2 ^ k : ℕ) : ℤ) := by
    push_cast; field_simp
  rw [this, roundEven_intCast]
  push_cast
  field_simp

/-- The ceiling of a quotient of integers survives the rounding when the numerator is
below `2 ^ 53`. -/
theorem ceil_to_double_div (a : ℕ) (b : ℤ) (ha : a < 2 ^ 53) (hb : 0 < b) :
    ⌈to_double ((a : ℚ) / (b : ℚ))⌉ = ⌈(a : ℚ) / (b : ℚ)⌉ := by
  rcases Nat.eq_zero_or_pos a with h0 | h0
  · subst h0; simp [to_double]
  have hbq : (0 : ℚ) < (b : ℚ) := by exact_mod_cast hb
  have haq : (0 : ℚ) < (a : ℚ) := by exact_mod_cast h0
  have hx : (0 : ℚ) < (a : ℚ) / (b : ℚ) := div_pos haq hbq
  obtain ⟨l1, l2⟩ := floorLog2_spec _ hx
  have ha53 : (a : ℚ) < (2 : ℚ) ^ (53 : ℤ) := by
    have : (a : ℚ) < ((2 ^ 53 : ℕ) : ℚ) := by exact_mod_cast ha
    rw [show (2 : ℚ) ^ (53 : ℤ) = ((2 ^ 53 : ℕ) : ℚ) by norm_num]
    exact this
  have hxa : (a : ℚ) / (b : ℚ) ≤ (a : ℚ) := by
    have : (1 : ℚ) ≤ (b : ℚ) := by exact_mod_cast hb
    exact div_le_self (le_of_lt haq) this
  have hlt : (2 : ℚ) ^ floorLog2 ((a : ℚ) / (b : ℚ)) < (2 : ℚ) ^ (53 : ℤ) := by linarith
  have he : floorLog2 ((a : ℚ) / (b : ℚ)) < 53 :=
    (zpow_lt_zpow_iff_right₀ (by norm_num : (1 : ℚ) < 2)).mp hlt
  obtain ⟨k, hk⟩ : ∃ k : ℕ, floorLog2 ((a : ℚ) / (b : ℚ)) - 52 = -(k : ℤ) :=
    ⟨(52 - floorLog2 ((a : ℚ) / (b : ℚ))).toNat, by omega⟩
  have hP : (0 : ℚ) < (2 : ℚ) ^ k := by positivity
  -- 2 ^ 52 ≤ x * 2 ^ k
  have hk52 : (2 : ℚ) ^ (52 : ℤ) ≤ (a : ℚ) / (b : ℚ) * (2 : ℚ) ^ k := by
    have e : (2 : ℚ) ^ (52 : ℤ) = (2 : ℚ) ^ floorLog2 ((a : ℚ) / (b : ℚ)) * (2 : ℚ) ^ k := by
      rw [← zpow_natCast, ← zpow_add₀ (by norm_num : (2 : ℚ) ≠ 0)]
      congr 1; omega
    rw [e]
    exact mul_le_mul_of_nonneg_right l1 (le_of_lt hP)
  rw [to_double_pos _ hx, hk, zpow_neg, zpow_natCast, div_inv_eq_mul]
  rw [Int.ceil_eq_iff]
  set x := (a : ℚ) / (b : ℚ) with hxdef
  set c := ⌈x⌉ with hc
  have hc1 : (c : ℚ) - 1 < x := by
    have := Int.ceil_lt_add_one x
    linarith
  have hc2 : x ≤ (c : ℚ) := Int.le_ceil x
  constructor
  · -- lower
    have hgap : (1 : ℚ) / (b : ℚ) ≤ x - ((c : ℚ) - 1) := by
      have h1 : ((c - 1) * b : ℤ) < (a : ℤ) := by
        have : ((c : ℚ) - 1) * (b : ℚ) < (a : ℚ) := by
          rw [hxdef, lt_div_iff₀ hbq] at hc1; exact hc1
        exact_mod_cast this
      have h2 : ((c - 1) * b + 1 : ℤ) ≤ (a : ℤ) := by omega
      have h3 : ((c : ℚ) - 1) * (b : ℚ) + 1 ≤ (a : ℚ) := by exact_mod_cast h2
      rw [hxdef, div_le_iff₀ hbq, sub_mul, div_mul_cancel₀ _ (ne_of_gt hbq)]
      linarith
    have hj : (((c - 1) * 2 ^ k : ℤ) : ℚ) + 1 / 2 < x * (2 : ℚ) ^ k := by
      push_cast
      have h4 : (1 : ℚ) / 2 < (x - ((c : ℚ) - 1)) * (2 : ℚ) ^ k := by
        have h5 : (1 : ℚ) / (b : ℚ) * (2 : ℚ) ^ k ≤ (x - ((c : ℚ) - 1)) * (2 : ℚ) ^ k :=
          mul_le_mul_of_nonneg_right hgap (le_of_lt hP)
        have h6 : (1 : ℚ) / 2 < (1 : ℚ) / (b : ℚ) * (2 : ℚ) ^ k := by
          -- 2 ^ 52 ≤ a / b * 2 ^ k and a < 2 ^ 53
          have h7 : (2 : ℚ) ^ (52 : ℤ) * (b : ℚ) ≤ (a : ℚ) * (2 : ℚ) ^ k := by
            have := mul_le_mul_of_nonneg_right hk52 (le_of_lt hbq)
            rw [hxdef] at this
            have e2 : (a : ℚ) / (b : ℚ) * (2 : ℚ) ^ k * (b : ℚ) = (a : ℚ) * (2 : ℚ) ^ k := by
              field_simp
            rw [e2] at this
            exact this
          have h8 : (b : ℚ) < 2 * (2 : ℚ) ^ k := by
            have h9 : (a : ℚ) * (2 : ℚ) ^ k < (2 : ℚ) ^ (53 : ℤ) * (2 : ℚ) ^ k :=
              mul_lt_mul_of_pos_right ha53 hP
            have h10 : (2 : ℚ) ^ (53 : ℤ) = 2 * (2 : ℚ) ^ (52 : ℤ) := by norm_num
            have h11 : (0 : ℚ) < (2 : ℚ) ^ (52 : ℤ) := by positivity
            rw [h10] at h9
            have : (2 : ℚ) ^ (52 : ℤ) * (b : ℚ) < (2 : ℚ) ^ (52 : ℤ) * (2 * (2 : ℚ) ^ k) := by
              calc (2 : ℚ) ^ (52 : ℤ) * (b : ℚ) ≤ (a : ℚ) * (2 : ℚ) ^ k := h7
                _ < 2 * (2 : ℚ) ^ (52 : ℤ) * (2 : ℚ) ^ k := h9
                _ = (2 : ℚ) ^ (52 : ℤ) * (2 * (2 : ℚ) ^ k) := by ring
            exact lt_of_mul_lt_mul_left this (le_of_lt h11)
          rw [div_mul_eq_mul_div, one_mul, lt_div_iff₀ hbq]
          linarith
        linarith
      have : (x - ((c : ℚ) - 1)) * (2 : ℚ) ^ k = x * (2 : ℚ) ^ k - ((c : ℚ) - 1) * (2 : ℚ) ^ k := by
        ring
      linarith
    have hm := lt_roundEven _ _ hj
    have hm2 : (((c - 1) * 2 ^ k + 1 : ℤ) : ℚ) ≤ (roundEven (x * (2 : ℚ) ^ k) : ℚ) := by
      exact_mod_cast hm
    have hinv : (0 : ℚ) < ((2 : ℚ) ^ k)⁻¹ := inv_pos.mpr hP
    have := mul_le_mul_of_nonneg_right hm2 (le_of_lt hinv)
    push_cast at this
    have e3 : (((c : ℚ) - 1) * (2 : ℚ) ^ k + 1) * ((2 : ℚ) ^ k)⁻¹
        = (c : ℚ) - 1 + ((2 : ℚ) ^ k)⁻¹ := by field_simp
    rw [e3] at this
    linarith
  · -- upper
    have hj : x * (2 : ℚ) ^ k ≤ ((c * 2 ^ k : ℤ) : ℚ) := by
      push_cast
      exact mul_le_mul_of_nonneg_right hc2 (le_of_lt hP)
    have hm := roundEven_le _ _ hj
    have hm2 : (roundEven (x * (2 : ℚ) ^ k) : ℚ) ≤ ((c * 2 ^ k : ℤ) : ℚ) := by exact_mod_cast hm
    have hinv : (0 : ℚ) < ((2 : ℚ) ^ k)⁻¹ := inv_pos.mpr hP
    have := mul_le_mul_of_nonneg_right hm2 (le_of_lt hinv)
    push_cast at this
    have e3 : (c : ℚ) * (2 : ℚ) ^ k * ((2 : ℚ) ^ k)⁻¹ = (c : ℚ) := by field_simp
    rw [e3] at this
    exact this

/-! ## The null backend -/

theorem Null_Write_spec {D : Type} (m : NullSys D) (buf : Nat → D) (count : Nat) :
    (SoundNull.Write m buf count).2 = count ∧
    (SoundNull.Write m buf count).1.trace
      = m.trace ++ [Call.usleep (SoundNull.sleep_usec m.sp count)] ∧
    (SoundNull.Write m buf count).1.sp.sample_frequency = m.sp.sample_frequency := by
  unfold SoundNull.Write
  cases hg : m.sp.generate <;> simp [SoundNull.sleep_usec]

theorem Null_Write_stereo_spec {D : Type} (m : NullSys D) (l r : Nat → D) (count : Nat) :
    (SoundNull.Write_stereo m l r count).2 = count ∧
    (SoundNull.Write_stereo m l r count).1.trace
      = m.trace ++ [Call.usleep (SoundNull.sleep_usec m.sp count)] ∧
    (SoundNull.Write_stereo m l r count).1.sp.sample_frequency = m.sp.sample_frequency := by
  unfold SoundNull.Write_stereo
  cases hg : m.sp.generate <;> simp [SoundNull.sleep_usec]

theorem Null_Read_spec {D : Type} (mul : D → D → D) (dzero : D) (cfg : Settings D)
    (st : Status D) (m : NullSys D) (buf : Nat → D) (off count : Nat) :
    (SoundNull.Read mul dzero cfg st m buf off count).2.2 = count ∧
    (SoundNull.Read mul dzero cfg st m buf off count).1.trace
      = m.trace ++ [Call.usleep (SoundNull.sleep_usec m.sp count)] ∧
    (SoundNull.Read mul dzero cfg st m buf off count).1.sp.sample_frequency
      = m.sp.sample_frequency := by
  unfold SoundNull.Read
  cases hc : m.sp.capture <;> simp [SoundNull.sleep_usec]

/-- The ceiling of `a / b` for a positive `b`, in whole numbers. -/
theorem toNat_ceil_div (a : Nat) (b : Int) (hb : 0 < b) :
    (a : Int) ≤ (Int.toNat ⌈(a : ℚ) / (b : ℚ)⌉ : Int) * b ∧
    (Int.toNat ⌈(a : ℚ) / (b : ℚ)⌉ : Int) * b < (a : Int) + b := by
  have hbq : (0 : ℚ) < (b : ℚ) := by exact_mod_cast hb
  have hnn : (0 : ℚ) ≤ (a : ℚ) / (b : ℚ) := div_nonneg (Nat.cast_nonneg a) hbq.le
  have hc0 : 0 ≤ ⌈(a : ℚ) / (b : ℚ)⌉ := Int.ceil_nonneg hnn
  rw [Int.toNat_of_nonneg hc0]
  constructor
  · have h1 : (a : ℚ) / (b : ℚ) ≤ (⌈(a : ℚ) / (b : ℚ)⌉ : ℚ) := Int.le_ceil _
    have h2 : (a : ℚ) ≤ (⌈(a : ℚ) / (b : ℚ)⌉ : ℚ) * (b : ℚ) := by
      rw [div_le_iff₀ hbq] at h1
      exact h1
    exact_mod_cast h2
  · have h1 : (⌈(a : ℚ) / (b : ℚ)⌉ : ℚ) < (a : ℚ) / (b : ℚ) + 1 := Int.ceil_lt_add_one _
    have h2 : (⌈(a : ℚ) / (b : ℚ)⌉ : ℚ) * (b : ℚ) < (a : ℚ) + (b : ℚ) := by
      have := mul_lt_mul_of_pos_right h1 hbq
      rwa [add_mul, div_mul_cancel₀ _ hbq.ne', one_mul] at this
    exact_mod_cast h2

/-- The argument of `usleep` is always a `useconds_t`; for a positive rate, a product
`1000000 * count` below `2 ^ 53` and a ceiling within the 32 bits it is the exact
ceiling. -/
theorem Null_sleep_usec_exact {D : Type} (s : SoundNull D) (count : Nat) :
    SoundNull.sleep_usec s count < 4294967296 ∧
    (0 < s.sample_frequency → 1000000 * count < 2 ^ 53 →
      (1000000 * count : Int) ≤ 4294967295 * s.sample_frequency →
      SoundNull.sleep_usec s count
        = Int.toNat ⌈(1000000 * (count : ℚ)) / (s.sample_frequency : ℚ)⌉) := by
  constructor
  · unfold SoundNull.sleep_usec
    have h := Int.emod_lt_of_pos
      ⌈to_double (to_double (1000000 * to_double (count : ℚ)) / (s.sample_frequency : ℚ))⌉
      (by norm_num : (0 : Int) < 4294967296)
    have h0 := Int.emod_nonneg
      ⌈to_double (to_double (1000000 * to_double (count : ℚ)) / (s.sample_frequency : ℚ))⌉
      (by norm_num : (4294967296 : Int) ≠ 0)
    omega
  · intro hf h53 hr
    have hc : count < 2 ^ 53 := by omega
    have e1 : (1000000 : ℚ) * (count : ℚ) = ((1000000 * count : ℕ) : ℚ) := by push_cast; ring
    have hbq : (0 : ℚ) < (s.sample_frequency : ℚ) := by exact_mod_cast hf
    have hnn : (0 : ℚ) ≤ ((1000000 * count : ℕ) : ℚ) / (s.sample_frequency : ℚ) :=
      div_nonneg (Nat.cast_nonneg _) hbq.le
    have hc0 : 0 ≤ ⌈((1000000 * count : ℕ) : ℚ) / (s.sample_frequency : ℚ)⌉ :=
      Int.ceil_nonneg hnn
    have hc1 : ⌈((1000000 * count : ℕ) : ℚ) / (s.sample_frequency : ℚ)⌉ ≤ 4294967295 := by
      apply Int.ceil_le.mpr
      rw [div_le_iff₀ hbq]
      have : ((1000000 * count : ℕ) : ℤ) ≤ 4294967295 * s.sample_frequency := by
        push_cast; exact hr
      exact_mod_cast this
    unfold SoundNull.sleep_usec
    rw [to_double_natCast count hc, e1, to_double_natCast _ h53,
      ceil_to_double_div _ _ h53 hf, Int.emod_eq_of_lt hc0 (by omega)]

/-- Claim C22 (as amended).  After `SoundNull::Open(mode, freq)`, for every buffer and every
`count`, `SoundNull::Read`, `SoundNull::Write` and `SoundNull::Write_stereo` return `count`
and make exactly one call of `usleep`, with the argument
`(useconds_t)ceil((1e6 * count) / freq)`, which is below `2 ^ 32`; each of them leaves
`sample_frequency` as it is, so this holds for every later call as well.  For `freq > 0`,
`1000000 * count < 2 ^ 53` (the product is then an exact `double`) and a ceiling of at most
`UINT_MAX` the argument `u` is exactly the ceiling of `1000000 * count / freq`:
`1000000 * count <= u * freq < 1000000 * count + freq`. -/
theorem C22_null_paced {D : Type} (mul : D → D → D) (dzero : D) (cfg : Settings D)
    (st : Status D) (m : NullSys D) (mode freq : Int) (count : Nat) :
    (SoundNull.Open mode freq m).1.sp.sample_frequency = freq ∧
    (SoundNull.Open mode freq m).1.trace = m.trace ∧
    (∀ m1 : NullSys D, m1.sp.sample_frequency = freq →
      (∀ buf, (SoundNull.Write m1 buf count).2 = count ∧
        (SoundNull.Write m1 buf count).1.trace
          = m1.trace ++ [Call.usleep (SoundNull.sleep_usec m1.sp count)] ∧
        (SoundNull.Write m1 buf count).1.sp.sample_frequency = freq) ∧
      (∀ l r, (SoundNull.Write_stereo m1 l r count).2 = count ∧
        (SoundNull.Write_stereo m1 l r count).1.trace
          = m1.trace ++ [Call.usleep (SoundNull.sleep_usec m1.sp count)] ∧
        (SoundNull.Write_stereo m1 l r count).1.sp.sample_frequency = freq) ∧
      (∀ buf off, (SoundNull.Read mul dzero cfg st m1 buf off count).2.2 = count ∧
        (SoundNull.Read mul dzero cfg st m1 buf off count).1.trace
          = m1.trace ++ [Call.usleep (SoundNull.sleep_usec m1.sp count)] ∧
        (SoundNull.Read mul dzero cfg st m1 buf off count).1.sp.sample_frequency = freq) ∧
      SoundNull.sleep_usec m1.sp count < 4294967296 ∧
      (0 < freq → 1000000 * count < 2 ^ 53 → (1000000 * count : Int) ≤ UINT_MAX * freq →
        SoundNull.sleep_usec m1.sp count = Int.toNat ⌈(1000000 * (count : ℚ)) / (freq : ℚ)⌉ ∧
        (1000000 * count : Int) ≤ (SoundNull.sleep_usec m1.sp count : Int) * freq ∧
        (SoundNull.sleep_usec m1.sp count : Int) * freq < 1000000 * count + freq)) := by
  refine ⟨rfl, rfl, fun m1 hf => ⟨fun buf => ?_, fun l r => ?_, fun buf off => ?_, ?_,
    fun hpos h53 hr => ?_⟩⟩
  · have h := Null_Write_spec m1 buf count
    rw [hf] at h
    exact h
  · have h := Null_Write_stereo_spec m1 l r count
    rw [hf] at h
    exact h
  · have h := Null_Read_spec mul dzero cfg st m1 buf off count
    rw [hf] at h
    exact h
  · exact (Null_sleep_usec_exact m1.sp count).1
  · have he := (Null_sleep_usec_exact m1.sp count).2 (by rw [hf]; exact hpos) h53
      (by rw [hf]; simpa [UINT_MAX] using hr)
    rw [hf] at he
    have h := toNat_ceil_div (1000000 * count) freq hpos
    rw [he]
    exact ⟨rfl, by simpa using h⟩

/-- Witness of C22: after `Open` at 8000 Hz a `Write` of 8000 samples returns 8000 and
sleeps 1000000 microseconds; a `Read` of 3 samples sleeps 375 microseconds and a
`Write_stereo` of 1 sample 125. -/
theorem C22_witness :
    ((SoundNull.Write (SoundNull.Open 1 8000 ⟨plainNull, []⟩).1 (fun _ => 1) 8000).2,
      (SoundNull.Write (SoundNull.Open 1 8000 ⟨plainNull, []⟩).1 (fun _ => 1) 8000).1.trace)
      = (8000, [Call.usleep 1000000]) ∧
    ((SoundNull.Read (fun x y => x * y) 0 plainCfg ⟨1⟩
        (SoundNull.Open 0 8000 ⟨plainNull, []⟩).1 (fun _ => 1) 0 3).2.2,
      (SoundNull.Read (fun x y => x * y) 0 plainCfg ⟨1⟩
        (SoundNull.Open 0 8000 ⟨plainNull, []⟩).1 (fun _ => 1) 0 3).1.trace)
      = (3, [Call.usleep 375]) ∧
    ((SoundNull.Write_stereo (SoundNull.Open 1 8000 ⟨plainNull, []⟩).1 (fun _ => 1)
        (fun _ => 2) 1).2,
      (SoundNull.Write_stereo (SoundNull.Open 1 8000 ⟨plainNull, []⟩).1 (fun _ => 1)
        (fun _ => 2) 1).1.trace)
      = (1, [Call.usleep 125]) ∧
    SoundNull.sleep_usec (SoundNull.Open 1 8000 ⟨plainNull, []⟩).1.sp 8000
      = Int.toNat ⌈(1000000 * ((8000 : Nat) : ℚ)) / ((8000 : Int) : ℚ)⌉ :=
  ⟨by decide!, by decide!, by decide!,
   ((C22_null_paced (fun x y => x * y) (0 : Int) plainCfg ⟨1⟩ ⟨plainNull, []⟩ 1 8000 8000).2.2
      (SoundNull.Open 1 8000 ⟨plainNull, []⟩).1 rfl).2.2.2.2
      (by decide) (by decide) (by decide) |>.1⟩

/-- Counterexample to C22 as stated.  After `Open` at 8000 Hz a `Write` of 40000000 samples
returns 40000000 and calls `usleep(705032704)`: the ceiling 5000000000 does not fit the
32-bit `useconds_t`.  After `Open` at 5000001 Hz a `Write` of 10740002143 samples calls
`usleep(2147999999)`, one less than the ceiling 2148000000: the product `1e6 * count` is not
an exact `double`. -/
theorem C22_counterexample :
    ((SoundNull.Write (SoundNull.Open 1 8000 ⟨plainNull, []⟩).1 (fun _ => 1) 40000000).2,
      (SoundNull.Write (SoundNull.Open 1 8000 ⟨plainNull, []⟩).1 (fun _ => 1) 40000000).1.trace)
      = (40000000, [Call.usleep 705032704]) ∧
    Int.toNat ⌈(1000000 * ((40000000 : Nat) : ℚ)) / ((8000 : Int) : ℚ)⌉ = 5000000000 ∧
    ((SoundNull.Write (SoundNull.Open 1 5000001 ⟨plainNull, []⟩).1 (fun _ => 1) 10740002143).2,
      (SoundNull.Write (SoundNull.Open 1 5000001 ⟨plainNull, []⟩).1 (fun _ => 1)
        10740002143).1.trace)
      = (10740002143, [Call.usleep 2147999999]) ∧
    Int.toNat ⌈(1000000 * ((10740002143 : Nat) : ℚ)) / ((5000001 : Int) : ℚ)⌉ = 2148000000 := by
  decide!

/-! ## The ratios in double arithmetic -/

/-- Without rounding the functions are those of the exact embedding. -/
theorem fl_id_exact {F D R : Type} (cx : Cx F D R) (ceil2 : Nat → Nat) (mode : Nat)
    (data_in : List F) (count max : Nat) (s : SoundPort F D R) :
    src_data_reset_fl id cx ceil2 mode s = src_data_reset cx ceil2 mode s ∧
    resample_fl id cx mode data_in count max s = resample cx mode data_in count max s ∧
    rx_ratio_fl id s.req_sample_rate s.sd0.dev_sample_rate s.rxppm = rx_ratio_for s s.rxppm ∧
    tx_ratio_fl id s.sd1.dev_sample_rate s.req_sample_rate s.txppm = tx_ratio_for s s.txppm :=
  ⟨rfl, rfl, rfl, rfl⟩

theorem src_data_reset_rx_fl_spec {F D R : Type} (fl : ℚ → ℚ) (cx : Cx F D R)
    (ceil2 : Nat → Nat) (s : SoundPort F D R) :
    (src_data_reset_rx_fl fl cx ceil2 s).1.rxppm = s.rxppm ∧
    (src_data_reset_rx_fl fl cx ceil2 s).1.txppm = s.txppm ∧
    (src_data_reset_rx_fl fl cx ceil2 s).1.tx_ratio = s.tx_ratio ∧
    (src_data_reset_rx_fl fl cx ceil2 s).1.req_sample_rate = s.req_sample_rate ∧
    (src_data_reset_rx_fl fl cx ceil2 s).1.sd0.dev_sample_rate = s.sd0.dev_sample_rate ∧
    (src_data_reset_rx_fl fl cx ceil2 s).1.sd1 = s.sd1 ∧
    ((src_data_reset_rx_fl fl cx ceil2 s).2 = .ret () →
      (src_data_reset_rx_fl fl cx ceil2 s).1.rx_ratio
        = rx_ratio_fl fl s.req_sample_rate s.sd0.dev_sample_rate s.rxppm) := by
  unfold src_data_reset_rx_fl
  cases cx.src.src_new cx.cfg.sample_converter CHANNELS with
  | error err => exact ⟨rfl, rfl, rfl, rfl, rfl, rfl, fun h => by cases h⟩
  | ok st => exact ⟨rfl, rfl, rfl, rfl, rfl, rfl, fun _ => rfl⟩

theorem src_data_reset_tx_fl_spec {F D R : Type} (fl : ℚ → ℚ) (cx : Cx F D R)
    (ceil2 : Nat → Nat) (s : SoundPort F D R) :
    (src_data_reset_tx_fl fl cx ceil2 s).1.rxppm = s.rxppm ∧
    (src_data_reset_tx_fl fl cx ceil2 s).1.txppm = s.txppm ∧
    (src_data_reset_tx_fl fl cx ceil2 s).1.rx_ratio = s.rx_ratio ∧
    (src_data_reset_tx_fl fl cx ceil2 s).1.req_sample_rate = s.req_sample_rate ∧
    (src_data_reset_tx_fl fl cx ceil2 s).1.sd1.dev_sample_rate = s.sd1.dev_sample_rate ∧
    (src_data_reset_tx_fl fl cx ceil2 s).1.sd0 = s.sd0 ∧
    ((src_data_reset_tx_fl fl cx ceil2 s).2 = .ret () →
      (src_data_reset_tx_fl fl cx ceil2 s).1.tx_ratio
        = tx_ratio_fl fl s.sd1.dev_sample_rate s.req_sample_rate s.txppm) := by
  unfold src_data_reset_tx_fl
  cases cx.src.src_new cx.cfg.sample_converter CHANNELS with
  | error err => exact ⟨rfl, rfl, rfl, rfl, rfl, rfl, fun h => by cases h⟩
  | ok st => exact ⟨rfl, rfl, rfl, rfl, rfl, rfl, fun _ => rfl⟩

/-- The ratios `src_data_reset` leaves when it returns, in double arithmetic. -/
theorem src_data_reset_fl_ratios {F D R : Type} (fl : ℚ → ℚ) (cx : Cx F D R)
    (ceil2 : Nat → Nat) (mode : Nat) (s : SoundPort F D R)
    (h : (src_data_reset_fl fl cx ceil2 mode s).2 = .ret ()) :
    (src_data_reset_fl fl cx ceil2 mode s).1.rxppm = s.rxppm ∧
    (src_data_reset_fl fl cx ceil2 mode s).1.txppm = s.txppm ∧
    (src_data_reset_fl fl cx ceil2 mode s).1.req_sample_rate = s.req_sample_rate ∧
    (src_data_reset_fl fl cx ceil2 mode s).1.sd0.dev_sample_rate = s.sd0.dev_sample_rate ∧
    (src_data_reset_fl fl cx ceil2 mode s).1.sd1.dev_sample_rate = s.sd1.dev_sample_rate ∧
    (mode &&& (1 <<< O_RDONLY) ≠ 0 →
      (src_data_reset_fl fl cx ceil2 mode s).1.rx_ratio
        = rx_ratio_fl fl s.req_sample_rate s.sd0.dev_sample_rate s.rxppm) ∧
    (mode &&& (1 <<< O_WRONLY) ≠ 0 →
      (src_data_reset_fl fl cx ceil2 mode s).1.tx_ratio
        = tx_ratio_fl fl s.sd1.dev_sample_rate s.req_sample_rate s.txppm) := by
  unfold src_data_reset_fl at h ⊢
  by_cases hr : mode &&& (1 <<< O_RDONLY) ≠ 0
  · obtain ⟨a1, a2, a3, a4, a5, a6, a7⟩ := src_data_reset_rx_fl_spec fl cx ceil2 s
    rw [if_pos hr] at h ⊢
    rcases hx : src_data_reset_rx_fl fl cx ceil2 s with ⟨s1, o⟩
    rw [hx] at h a1 a2 a3 a4 a5 a6 a7
    simp only at a1 a2 a3 a4 a5 a6 a7
    cases o with
    | ret u =>
      simp only at h ⊢
      by_cases hw : mode &&& (1 <<< O_WRONLY) ≠ 0
      · obtain ⟨b1, b2, b3, b4, b5, b6, b7⟩ := src_data_reset_tx_fl_spec fl cx ceil2 s1
        rw [if_pos hw] at h ⊢
        refine ⟨b1.trans a1, b2.trans a2, b4.trans a4, by rw [b6]; exact a5, by rw [b5, a6],
          fun _ => b3.trans (a7 rfl), fun _ => ?_⟩
        rw [b7 h, a2, a4, a6]
      · rw [if_neg hw] at h ⊢
        exact ⟨a1, a2, a4, a5, by rw [a6], fun _ => a7 rfl, fun h0 => absurd h0 hw⟩
    | throw e => cases h
    | undefined => cases h
    | aborted => cases h
  · rw [if_neg hr] at h ⊢
    simp only at h ⊢
    by_cases hw : mode &&& (1 <<< O_WRONLY) ≠ 0
    · obtain ⟨b1, b2, b3, b4, b5, b6, b7⟩ := src_data_reset_tx_fl_spec fl cx ceil2 s
      rw [if_pos hw] at h ⊢
      exact ⟨b1, b2, b4, by rw [b6], b5, fun h0 => absurd h0 hr, fun _ => b7 h⟩
    · rw [if_neg hw]
      exact ⟨rfl, rfl, rfl, rfl, rfl, fun h0 => absurd h0 hr, fun h0 => absurd h0 hw⟩

theorem resample_retune_rx_fl_tuned {F D R : Type} (fl : ℚ → ℚ) (cx : Cx F D R)
    (s : SoundPort F D R) :
    (s.rxppm ≠ cx.cfg.RX_corr →
      (resample_retune_rx_fl fl cx s).rxppm = cx.cfg.RX_corr ∧
      (resample_retune_rx_fl fl cx s).rx_ratio
        = rx_ratio_fl fl s.req_sample_rate s.sd0.dev_sample_rate cx.cfg.RX_corr) ∧
    (s.rxppm = cx.cfg.RX_corr → resample_retune_rx_fl fl cx s = s) ∧
    (RatiosTuned_fl fl s → RatiosTuned_fl fl (resample_retune_rx_fl fl cx s)) := by
  unfold resample_retune_rx_fl
  by_cases h : s.rxppm ≠ cx.cfg.RX_corr
  · rw [if_pos h]
    refine ⟨fun _ => ⟨rfl, rfl⟩, fun h1 => absurd h1 h, fun ht => ⟨rfl, ?_⟩⟩
    exact ht.2
  · rw [if_neg h]
    exact ⟨fun h1 => absurd h1 h, fun _ => rfl, fun ht => ht⟩

theorem resample_retune_tx_fl_tuned {F D R : Type} (fl : ℚ → ℚ) (cx : Cx F D R)
    (s : SoundPort F D R) :
    (s.txppm ≠ cx.cfg.TX_corr →
      (resample_retune_tx_fl fl cx s).txppm = cx.cfg.TX_corr ∧
      (resample_retune_tx_fl fl cx s).tx_ratio
        = tx_ratio_fl fl s.sd1.dev_sample_rate s.req_sample_rate cx.cfg.TX_corr) ∧
    (s.txppm = cx.cfg.TX_corr → resample_retune_tx_fl fl cx s = s) ∧
    (RatiosTuned_fl fl s → RatiosTuned_fl fl (resample_retune_tx_fl fl cx s)) := by
  unfold resample_retune_tx_fl
  by_cases h : s.txppm ≠ cx.cfg.TX_corr
  · rw [if_pos h]
    refine ⟨fun _ => ⟨rfl, rfl⟩, fun h1 => absurd h1 h, fun ht => ⟨?_, rfl⟩⟩
    exact ht.1
  · rw [if_neg h]
    exact ⟨fun h1 => absurd h1 h, fun _ => rfl, fun ht => ht⟩

/-- What `resample` leaves of the ppm values and the ratios: those of the retune. -/
theorem resample_fl_ratios {F D R : Type} (fl : ℚ → ℚ) (cx : Cx F D R) (mode : Nat)
    (data_in : List F) (count max : Nat) (s : SoundPort F D R) :
    (mode &&& (1 <<< O_RDONLY) ≠ 0 →
      (resample_fl fl cx mode data_in count max s).1.rxppm
        = (resample_retune_rx_fl fl cx s).rxppm ∧
      (resample_fl fl cx mode data_in count max s).1.rx_ratio
        = (resample_retune_rx_fl fl cx s).rx_ratio) ∧
    (mode &&& (1 <<< O_RDONLY) = 0 → mode &&& (1 <<< O_WRONLY) ≠ 0 →
      (resample_fl fl cx mode data_in count max s).1.txppm
        = (resample_retune_tx_fl fl cx s).txppm ∧
      (resample_fl fl cx mode data_in count max s).1.tx_ratio
        = (resample_retune_tx_fl fl cx s).tx_ratio) ∧
    (RatiosTuned_fl fl s → RatiosTuned_fl fl (resample_fl fl cx mode data_in count max s).1) := by
  have hrx := (resample_retune_rx_fl_tuned fl cx s).2.2
  have htx := (resample_retune_tx_fl_tuned fl cx s).2.2
  unfold resample_fl
  by_cases h1 : mode &&& (1 <<< O_RDONLY) ≠ 0
  · rw [if_pos h1]
    dsimp only
    split
    · exact ⟨fun _ => ⟨rfl, rfl⟩, fun h0 => absurd h0 h1, hrx⟩
    · exact ⟨fun _ => ⟨rfl, rfl⟩, fun h0 => absurd h0 h1, hrx⟩
  · rw [if_neg h1]
    by_cases h3 : mode &&& (1 <<< O_WRONLY) ≠ 0
    · rw [if_pos h3]
      dsimp only
      split
      · exact ⟨fun h0 => absurd h0 h1, fun _ _ => ⟨rfl, rfl⟩, htx⟩
      · exact ⟨fun h0 => absurd h0 h1, fun _ _ => ⟨rfl, rfl⟩, htx⟩
    · rw [if_neg h3]
      exact ⟨fun h0 => absurd h0 h1, fun _ h0 => absurd h0 h3, fun ht => ht⟩

/-- With equal rates and ppm 0 both formulas give exactly 1 in double arithmetic. -/
theorem ratio_fl_one (r : ℚ) (h0 : r ≠ 0) (hr : to_double r = r) :
    rx_ratio_fl to_double r r 0 = 1 ∧ tx_ratio_fl to_double r r 0 = 1 := by
  have z : to_double 0 = 0 := by decide!
  have o : to_double 1 = 1 := by decide!
  unfold rx_ratio_fl tx_ratio_fl
  simp only [Int.cast_zero, zero_div, z, add_zero, o, mul_one, hr, div_self h0]
  exact ⟨trivial, trivial⟩

/-- Claim C19 (as amended).  For `SoundPort`, in double arithmetic (every operation of the
two formulas rounded to the nearest double).  When `src_data_reset(mode)` returns, the
capture ratio (for a `mode` that has the `O_RDONLY` bit) is the double that
`req_sample_rate / (dev_rate_in * (1.0 + rxppm / 1e6))` evaluates to and the playback ratio
(for a `mode` that has the `O_WRONLY` bit) the double that
`dev_rate_out * (1.0 + txppm / 1e6) / req_sample_rate` evaluates to, for the members
`rxppm` and `txppm`, which it leaves as they are.  A retune in `resample` sets `rxppm` (or
`txppm`) to the setting and the ratio to the value of the same expression for it.  So both
ratios are these values, for the ppm values applied last, after a reset of both
directions, and every `resample` keeps them so.  With equal rates (a double that is not 0)
and ppm 0 both ratios are exactly 1.  Without the rounding the functions are those of the
exact embedding, and the values are the rationals of the formulas. -/
theorem C19_ratio_formulas {F D R : Type} (cx : Cx F D R) (ceil2 : Nat → Nat)
    (s : SoundPort F D R) :
    (∀ mode, (src_data_reset_fl to_double cx ceil2 mode s).2 = .ret () →
      (src_data_reset_fl to_double cx ceil2 mode s).1.rxppm = s.rxppm ∧
      (src_data_reset_fl to_double cx ceil2 mode s).1.txppm = s.txppm ∧
      (mode &&& (1 <<< O_RDONLY) ≠ 0 →
        (src_data_reset_fl to_double cx ceil2 mode s).1.rx_ratio
          = to_double (s.req_sample_rate / to_double (s.sd0.dev_sample_rate *
              to_double (1 + to_double ((s.rxppm : ℚ) / 1000000))))) ∧
      (mode &&& (1 <<< O_WRONLY) ≠ 0 →
        (src_data_reset_fl to_double cx ceil2 mode s).1.tx_ratio
          = to_double (to_double (s.sd1.dev_sample_rate *
              to_double (1 + to_double ((s.txppm : ℚ) / 1000000))) / s.req_sample_rate))) ∧
    ((src_data_reset_fl to_double cx ceil2 (1 <<< O_RDONLY ||| 1 <<< O_WRONLY) s).2 = .ret () →
      RatiosTuned_fl to_double
        (src_data_reset_fl to_double cx ceil2 (1 <<< O_RDONLY ||| 1 <<< O_WRONLY) s).1) ∧
    (∀ data_in count max, s.rxppm ≠ cx.cfg.RX_corr →
      (resample_fl to_double cx (1 <<< O_RDONLY) data_in count max s).1.rxppm = cx.cfg.RX_corr ∧
      (resample_fl to_double cx (1 <<< O_RDONLY) data_in count max s).1.rx_ratio
        = to_double (s.req_sample_rate / to_double (s.sd0.dev_sample_rate *
            to_double (1 + to_double ((cx.cfg.RX_corr : ℚ) / 1000000))))) ∧
    (∀ data_in count max, s.txppm ≠ cx.cfg.TX_corr →
      (resample_fl to_double cx (1 <<< O_WRONLY) data_in count max s).1.txppm = cx.cfg.TX_corr ∧
      (resample_fl to_double cx (1 <<< O_WRONLY) data_in count max s).1.tx_ratio
        = to_double (to_double (s.sd1.dev_sample_rate *
            to_double (1 + to_double ((cx.cfg.TX_corr : ℚ) / 1000000))) / s.req_sample_rate)) ∧
    (∀ mode data_in count max, RatiosTuned_fl to_double s →
      RatiosTuned_fl to_double (resample_fl to_double cx mode data_in count max s).1) ∧
    (s.req_sample_rate ≠ 0 → to_double s.req_sample_rate = s.req_sample_rate →
      (s.req_sample_rate = s.sd0.dev_sample_rate →
        rx_ratio_fl to_double s.req_sample_rate s.sd0.dev_sample_rate 0 = 1) ∧
      (s.req_sample_rate = s.sd1.dev_sample_rate →
        tx_ratio_fl to_double s.sd1.dev_sample_rate s.req_sample_rate 0 = 1)) ∧
    (∀ mode data_in count max,
      src_data_reset_fl id cx ceil2 mode s = src_data_reset cx ceil2 mode s ∧
      resample_fl id cx mode data_in count max s = resample cx mode data_in count max s ∧
      rx_ratio_fl id s.req_sample_rate s.sd0.dev_sample_rate s.rxppm
        = s.req_sample_rate / (s.sd0.dev_sample_rate * (1 + (s.rxppm : ℚ) / 1000000)) ∧
      tx_ratio_fl id s.sd1.dev_sample_rate s.req_sample_rate s.txppm
        = s.sd1.dev_sample_rate * (1 + (s.txppm : ℚ) / 1000000) / s.req_sample_rate) := by
  refine ⟨fun mode h => ?_, fun h => ?_, fun data_in count max hchg => ?_,
    fun data_in count max hchg => ?_, fun mode data_in count max ht => ?_, fun hreq hd => ?_,
    fun mode data_in count max => ⟨rfl, rfl, rfl, rfl⟩⟩
  · obtain ⟨a1, a2, _, _, _, a6, a8⟩ := src_data_reset_fl_ratios to_double cx ceil2 mode s h
    exact ⟨a1, a2, a6, a8⟩
  · obtain ⟨a1, a2, a3, a4, a5, a6, a8⟩ := src_data_reset_fl_ratios to_double cx ceil2 _ s h
    refine ⟨?_, ?_⟩
    · rw [a6 (by decide), a1, a3, a4]
    · rw [a8 (by decide), a2, a3, a5]
  · obtain ⟨r1, _, _⟩ := resample_fl_ratios to_double cx (1 <<< O_RDONLY) data_in count max s
    obtain ⟨g1, g2⟩ := (resample_retune_rx_fl_tuned to_double cx s).1 hchg
    obtain ⟨e1, e2⟩ := r1 (by decide)
    exact ⟨e1.trans g1, e2.trans g2⟩
  · obtain ⟨_, r2, _⟩ := resample_fl_ratios to_double cx (1 <<< O_WRONLY) data_in count max s
    obtain ⟨g1, g2⟩ := (resample_retune_tx_fl_tuned to_double cx s).1 hchg
    obtain ⟨e1, e2⟩ := r2 (by decide) (by decide)
    exact ⟨e1.trans g1, e2.trans g2⟩
  · exact (resample_fl_ratios to_double cx mode data_in count max s).2.2 ht
  · refine ⟨fun h => ?_, fun h => ?_⟩
    · rw [← h]; exact (ratio_fl_one _ hreq hd).1
    · rw [← h]; exact (ratio_fl_one _ hreq hd).2

/-- Witness of C19: the reset of both directions on the port with the modem at 48000 Hz
on devices at 8000 Hz (`rxppm` and `txppm` 0) gives the capture ratio 6 and the playback
ratio `6004799503160661 / 2 ^ 55`, the double nearest to 1/6; on the plain port (8000 Hz
throughout) it gives 1 and 1. -/
theorem C19_witness :
    ((src_data_reset_fl to_double plainCx Nat.nextPowerOfTwo (1 <<< O_RDONLY ||| 1 <<< O_WRONLY)
        upPort).2,
      (src_data_reset_fl to_double plainCx Nat.nextPowerOfTwo (1 <<< O_RDONLY ||| 1 <<< O_WRONLY)
        upPort).1.rx_ratio,
      (src_data_reset_fl to_double plainCx Nat.nextPowerOfTwo (1 <<< O_RDONLY ||| 1 <<< O_WRONLY)
        upPort).1.tx_ratio)
      = (.ret (), 6, 6004799503160661 / 36028797018963968) ∧
    ((src_data_reset_fl to_double plainCx Nat.nextPowerOfTwo (1 <<< O_RDONLY ||| 1 <<< O_WRONLY)
        (plainPort emptyRing8 emptyRing8)).1.rx_ratio,
      (src_data_reset_fl to_double plainCx Nat.nextPowerOfTwo (1 <<< O_RDONLY ||| 1 <<< O_WRONLY)
        (plainPort emptyRing8 emptyRing8)).1.tx_ratio) = (1, 1) ∧
    RatiosTuned_fl to_double
      (src_data_reset_fl to_double plainCx Nat.nextPowerOfTwo (1 <<< O_RDONLY ||| 1 <<< O_WRONLY)
        upPort).1 :=
  ⟨by decide!, by decide!,
   (C19_ratio_formulas plainCx Nat.nextPowerOfTwo upPort).2.1 (by decide!)⟩

/-- Counterexample to C19 as stated: the modem at 48000 Hz on an input device at 8000 Hz,
the capture correction 50000 ppm.  The formula is the rational `48000 / (8000 * 1.05)`,
which is 40/7; the retune in `resample` sets the capture ratio to
`6433713753386423 / 2 ^ 50`, and so does `src_data_reset` when `rxppm` is 50000.  No double
is 40/7.  For the playback correction -20000 ppm the formula is `8000 * 0.98 / 48000`,
which is 49/300, and the retune sets the playback ratio to `735587939137181 / 2 ^ 52`. -/
theorem C19_counterexample :
    ((resample_fl to_double ppm2Cx (1 <<< O_RDONLY) [] 0 0 upPort).1.rxppm,
      (resample_fl to_double ppm2Cx (1 <<< O_RDONLY) [] 0 0 upPort).1.rx_ratio)
      = (50000, 6433713753386423 / 1125899906842624) ∧
    (src_data_reset_fl to_double plainCx Nat.nextPowerOfTwo (1 <<< O_RDONLY)
        { upPort with rxppm := 50000 }).1.rx_ratio = 6433713753386423 / 1125899906842624 ∧
    upPort.req_sample_rate / (upPort.sd0.dev_sample_rate * (1 + ((50000 : Int) : ℚ) / 1000000))
      = 40 / 7 ∧
    (6433713753386423 / 1125899906842624 : ℚ) ≠ 40 / 7 ∧
    to_double (40 / 7) ≠ 40 / 7 ∧
    ((resample_fl to_double ppm2Cx (1 <<< O_WRONLY) [] 0 0 upPort).1.txppm,
      (resample_fl to_double ppm2Cx (1 <<< O_WRONLY) [] 0 0 upPort).1.tx_ratio)
      = (-20000, 735587939137181 / 4503599627370496) ∧
    upPort.sd1.dev_sample_rate * (1 + ((-20000 : Int) : ℚ) / 1000000) / upPort.req_sample_rate
      = 49 / 300 := by
  decide!

/-- Claim C17 fails on the code for a `Read` that is split.  With capture on (the capture
file open) and playback off, every call that returns `n` has appended exactly `n` samples
to the capture file, the blocks of its internal reads in order, so that after any session
of calls that return a value the file has grown by the sum of the values returned, split
calls included; and a call that is not split appends the `n` samples it leaves at
`buf[0..n)`.  But the samples a split call appends are not the `n` samples it delivers
at `buf[0..n)`: the loop advances the mono array by `CHANNELS * maxframes` after each
internal read.  On the plain port with capture on, the ring of 8 floats (`maxframes` 4)
holding three frames and the callback delivering three more, `Read` of six frames into an
array filled with -7 returns 6, appends 10, 20, 30, 40, 50, 52 to the capture file, and
leaves 10, 20, 30, 40, -7, -7 at `buf[0..6)`. -/
theorem C17_split_capture_not_delivered {F D R : Type} (cx : Cx F D R) (fuel : Nat) :
    (∀ (m : Sys F D R) (f : SNDFILE D), m.sp.capture = true → m.sp.playback = false →
      m.sp.ofCapture = some f →
      (∀ buf off count r n, Read cx fuel m buf off count = some r → r.out = .ret n →
        ∃ ws : List (Nat × List D), r.buf = storeAll buf ws ∧
          (ws.map (fun w => w.2.length)).sum = n ∧
          r.m.sp.ofCapture = some { f with frames := f.frames ++ (ws.map Prod.snd).flatten } ∧
          ∃ f1, r.m.sp.ofCapture = some f1 ∧ f1.frames.length = f.frames.length + n) ∧
      (∀ buf off count r n rb, m.sp.sd0.rb = some rb →
        count ≤ Read_maxframes rb m.sp.rx_ratio →
        Read cx fuel m buf off count = some r → r.out = .ret n →
        r.m.sp.ofCapture = some { f with frames := f.frames ++ load r.buf off n }) ∧
      (∀ reqs m1 ns, ReadSession cx fuel m reqs = some (m1, ns) →
        ∃ f1, m1.sp.ofCapture = some f1 ∧ f1.frames.length = f.frames.length + ns.sum)) ∧
    (ReadSession plainCx 8 captureSys [(fun _ => -7, 0, 6)]).map
      (fun p => (p.2, p.1.sp.ofCapture.map (fun c => c.frames)))
      = some ([6], some [10, 20, 30, 40, 50, 52]) ∧
    (Read plainCx 8 captureSys (fun _ => -7) 0 6).map
      (fun r => (r.out, load r.buf 0 6, load r.buf 0 11,
        r.m.sp.ofCapture.map (fun c => c.frames)))
      = some (.ret 6, [10, 20, 30, 40, -7, -7], [10, 20, 30, 40, -7, -7, -7, -7, 50, 52, -7],
          some [10, 20, 30, 40, 50, 52]) := by
  refine ⟨fun m f hcap hplay hfile => ⟨fun buf off count r n hr hn => ?_,
    fun buf off count r n rb hrb hmax hr hn => ?_,
    fun reqs m1 ns hs => ReadSession_count cx fuel reqs m m1 ns f hcap hplay hfile hs⟩,
    by decide!, by decide!⟩
  · obtain ⟨_, ws, a1, a2, a3⟩ := Read_teed cx fuel m buf off count r n hcap hplay hr hn
    rw [hfile] at a2
    refine ⟨ws, a1, a3, a2, _, a2, ?_⟩
    simp only [List.length_append, List.length_flatten, List.map_map]
    have : (List.map (List.length ∘ Prod.snd) ws).sum = n := by
      rw [← a3]; rfl
    omega
  · cases fuel with
    | zero => simp [Read] at hr
    | succ fuel =>
      rw [Read_noplay_block cx fuel m buf off count rb hplay hrb hmax] at hr
      obtain ⟨_, b2, _⟩ := Read_block_tee cx m buf off count r hr
      obtain ⟨block, g1, g2, g3⟩ := b2 n hn
      rw [g3, hcap, hfile, g2, ← g1, load_store]
      rfl

/-! ## The round trip of a block that `Write` splits -/

end Sound
